import Mathlib

/-!
# wormhole::sysinfo::Netlink — a shallow embedding

The development follows `src/src/NetlinkSocket.cpp` and
`src/src/include/wormhole/sysinfo/NetlinkSocket.hpp`.

Conventions of the embedding

* A datagram buffer (`std::vector<char>`) is a `List Nat`; a byte is read as `b % 256`.
  Multi-byte fields are read in host order, little-endian (x86-64 / aarch64 Linux).
* A pointer into the buffer is an offset (`Nat`) from the start of the buffer.
  A read that is not inside the buffer is undefined in C++; the embedding makes it the
  explicit outcome `Failure.undefined`.
* `outcome::std_result<T>` is `Except Failure T`; the two error domains of the source
  are `Failure.os` (`errno_errc`) and `Failure.socket` (`SocketError`).  The remaining
  constructors of `Failure` are outcomes in which the C++ call does not return a value
  at all (undefined behaviour, an uncaught exception, a blocked `recvmsg`, a loop that
  does not end).
* `std::uint32_t` and `std::size_t` are `Nat` with explicit `% 2^32` and `% 2^64`.
* The operating system is an explicit input: the result of `sendmsg` is an argument of
  `send_request`, the results of successive `recvmsg` pairs are a list of `RecvEvent`.
-/

namespace Netlink

/-! ## Constants of the Linux user-space API (`linux/netlink.h`, `linux/rtnetlink.h`,
`linux/if_addr.h`, `linux/if_link.h`, `sys/socket.h`) -/

@[simp] abbrev AF_UNSPEC : Nat := 0
@[simp] abbrev AF_INET : Nat := 2
@[simp] abbrev AF_INET6 : Nat := 10

@[simp] abbrev NLMSG_NOOP : Nat := 1
@[simp] abbrev NLMSG_ERROR : Nat := 2
@[simp] abbrev NLMSG_DONE : Nat := 3

@[simp] abbrev RTM_NEWLINK : Nat := 16
@[simp] abbrev RTM_DELLINK : Nat := 17
@[simp] abbrev RTM_GETLINK : Nat := 18
@[simp] abbrev RTM_NEWADDR : Nat := 20
@[simp] abbrev RTM_DELADDR : Nat := 21
@[simp] abbrev RTM_GETADDR : Nat := 22
@[simp] abbrev RTM_NEWROUTE : Nat := 24
@[simp] abbrev RTM_DELROUTE : Nat := 25
@[simp] abbrev RTM_GETROUTE : Nat := 26

@[simp] abbrev NLM_F_REQUEST : Nat := 0x01
@[simp] abbrev NLM_F_DUMP_INTR : Nat := 0x10
/-- The flag `NLM_F_DUMP` is `NLM_F_ROOT | NLM_F_MATCH`. -/
@[simp] abbrev NLM_F_DUMP : Nat := 0x100 ||| 0x200

@[simp] abbrev RT_TABLE_MAIN : Nat := 254
@[simp] abbrev RT_TABLE_LOCAL : Nat := 255

@[simp] abbrev RT_SCOPE_UNIVERSE : Nat := 0
@[simp] abbrev RT_SCOPE_SITE : Nat := 200
@[simp] abbrev RT_SCOPE_LINK : Nat := 253
@[simp] abbrev RT_SCOPE_HOST : Nat := 254
@[simp] abbrev RT_SCOPE_NOWHERE : Nat := 255

@[simp] abbrev RTA_DST : Nat := 1
@[simp] abbrev RTA_SRC : Nat := 2
@[simp] abbrev RTA_OIF : Nat := 4
@[simp] abbrev RTA_GATEWAY : Nat := 5
@[simp] abbrev RTA_TABLE : Nat := 15
/-- The value of `RTA_MAX` grows with the kernel headers (30 since Linux 5.3); the decoder
only looks up entries up to `RTA_TABLE`. -/
@[simp] abbrev RTA_MAX : Nat := 30

@[simp] abbrev IFA_ADDRESS : Nat := 1
@[simp] abbrev IFA_LOCAL : Nat := 2
@[simp] abbrev IFA_BROADCAST : Nat := 4
/-- The value of `IFA_MAX` grows with the kernel headers (11 since Linux 5.18); the decoder
only looks up entries up to `IFA_BROADCAST`. -/
@[simp] abbrev IFA_MAX : Nat := 11

@[simp] abbrev IFLA_IFNAME : Nat := 3
/-- The value of `IFLA_MAX` grows with the kernel headers; the decoder only looks up
`IFLA_IFNAME`. -/
@[simp] abbrev IFLA_MAX : Nat := 64

/-- The errno value `EAGAIN` (`EWOULDBLOCK`). -/
@[simp] abbrev EAGAIN : Nat := 11

/-- Size of `struct nlmsghdr`. -/
@[simp] abbrev sizeof_nlmsghdr : Nat := 16
/-- Size of `struct rtattr`. -/
@[simp] abbrev sizeof_rtattr : Nat := 4
/-- Size of `struct rtmsg`. -/
@[simp] abbrev sizeof_rtmsg : Nat := 12
/-- Size of `struct ifaddrmsg`. -/
@[simp] abbrev sizeof_ifaddrmsg : Nat := 8
/-- Size of `struct ifinfomsg`. -/
@[simp] abbrev sizeof_ifinfomsg : Nat := 16

/-! ## Error domains -/

/-- The enumeration `SocketError` of `NetlinkSocketError.hpp`. -/
inductive SocketError
  | None
  | Busy
  | Interrupted
  | Error
  | WrongMessageLength
  | InvalidFamily
  | NotMainTable
  | Noop
  | NoActiveRequest
  | MessageIdMismatch
  | MessageTypeMismatch
  | UnhandledMessageType
  deriving DecidableEq, Repr

/-- Why a call did not produce a value.  `os` and `socket` are the two error domains a
`std_result` can carry; with the other constructors the C++ call does not return. -/
inductive Failure
  /-- An `errno_errc`: the errno of a failed system call. -/
  | os (errno : Nat)
  /-- A `SocketError`. -/
  | socket (e : SocketError)
  /-- Undefined behaviour: a read outside the datagram buffer, or a null `char const*`
  assigned to a `std::string`. -/
  | undefined
  /-- An uncaught C++ exception (`std::out_of_range` of the boost network constructors). -/
  | thrown
  /-- The call is blocked in `recvmsg`: mode `Wait` and no datagram is queued. -/
  | blocked
  /-- The message walk does not end (it ran out of the fuel of the embedding). -/
  | diverges
  deriving DecidableEq, Repr

deriving instance DecidableEq for Except

/-- A `Failure` that the C++ call returns to its caller as the error of a `std_result`. -/
def Failure.isReturned : Failure → Bool
  | .os _ => true
  | .socket _ => true
  | _ => false

/-! ## Reading the datagram buffer -/

/-- Read one byte of the buffer. -/
def rd8 (buf : List Nat) (off : Nat) : Except Failure Nat :=
  match buf.get? off with
  | some b => .ok (b % 256)
  | none => .error .undefined

/-- Read a little-endian `__u16`. -/
def rd16 (buf : List Nat) (off : Nat) : Except Failure Nat := do
  let b0 ← rd8 buf off
  let b1 ← rd8 buf (off + 1)
  pure (b0 + 256 * b1)

/-- Read a little-endian `__u32`. -/
def rd32 (buf : List Nat) (off : Nat) : Except Failure Nat := do
  let lo ← rd16 buf off
  let hi ← rd16 buf (off + 2)
  pure (lo + 65536 * hi)

/-- Read `n` consecutive bytes (`memcpy` out of the buffer). -/
def rdBytes (buf : List Nat) (off : Nat) : Nat → Except Failure (List Nat)
  | 0 => pure []
  | n + 1 => do
    let b ← rd8 buf off
    let rest ← rdBytes buf (off + 1) n
    pure (b :: rest)

/-- Read a NUL-terminated C string that starts at `off` (`std::string::operator=(char const*)`):
the bytes before the first NUL; undefined when the buffer ends before a NUL. -/
def rdCStr (buf : List Nat) (off : Nat) : Except Failure (List Nat) :=
  let tail := (buf.drop off).map (· % 256)
  let s := tail.takeWhile (· ≠ 0)
  if s.length < tail.length then .ok s else .error .undefined

/-- Little-endian bytes of a `__u16`. -/
def le16 (v : Nat) : List Nat := [v % 256, v / 256 % 256]

/-- Little-endian bytes of a `__u32`. -/
def le32 (v : Nat) : List Nat := le16 (v % 65536) ++ le16 (v / 65536 % 65536)

/-! ## Domain entities (`types.hpp`) -/

inductive Action
  | Unknown
  | New
  | Del
  deriving DecidableEq, Repr

inductive Scope
  | Unknown
  | Universe
  | Site
  | Link
  | Host
  | Nowhere
  deriving DecidableEq, Repr

/-- The class `boost::asio::ip::address`: an IPv4 or an IPv6 address, as its bytes in
network order. -/
inductive IpAddress
  | v4 (bytes : List Nat)
  | v6 (bytes : List Nat)
  deriving DecidableEq, Repr

/-- The default-constructed `boost::asio::ip::address` is the IPv4 address 0.0.0.0. -/
def IpAddress.default : IpAddress := .v4 [0, 0, 0, 0]

/-- The struct `Address`.  (`netmask` has no default initialiser in the source; every
decoded `Address` has it assigned.) -/
structure Address where
  action : Action := .New
  address : IpAddress := IpAddress.default
  netmask : Nat
  broadcast : IpAddress := IpAddress.default
  local_ : IpAddress := IpAddress.default
  scope : Scope := .Nowhere
  deriving DecidableEq, Repr

/-- The struct `Interface`; a `std::string` is the list of its bytes. -/
structure Interface where
  action : Action := .New
  name : List Nat := []
  deriving DecidableEq, Repr

/-- The enumeration `Route::Table`. -/
inductive Table
  | Default
  | Main
  | Local
  deriving DecidableEq, Repr

/-- The struct `Route::Destination`: `std::variant<Default_t, network_v4, network_v6>`. -/
inductive Destination
  | Default_t
  | network_v4 (addr : List Nat) (dst_len : Nat)
  | network_v6 (addr : List Nat) (dst_len : Nat)
  deriving DecidableEq, Repr

def Destination.IsDefaultRoute : Destination → Bool
  | .Default_t => true
  | _ => false

structure Route where
  action : Action := .New
  table : Table := .Default
  destination : Destination := .Default_t
  gateway : IpAddress := IpAddress.default
  interfaceName : List Nat := []
  source : IpAddress := IpAddress.default
  deriving DecidableEq, Repr

/-! ## Typed request/response model (`NetlinkSocket.hpp`) -/

/-- The struct `Message::Id`. -/
structure Id where
  seq : Nat
  pid : Nat
  deriving DecidableEq, Repr

/-- The struct `Message::Response<T>` with `T = std::vector<α>`. -/
structure Response (α : Type) where
  id : Id
  data : List α
  deriving DecidableEq, Repr

/-- The struct `nlmsghdr`. -/
structure nlmsghdr where
  nlmsg_len : Nat
  nlmsg_type : Nat
  nlmsg_flags : Nat
  nlmsg_seq : Nat
  nlmsg_pid : Nat
  deriving DecidableEq, Repr

/-- The struct `Message::Request<DATA, RT_TYPE, RESPONSE>` with
`RESPONSE = std::vector<α>`; `data` holds the bytes of the `DATA` body. -/
structure Request (α : Type) where
  nlh : nlmsghdr
  data : List Nat
  response : List α
  deriving DecidableEq, Repr

/-- The constructor of `Request`: `sizeofData = sizeof(DATA)`, `rtType = RT_TYPE`.
`NLMSG_LENGTH(len)` is `len + NLMSG_HDRLEN`; `setFamily` stores `family` (an `int`) in
the first byte of the zero-initialised body (an `unsigned char` in all three bodies). -/
def Request.new {α : Type} (sizeofData rtType : Nat) (family : Int) (flags seq pid : Nat) :
    Request α :=
  { nlh := { nlmsg_len := sizeofData + sizeof_nlmsghdr, nlmsg_type := rtType,
             nlmsg_flags := flags, nlmsg_seq := seq, nlmsg_pid := pid }
    data := ((List.replicate sizeofData 0).set 0 (family % 256).toNat)
    response := [] }

def Request.GetId {α : Type} (r : Request α) : Id :=
  { seq := r.nlh.nlmsg_seq, pid := r.nlh.nlmsg_pid }

def Request.AddItem {α : Type} (r : Request α) (val : α) : Request α :=
  { r with response := r.response ++ [val] }

def Request.GetResponse {α : Type} (r : Request α) : Response α :=
  { id := r.GetId, data := r.response }

/-- The two `iovec`s of `GetIov`, as the bytes they cover: the header, then the body. -/
def Request.GetIov {α : Type} (r : Request α) : List Nat :=
  le32 r.nlh.nlmsg_len ++ le16 r.nlh.nlmsg_type ++ le16 r.nlh.nlmsg_flags
    ++ le32 r.nlh.nlmsg_seq ++ le32 r.nlh.nlmsg_pid ++ r.data

/-- The request kinds: the template argument of `send_request`, `receive` and
`addResponse`. -/
inductive Kind
  | LinkRequest
  | RouteRequest
  | AddressRequest
  deriving DecidableEq, Repr

/-- The member `Message::m_request`:
`std::variant<std::monostate, LinkRequest, RouteRequest, AddressRequest>`. -/
inductive RequestVariant
  | monostate
  | LinkRequest (r : Request Interface)
  | RouteRequest (r : Request Route)
  | AddressRequest (r : Request Address)
  deriving DecidableEq, Repr

/-- The class `Message`.  Its members `m_addr`, `m_iov` and `m_header` only point at the
request; the embedding keeps the request. -/
structure Message where
  m_request : RequestVariant
  deriving DecidableEq, Repr

/-- The constructor `Message(std::in_place_type_t<TYPE>, family, flags, seq, pid)`. -/
def Message.new (kind : Kind) (family : Int) (flags seq pid : Nat) : Message :=
  match kind with
  | .LinkRequest =>
    { m_request := .LinkRequest (Request.new sizeof_ifinfomsg RTM_GETLINK family flags seq pid) }
  | .RouteRequest =>
    { m_request := .RouteRequest (Request.new sizeof_rtmsg RTM_GETROUTE family flags seq pid) }
  | .AddressRequest =>
    { m_request := .AddressRequest (Request.new sizeof_ifaddrmsg RTM_GETADDR family flags seq pid) }

def Message.GetId (m : Message) : Id :=
  match m.m_request with
  | .monostate => { seq := 0, pid := 0 }
  | .LinkRequest r => r.GetId
  | .RouteRequest r => r.GetId
  | .AddressRequest r => r.GetId

/-- The datagram that `sendmsg(m_socket, GetHeader(), 0)` transmits: the bytes under
`m_iov`. -/
def Message.GetHeader (m : Message) : List Nat :=
  match m.m_request with
  | .monostate => []
  | .LinkRequest r => r.GetIov
  | .RouteRequest r => r.GetIov
  | .AddressRequest r => r.GetIov

/-- The type `Message::ResponseTypes`: `std::variant<AddressRequest::Response_t,
LinkRequest::Response_t, RouteRequest::Response_t, Address, Interface, Route>`. -/
inductive ResponseTypes
  | AddressResponse (r : Response Address)
  | LinkResponse (r : Response Interface)
  | RouteResponse (r : Response Route)
  | Address (a : Address)
  | Interface (i : Interface)
  | Route (r : Route)
  deriving DecidableEq, Repr

def Message.GetResponse (m : Message) : Except Failure ResponseTypes :=
  match m.m_request with
  | .monostate => .error (.socket .MessageTypeMismatch)
  | .LinkRequest r => .ok (.LinkResponse r.GetResponse)
  | .RouteRequest r => .ok (.RouteResponse r.GetResponse)
  | .AddressRequest r => .ok (.AddressResponse r.GetResponse)

/-- The member template `Message::AddResponse<REQ, RES>` at `REQ = RouteRequest`
(`AddItem` takes the element type of the request, so `RES` is `Route`):
`std::get_if<RouteRequest>(&m_request)`. -/
def Message.AddResponseRoute (m : Message) (v : Route) : Except Failure Unit × Message :=
  match m.m_request with
  | .RouteRequest r => (.ok (), { m_request := .RouteRequest (r.AddItem v) })
  | _ => (.error (.socket .MessageTypeMismatch), m)

/-- The member template `Message::AddResponse<REQ, RES>` at `REQ = AddressRequest`. -/
def Message.AddResponseAddress (m : Message) (v : Address) : Except Failure Unit × Message :=
  match m.m_request with
  | .AddressRequest r => (.ok (), { m_request := .AddressRequest (r.AddItem v) })
  | _ => (.error (.socket .MessageTypeMismatch), m)

/-- The member template `Message::AddResponse<REQ, RES>` at `REQ = LinkRequest`. -/
def Message.AddResponseInterface (m : Message) (v : Interface) :
    Except Failure Unit × Message :=
  match m.m_request with
  | .LinkRequest r => (.ok (), { m_request := .LinkRequest (r.AddItem v) })
  | _ => (.error (.socket .MessageTypeMismatch), m)

/-! ## Socket core -/

/-- The class `Socket`. -/
structure Socket where
  m_pid : Nat
  m_socket : Int
  m_seqNum : Nat := 0
  m_activeRequest : Option Message := none
  deriving DecidableEq, Repr

/-- The private constructor `Socket(t_socket, t_pid)`. -/
def Socket.new (t_socket : Int) (t_pid : Nat) : Socket :=
  { m_pid := t_pid, m_socket := t_socket }

/-- The alternatives of `Socket::Groups`. -/
inductive Groups
  | GroupLink
  | GroupIpV4Route
  | GroupIpV6Route
  | GroupIpV4Address
  | GroupIpV6Address
  deriving DecidableEq, Repr

/-- The constant of a group: `RTMGRP_LINK`, `RTMGRP_IPV4_ROUTE`, `RTMGRP_IPV6_ROUTE`,
`RTMGRP_IPV4_IFADDR`, `RTMGRP_IPV6_IFADDR`. -/
def Groups.value : Groups → Nat
  | .GroupLink => 0x1
  | .GroupIpV4Route => 0x40
  | .GroupIpV6Route => 0x400
  | .GroupIpV4Address => 0x10
  | .GroupIpV6Address => 0x100

/-- What `Socket::open` asks of the operating system: the address it binds to (`nl_pid`,
`nl_groups`) and the descriptors it closes. -/
structure OpenTrace where
  bound : List (Nat × Nat)
  closed : List Int
  deriving DecidableEq, Repr

/-- The static `Socket::open(groups)`.  The operating system is an input: `nl_sock` is the
result of `socket()` and `errnoSocket` the errno when it is negative, `getpid` the result
of `getpid()`, `bindErr` the errno of `bind` when it fails. -/
def Socket.open_ (groups : List Groups) (nl_sock : Int) (errnoSocket : Nat) (getpid : Int)
    (bindErr : Option Nat) : Except Failure Socket × OpenTrace :=
  if nl_sock < 0 then (.error (.os errnoSocket), { bound := [], closed := [] })
  else
    let nlGroups := groups.foldl (fun g gs => g ||| gs.value) 0
    let pid := (getpid % 2 ^ 32).toNat
    match bindErr with
    | some err => (.error (.os err), { bound := [(pid, nlGroups)], closed := [nl_sock] })
    | none => (.ok (Socket.new nl_sock pid), { bound := [(pid, nlGroups)], closed := [] })

/-- The result of a socket operation: the `std_result`, the socket afterwards. -/
abbrev Step (α : Type) := Except Failure α × Socket

/-- The private `Socket::send`.  `sendErr` is the outcome of `sendmsg`: `none` when the
datagram was sent, `some errno` when the call failed.  The third component lists the
datagrams handed to `sendmsg`. -/
def Socket.send (sk : Socket) (msgPtr : Message) (sendErr : Option Nat) :
    Step Id × List (List Nat) :=
  let sk1 := { sk with m_activeRequest := some msgPtr }
  let currentId := msgPtr.GetId
  match sendErr with
  | some errno => ((.error (.os errno), sk1), [msgPtr.GetHeader])
  | none => ((.ok currentId, sk1), [msgPtr.GetHeader])

/-- The member template `Socket::send_request<Request>(family)`. -/
def Socket.send_request (kind : Kind) (family : Int) (sendErr : Option Nat) (sk : Socket) :
    Step Id × List (List Nat) :=
  if sk.m_activeRequest.isSome then
    ((.error (.socket .Busy), sk), [])
  else
    let seqNum := (sk.m_seqNum + 1) % 2 ^ 32
    let sk1 := { sk with m_seqNum := seqNum }
    let msgPtr := Message.new kind family (NLM_F_DUMP ||| NLM_F_REQUEST) seqNum sk1.m_pid
    sk1.send msgPtr sendErr

/-! ## Attribute table parser -/

/-- The macros `NLMSG_ALIGN(len)` and `RTA_ALIGN(len)`: `((len) + 4U - 1) & ~(4U - 1)`,
in `unsigned int` arithmetic. -/
def NLMSG_ALIGN (len : Nat) : Nat := (len + 3) % 2 ^ 32 / 4 * 4

/-- The macro `NLMSG_SPACE(len)` is `NLMSG_ALIGN(NLMSG_LENGTH(len))`. -/
def NLMSG_SPACE (len : Nat) : Nat := NLMSG_ALIGN (len + sizeof_nlmsghdr)

/-- The macro `NLMSG_PAYLOAD(nlh, len)`: `nlh->nlmsg_len - NLMSG_SPACE(len)`, computed in
`std::size_t` because `NLMSG_SPACE(sizeof ...)` is a `std::size_t`. -/
def NLMSG_PAYLOAD (nlmsg_len len : Nat) : Nat := (nlmsg_len + 2 ^ 64 - NLMSG_SPACE len) % 2 ^ 64

/-- The type `Socket::AttrTable<MAX>`: `std::array<struct rtattr*, MAX + 1>`; a null
pointer is `none`. -/
abbrev AttrTable := List (Option Nat)

/-- What one pass through the `while` loop of `parse_rtattr` does. -/
inductive AttrStep
  /-- The condition `RTA_OK` failed (or a read was outside the buffer). -/
  | leave (r : Except Failure AttrTable)
  /-- The body ran and `RTA_NEXT` was applied. -/
  | next (rta len : Nat) (tb : AttrTable)
  deriving DecidableEq, Repr

/-- One pass through the loop of `Socket::parse_rtattr<MAX>`; `rta` is the offset of the
attribute header, `len` the `std::size_t` count of remaining bytes.  `RTA_OK(rta, len)` is
`len >= sizeof(rtattr) && rta->rta_len >= sizeof(rtattr) && rta->rta_len <= len`;
`RTA_NEXT` subtracts `RTA_ALIGN(rta->rta_len)` from `len` and advances `rta` by it. -/
def parse_rtattr_body (MAX : Nat) (buf : List Nat) (rta len : Nat) (tb : AttrTable) :
    AttrStep :=
  if len < sizeof_rtattr then .leave (.ok tb)
  else
    match rd16 buf rta with
    | .error e => .leave (.error e)
    | .ok rta_len =>
      if rta_len < sizeof_rtattr ∨ len < rta_len then .leave (.ok tb)
      else
        match rd16 buf (rta + 2) with
        | .error e => .leave (.error e)
        | .ok rta_type =>
          .next (rta + NLMSG_ALIGN rta_len) ((len + 2 ^ 64 - NLMSG_ALIGN rta_len) % 2 ^ 64)
            (if rta_type < MAX + 1 then tb.set rta_type (some rta) else tb)

/-- The loop of `Socket::parse_rtattr<MAX>`; the first argument bounds the number of
passes. -/
def parse_rtattr_loop (MAX : Nat) (buf : List Nat) :
    Nat → Nat → Nat → AttrTable → Except Failure AttrTable
  | 0, _, _, _ => .error .diverges
  | fuel + 1, rta, len, tb =>
    match parse_rtattr_body MAX buf rta len tb with
    | .leave r => r
    | .next rta1 len1 tb1 => parse_rtattr_loop MAX buf fuel rta1 len1 tb1

/-- The member template `Socket::parse_rtattr<MAX>(rta, len)`. -/
def parse_rtattr (MAX : Nat) (buf : List Nat) (rta len : Nat) : Except Failure AttrTable :=
  parse_rtattr_loop MAX buf (buf.length + 1) rta len (List.replicate (MAX + 1) none)

/-- The expression `tb[i]` on an `AttrTable`. -/
def AttrTable.at (tb : AttrTable) (i : Nat) : Option Nat := (tb.get? i).join

/-- The macro `RTA_DATA(rta)`: the payload starts `RTA_LENGTH(0) = 4` bytes after the
header. -/
def RTA_DATA (rta : Nat) : Nat := rta + sizeof_rtattr

/-- The member template `Socket::rtm_get_table<MAX>(r, tb)`. -/
def rtm_get_table (buf : List Nat) (r : Nat) (tb : AttrTable) : Except Failure Nat := do
  let table ← rd8 buf (r + 4)
  match tb.at RTA_TABLE with
  | some a => rd32 buf (RTA_DATA a)
  | none => pure table

/-! ## Domain entity decoders -/

/-- The static `Address::convertAddress(family, data)` of `types.cpp`. -/
def Address.convertAddress (family : Nat) (buf : List Nat) (data : Nat) :
    Except Failure IpAddress :=
  if family = AF_INET then do
    let networkOrder ← rdBytes buf data 4
    pure (.v4 networkOrder)
  else if family = AF_INET6 then do
    let networkOrder ← rdBytes buf data 16
    pure (.v6 networkOrder)
  else pure IpAddress.default

/-- The three lambdas that compute `entry.action` from `header.nlmsg_type`. -/
def actionOf (newType delType nlmsg_type : Nat) : Action :=
  if nlmsg_type = newType then .New
  else if nlmsg_type = delType then .Del
  else .Unknown

/-- The lambda of `parse_route` that computes `entry.table`. -/
def tableOf (table : Nat) : Table :=
  if table = RT_TABLE_MAIN then .Main
  else if table = RT_TABLE_LOCAL then .Local
  else .Default

/-- The lambda of `parse_address` that computes `entry.scope`. -/
def scopeOf (scope : Nat) : Scope :=
  if scope = RT_SCOPE_UNIVERSE then .Universe
  else if scope = RT_SCOPE_SITE then .Site
  else if scope = RT_SCOPE_LINK then .Link
  else if scope = RT_SCOPE_HOST then .Host
  else if scope = RT_SCOPE_NOWHERE then .Nowhere
  else .Unknown

/-- The destination block of `parse_route`.  The constructors
`boost::asio::ip::network_v4(addr, len)` and `network_v6(addr, len)` throw
`std::out_of_range` when `len` exceeds 32 and 128. -/
def parse_route_destination (buf : List Nat) (rtMsg : Nat) (rtm_family : Nat)
    (tb : AttrTable) : Except Failure Destination :=
  match tb.at RTA_DST with
  | none => pure .Default_t
  | some a =>
    if rtm_family = AF_INET then do
      let addr ← rdBytes buf (RTA_DATA a) 4
      let rtm_dst_len ← rd8 buf (rtMsg + 1)
      if 32 < rtm_dst_len then .error .thrown else pure (.network_v4 addr rtm_dst_len)
    else if rtm_family = AF_INET6 then do
      let addr ← rdBytes buf (RTA_DATA a) 16
      let rtm_dst_len ← rd8 buf (rtMsg + 1)
      if 128 < rtm_dst_len then .error .thrown else pure (.network_v6 addr rtm_dst_len)
    else pure .Default_t

/-- An optional address attribute: `if (tb[i]) entry.x = convertAddress(family, RTA_DATA(tb[i]))`. -/
def addressAttr (buf : List Nat) (family : Nat) (tb : AttrTable) (i : Nat) :
    Except Failure IpAddress :=
  match tb.at i with
  | none => pure IpAddress.default
  | some a => Address.convertAddress family buf (RTA_DATA a)

/-- The `RTA_OIF` block of `parse_route`: `entry.interfaceName = if_indextoname(ifidx, buf)`
when the attribute is present.  `if_indextoname` is the libc function: `none` is its null
result, and assigning a null pointer to a `std::string` is undefined. -/
def parse_route_oif (if_indextoname : Nat → Option (List Nat)) (buf : List Nat)
    (tb : AttrTable) : Except Failure (List Nat) :=
  match tb.at RTA_OIF with
  | none => pure []
  | some a => do
    let ifidx ← rd32 buf (RTA_DATA a)
    match if_indextoname ifidx with
    | some name => pure name
    | none => .error .undefined

/-- The member `Socket::parse_route(header, rtMsg)`; `header` and `rtMsg` are the offsets
of the two structs.  `if_indextoname` is the libc function: `none` is its null result,
and assigning a null pointer to `entry.interfaceName` is undefined. -/
def parse_route (if_indextoname : Nat → Option (List Nat)) (buf : List Nat)
    (header rtMsg : Nat) : Except Failure Route := do
  let nlmsg_len ← rd32 buf header
  let rtLen := NLMSG_PAYLOAD nlmsg_len sizeof_rtmsg
  let tb ← parse_rtattr RTA_MAX buf (rtMsg + NLMSG_ALIGN sizeof_rtmsg) rtLen
  let table ← rtm_get_table buf rtMsg tb
  let rtm_family ← rd8 buf rtMsg
  if rtm_family ≠ AF_INET ∧ rtm_family ≠ AF_INET6 then
    .error (.socket .InvalidFamily)
  else do
    let nlmsg_type ← rd16 buf (header + 4)
    let destination ← parse_route_destination buf rtMsg rtm_family tb
    let gateway ← addressAttr buf rtm_family tb RTA_GATEWAY
    let interfaceName ← parse_route_oif if_indextoname buf tb
    let source ← addressAttr buf rtm_family tb RTA_SRC
    pure { action := actionOf RTM_NEWROUTE RTM_DELROUTE nlmsg_type
           table := tableOf table
           destination := destination
           gateway := gateway
           interfaceName := interfaceName
           source := source }

/-- An optional address attribute of `parse_address`; `msg.ifa_family` is read only when the
attribute is present. -/
def ifaAttr (buf : List Nat) (msg : Nat) (tb : AttrTable) (i : Nat) :
    Except Failure IpAddress :=
  match tb.at i with
  | none => pure IpAddress.default
  | some a => do
    let ifa_family ← rd8 buf msg
    Address.convertAddress ifa_family buf (RTA_DATA a)

/-- The member `Socket::parse_address(header, msg)`. -/
def parse_address (buf : List Nat) (header msg : Nat) : Except Failure Address := do
  let nlmsg_len ← rd32 buf header
  let rtLen := NLMSG_PAYLOAD nlmsg_len sizeof_ifaddrmsg
  let tb ← parse_rtattr IFA_MAX buf (msg + NLMSG_ALIGN sizeof_ifaddrmsg) rtLen
  let nlmsg_type ← rd16 buf (header + 4)
  let ifa_prefixlen ← rd8 buf (msg + 1)
  let ifa_scope ← rd8 buf (msg + 3)
  let address ← ifaAttr buf msg tb IFA_ADDRESS
  let local_ ← ifaAttr buf msg tb IFA_LOCAL
  let broadcast ← ifaAttr buf msg tb IFA_BROADCAST
  pure { action := actionOf RTM_NEWADDR RTM_DELADDR nlmsg_type
         address := address
         netmask := ifa_prefixlen
         broadcast := broadcast
         local_ := local_
         scope := scopeOf ifa_scope }

/-- The `IFLA_IFNAME` block of `parse_link`: `entry.name` is assigned the C string in the
payload when the attribute is present. -/
def parse_link_name (buf : List Nat) (tb : AttrTable) : Except Failure (List Nat) :=
  match tb.at IFLA_IFNAME with
  | none => pure []
  | some a => rdCStr buf (RTA_DATA a)

/-- The member `Socket::parse_link(header, msg)`. -/
def parse_link (buf : List Nat) (header msg : Nat) : Except Failure Interface := do
  let nlmsg_len ← rd32 buf header
  let rtLen := NLMSG_PAYLOAD nlmsg_len sizeof_ifinfomsg
  let tb ← parse_rtattr IFLA_MAX buf (msg + NLMSG_ALIGN sizeof_ifinfomsg) rtLen
  let nlmsg_type ← rd16 buf (header + 4)
  let name ← parse_link_name buf tb
  pure { action := actionOf RTM_NEWLINK RTM_DELLINK nlmsg_type, name := name }

/-! ## Receive/demultiplex engine -/

/-- The private `Socket::PopRequest(id)`: the popped request, the socket afterwards. -/
def Socket.PopRequest (sk : Socket) (id : Id) : Option Message × Socket :=
  match sk.m_activeRequest with
  | none => (none, sk)
  | some m =>
    if m.GetId ≠ id then (none, sk)
    else (some m, { sk with m_activeRequest := none })

/-- The private `Socket::HandleDone(header)`; `header` is the offset of the `nlmsghdr`. -/
def Socket.HandleDone (sk : Socket) (buf : List Nat) (header : Nat) : Step ResponseTypes :=
  match rd32 buf (header + 8) with
  | .error e => (.error e, sk)
  | .ok nlmsg_seq =>
    match rd32 buf (header + 12) with
    | .error e => (.error e, sk)
    | .ok nlmsg_pid =>
      match sk.PopRequest { seq := nlmsg_seq, pid := nlmsg_pid } with
      | (some req, sk1) => (req.GetResponse, sk1)
      | (none, sk1) => (.error (.socket .MessageIdMismatch), sk1)

/-- The private member template `Socket::addResponse<Request>(id, t)`; `add` is
`Message::AddResponse<Request>` applied to `t`. -/
def Socket.addResponse (sk : Socket) (add : Message → Except Failure Unit × Message)
    (id : Id) : Step Unit :=
  match sk.m_activeRequest with
  | none => (.error (.socket .NoActiveRequest), sk)
  | some m =>
    if m.GetId ≠ id then (.error (.socket .MessageIdMismatch), sk)
    else
      let (r, m1) := add m
      (r, { sk with m_activeRequest := some m1 })

/-- The common body of `HandleRoute`, `HandleAddress` and `HandleLink`, after the decoder
has run: a foreign `nlmsg_pid` yields the entity, the own pid adds it to the active
request and yields `std::nullopt`. -/
def Socket.handleDecoded {α : Type} (sk : Socket) (buf : List Nat) (header : Nat)
    (parsed : Except Failure α) (add : α → Message → Except Failure Unit × Message) :
    Step (Option α) :=
  match parsed with
  | .error e => (.error e, sk)
  | .ok v =>
    match rd32 buf (header + 12) with
    | .error e => (.error e, sk)
    | .ok nlmsg_pid =>
      if nlmsg_pid ≠ sk.m_pid then (.ok (some v), sk)
      else
        match rd32 buf (header + 8) with
        | .error e => (.error e, sk)
        | .ok nlmsg_seq =>
          match sk.addResponse (add v) { seq := nlmsg_seq, pid := nlmsg_pid } with
          | (.error e, sk1) => (.error e, sk1)
          | (.ok _, sk1) => (.ok none, sk1)

/-- The private `Socket::HandleRoute(header, rtMsg)`. -/
def Socket.HandleRoute (if_indextoname : Nat → Option (List Nat)) (sk : Socket)
    (buf : List Nat) (header rtMsg : Nat) : Step (Option Route) :=
  sk.handleDecoded buf header (parse_route if_indextoname buf header rtMsg)
    (fun v m => m.AddResponseRoute v)

/-- The private `Socket::HandleAddress(header, ifMsg)`. -/
def Socket.HandleAddress (sk : Socket) (buf : List Nat) (header ifMsg : Nat) :
    Step (Option Address) :=
  sk.handleDecoded buf header (parse_address buf header ifMsg)
    (fun v m => m.AddResponseAddress v)

/-- The private `Socket::HandleLink(header, ifMsg)`. -/
def Socket.HandleLink (sk : Socket) (buf : List Nat) (header ifMsg : Nat) :
    Step (Option Interface) :=
  sk.handleDecoded buf header (parse_link buf header ifMsg)
    (fun v m => m.AddResponseInterface v)

/-- How the `for` loop of `receive` over one datagram ends. -/
inductive Walk
  /-- A `return` statement inside the loop (or a failure of the embedding). -/
  | returned (r : Except Failure ResponseTypes) (sk : Socket)
  /-- The condition `NLMSG_OK` failed: the loop is left with the local `response`. -/
  | finished (response : Option ResponseTypes) (sk : Socket)
  deriving DecidableEq, Repr

/-- The statement `if (x && !response) response.emplace(std::move(*x))`. -/
def emplaceFirst (response : Option ResponseTypes) (x : Option ResponseTypes) :
    Option ResponseTypes :=
  match response with
  | some r => some r
  | none => x

/-- The macro `NLMSG_DATA(nlh)`: the body starts `NLMSG_HDRLEN` bytes after the header. -/
def NLMSG_DATA (nlh : Nat) : Nat := nlh + sizeof_nlmsghdr

/-- What one pass through the `for` loop of `receive` does. -/
inductive WalkStep
  /-- The loop is left: the condition failed or the body returned. -/
  | leave (w : Walk)
  /-- The body ran to its end (or to `continue`) and `NLMSG_NEXT` was applied. -/
  | next (nlHeader nlHeaderLen : Nat) (response : Option ResponseTypes) (sk : Socket)
  deriving DecidableEq, Repr

/-- One pass through the `for` loop of `Socket::receive`: the condition
`NLMSG_OK(nlHeader, nlHeaderLen)`, the body, the increment `NLMSG_NEXT`.  `nlHeader` is
the offset of the current message header, `nlHeaderLen` the `std::size_t` count of
remaining bytes.  `NLMSG_OK(nlh, len)` is `len >= sizeof(nlmsghdr) &&
nlh->nlmsg_len >= sizeof(nlmsghdr) && nlh->nlmsg_len <= len`; `NLMSG_NEXT` subtracts
`NLMSG_ALIGN(nlh->nlmsg_len)` from `len` and advances `nlh` by it. -/
def Socket.walkBody (if_indextoname : Nat → Option (List Nat)) (buf : List Nat)
    (nlHeader nlHeaderLen : Nat) (response : Option ResponseTypes) (sk : Socket) : WalkStep :=
  if nlHeaderLen < sizeof_nlmsghdr then .leave (.finished response sk)
  else
    match rd32 buf nlHeader with
    | .error e => .leave (.returned (.error e) sk)
    | .ok nlmsg_len =>
      if nlmsg_len < sizeof_nlmsghdr ∨ nlHeaderLen < nlmsg_len then
        .leave (.finished response sk)
      else
        let nextHeader := nlHeader + NLMSG_ALIGN nlmsg_len
        let nextLen := (nlHeaderLen + 2 ^ 64 - NLMSG_ALIGN nlmsg_len) % 2 ^ 64
        match rd16 buf (nlHeader + 4) with
        | .error e => .leave (.returned (.error e) sk)
        | .ok nlmsg_type =>
          if nlmsg_type = NLMSG_DONE then
            match response with
            | some r => .leave (.returned (.ok r) sk)
            | none => .leave (.returned (sk.HandleDone buf nlHeader).1 (sk.HandleDone buf nlHeader).2)
          else if nlmsg_type = RTM_NEWROUTE ∨ nlmsg_type = RTM_DELROUTE then
            match sk.HandleRoute if_indextoname buf nlHeader (NLMSG_DATA nlHeader) with
            | (.error e, sk1) => .leave (.returned (.error e) sk1)
            | (.ok r, sk1) =>
              .next nextHeader nextLen (emplaceFirst response (r.map ResponseTypes.Route)) sk1
          else if nlmsg_type = RTM_NEWADDR ∨ nlmsg_type = RTM_DELADDR then
            match sk.HandleAddress buf nlHeader (NLMSG_DATA nlHeader) with
            | (.error e, sk1) => .leave (.returned (.error e) sk1)
            | (.ok a, sk1) =>
              .next nextHeader nextLen (emplaceFirst response (a.map ResponseTypes.Address)) sk1
          else if nlmsg_type = RTM_NEWLINK ∨ nlmsg_type = RTM_DELLINK then
            match sk.HandleLink buf nlHeader (NLMSG_DATA nlHeader) with
            | (.error e, sk1) => .leave (.returned (.error e) sk1)
            | (.ok l, sk1) =>
              .next nextHeader nextLen (emplaceFirst response (l.map ResponseTypes.Interface)) sk1
          else .next nextHeader nextLen response sk

/-- The `for` loop of `Socket::receive` over one datagram; the first argument bounds the
number of passes. -/
def Socket.walk (if_indextoname : Nat → Option (List Nat)) (buf : List Nat) :
    Nat → Nat → Nat → Option ResponseTypes → Socket → Walk
  | 0, _, _, _, sk => .returned (.error .diverges) sk
  | fuel + 1, nlHeader, nlHeaderLen, response, sk =>
    match Socket.walkBody if_indextoname buf nlHeader nlHeaderLen response sk with
    | .leave w => w
    | .next nlHeader1 nlHeaderLen1 response1 sk1 =>
      Socket.walk if_indextoname buf fuel nlHeader1 nlHeaderLen1 response1 sk1

/-- What the two `recvmsg` calls of one iteration of `receive` do: the peek fails with an
errno, the peek succeeds and the read fails, or the datagram is read into `buffer`. -/
inductive RecvEvent
  | peekError (errno : Nat)
  | readError (errno : Nat)
  | datagram (buffer : List Nat)
  deriving DecidableEq, Repr

/-- The enumeration `Socket::ReceiveMode`. -/
inductive ReceiveMode
  | Wait
  | Nonblock
  deriving DecidableEq, Repr

/-- The result of `receive`: the `std_result`, the socket afterwards, and the events the
operating system has not delivered yet. -/
structure Received where
  result : Except Failure ResponseTypes
  socket : Socket
  pending : List RecvEvent
  deriving DecidableEq, Repr

/-- The part of one iteration of the `do` loop of `receive` that follows the two `recvmsg`
calls: the checks of the first message and the walk. -/
def Socket.scan (if_indextoname : Nat → Option (List Nat)) (buf : List Nat)
    (response : Option ResponseTypes) (sk : Socket) : Walk :=
  match rd16 buf 6 with
  | .error e => .returned (.error e) sk
  | .ok nlmsg_flags =>
    if nlmsg_flags &&& NLM_F_DUMP_INTR ≠ 0 then .returned (.error (.socket .Interrupted)) sk
    else
      match rd16 buf 4 with
      | .error e => .returned (.error e) sk
      | .ok nlmsg_type =>
        if nlmsg_type = NLMSG_ERROR then .returned (.error (.socket .Error)) sk
        else if nlmsg_type = NLMSG_NOOP then .returned (.error (.socket .Noop)) sk
        else if nlmsg_type = NLMSG_DONE then
          .returned (sk.HandleDone buf 0).1 (sk.HandleDone buf 0).2
        else Socket.walk if_indextoname buf (buf.length + 1) 0 buf.length response sk

/-- The `do { ... } while (m_activeRequest)` loop of `Socket::receive` and the statements
after it; `response` is the local `std::optional<Message::ResponseTypes>`.  With no event
left, `recvmsg` fails with `EAGAIN` in mode `Nonblock` and blocks in mode `Wait`. -/
def Socket.receive_loop (if_indextoname : Nat → Option (List Nat)) (receiveMode : ReceiveMode) :
    List RecvEvent → Option ResponseTypes → Socket → Received
  | [], _, sk =>
    match receiveMode with
    | .Nonblock => { result := .error (.os EAGAIN), socket := sk, pending := [] }
    | .Wait => { result := .error .blocked, socket := sk, pending := [] }
  | .peekError errno :: rest, _, sk =>
    { result := .error (.os errno), socket := sk, pending := rest }
  | .readError errno :: rest, _, sk =>
    { result := .error (.os errno), socket := sk, pending := rest }
  | .datagram buf :: rest, response, sk =>
    match Socket.scan if_indextoname buf response sk with
    | .returned r sk1 => { result := r, socket := sk1, pending := rest }
    | .finished response1 sk1 =>
      if sk1.m_activeRequest.isSome then
        Socket.receive_loop if_indextoname receiveMode rest response1 sk1
      else
        match response1 with
        | some r => { result := .ok r, socket := sk1, pending := rest }
        | none => { result := .error (.socket .Error), socket := sk1, pending := rest }

/-- The member `Socket::receive(ReceiveMode)`. -/
def Socket.receive (if_indextoname : Nat → Option (List Nat)) (receiveMode : ReceiveMode)
    (sk : Socket) (events : List RecvEvent) : Received :=
  Socket.receive_loop if_indextoname receiveMode events none sk

/-- The element type of a request kind (`Request::ResponseData_t::value_type`). -/
@[reducible] def Kind.Data : Kind → Type
  | .LinkRequest => Interface
  | .RouteRequest => Route
  | .AddressRequest => Address

/-- The expression `std::get_if<typename Request::Response_t>(&r)`. -/
def ResponseTypes.get_if : (kind : Kind) → ResponseTypes → Option (Response kind.Data)
  | .LinkRequest, .LinkResponse r => some r
  | .RouteRequest, .RouteResponse r => some r
  | .AddressRequest, .AddressResponse r => some r
  | _, _ => none

/-- The member template `Socket::receive<Request>(mode)`: the typed result, the socket
afterwards, the events not delivered yet. -/
def Socket.receiveAs (if_indextoname : Nat → Option (List Nat)) (kind : Kind)
    (mode : ReceiveMode) (sk : Socket) (events : List RecvEvent) :
    Except Failure (Response kind.Data) × Socket × List RecvEvent :=
  let rcv := sk.receive if_indextoname mode events
  match rcv.result with
  | .error e => (.error e, rcv.socket, rcv.pending)
  | .ok r =>
    match r.get_if kind with
    | some response => (.ok response, rcv.socket, rcv.pending)
    | none => (.error (.socket .MessageTypeMismatch), rcv.socket, rcv.pending)

/-! ## Call sequences -/

/-- One call of the public interface, with what the operating system does during it. -/
inductive Call
  | send_request (kind : Kind) (family : Int) (sendErr : Option Nat)
  | receive (receiveMode : ReceiveMode) (events : List RecvEvent)
  deriving DecidableEq, Repr

/-- Run a sequence of calls on a socket and collect the identities that the successful
`send_request` calls return, in call order.  The run ends at a call that does not
return. -/
def Socket.run (if_indextoname : Nat → Option (List Nat)) : Socket → List Call → List Id
  | _, [] => []
  | sk, .send_request kind family sendErr :: calls =>
    match sk.send_request kind family sendErr with
    | ((.ok id, sk1), _) => id :: Socket.run if_indextoname sk1 calls
    | ((.error _, sk1), _) => Socket.run if_indextoname sk1 calls
  | sk, .receive receiveMode events :: calls =>
    let rcv := sk.receive if_indextoname receiveMode events
    match rcv.result with
    | .ok _ => Socket.run if_indextoname rcv.socket calls
    | .error e =>
      if e.isReturned then Socket.run if_indextoname rcv.socket calls else []

/-- The number of `send_request` calls in a sequence of calls. -/
def sendCount : List Call → Nat
  | [] => 0
  | .send_request _ _ _ :: calls => sendCount calls + 1
  | .receive _ _ :: calls => sendCount calls

/-! ## Wire encoding of kernel messages

The kernel side of the protocol, used to state scenarios: how a netlink message and an
attribute are laid out in a datagram. -/

/-- Pad a byte string with zeros to a multiple of four bytes. -/
def pad4 (l : List Nat) : List Nat := l ++ List.replicate ((4 - l.length % 4) % 4) 0

/-- One attribute: `rta_len` (header and payload, without the padding), `rta_type`, the
payload, the padding. -/
def encodeAttr (rta_type : Nat) (payload : List Nat) : List Nat :=
  pad4 (le16 (sizeof_rtattr + payload.length) ++ le16 rta_type ++ payload)

/-- One netlink message: the `nlmsghdr` with `nlmsg_len` the length of header and payload,
then the payload. -/
def encodeMsg (nlmsg_type nlmsg_flags nlmsg_seq nlmsg_pid : Nat) (payload : List Nat) :
    List Nat :=
  le32 (sizeof_nlmsghdr + payload.length) ++ le16 nlmsg_type ++ le16 nlmsg_flags
    ++ le32 nlmsg_seq ++ le32 nlmsg_pid ++ payload

/-- The flag `NLM_F_MULTI`, set by the kernel on every message of a dump. -/
@[simp] abbrev NLM_F_MULTI : Nat := 0x02

/-- The terminator of a dump as the kernel sends it: `NLMSG_DONE` with a four-byte
payload. -/
def doneMsg (nlmsg_seq nlmsg_pid : Nat) : List Nat :=
  encodeMsg NLMSG_DONE NLM_F_MULTI nlmsg_seq nlmsg_pid [0, 0, 0, 0]

/-- The elementary changes of a socket inside `receive`: the active request is popped, or
one decoded element is appended to the accumulator of the active request. -/
inductive Socket.Step1 : Socket → Socket → Prop
  | pop (sk : Socket) (m : Message) (h : sk.m_activeRequest = some m) :
      Socket.Step1 sk { sk with m_activeRequest := none }
  | addRoute (sk : Socket) (r : Request Route) (v : Route)
      (h : sk.m_activeRequest = some { m_request := .RouteRequest r }) :
      Socket.Step1 sk { sk with m_activeRequest := some { m_request := .RouteRequest (r.AddItem v) } }
  | addAddress (sk : Socket) (r : Request Address) (v : Address)
      (h : sk.m_activeRequest = some { m_request := .AddressRequest r }) :
      Socket.Step1 sk
        { sk with m_activeRequest := some { m_request := .AddressRequest (r.AddItem v) } }
  | addLink (sk : Socket) (r : Request Interface) (v : Interface)
      (h : sk.m_activeRequest = some { m_request := .LinkRequest r }) :
      Socket.Step1 sk { sk with m_activeRequest := some { m_request := .LinkRequest (r.AddItem v) } }

/-- Zero or more elementary changes. -/
abbrev Socket.Steps : Socket → Socket → Prop := Relation.ReflTransGen Socket.Step1

/-- The socket a walk ends with. -/
def Walk.socket : Walk → Socket
  | .returned _ sk => sk
  | .finished _ sk => sk

/-- The socket after one pass through the loop. -/
def WalkStep.socket : WalkStep → Socket
  | .leave w => w.socket
  | .next _ _ _ sk => sk

/-- The call sequence that completes `n` link dumps one after the other on a socket whose
counter is `seqNum` and whose pid is `pid`: each `send_request` is followed by a `receive`
to which the kernel delivers the terminator of that dump. -/
def dumpCycles (pid : Nat) : Nat → Nat → List Call
  | _, 0 => []
  | seqNum, n + 1 =>
    .send_request .LinkRequest 0 none
      :: .receive .Wait [.datagram (doneMsg ((seqNum + 1) % 2 ^ 32) pid)]
      :: dumpCycles pid ((seqNum + 1) % 2 ^ 32) n

/-- The identities with the `n` sequence numbers that follow `seqNum` modulo 2^32. -/
def idsFrom (pid : Nat) : Nat → Nat → List Id
  | _, 0 => []
  | seqNum, n + 1 =>
    { seq := (seqNum + 1) % 2 ^ 32, pid := pid } :: idsFrom pid ((seqNum + 1) % 2 ^ 32) n


/-- The loop of `receive` stands at offset `nlHeader` with `nlHeaderLen` bytes left, the
message there passes `NLMSG_OK`, and its header holds the fields of `h`. -/
structure MessageAt (buf : List Nat) (nlHeader nlHeaderLen : Nat) (h : nlmsghdr) : Prop where
  room : sizeof_nlmsghdr ≤ nlHeaderLen
  len : rd32 buf nlHeader = .ok h.nlmsg_len
  len_ge : sizeof_nlmsghdr ≤ h.nlmsg_len
  len_le : h.nlmsg_len ≤ nlHeaderLen
  type : rd16 buf (nlHeader + 4) = .ok h.nlmsg_type
  flags : rd16 buf (nlHeader + 6) = .ok h.nlmsg_flags
  seq : rd32 buf (nlHeader + 8) = .ok h.nlmsg_seq
  pid : rd32 buf (nlHeader + 12) = .ok h.nlmsg_pid

/-- The header pointer after `NLMSG_NEXT` at a message of length `nlmsg_len`. -/
def nextHeader (nlHeader nlmsg_len : Nat) : Nat := nlHeader + NLMSG_ALIGN nlmsg_len

/-- The remaining length after `NLMSG_NEXT` at a message of length `nlmsg_len`. -/
def nextLen (nlHeaderLen nlmsg_len : Nat) : Nat :=
  (nlHeaderLen + 2 ^ 64 - NLMSG_ALIGN nlmsg_len) % 2 ^ 64

/-- An `RTM_NEWLINK` message of a dump as the kernel sends it: the header, the 16 bytes
`ifinfomsg` of the `struct ifinfomsg`, and one attribute `IFLA_IFNAME` that holds the
NUL-terminated `name`. -/
def newLinkMsg (nlmsg_seq nlmsg_pid : Nat) (ifinfomsg name : List Nat) : List Nat :=
  encodeMsg RTM_NEWLINK NLM_F_MULTI nlmsg_seq nlmsg_pid
    (ifinfomsg ++ encodeAttr IFLA_IFNAME (name ++ [0]))

/-- The attribute table with every pointer moved by `base` bytes. -/
def AttrTable.shift (base : Nat) (tb : AttrTable) : AttrTable :=
  tb.map (Option.map (base + ·))

/-- The header of the message that starts the byte string `m`. -/
def headerOf (m : List Nat) : Except Failure nlmsghdr := do
  let nlmsg_len ← rd32 m 0
  let nlmsg_type ← rd16 m 4
  let nlmsg_flags ← rd16 m 6
  let nlmsg_seq ← rd32 m 8
  let nlmsg_pid ← rd32 m 12
  pure { nlmsg_len := nlmsg_len, nlmsg_type := nlmsg_type, nlmsg_flags := nlmsg_flags,
         nlmsg_seq := nlmsg_seq, nlmsg_pid := nlmsg_pid }

/-- The byte string `m` is one well-formed, 4-byte-aligned netlink message with header `h`:
`nlmsg_len` is the length of `m` and a multiple of `NLMSG_ALIGNTO`. -/
structure WireMessage (m : List Nat) (h : nlmsghdr) : Prop where
  header : headerOf m = .ok h
  len : h.nlmsg_len = m.length
  aligned : m.length % 4 = 0

/-- The byte string `m` is a reply of a route dump with the identity `(seq, pid)`: a
well-formed `RTM_NEWROUTE` or `RTM_DELROUTE` message without the dump-interrupted flag
that decodes, on its own, to the route `v`. -/
def RouteReply (if_indextoname : Nat → Option (List Nat)) (seq pid : Nat)
    (m : List Nat) (v : Route) : Prop :=
  ∃ h : nlmsghdr, WireMessage m h ∧
    (h.nlmsg_type = RTM_NEWROUTE ∨ h.nlmsg_type = RTM_DELROUTE) ∧
    h.nlmsg_flags &&& NLM_F_DUMP_INTR = 0 ∧ h.nlmsg_seq = seq ∧ h.nlmsg_pid = pid ∧
    parse_route if_indextoname m 0 (NLMSG_DATA 0) = .ok v

/-- The byte string `m` is a dump terminator with the identity `(seq, pid)`: a
well-formed `NLMSG_DONE` message without the dump-interrupted flag. -/
def DoneReply (seq pid : Nat) (m : List Nat) : Prop :=
  ∃ h : nlmsghdr, WireMessage m h ∧ h.nlmsg_type = NLMSG_DONE ∧
    h.nlmsg_flags &&& NLM_F_DUMP_INTR = 0 ∧ h.nlmsg_seq = seq ∧ h.nlmsg_pid = pid

/-- The bytes of a datagram that consists of the given messages, in order. -/
def datagramOf {α : Type} (msgs : List (List Nat × α)) : List Nat :=
  (msgs.map Prod.fst).flatten

/-- An `RTM_NEWROUTE` message of an IPv4 dump as the kernel sends it: the header, the
`struct rtmsg` (family `AF_INET`, the given destination length, table 254 in the body,
protocol `RTPROT_BOOT`, scope universe, type `RTN_UNICAST`), and the given attributes. -/
def newRouteV4Msg (nlmsg_seq nlmsg_pid rtm_dst_len : Nat) (attrs : List Nat) : List Nat :=
  encodeMsg RTM_NEWROUTE NLM_F_MULTI nlmsg_seq nlmsg_pid
    ([AF_INET, rtm_dst_len, 0, 0, 254, 3, 0, 1, 0, 0, 0, 0] ++ attrs)

/-- The default route via 192.168.1.1 on interface 2, in table main, as a message of the
dump `{1, 4242}`. -/
def sampleRouteMsg : List Nat :=
  newRouteV4Msg 1 4242 0
    (encodeAttr RTA_TABLE (le32 254) ++ encodeAttr RTA_GATEWAY [192, 168, 1, 1]
      ++ encodeAttr RTA_OIF (le32 2))

/-- The route that `sampleRouteMsg` decodes to when interface 2 is called `eth0`. -/
def sampleRoute : Route :=
  { action := .New, table := .Main, destination := .Default_t,
    gateway := .v4 [192, 168, 1, 1], interfaceName := [101, 116, 104, 48],
    source := IpAddress.default }

/-- An `if_indextoname` that knows interface 1 as `lo` and interface 2 as `eth0`. -/
def sampleIfNames : Nat → Option (List Nat)
  | 1 => some [108, 111]
  | 2 => some [101, 116, 104, 48]
  | _ => none

/-- The byte string `m` is a reply of a link dump with the identity `(seq, pid)`: a
well-formed `RTM_NEWLINK` or `RTM_DELLINK` message without the dump-interrupted flag that
decodes, on its own, to the interface `v`. -/
def LinkReply (seq pid : Nat) (m : List Nat) (v : Interface) : Prop :=
  ∃ h : nlmsghdr, WireMessage m h ∧
    (h.nlmsg_type = RTM_NEWLINK ∨ h.nlmsg_type = RTM_DELLINK) ∧
    h.nlmsg_flags &&& NLM_F_DUMP_INTR = 0 ∧ h.nlmsg_seq = seq ∧ h.nlmsg_pid = pid ∧
    parse_link m 0 (NLMSG_DATA 0) = .ok v

/-- What a link message of the scenario is made of: the 16 bytes of its `struct ifinfomsg`
and the interface name, a string of at most `IFNAMSIZ - 1 = 15` non-NUL bytes. -/
def LinkSpec (x : List Nat × List Nat) : Prop :=
  x.1.length = sizeof_ifinfomsg ∧ (∀ b ∈ x.2, 0 < b ∧ b < 256) ∧ x.2.length ≤ 15

/-- The datagram made of the `RTM_NEWLINK` messages of the given link specifications, in
order, all with the identity `(seq, pid)`. -/
def linkDatagram (seq pid : Nat) (dg : List (List Nat × List Nat)) : List Nat :=
  (dg.map (fun x => newLinkMsg seq pid x.1 x.2)).flatten

/-- The byte string `m` is an unsolicited address notification for a socket with pid
`ownPid`: a well-formed `RTM_NEWADDR` or `RTM_DELADDR` message without the
dump-interrupted flag whose `nlmsg_pid` is not `ownPid` and that decodes, on its own, to
the address `v`. -/
def AddressNotice (ownPid : Nat) (m : List Nat) (v : Address) : Prop :=
  ∃ h : nlmsghdr, WireMessage m h ∧
    (h.nlmsg_type = RTM_NEWADDR ∨ h.nlmsg_type = RTM_DELADDR) ∧
    h.nlmsg_flags &&& NLM_F_DUMP_INTR = 0 ∧ h.nlmsg_pid ≠ ownPid ∧
    parse_address m 0 (NLMSG_DATA 0) = .ok v

/-- The byte string `m` is a well-formed `NLMSG_DONE` message, of whatever identity. -/
def DoneMessage (m : List Nat) : Prop :=
  ∃ h : nlmsghdr, WireMessage m h ∧ h.nlmsg_type = NLMSG_DONE

/-- An `RTM_NEWADDR` notification of an IPv4 address as the kernel multicasts it
(`nlmsg_seq` and `nlmsg_pid` are 0): the header, the `struct ifaddrmsg` (family `AF_INET`,
the given prefix length and scope, interface 2) and the attribute `IFA_ADDRESS`. -/
def newAddrV4Msg (ifa_prefixlen ifa_scope : Nat) (addr : List Nat) : List Nat :=
  encodeMsg RTM_NEWADDR 0 0 0
    ([AF_INET, ifa_prefixlen, 0, ifa_scope, 2, 0, 0, 0] ++ encodeAttr IFA_ADDRESS addr)

/-- The notification that 192.168.1.10/24 was added. -/
def sampleAddrMsg : List Nat := newAddrV4Msg 24 RT_SCOPE_UNIVERSE [192, 168, 1, 10]

/-- The address that `sampleAddrMsg` decodes to. -/
def sampleAddr : Address :=
  { action := .New, address := .v4 [192, 168, 1, 10], netmask := 24, scope := .Universe }

/-- The condition `NLMSG_OK(nlHeader, nlHeaderLen)` holds (and can be evaluated inside the
buffer). -/
def messageOk (buf : List Nat) (nlHeader nlHeaderLen : Nat) : Bool :=
  decide (sizeof_nlmsghdr ≤ nlHeaderLen) &&
    match rd32 buf nlHeader with
    | .ok nlmsg_len => decide (sizeof_nlmsghdr ≤ nlmsg_len ∧ nlmsg_len ≤ nlHeaderLen)
    | .error _ => false

/-- The message at `nlHeader` is an `NLMSG_DONE` whose `(nlmsg_seq, nlmsg_pid)` is the
identity of the active request of the socket. -/
def Socket.doneMatches (sk : Socket) (buf : List Nat) (nlHeader : Nat) : Bool :=
  match sk.m_activeRequest with
  | none => false
  | some m =>
    rd16 buf (nlHeader + 4) == .ok NLMSG_DONE &&
      (rd32 buf (nlHeader + 8) == .ok m.GetId.seq &&
        rd32 buf (nlHeader + 12) == .ok m.GetId.pid)

/-- Does the walk over a datagram come, at one of its passes, to an `NLMSG_DONE` message
with the identity of the active request?  With `held = true` such a message counts
whatever the call holds; with `held = false` it counts only when the call holds no
notification at that pass. -/
def Socket.walkMeetsDone (if_indextoname : Nat → Option (List Nat)) (buf : List Nat)
    (held : Bool) : Nat → Nat → Nat → Option ResponseTypes → Socket → Bool
  | 0, _, _, _, _ => false
  | fuel + 1, nlHeader, nlHeaderLen, response, sk =>
    (messageOk buf nlHeader nlHeaderLen && (sk.doneMatches buf nlHeader
        && (held || response.isNone))) ||
      match Socket.walkBody if_indextoname buf nlHeader nlHeaderLen response sk with
      | .leave _ => false
      | .next nlHeader1 nlHeaderLen1 response1 sk1 =>
        Socket.walkMeetsDone if_indextoname buf held fuel nlHeader1 nlHeaderLen1 response1 sk1

/-- Does one iteration of the loop of `receive` come to an `NLMSG_DONE` message with the
identity of the active request: as the first message of the datagram (once the checks
before it have passed), or at a pass of the walk? -/
def Socket.scanMeetsDone (if_indextoname : Nat → Option (List Nat)) (buf : List Nat)
    (held : Bool) (response : Option ResponseTypes) (sk : Socket) : Bool :=
  match rd16 buf 6 with
  | .error _ => false
  | .ok nlmsg_flags =>
    if nlmsg_flags &&& NLM_F_DUMP_INTR ≠ 0 then false
    else
      match rd16 buf 4 with
      | .error _ => false
      | .ok nlmsg_type =>
        if nlmsg_type = NLMSG_ERROR then false
        else if nlmsg_type = NLMSG_NOOP then false
        else if nlmsg_type = NLMSG_DONE then sk.doneMatches buf 0
        else Socket.walkMeetsDone if_indextoname buf held (buf.length + 1) 0 buf.length
          response sk

/-- Does a call of `receive` come to an `NLMSG_DONE` message with the identity of the
active request, in one of the datagrams it reads? -/
def Socket.receiveMeetsDone (if_indextoname : Nat → Option (List Nat)) (held : Bool) :
    List RecvEvent → Option ResponseTypes → Socket → Bool
  | [], _, _ => false
  | .peekError _ :: _, _, _ => false
  | .readError _ :: _, _, _ => false
  | .datagram buf :: rest, response, sk =>
    Socket.scanMeetsDone if_indextoname buf held response sk ||
      match Socket.scan if_indextoname buf response sk with
      | .returned _ _ => false
      | .finished response1 sk1 =>
        if sk1.m_activeRequest.isSome then
          Socket.receiveMeetsDone if_indextoname held rest response1 sk1
        else false

/-- The identity in the active slot, if the slot is occupied. -/
def Socket.activeId (sk : Socket) : Option Id := sk.m_activeRequest.map Message.GetId

/-- The conversion of a `Request::Response_t` into `Message::ResponseTypes`: the
alternative of the variant that holds the response type of the request kind. -/
def ResponseTypes.ofResponse : (kind : Kind) → Response kind.Data → ResponseTypes
  | .LinkRequest, r => .LinkResponse r
  | .RouteRequest, r => .RouteResponse r
  | .AddressRequest, r => .AddressResponse r

/-- An attribute region as the kernel lays it out: the given records `(rta_type, payload)`,
each encoded and padded to four bytes, one after the other. -/
def attrRegion (recs : List (Nat × List Nat)) : List Nat :=
  (recs.map (fun r => encodeAttr r.1 r.2)).flatten

/-- The offset of the first record of type `t` in a region that starts at `base`. -/
def firstRecord (t : Nat) : Nat → List (Nat × List Nat) → Option Nat
  | _, [] => none
  | base, r :: rs =>
    if r.1 = t then some base else firstRecord t (base + (encodeAttr r.1 r.2).length) rs

/-- The offset of the last record of type `t` in a region that starts at `base`. -/
def lastRecord (t : Nat) : Nat → List (Nat × List Nat) → Option Nat
  | _, [] => none
  | base, r :: rs =>
    match lastRecord t (base + (encodeAttr r.1 r.2).length) rs with
    | some o => some o
    | none => if r.1 = t then some base else none

/-- The wire value of a scope tag (`RT_SCOPE_*`); `Unknown` stands for no wire value. -/
def Scope.wire : Scope → Option Nat
  | .Universe => some RT_SCOPE_UNIVERSE
  | .Site => some RT_SCOPE_SITE
  | .Link => some RT_SCOPE_LINK
  | .Host => some RT_SCOPE_HOST
  | .Nowhere => some RT_SCOPE_NOWHERE
  | .Unknown => none

/-- An `RTM_DELROUTE` notification as the kernel multicasts it when a link goes away: the
route 10.0.0.0/24 in table main (protocol `RTPROT_KERNEL`, scope link, type
`RTN_UNICAST`) on the interface with index 7. -/
def removedLinkRouteMsg : List Nat :=
  encodeMsg RTM_DELROUTE 0 0 0
    ([AF_INET, 24, 0, 0, 254, 2, 253, 1, 0, 0, 0, 0]
      ++ encodeAttr RTA_DST [10, 0, 0, 0] ++ encodeAttr RTA_OIF (le32 7))

/-- The route 10.0.0.0/24 on interface 2, in table main by the `rtm_table` byte of the
body, as a message of the dump `{1, 4242}`. -/
def sampleNetRouteMsg : List Nat :=
  newRouteV4Msg 1 4242 24 (encodeAttr RTA_DST [10, 0, 0, 0] ++ encodeAttr RTA_OIF (le32 2))

/-- A region with two `RTA_DST` records, 10.0.0.0 at offset 0 and 192.168.0.0 at offset 8. -/
def twoDstRecords : List (Nat × List Nat) :=
  [(RTA_DST, [10, 0, 0, 0]), (RTA_DST, [192, 168, 0, 0])]

/-- The move constructor `Socket(Socket&& rhs)`: the constructed socket and `rhs`
afterwards.  Only `m_pid` and `m_socket` are initialised from `rhs`; `m_seqNum` and
`m_activeRequest` get their default member initialisers. -/
def Socket.moveCtor (rhs : Socket) : Socket × Socket :=
  ({ m_pid := rhs.m_pid, m_socket := rhs.m_socket }, { rhs with m_socket := -1 })

/-- The move assignment `operator=(Socket&& rhs)` on a socket `lhs` that is another object
than `rhs` (`this != std::addressof(rhs)`): `lhs` and `rhs` afterwards.  The two
descriptors are swapped; `m_pid` is `const`. -/
def Socket.moveAssign (lhs rhs : Socket) : Socket × Socket :=
  ({ lhs with m_socket := rhs.m_socket }, { rhs with m_socket := lhs.m_socket })

/-- The destructor `~Socket()`: the descriptors it passes to `close`. -/
def Socket.dtor (sk : Socket) : List Int :=
  if sk.m_socket ≥ 0 then [sk.m_socket] else []

/-- The function `std::countl_one` on an `unsigned char`: the number of consecutive one
bits, starting from the most significant of the eight bits. -/
def countl_one (b : Nat) : Nat :=
  (((List.range 8).map (fun i => b % 256 / 2 ^ (7 - i) % 2)).takeWhile (· = 1)).length

/-- The file-local template `countNetmaskBits(std::array<T, N> const& bytes)` of
`types.cpp`: `std::accumulate` from `0u`, so the running sum is an `unsigned int`. -/
def countNetmaskBits (bytes : List Nat) : Nat :=
  bytes.foldl (fun n b => (n + countl_one b) % 2 ^ 32) 0

/-- The member `boost::asio::ip::address::is_v4`. -/
def IpAddress.is_v4 : IpAddress → Bool
  | .v4 _ => true
  | .v6 _ => false

/-- The member `boost::asio::ip::address::is_v6`. -/
def IpAddress.is_v6 : IpAddress → Bool
  | .v4 _ => false
  | .v6 _ => true

/-- The bytes of an address: `to_v4().to_bytes()` or `to_v6().to_bytes()`. -/
def IpAddress.to_bytes : IpAddress → List Nat
  | .v4 bytes => bytes
  | .v6 bytes => bytes

/-- The file-local overload `countNetmaskBits(boost::asio::ip::address const& netmask)`. -/
def countNetmaskBitsOf (netmask : IpAddress) : Nat :=
  if netmask.is_v4 then countNetmaskBits netmask.to_bytes
  else if netmask.is_v6 then countNetmaskBits netmask.to_bytes
  else 0

/-- The constructor `Address(boost::asio::ip::address t_address, std::size_t t_netmask)`;
the other members keep their default member initialisers. -/
def Address.new (t_address : IpAddress) (t_netmask : Nat) : Address :=
  { address := t_address, netmask := t_netmask }

/-- The constructor `Address(address, address_v4 const& t_netmask)`; the netmask is given
by its four bytes. -/
def Address.ofNetmaskV4 (t_address : IpAddress) (t_netmask : List Nat) : Address :=
  Address.new t_address (countNetmaskBits t_netmask)

/-- The constructor `Address(address, address_v6 const& t_netmask)`; the netmask is given
by its sixteen bytes. -/
def Address.ofNetmaskV6 (t_address : IpAddress) (t_netmask : List Nat) : Address :=
  Address.new t_address (countNetmaskBits t_netmask)

/-- The constructor `Address(address, address const& t_netmask)`. -/
def Address.ofNetmask (t_address : IpAddress) (t_netmask : IpAddress) : Address :=
  Address.new t_address (countNetmaskBitsOf t_netmask)

/-- The netmask of `nbytes` bytes whose first `n` bits are one and whose other bits are
zero. -/
def prefixMask (nbytes n : Nat) : List Nat :=
  (List.range nbytes).map (fun i =>
    if 8 * (i + 1) ≤ n then 255 else if n ≤ 8 * i then 0 else 256 - 2 ^ (8 - (n - 8 * i)))

/-- An `RTM_NEWLINK` message that consists of its header only: `nlmsg_len` is 16,
`nlmsg_seq` and `nlmsg_pid` are 0. -/
def bareLinkMsg : List Nat := encodeMsg RTM_NEWLINK 0 0 0 []

/-- A message of the unrecognised type 100 whose 12 bytes of payload read as an
`IFLA_IFNAME` attribute with the string `xy`, followed by four zero bytes. -/
def strayNameMsg : List Nat := encodeMsg 100 0 0 0 [7, 0, 3, 0, 120, 121, 0, 0, 0, 0, 0, 0]

/-- The message types on which the loop of `receive` acts: the terminator and the six
entity types. -/
def handledType (t : Nat) : Prop :=
  t = NLMSG_DONE ∨ t = RTM_NEWROUTE ∨ t = RTM_DELROUTE ∨ t = RTM_NEWADDR ∨ t = RTM_DELADDR ∨
    t = RTM_NEWLINK ∨ t = RTM_DELLINK

/-- The byte string `m` is a well-formed, 4-byte-aligned message of a type on which the
loop of `receive` does not act. -/
def OtherMessage (m : List Nat) : Prop :=
  ∃ h : nlmsghdr, WireMessage m h ∧ ¬ handledType h.nlmsg_type

/-- The byte string `m` can stand first in a datagram and reach the walk: its header does
not have the dump-interrupted flag, and its type is neither `NLMSG_ERROR` nor
`NLMSG_NOOP`. -/
def PassesFirstChecks (m : List Nat) : Prop :=
  ∃ h : nlmsghdr, WireMessage m h ∧ h.nlmsg_flags &&& NLM_F_DUMP_INTR = 0 ∧
    h.nlmsg_type ≠ NLMSG_ERROR ∧ h.nlmsg_type ≠ NLMSG_NOOP

/-- The byte string `m` is a notification for a socket with pid `ownPid`: a well-formed
route, address or link message (`NEW` or `DEL`) whose `nlmsg_pid` is not `ownPid` and that
decodes, on its own, to the entity held by `e`. -/
def Notice (if_indextoname : Nat → Option (List Nat)) (ownPid : Nat) (m : List Nat)
    (e : ResponseTypes) : Prop :=
  ∃ h : nlmsghdr, WireMessage m h ∧ h.nlmsg_pid ≠ ownPid ∧
    (((h.nlmsg_type = RTM_NEWROUTE ∨ h.nlmsg_type = RTM_DELROUTE) ∧
        ∃ v, parse_route if_indextoname m 0 (NLMSG_DATA 0) = .ok v ∧ e = .Route v) ∨
      ((h.nlmsg_type = RTM_NEWADDR ∨ h.nlmsg_type = RTM_DELADDR) ∧
        ∃ v, parse_address m 0 (NLMSG_DATA 0) = .ok v ∧ e = .Address v) ∨
      ((h.nlmsg_type = RTM_NEWLINK ∨ h.nlmsg_type = RTM_DELLINK) ∧
        ∃ v, parse_link m 0 (NLMSG_DATA 0) = .ok v ∧ e = .Interface v))

/-- The byte string `m` is a well-formed route message that the route decoder rejects, on
its own, with `InvalidFamily`. -/
def BadFamilyRoute (if_indextoname : Nat → Option (List Nat)) (m : List Nat) : Prop :=
  ∃ h : nlmsghdr, WireMessage m h ∧
    (h.nlmsg_type = RTM_NEWROUTE ∨ h.nlmsg_type = RTM_DELROUTE) ∧
    parse_route if_indextoname m 0 (NLMSG_DATA 0) = .error (.socket .InvalidFamily)

/-- A well-formed message of the unrecognised type 100 with a four-byte payload. -/
def strayMsg : List Nat := encodeMsg 100 0 0 0 [0, 0, 0, 0]

/-- The header of `strayMsg`. -/
def strayHeader : nlmsghdr :=
  { nlmsg_len := 20, nlmsg_type := 100, nlmsg_flags := 0, nlmsg_seq := 0, nlmsg_pid := 0 }

/-- The header of `sampleAddrMsg`. -/
def sampleAddrHeader : nlmsghdr :=
  { nlmsg_len := 32, nlmsg_type := RTM_NEWADDR, nlmsg_flags := 0, nlmsg_seq := 0,
    nlmsg_pid := 0 }

/-- An `RTM_NEWROUTE` notification of the unsupported family `AF_PACKET` (17). -/
def badFamilyRouteMsg : List Nat :=
  encodeMsg RTM_NEWROUTE 0 0 0 [17, 0, 0, 0, 254, 3, 0, 1, 0, 0, 0, 0]

/-- The route request `{1, 4242}` of family `AF_INET` with one route accumulated. -/
def activeRouteMsg : Message :=
  Message.mk (.RouteRequest ((Request.new sizeof_rtmsg RTM_GETROUTE 2 769 1 4242).AddItem
    sampleRoute))

/-- A socket with pid 4242 on which `activeRouteMsg` is the active request. -/
def activeRouteSocket : Socket := Socket.mk 4242 3 1 (some activeRouteMsg)

/-- The actions of the entities that a result of `receive` holds. -/
def ResponseTypes.actions : ResponseTypes → List Action
  | .AddressResponse r => r.data.map (fun v => v.action)
  | .LinkResponse r => r.data.map (fun v => v.action)
  | .RouteResponse r => r.data.map (fun v => v.action)
  | .Address a => [a.action]
  | .Interface i => [i.action]
  | .Route r => [r.action]

/-- The actions of the entities in the accumulator of a request. -/
def Message.actions (m : Message) : List Action :=
  match m.m_request with
  | .monostate => []
  | .LinkRequest r => r.response.map (fun v => v.action)
  | .RouteRequest r => r.response.map (fun v => v.action)
  | .AddressRequest r => r.response.map (fun v => v.action)

/-- The actions of the entities in the accumulator of the active request of a socket. -/
def Socket.actions (sk : Socket) : List Action :=
  match sk.m_activeRequest with
  | none => []
  | some m => m.actions

/-- Every action of the list is `New` or `Del`. -/
def ActionsKnown (l : List Action) : Prop := ∀ a ∈ l, a = .New ∨ a = .Del

/-- What a call made on the socket `sk` has done to the accumulator when the socket is
`sk1` afterwards: the slot is empty, or it was and is occupied and the accumulator is the
one of `sk` followed by entities with the action `New` or `Del`. -/
def Socket.appendsKnown (sk sk1 : Socket) : Prop :=
  sk1.m_activeRequest = none ∨
    ∃ new, ActionsKnown new ∧ sk.m_activeRequest.isSome = true ∧
      sk1.actions = sk.actions ++ new

/-- The entities of a result of a call made on the socket `sk` have the action `New` or
`Del`, except for those that the accumulator of `sk` held before the call. -/
def ResultKnown (sk : Socket) (r : ResponseTypes) : Prop :=
  ∃ new, ActionsKnown new ∧ (r.actions = new ∨ r.actions = sk.actions ++ new)

/-- A walk that started on the socket `sk` has appended only entities with the action
`New` or `Del`, and what it returns or holds consists of such entities and of those the
accumulator held before. -/
def Walk.known (sk : Socket) : Walk → Prop
  | .returned res sk1 => sk.appendsKnown sk1 ∧ ∀ r, res = .ok r → ResultKnown sk r
  | .finished response sk1 =>
    sk.appendsKnown sk1 ∧ ∀ r, response = some r → ActionsKnown r.actions

/-- The request kind of a message; `none` for the empty alternative `std::monostate`,
which no constructor of `Message` produces. -/
def Message.kind (m : Message) : Option Kind :=
  match m.m_request with
  | .monostate => none
  | .LinkRequest _ => some .LinkRequest
  | .RouteRequest _ => some .RouteRequest
  | .AddressRequest _ => some .AddressRequest

/-- The identity and the kind of the active request, if the slot is occupied. -/
def Socket.activeKey (sk : Socket) : Option (Id × Option Kind) :=
  sk.m_activeRequest.map (fun m => (m.GetId, m.kind))

/-- The active request of the socket, if any, holds a request of one of the three kinds,
as every `Message` that `send_request` constructs does. -/
def Socket.typed (sk : Socket) : Prop :=
  ∀ m, sk.m_activeRequest = some m → m.kind ≠ none

/-- The message `m1` is the message `m0` with elements appended to its accumulator: the
same kind, the same header and body, and a response list that extends that of `m0`. -/
def Message.grownFrom (m1 m0 : Message) : Prop :=
  match m0.m_request, m1.m_request with
  | .monostate, .monostate => True
  | .LinkRequest r0, .LinkRequest r1 => ∃ vs, r1 = { r0 with response := r0.response ++ vs }
  | .RouteRequest r0, .RouteRequest r1 => ∃ vs, r1 = { r0 with response := r0.response ++ vs }
  | .AddressRequest r0, .AddressRequest r1 =>
    ∃ vs, r1 = { r0 with response := r0.response ++ vs }
  | _, _ => False

/-- A walk that started on the socket `sk` and did not return a value has left the
identity and the kind in the active slot as they were. -/
def Walk.keeps (sk : Socket) : Walk → Prop
  | .returned (.error _) sk1 => sk1.activeKey = sk.activeKey
  | .returned (.ok _) _ => True
  | .finished _ sk1 => sk1.activeKey = sk.activeKey

/-- One pass of the loop that started on the socket `sk` has left the identity and the
kind in the active slot as they were, unless it returned a value. -/
def WalkStep.keeps (sk : Socket) : WalkStep → Prop
  | .leave w => w.keeps sk
  | .next _ _ _ sk1 => sk1.activeKey = sk.activeKey

/-- One pass of the loop that started on the socket `sk` has appended only entities with
the action `New` or `Del`, and what it returns or holds consists of such entities and of
those the accumulator held before. -/
def WalkStep.known (sk : Socket) : WalkStep → Prop
  | .leave w => w.known sk
  | .next _ _ response sk1 =>
    sk.appendsKnown sk1 ∧ ∀ r, response = some r → ActionsKnown r.actions

/-- The conditions on one message of a route dump with the identity `(seq, pid)`: a
well-formed, 4-byte-aligned `RTM_NEWROUTE` or `RTM_DELROUTE` message without the
dump-interrupted flag whose `rtm_family` is `AF_INET` or `AF_INET6`.  Nothing is asked of
the attributes. -/
def RouteDumpMessage (seq pid : Nat) (m : List Nat) : Prop :=
  ∃ h : nlmsghdr, WireMessage m h ∧
    (h.nlmsg_type = RTM_NEWROUTE ∨ h.nlmsg_type = RTM_DELROUTE) ∧
    h.nlmsg_flags &&& NLM_F_DUMP_INTR = 0 ∧ h.nlmsg_seq = seq ∧ h.nlmsg_pid = pid ∧
    ∃ fam, rd8 m (NLMSG_DATA 0) = .ok fam ∧ (fam = AF_INET ∨ fam = AF_INET6)

/-- The route 10.0.0.0/24 on the interface with index 7, as a message of the dump
`{1, 4242}`: the message of `sampleNetRouteMsg` with another interface index. -/
def vanishedLinkRouteMsg : List Nat :=
  newRouteV4Msg 1 4242 24 (encodeAttr RTA_DST [10, 0, 0, 0] ++ encodeAttr RTA_OIF (le32 7))

/-- The header of `vanishedLinkRouteMsg`. -/
def vanishedLinkRouteHeader : nlmsghdr :=
  { nlmsg_len := 44, nlmsg_type := RTM_NEWROUTE, nlmsg_flags := NLM_F_MULTI, nlmsg_seq := 1,
    nlmsg_pid := 4242 }

/-- A route message of the dump `{1, 4242}` with family `AF_INET` and the destination
length 33, above the 32 bits of the family. -/
def overlongRouteMsg : List Nat :=
  newRouteV4Msg 1 4242 33 (encodeAttr RTA_DST [10, 0, 0, 0])

/-- A socket with pid 4242 on which the route request `{1, 4242}` is active with an empty
accumulator. -/
def freshRouteSocket : Socket :=
  Socket.mk 4242 3 1 (some (Message.new .RouteRequest 2 769 1 4242))

/-- An `if_indextoname` that knows interface 7 as `eth1` and no other. -/
def sevenIfNames (i : Nat) : Option (List Nat) :=
  if i = 7 then some [101, 116, 104, 49] else none

/-! ## Theorems -/

/-! ### The socket changes inside `receive` only by popping and appending -/

theorem Socket.with_self (sk : Socket) :
    { sk with m_activeRequest := sk.m_activeRequest } = sk := by
  cases sk; rfl

theorem PopRequest_steps (sk : Socket) (id : Id) : sk.Steps (sk.PopRequest id).2 := by
  unfold Socket.PopRequest
  split
  · exact .refl
  · split
    · exact .refl
    · rename_i m hm _
      exact .single (.pop sk m hm)

theorem HandleDone_steps (sk : Socket) (buf : List Nat) (header : Nat) :
    sk.Steps (sk.HandleDone buf header).2 := by
  unfold Socket.HandleDone
  split
  · exact .refl
  · split
    · exact .refl
    · split
      · rename_i h
        have h2 := congrArg Prod.snd h
        simp only at h2
        rw [← h2]; exact PopRequest_steps sk _
      · rename_i h
        have h2 := congrArg Prod.snd h
        simp only at h2
        rw [← h2]; exact PopRequest_steps sk _

theorem addResponse_steps (sk : Socket) (add : Message → Except Failure Unit × Message)
    (hadd : ∀ m, sk.m_activeRequest = some m →
      sk.Steps { sk with m_activeRequest := some (add m).2 })
    (id : Id) : sk.Steps (sk.addResponse add id).2 := by
  unfold Socket.addResponse
  split
  · exact .refl
  · split
    · exact .refl
    · rename_i m hm _
      exact hadd m hm

theorem AddResponseRoute_steps (sk : Socket) (v : Route) (m : Message)
    (hm : sk.m_activeRequest = some m) :
    sk.Steps { sk with m_activeRequest := some (m.AddResponseRoute v).2 } := by
  unfold Message.AddResponseRoute
  split
  · rename_i r hr
    refine .single (.addRoute sk r v ?_)
    rw [hm]; cases m; simp_all
  · simp only [← hm, Socket.with_self]; exact .refl

theorem AddResponseAddress_steps (sk : Socket) (v : Address) (m : Message)
    (hm : sk.m_activeRequest = some m) :
    sk.Steps { sk with m_activeRequest := some (m.AddResponseAddress v).2 } := by
  unfold Message.AddResponseAddress
  split
  · rename_i r hr
    refine .single (.addAddress sk r v ?_)
    rw [hm]; cases m; simp_all
  · simp only [← hm, Socket.with_self]; exact .refl

theorem AddResponseInterface_steps (sk : Socket) (v : Interface) (m : Message)
    (hm : sk.m_activeRequest = some m) :
    sk.Steps { sk with m_activeRequest := some (m.AddResponseInterface v).2 } := by
  unfold Message.AddResponseInterface
  split
  · rename_i r hr
    refine .single (.addLink sk r v ?_)
    rw [hm]; cases m; simp_all
  · simp only [← hm, Socket.with_self]; exact .refl

theorem handleDecoded_steps {α : Type} (sk : Socket) (buf : List Nat) (header : Nat)
    (parsed : Except Failure α) (add : α → Message → Except Failure Unit × Message)
    (hadd : ∀ v m, sk.m_activeRequest = some m →
      sk.Steps { sk with m_activeRequest := some (add v m).2 }) :
    sk.Steps (sk.handleDecoded buf header parsed add).2 := by
  unfold Socket.handleDecoded
  split
  · exact .refl
  · split
    · exact .refl
    · split
      · exact .refl
      · split
        · exact .refl
        · rename_i v _ _ _ _ _ _ _
          split
          · rename_i h
            have h2 := congrArg Prod.snd h
            simp only at h2
            rw [← h2]; exact addResponse_steps sk (add v) (hadd v) _
          · rename_i h
            have h2 := congrArg Prod.snd h
            simp only at h2
            rw [← h2]; exact addResponse_steps sk (add v) (hadd v) _

theorem HandleRoute_steps (ifx : Nat → Option (List Nat)) (sk : Socket) (buf : List Nat)
    (header rtMsg : Nat) : sk.Steps (sk.HandleRoute ifx buf header rtMsg).2 :=
  handleDecoded_steps sk buf header _ _ (fun v m hm => AddResponseRoute_steps sk v m hm)

theorem HandleAddress_steps (sk : Socket) (buf : List Nat)
    (header ifMsg : Nat) : sk.Steps (sk.HandleAddress buf header ifMsg).2 :=
  handleDecoded_steps sk buf header _ _ (fun v m hm => AddResponseAddress_steps sk v m hm)

theorem HandleLink_steps (sk : Socket) (buf : List Nat)
    (header ifMsg : Nat) : sk.Steps (sk.HandleLink buf header ifMsg).2 :=
  handleDecoded_steps sk buf header _ _ (fun v m hm => AddResponseInterface_steps sk v m hm)

theorem walkBody_steps (ifx : Nat → Option (List Nat)) (buf : List Nat)
    (nlHeader nlHeaderLen : Nat) (response : Option ResponseTypes) (sk : Socket) :
    sk.Steps (Socket.walkBody ifx buf nlHeader nlHeaderLen response sk).socket := by
  unfold Socket.walkBody
  have hR := HandleRoute_steps ifx sk buf nlHeader (NLMSG_DATA nlHeader)
  have hA := HandleAddress_steps sk buf nlHeader (NLMSG_DATA nlHeader)
  have hL := HandleLink_steps sk buf nlHeader (NLMSG_DATA nlHeader)
  have hD := HandleDone_steps sk buf nlHeader
  repeat' split
  all_goals first
    | exact .refl
    | exact hD
    | (rename_i h; rw [h] at hR; exact hR)
    | (rename_i h; rw [h] at hA; exact hA)
    | (rename_i h; rw [h] at hL; exact hL)

theorem walk_steps (ifx : Nat → Option (List Nat)) (buf : List Nat) (fuel : Nat) :
    ∀ (nlHeader nlHeaderLen : Nat) (response : Option ResponseTypes) (sk : Socket),
      sk.Steps (Socket.walk ifx buf fuel nlHeader nlHeaderLen response sk).socket := by
  induction fuel with
  | zero => intro _ _ _ sk; exact .refl
  | succ fuel ih =>
    intro nlHeader nlHeaderLen response sk
    have hb := walkBody_steps ifx buf nlHeader nlHeaderLen response sk
    unfold Socket.walk
    split
    · rename_i h; rw [h] at hb; exact hb
    · rename_i h; rw [h] at hb; exact hb.trans (ih _ _ _ _)

theorem scan_steps (ifx : Nat → Option (List Nat)) (buf : List Nat)
    (response : Option ResponseTypes) (sk : Socket) :
    sk.Steps (Socket.scan ifx buf response sk).socket := by
  unfold Socket.scan
  repeat' split
  all_goals first
    | exact .refl
    | exact HandleDone_steps sk buf 0
    | exact walk_steps ifx buf _ _ _ _ _

theorem receive_loop_steps (ifx : Nat → Option (List Nat)) (mode : ReceiveMode)
    (events : List RecvEvent) :
    ∀ (response : Option ResponseTypes) (sk : Socket),
      sk.Steps (Socket.receive_loop ifx mode events response sk).socket := by
  induction events with
  | nil => intro response sk; unfold Socket.receive_loop; split <;> exact .refl
  | cons ev rest ih =>
    intro response sk
    cases ev with
    | peekError e => exact .refl
    | readError e => exact .refl
    | datagram buf =>
      have hs := scan_steps ifx buf response sk
      unfold Socket.receive_loop
      split
      · rename_i h; rw [h] at hs; exact hs
      · rename_i h; rw [h] at hs
        split
        · exact hs.trans (ih _ _)
        · split <;> exact hs

theorem receive_steps (ifx : Nat → Option (List Nat)) (mode : ReceiveMode)
    (sk : Socket) (events : List RecvEvent) :
    sk.Steps (sk.receive ifx mode events).socket :=
  receive_loop_steps ifx mode events none sk

/-! ### Reading encoded fields -/

theorem rd8_cons_zero (a : Nat) (l : List Nat) : rd8 (a :: l) 0 = .ok (a % 256) := rfl

theorem rd8_cons_succ (a : Nat) (l : List Nat) (n : Nat) : rd8 (a :: l) (n + 1) = rd8 l n := rfl

theorem rd8_append_right (pre l : List Nat) (k : Nat) :
    rd8 (pre ++ l) (pre.length + k) = rd8 l k := by
  induction pre with
  | nil => simp
  | cons a pre ih =>
    have : (a :: pre).length + k = (pre.length + k) + 1 := by simp; omega
    rw [List.cons_append, this, rd8_cons_succ, ih]

theorem rd16_append_right (pre l : List Nat) (k : Nat) :
    rd16 (pre ++ l) (pre.length + k) = rd16 l k := by
  unfold rd16
  rw [rd8_append_right, Nat.add_assoc, rd8_append_right]

theorem rd32_append_right (pre l : List Nat) (k : Nat) :
    rd32 (pre ++ l) (pre.length + k) = rd32 l k := by
  unfold rd32
  rw [rd16_append_right, Nat.add_assoc, rd16_append_right]

theorem bind_ok {α β : Type} (a : α) (f : α → Except Failure β) :
    (Except.ok a >>= f) = f a := rfl

theorem bind_error {α β : Type} (e : Failure) (f : α → Except Failure β) :
    ((Except.error e : Except Failure α) >>= f) = .error e := rfl

theorem pure_eq_ok {α : Type} (a : α) : (pure a : Except Failure α) = .ok a := rfl

theorem rd16_cons2 (a b : Nat) (l : List Nat) :
    rd16 (a :: b :: l) 0 = .ok (a % 256 + 256 * (b % 256)) := rfl

theorem rd32_cons4 (a b c d : Nat) (l : List Nat) :
    rd32 (a :: b :: c :: d :: l) 0
      = .ok (a % 256 + 256 * (b % 256) + 65536 * (c % 256 + 256 * (d % 256))) := rfl

theorem rd16_le16 (v : Nat) (l : List Nat) : rd16 (le16 v ++ l) 0 = .ok (v % 65536) := by
  simp only [le16, List.cons_append, List.nil_append, rd16_cons2]
  congr 1; omega

theorem rd32_le32 (v : Nat) (l : List Nat) : rd32 (le32 v ++ l) 0 = .ok (v % 2 ^ 32) := by
  simp only [le32, le16, List.cons_append, List.nil_append, rd32_cons4]
  congr 1; omega

theorem le16_length (v : Nat) : (le16 v).length = 2 := rfl

theorem le32_length (v : Nat) : (le32 v).length = 4 := rfl

/-- The header fields of an encoded message read back, at any place in a buffer. -/
theorem encodeMsg_header (pre post : List Nat) (t f s p : Nat) (payload : List Nat) :
    rd32 (pre ++ encodeMsg t f s p payload ++ post) pre.length
        = .ok ((sizeof_nlmsghdr + payload.length) % 2 ^ 32) ∧
    rd16 (pre ++ encodeMsg t f s p payload ++ post) (pre.length + 4) = .ok (t % 65536) ∧
    rd16 (pre ++ encodeMsg t f s p payload ++ post) (pre.length + 6) = .ok (f % 65536) ∧
    rd32 (pre ++ encodeMsg t f s p payload ++ post) (pre.length + 8) = .ok (s % 2 ^ 32) ∧
    rd32 (pre ++ encodeMsg t f s p payload ++ post) (pre.length + 12) = .ok (p % 2 ^ 32) := by
  have e : ∀ k, rd32 (pre ++ encodeMsg t f s p payload ++ post) (pre.length + k)
      = rd32 (encodeMsg t f s p payload ++ post) k := by
    intro k; rw [List.append_assoc, rd32_append_right]
  have e16 : ∀ k, rd16 (pre ++ encodeMsg t f s p payload ++ post) (pre.length + k)
      = rd16 (encodeMsg t f s p payload ++ post) k := by
    intro k; rw [List.append_assoc, rd16_append_right]
  have e0 := e 0
  rw [Nat.add_zero] at e0
  rw [e0, e16, e16, e, e]
  unfold encodeMsg
  simp only [List.append_assoc]
  refine ⟨rd32_le32 _ _, ?_, ?_, ?_, ?_⟩
  · have := rd16_append_right (le32 (sizeof_nlmsghdr + payload.length))
      (le16 t ++ (le16 f ++ (le32 s ++ (le32 p ++ (payload ++ post))))) 0
    rw [le32_length] at this
    rw [this, rd16_le16]
  · have := rd16_append_right (le32 (sizeof_nlmsghdr + payload.length) ++ le16 t)
      (le16 f ++ (le32 s ++ (le32 p ++ (payload ++ post)))) 0
    simp only [List.length_append, le32_length, le16_length, List.append_assoc] at this
    rw [this, rd16_le16]
  · have := rd32_append_right (le32 (sizeof_nlmsghdr + payload.length) ++ le16 t ++ le16 f)
      (le32 s ++ (le32 p ++ (payload ++ post))) 0
    simp only [List.length_append, le32_length, le16_length, List.append_assoc] at this
    rw [this, rd32_le32]
  · have := rd32_append_right
      (le32 (sizeof_nlmsghdr + payload.length) ++ le16 t ++ le16 f ++ le32 s)
      (le32 p ++ (payload ++ post)) 0
    simp only [List.length_append, le32_length, le16_length, List.append_assoc] at this
    rw [this, rd32_le32]

/-! ### Frame of `receive`, sequence numbers of `send_request` -/

theorem Step1_core {a b : Socket} (h : Socket.Step1 a b) :
    b.m_pid = a.m_pid ∧ b.m_socket = a.m_socket ∧ b.m_seqNum = a.m_seqNum := by
  cases h <;> exact ⟨rfl, rfl, rfl⟩

theorem Steps_core {a b : Socket} (h : a.Steps b) :
    b.m_pid = a.m_pid ∧ b.m_socket = a.m_socket ∧ b.m_seqNum = a.m_seqNum := by
  induction h with
  | refl => exact ⟨rfl, rfl, rfl⟩
  | tail _ h1 ih =>
    obtain ⟨h1a, h1b, h1c⟩ := Step1_core h1
    obtain ⟨h2a, h2b, h2c⟩ := ih
    exact ⟨h1a.trans h2a, h1b.trans h2b, h1c.trans h2c⟩

theorem Message.new_GetId (kind : Kind) (family : Int) (flags seq pid : Nat) :
    (Message.new kind family flags seq pid).GetId = { seq := seq, pid := pid } := by
  cases kind <;> rfl

theorem send_request_idle (kind : Kind) (family : Int) (sendErr : Option Nat) (sk : Socket)
    (h : sk.m_activeRequest = none) :
    sk.send_request kind family sendErr =
      ((match sendErr with
        | some errno => .error (.os errno)
        | none => .ok { seq := (sk.m_seqNum + 1) % 2 ^ 32, pid := sk.m_pid },
        { sk with
          m_seqNum := (sk.m_seqNum + 1) % 2 ^ 32
          m_activeRequest := some (Message.new kind family (NLM_F_DUMP ||| NLM_F_REQUEST)
            ((sk.m_seqNum + 1) % 2 ^ 32) sk.m_pid) }),
       [(Message.new kind family (NLM_F_DUMP ||| NLM_F_REQUEST)
            ((sk.m_seqNum + 1) % 2 ^ 32) sk.m_pid).GetHeader]) := by
  unfold Socket.send_request Socket.send
  simp only [h, Option.isSome_none, Bool.false_eq_true, if_false, Message.new_GetId]
  cases sendErr <;> rfl

theorem send_request_active (kind : Kind) (family : Int) (sendErr : Option Nat) (sk : Socket)
    (h : sk.m_activeRequest.isSome = true) :
    sk.send_request kind family sendErr = ((.error (.socket .Busy), sk), []) := by
  simp [Socket.send_request, h]

/-- After a `send_request` the counter is the old one or its successor modulo 2^32; an
identity that is returned carries the new counter. -/
theorem send_request_counter (kind : Kind) (family : Int) (sendErr : Option Nat)
    (sk : Socket) :
    ((sk.send_request kind family sendErr).1.2.m_seqNum = sk.m_seqNum ∨
      (sk.send_request kind family sendErr).1.2.m_seqNum = (sk.m_seqNum + 1) % 2 ^ 32) ∧
    ∀ id, (sk.send_request kind family sendErr).1.1 = .ok id →
      id.seq = (sk.m_seqNum + 1) % 2 ^ 32 ∧
      (sk.send_request kind family sendErr).1.2.m_seqNum = (sk.m_seqNum + 1) % 2 ^ 32 := by
  cases h : sk.m_activeRequest with
  | some m =>
    have hb := send_request_active kind family sendErr sk (by simp [h])
    rw [hb]
    exact ⟨Or.inl rfl, fun id hid => by cases hid⟩
  | none =>
    rw [send_request_idle kind family sendErr sk h]
    refine ⟨Or.inr rfl, fun id hid => ?_⟩
    cases sendErr with
    | some e => cases hid
    | none =>
      simp only [Except.ok.injEq] at hid
      subst hid
      exact ⟨rfl, rfl⟩

theorem receive_core (ifx : Nat → Option (List Nat)) (mode : ReceiveMode) (sk : Socket)
    (events : List RecvEvent) :
    (sk.receive ifx mode events).socket.m_pid = sk.m_pid ∧
    (sk.receive ifx mode events).socket.m_socket = sk.m_socket ∧
    (sk.receive ifx mode events).socket.m_seqNum = sk.m_seqNum :=
  Steps_core (receive_steps ifx mode sk events)

/-- Without wrap-around every identity returned in a run carries a sequence number above
the counter at the start and at most the counter plus the number of sends; the sequence
numbers increase strictly. -/
theorem run_bounds (ifx : Nat → Option (List Nat)) (calls : List Call) :
    ∀ sk : Socket, sk.m_seqNum + sendCount calls < 2 ^ 32 →
      (∀ id ∈ Socket.run ifx sk calls,
        sk.m_seqNum < id.seq ∧ id.seq ≤ sk.m_seqNum + sendCount calls) ∧
      (Socket.run ifx sk calls).Pairwise (fun a b => a.seq < b.seq) := by
  induction calls with
  | nil => intro sk _; simp [Socket.run]
  | cons c calls ih =>
    intro sk h
    cases c with
    | send_request kind family sendErr =>
      obtain ⟨hc, hid⟩ := send_request_counter kind family sendErr sk
      simp only [sendCount] at h ⊢
      have hmod : (sk.m_seqNum + 1) % 2 ^ 32 = sk.m_seqNum + 1 := Nat.mod_eq_of_lt (by omega)
      rw [hmod] at hc hid
      unfold Socket.run
      split
      · rename_i id sk1 tr heq
        have e1 : (sk.send_request kind family sendErr).1.1 = .ok id := by rw [heq]
        have e2 : (sk.send_request kind family sendErr).1.2 = sk1 := by rw [heq]
        obtain ⟨hs, hn⟩ := hid id e1
        rw [e2] at hn
        obtain ⟨ihb, ihp⟩ := ih sk1 (by omega)
        refine ⟨?_, ?_⟩
        · intro x hx
          rcases List.mem_cons.1 hx with hx | hx
          · subst hx; omega
          · have := ihb x hx; omega
        · refine List.pairwise_cons.2 ⟨?_, ihp⟩
          intro x hx
          have := ihb x hx; omega
      · rename_i e sk1 tr heq
        have e2 : (sk.send_request kind family sendErr).1.2 = sk1 := by rw [heq]
        rw [e2] at hc
        obtain ⟨ihb, ihp⟩ := ih sk1 (by omega)
        refine ⟨?_, ihp⟩
        intro x hx
        have := ihb x hx; omega
    | receive mode events =>
      obtain ⟨_, _, hn⟩ := receive_core ifx mode sk events
      simp only [sendCount] at h ⊢
      obtain ⟨ihb, ihp⟩ := ih (sk.receive ifx mode events).socket (by omega)
      rw [hn] at ihb
      unfold Socket.run
      simp only []
      split
      · exact ⟨ihb, ihp⟩
      · split
        · exact ⟨ihb, ihp⟩
        · simp

/-! ### Completing a dump with its terminator -/

theorem receive_doneMsg (ifx : Nat → Option (List Nat)) (mode : ReceiveMode) (sk : Socket)
    (m : Message) (s p : Nat) (hs : s < 2 ^ 32) (hp : p < 2 ^ 32)
    (hm : sk.m_activeRequest = some m) (hid : m.GetId = { seq := s, pid := p })
    (rest : List RecvEvent) :
    sk.receive ifx mode (.datagram (doneMsg s p) :: rest)
      = { result := m.GetResponse, socket := { sk with m_activeRequest := none },
          pending := rest } := by
  obtain ⟨h0, h4, h6, h8, h12⟩ := encodeMsg_header [] [] NLMSG_DONE NLM_F_MULTI s p [0, 0, 0, 0]
  simp only [List.nil_append, List.append_nil, List.length_nil, Nat.zero_add] at h0 h4 h6 h8 h12
  rw [Nat.mod_eq_of_lt hs] at h8
  rw [Nat.mod_eq_of_lt hp] at h12
  unfold Socket.receive Socket.receive_loop Socket.scan
  have hflag : (2 &&& 16 : Nat) = 0 := by decide
  simp only [doneMsg, h6, h4]
  simp [hflag, Socket.HandleDone, h8, h12, Socket.PopRequest, hm, hid]

theorem run_dumpCycles (ifx : Nat → Option (List Nat)) (pid : Nat) (hp : pid < 2 ^ 32)
    (n : Nat) :
    ∀ sk : Socket, sk.m_activeRequest = none → sk.m_pid = pid →
      Socket.run ifx sk (dumpCycles pid sk.m_seqNum n) = idsFrom pid sk.m_seqNum n := by
  induction n with
  | zero => intro sk _ _; rfl
  | succ n ih =>
    intro sk ha hpid
    subst hpid
    unfold dumpCycles idsFrom Socket.run
    rw [send_request_idle _ _ _ sk ha]
    simp only []
    unfold Socket.run
    rw [receive_doneMsg ifx .Wait _ _ ((sk.m_seqNum + 1) % 2 ^ 32) sk.m_pid
      (Nat.mod_lt _ (by norm_num)) hp rfl (Message.new_GetId _ _ _ _ _)]
    simp only [Message.new, Message.GetResponse]
    have := ih { sk with m_seqNum := (sk.m_seqNum + 1) % 2 ^ 32, m_activeRequest := none }
      rfl rfl
    simp only [] at this
    rw [this]

theorem idsFrom_mod (pid seqNum : Nat) (n : Nat) :
    idsFrom pid (seqNum % 2 ^ 32) n = idsFrom pid seqNum n := by
  cases n with
  | zero => rfl
  | succ n =>
    have : (seqNum % 2 ^ 32 + 1) % 2 ^ 32 = (seqNum + 1) % 2 ^ 32 := by omega
    simp only [idsFrom, this]

theorem idsFrom_add (pid : Nat) (a b : Nat) :
    ∀ seqNum, idsFrom pid seqNum (a + b)
      = idsFrom pid seqNum a ++ idsFrom pid ((seqNum + a) % 2 ^ 32) b := by
  induction a with
  | zero =>
    intro seqNum
    rw [Nat.zero_add, Nat.add_zero, idsFrom_mod]
    rfl
  | succ a ih =>
    intro seqNum
    have e : a + 1 + b = (a + b) + 1 := by omega
    have e2 : ((seqNum + 1) % 2 ^ 32 + a) % 2 ^ 32 = (seqNum + (a + 1)) % 2 ^ 32 := by omega
    rw [e]
    simp only [idsFrom, List.cons_append]
    rw [ih, e2]

theorem idsFrom_three (pid seqNum : Nat) :
    idsFrom pid seqNum 3 =
      [{ seq := (seqNum + 1) % 2 ^ 32, pid := pid },
       { seq := ((seqNum + 1) % 2 ^ 32 + 1) % 2 ^ 32, pid := pid },
       { seq := (((seqNum + 1) % 2 ^ 32 + 1) % 2 ^ 32 + 1) % 2 ^ 32, pid := pid }] := rfl

theorem idsFrom_one (pid seqNum : Nat) :
    idsFrom pid seqNum 1 = [{ seq := (seqNum + 1) % 2 ^ 32, pid := pid }] := rfl

/-! ### The handlers, case by case -/

theorem PopRequest_match (sk : Socket) (m : Message) (id : Id)
    (hm : sk.m_activeRequest = some m) (hid : m.GetId = id) :
    sk.PopRequest id = (some m, { sk with m_activeRequest := none }) := by
  simp [Socket.PopRequest, hm, hid]

theorem PopRequest_none (sk : Socket) (id : Id) (hm : sk.m_activeRequest = none) :
    sk.PopRequest id = (none, sk) := by
  simp [Socket.PopRequest, hm]

theorem PopRequest_mismatch (sk : Socket) (m : Message) (id : Id)
    (hm : sk.m_activeRequest = some m) (hid : m.GetId ≠ id) :
    sk.PopRequest id = (none, sk) := by
  simp [Socket.PopRequest, hm, hid]

theorem HandleDone_match (sk : Socket) (buf : List Nat) (header seq pid : Nat) (m : Message)
    (hseq : rd32 buf (header + 8) = .ok seq) (hpid : rd32 buf (header + 12) = .ok pid)
    (hm : sk.m_activeRequest = some m) (hid : m.GetId = { seq := seq, pid := pid }) :
    sk.HandleDone buf header = (m.GetResponse, { sk with m_activeRequest := none }) := by
  simp [Socket.HandleDone, hseq, hpid, PopRequest_match sk m _ hm hid]

theorem HandleDone_none (sk : Socket) (buf : List Nat) (header seq pid : Nat)
    (hseq : rd32 buf (header + 8) = .ok seq) (hpid : rd32 buf (header + 12) = .ok pid)
    (hm : sk.m_activeRequest = none) :
    sk.HandleDone buf header = (.error (.socket .MessageIdMismatch), sk) := by
  simp [Socket.HandleDone, hseq, hpid, PopRequest_none sk _ hm]

theorem HandleDone_mismatch (sk : Socket) (buf : List Nat) (header seq pid : Nat)
    (m : Message)
    (hseq : rd32 buf (header + 8) = .ok seq) (hpid : rd32 buf (header + 12) = .ok pid)
    (hm : sk.m_activeRequest = some m) (hid : m.GetId ≠ { seq := seq, pid := pid }) :
    sk.HandleDone buf header = (.error (.socket .MessageIdMismatch), sk) := by
  simp [Socket.HandleDone, hseq, hpid, PopRequest_mismatch sk m _ hm hid]

theorem handleDecoded_foreign {α : Type} (sk : Socket) (buf : List Nat) (header pid : Nat)
    (v : α) (add : α → Message → Except Failure Unit × Message)
    (hpid : rd32 buf (header + 12) = .ok pid) (hne : pid ≠ sk.m_pid) :
    sk.handleDecoded buf header (.ok v) add = (.ok (some v), sk) := by
  simp [Socket.handleDecoded, hpid, hne]

theorem handleDecoded_none {α : Type} (sk : Socket) (buf : List Nat) (header seq : Nat)
    (v : α) (add : α → Message → Except Failure Unit × Message)
    (hpid : rd32 buf (header + 12) = .ok sk.m_pid) (hseq : rd32 buf (header + 8) = .ok seq)
    (hm : sk.m_activeRequest = none) :
    sk.handleDecoded buf header (.ok v) add = (.error (.socket .NoActiveRequest), sk) := by
  simp [Socket.handleDecoded, hpid, hseq, Socket.addResponse, hm]

theorem handleDecoded_mismatch {α : Type} (sk : Socket) (buf : List Nat) (header seq : Nat)
    (v : α) (add : α → Message → Except Failure Unit × Message) (m : Message)
    (hpid : rd32 buf (header + 12) = .ok sk.m_pid) (hseq : rd32 buf (header + 8) = .ok seq)
    (hm : sk.m_activeRequest = some m) (hid : m.GetId ≠ { seq := seq, pid := sk.m_pid }) :
    sk.handleDecoded buf header (.ok v) add = (.error (.socket .MessageIdMismatch), sk) := by
  simp [Socket.handleDecoded, hpid, hseq, Socket.addResponse, hm, hid]

theorem handleDecoded_reject {α : Type} (sk : Socket) (buf : List Nat) (header seq : Nat)
    (v : α) (add : α → Message → Except Failure Unit × Message) (m : Message) (e : Failure)
    (hpid : rd32 buf (header + 12) = .ok sk.m_pid) (hseq : rd32 buf (header + 8) = .ok seq)
    (hm : sk.m_activeRequest = some m) (hid : m.GetId = { seq := seq, pid := sk.m_pid })
    (hadd : add v m = (.error e, m)) :
    sk.handleDecoded buf header (.ok v) add = (.error e, sk) := by
  have hs : { sk with m_activeRequest := some m } = sk := by
    rw [← hm]
  simp [Socket.handleDecoded, hpid, hseq, Socket.addResponse, hm, hid, hadd, hs]

theorem handleDecoded_accept {α : Type} (sk : Socket) (buf : List Nat) (header seq : Nat)
    (v : α) (add : α → Message → Except Failure Unit × Message) (m m1 : Message)
    (hpid : rd32 buf (header + 12) = .ok sk.m_pid) (hseq : rd32 buf (header + 8) = .ok seq)
    (hm : sk.m_activeRequest = some m) (hid : m.GetId = { seq := seq, pid := sk.m_pid })
    (hadd : add v m = (.ok (), m1)) :
    sk.handleDecoded buf header (.ok v) add
      = (.ok none, { sk with m_activeRequest := some m1 }) := by
  simp [Socket.handleDecoded, hpid, hseq, Socket.addResponse, hm, hid, hadd]

/-! ### One pass of the loop at a message of a known type -/

theorem walkBody_route (ifx : Nat → Option (List Nat)) (buf : List Nat)
    (nlHeader nlHeaderLen : Nat) (h : nlmsghdr) (hat : MessageAt buf nlHeader nlHeaderLen h)
    (ht : h.nlmsg_type = RTM_NEWROUTE ∨ h.nlmsg_type = RTM_DELROUTE)
    (response : Option ResponseTypes) (sk : Socket) :
    Socket.walkBody ifx buf nlHeader nlHeaderLen response sk =
      match sk.HandleRoute ifx buf nlHeader (NLMSG_DATA nlHeader) with
      | (.error e, sk1) => .leave (.returned (.error e) sk1)
      | (.ok r, sk1) =>
        .next (nextHeader nlHeader h.nlmsg_len) (nextLen nlHeaderLen h.nlmsg_len)
          (emplaceFirst response (r.map ResponseTypes.Route)) sk1 := by
  obtain ⟨h1, h2, h3, h4, h5, _, _, _⟩ := hat
  have hn : h.nlmsg_type ≠ NLMSG_DONE := by rcases ht with ht | ht <;> rw [ht] <;> decide
  unfold Socket.walkBody
  rw [if_neg (by omega), h2]
  simp only []
  rw [if_neg (by omega), h5]
  simp only []
  rw [if_neg hn, if_pos ht]
  rfl

theorem walkBody_address (ifx : Nat → Option (List Nat)) (buf : List Nat)
    (nlHeader nlHeaderLen : Nat) (h : nlmsghdr) (hat : MessageAt buf nlHeader nlHeaderLen h)
    (ht : h.nlmsg_type = RTM_NEWADDR ∨ h.nlmsg_type = RTM_DELADDR)
    (response : Option ResponseTypes) (sk : Socket) :
    Socket.walkBody ifx buf nlHeader nlHeaderLen response sk =
      match sk.HandleAddress buf nlHeader (NLMSG_DATA nlHeader) with
      | (.error e, sk1) => .leave (.returned (.error e) sk1)
      | (.ok r, sk1) =>
        .next (nextHeader nlHeader h.nlmsg_len) (nextLen nlHeaderLen h.nlmsg_len)
          (emplaceFirst response (r.map ResponseTypes.Address)) sk1 := by
  obtain ⟨h1, h2, h3, h4, h5, _, _, _⟩ := hat
  have hn : h.nlmsg_type ≠ NLMSG_DONE := by rcases ht with ht | ht <;> rw [ht] <;> decide
  have hr : ¬ (h.nlmsg_type = RTM_NEWROUTE ∨ h.nlmsg_type = RTM_DELROUTE) := by
    rcases ht with ht | ht <;> rw [ht] <;> decide
  unfold Socket.walkBody
  rw [if_neg (by omega), h2]
  simp only []
  rw [if_neg (by omega), h5]
  simp only []
  rw [if_neg hn, if_neg hr, if_pos ht]
  rfl

theorem walkBody_link (ifx : Nat → Option (List Nat)) (buf : List Nat)
    (nlHeader nlHeaderLen : Nat) (h : nlmsghdr) (hat : MessageAt buf nlHeader nlHeaderLen h)
    (ht : h.nlmsg_type = RTM_NEWLINK ∨ h.nlmsg_type = RTM_DELLINK)
    (response : Option ResponseTypes) (sk : Socket) :
    Socket.walkBody ifx buf nlHeader nlHeaderLen response sk =
      match sk.HandleLink buf nlHeader (NLMSG_DATA nlHeader) with
      | (.error e, sk1) => .leave (.returned (.error e) sk1)
      | (.ok r, sk1) =>
        .next (nextHeader nlHeader h.nlmsg_len) (nextLen nlHeaderLen h.nlmsg_len)
          (emplaceFirst response (r.map ResponseTypes.Interface)) sk1 := by
  obtain ⟨h1, h2, h3, h4, h5, _, _, _⟩ := hat
  have hn : h.nlmsg_type ≠ NLMSG_DONE := by rcases ht with ht | ht <;> rw [ht] <;> decide
  have hr : ¬ (h.nlmsg_type = RTM_NEWROUTE ∨ h.nlmsg_type = RTM_DELROUTE) := by
    rcases ht with ht | ht <;> rw [ht] <;> decide
  have ha : ¬ (h.nlmsg_type = RTM_NEWADDR ∨ h.nlmsg_type = RTM_DELADDR) := by
    rcases ht with ht | ht <;> rw [ht] <;> decide
  unfold Socket.walkBody
  rw [if_neg (by omega), h2]
  simp only []
  rw [if_neg (by omega), h5]
  simp only []
  rw [if_neg hn, if_neg hr, if_neg ha, if_pos ht]
  rfl

theorem walkBody_done (ifx : Nat → Option (List Nat)) (buf : List Nat)
    (nlHeader nlHeaderLen : Nat) (h : nlmsghdr) (hat : MessageAt buf nlHeader nlHeaderLen h)
    (ht : h.nlmsg_type = NLMSG_DONE) (response : Option ResponseTypes) (sk : Socket) :
    Socket.walkBody ifx buf nlHeader nlHeaderLen response sk =
      match response with
      | some r => .leave (.returned (.ok r) sk)
      | none =>
        .leave (.returned (sk.HandleDone buf nlHeader).1 (sk.HandleDone buf nlHeader).2) := by
  obtain ⟨h1, h2, h3, h4, h5, _, _, _⟩ := hat
  unfold Socket.walkBody
  rw [if_neg (by omega), h2]
  simp only []
  rw [if_neg (by omega), h5]
  simp only []
  rw [if_pos ht]

theorem AddResponseRoute_other (m : Message) (v : Route)
    (h : ∀ r, m.m_request ≠ .RouteRequest r) :
    m.AddResponseRoute v = (.error (.socket .MessageTypeMismatch), m) := by
  unfold Message.AddResponseRoute
  split
  · rename_i r hr; exact absurd hr (h r)
  · rfl

theorem AddResponseAddress_other (m : Message) (v : Address)
    (h : ∀ r, m.m_request ≠ .AddressRequest r) :
    m.AddResponseAddress v = (.error (.socket .MessageTypeMismatch), m) := by
  unfold Message.AddResponseAddress
  split
  · rename_i r hr; exact absurd hr (h r)
  · rfl

theorem AddResponseInterface_other (m : Message) (v : Interface)
    (h : ∀ r, m.m_request ≠ .LinkRequest r) :
    m.AddResponseInterface v = (.error (.socket .MessageTypeMismatch), m) := by
  unfold Message.AddResponseInterface
  split
  · rename_i r hr; exact absurd hr (h r)
  · rfl

/-! ### Locality: a decoder that succeeds on a message alone gives the same result when the
message lies inside a datagram -/

theorem bind_eq_ok {α β : Type} {x : Except Failure α} {f : α → Except Failure β} {b : β}
    (h : (x >>= f) = .ok b) : ∃ a, x = .ok a ∧ f a = .ok b := by
  cases x with
  | error e => cases h
  | ok a => exact ⟨a, rfl, h⟩

theorem rd8_ctx (pre post : List Nat) {m : List Nat} {k v : Nat} (h : rd8 m k = .ok v) :
    rd8 (pre ++ m ++ post) (pre.length + k) = .ok v := by
  rw [List.append_assoc, rd8_append_right]
  unfold rd8 at h ⊢
  simp only [List.get?_eq_getElem?] at h ⊢
  cases hg : m[k]? with
  | none => rw [hg] at h; cases h
  | some b =>
    have hk : k < m.length := by
      rcases Nat.lt_or_ge k m.length with hk | hk
      · exact hk
      · rw [List.getElem?_eq_none hk] at hg; cases hg
    rw [List.getElem?_append_left hk, hg]
    rw [hg] at h
    exact h

theorem rd16_ctx (pre post : List Nat) {m : List Nat} {k v : Nat} (h : rd16 m k = .ok v) :
    rd16 (pre ++ m ++ post) (pre.length + k) = .ok v := by
  unfold rd16 at h ⊢
  obtain ⟨b0, h0, h⟩ := bind_eq_ok h
  obtain ⟨b1, h1, h⟩ := bind_eq_ok h
  rw [rd8_ctx pre post h0, Nat.add_assoc, rd8_ctx pre post h1]
  exact h

theorem rd32_ctx (pre post : List Nat) {m : List Nat} {k v : Nat} (h : rd32 m k = .ok v) :
    rd32 (pre ++ m ++ post) (pre.length + k) = .ok v := by
  unfold rd32 at h ⊢
  obtain ⟨b0, h0, h⟩ := bind_eq_ok h
  obtain ⟨b1, h1, h⟩ := bind_eq_ok h
  rw [rd16_ctx pre post h0, Nat.add_assoc, rd16_ctx pre post h1]
  exact h

theorem rdBytes_ctx (pre post : List Nat) {m : List Nat} (n : Nat) :
    ∀ {k : Nat} {v : List Nat}, rdBytes m k n = .ok v →
      rdBytes (pre ++ m ++ post) (pre.length + k) n = .ok v := by
  induction n with
  | zero => intro k v h; exact h
  | succ n ih =>
    intro k v h
    unfold rdBytes at h ⊢
    obtain ⟨b, hb, h⟩ := bind_eq_ok h
    obtain ⟨r, hr, h⟩ := bind_eq_ok h
    rw [rd8_ctx pre post hb, Nat.add_assoc, ih hr]
    exact h

theorem rdCStr_ctx (pre post : List Nat) {m : List Nat} {k : Nat} {v : List Nat}
    (h : rdCStr m k = .ok v) :
    rdCStr (pre ++ m ++ post) (pre.length + k) = .ok v := by
  unfold rdCStr at h ⊢
  simp only [] at h ⊢
  have hk : k ≤ m.length := by
    rcases Nat.lt_or_ge m.length k with hk | hk
    · rw [List.drop_eq_nil_of_le (Nat.le_of_lt hk)] at h
      simp at h
    · exact hk
  rw [List.append_assoc, List.drop_append, List.drop_append_of_le_length hk, List.map_append,
    List.takeWhile_append]
  generalize List.map (· % 256) (List.drop k m) = t at h ⊢
  by_cases hlt : (List.takeWhile (· ≠ 0) t).length < t.length
  · rw [if_pos hlt] at h
    rw [if_neg (Nat.ne_of_lt hlt), if_pos (by rw [List.length_append]; omega)]
    exact h
  · rw [if_neg hlt] at h
    cases h

theorem AttrTable.at_shift (base : Nat) (tb : AttrTable) (i : Nat) :
    (tb.shift base).at i = (tb.at i).map (base + ·) := by
  unfold AttrTable.at AttrTable.shift
  simp only [List.get?_eq_getElem?]
  rw [List.getElem?_map]
  cases tb[i]? with
  | none => rfl
  | some a => cases a <;> rfl

theorem AttrTable.shift_set (base : Nat) (tb : AttrTable) (i a : Nat) :
    AttrTable.shift base (tb.set i (some a)) = (tb.shift base).set i (some (base + a)) := by
  unfold AttrTable.shift
  rw [List.map_set]
  rfl

theorem AttrTable.shift_replicate (base n : Nat) :
    AttrTable.shift base (List.replicate n none) = List.replicate n none := by
  unfold AttrTable.shift
  rw [List.map_replicate]
  rfl

/-- One pass of the attribute loop inside a datagram does what it does on the message
alone, with every offset moved. -/
theorem parse_rtattr_body_ctx (pre post : List Nat) (MAX : Nat) (m : List Nat)
    (rta len : Nat) (tb : AttrTable) :
    (∀ tb1, parse_rtattr_body MAX m rta len tb = .leave (.ok tb1) →
      parse_rtattr_body MAX (pre ++ m ++ post) (pre.length + rta) len (tb.shift pre.length)
        = .leave (.ok (tb1.shift pre.length))) ∧
    (∀ rta1 len1 tb1, parse_rtattr_body MAX m rta len tb = .next rta1 len1 tb1 →
      parse_rtattr_body MAX (pre ++ m ++ post) (pre.length + rta) len (tb.shift pre.length)
        = .next (pre.length + rta1) len1 (tb1.shift pre.length)) := by
  unfold parse_rtattr_body
  by_cases hl : len < sizeof_rtattr
  · simp only [hl, if_true]
    refine ⟨fun tb1 h => ?_, fun _ _ _ h => ?_⟩
    · injection h with h; injection h with h; rw [h]
    · cases h
  · simp only [hl, if_false]
    cases h1 : rd16 m rta with
    | error e => simp
    | ok rta_len =>
      rw [rd16_ctx pre post h1]
      simp only []
      by_cases hc : rta_len < sizeof_rtattr ∨ len < rta_len
      · simp only [hc, if_true]
        refine ⟨fun tb1 h => ?_, fun _ _ _ h => ?_⟩
        · injection h with h; injection h with h; rw [h]
        · cases h
      · simp only [hc, if_false]
        cases h2 : rd16 m (rta + 2) with
        | error e => simp
        | ok rta_type =>
          rw [Nat.add_assoc, rd16_ctx pre post h2]
          simp only []
          refine ⟨fun _ h => (by cases h), fun rta1 len1 tb1 h => ?_⟩
          injection h with ha hb hc
          subst ha hb hc
          rw [Nat.add_assoc]
          congr 1
          split
          · rw [AttrTable.shift_set]
          · rfl

theorem parse_rtattr_loop_ctx (pre post : List Nat) (MAX : Nat) (m : List Nat) (fuel : Nat) :
    ∀ (rta len : Nat) (tb tb1 : AttrTable) (fuel1 : Nat), fuel ≤ fuel1 →
      parse_rtattr_loop MAX m fuel rta len tb = .ok tb1 →
      parse_rtattr_loop MAX (pre ++ m ++ post) fuel1 (pre.length + rta) len
        (tb.shift pre.length) = .ok (tb1.shift pre.length) := by
  induction fuel with
  | zero => intro _ _ _ _ _ _ h; cases h
  | succ fuel ih =>
    intro rta len tb tb1 fuel1 hf h
    obtain ⟨fuel2, rfl⟩ : ∃ k, fuel1 = k + 1 := ⟨fuel1 - 1, by omega⟩
    obtain ⟨hleave, hnext⟩ := parse_rtattr_body_ctx pre post MAX m rta len tb
    unfold parse_rtattr_loop at h ⊢
    cases hb : parse_rtattr_body MAX m rta len tb with
    | leave r =>
      rw [hb] at h
      simp only [] at h
      subst h
      rw [hleave tb1 hb]
    | next rta1 len1 tb2 =>
      rw [hb] at h
      simp only [] at h
      rw [hnext rta1 len1 tb2 hb]
      exact ih rta1 len1 tb2 tb1 fuel2 (by omega) h

theorem parse_rtattr_ctx (pre post : List Nat) (MAX : Nat) {m : List Nat} {rta len : Nat}
    {tb : AttrTable} (h : parse_rtattr MAX m rta len = .ok tb) :
    parse_rtattr MAX (pre ++ m ++ post) (pre.length + rta) len = .ok (tb.shift pre.length) := by
  unfold parse_rtattr at h ⊢
  have := parse_rtattr_loop_ctx pre post MAX m (m.length + 1) rta len _ tb
    ((pre ++ m ++ post).length + 1) (by simp only [List.length_append]; omega) h
  rw [AttrTable.shift_replicate] at this
  exact this

theorem RTA_DATA_add (base a : Nat) : RTA_DATA (base + a) = base + RTA_DATA a := by
  unfold RTA_DATA; omega

theorem rtm_get_table_ctx (pre post : List Nat) {m : List Nat} {r : Nat} {tb : AttrTable}
    {t : Nat} (h : rtm_get_table m r tb = .ok t) :
    rtm_get_table (pre ++ m ++ post) (pre.length + r) (tb.shift pre.length) = .ok t := by
  unfold rtm_get_table at h ⊢
  obtain ⟨b, hb, h⟩ := bind_eq_ok h
  rw [Nat.add_assoc, rd8_ctx pre post hb, AttrTable.at_shift]
  rw [bind_ok]; try simp only []
  cases ha : tb.at RTA_TABLE with
  | none => rw [ha] at h; exact h
  | some a =>
    rw [ha] at h
    simp only [Option.map_some', RTA_DATA_add] at h ⊢
    exact rd32_ctx pre post h

theorem convertAddress_ctx (pre post : List Nat) {m : List Nat} {family data : Nat}
    {v : IpAddress} (h : Address.convertAddress family m data = .ok v) :
    Address.convertAddress family (pre ++ m ++ post) (pre.length + data) = .ok v := by
  unfold Address.convertAddress at h ⊢
  split at h
  · rename_i hf
    obtain ⟨b, hb, h⟩ := bind_eq_ok h
    rw [if_pos hf, rdBytes_ctx pre post 4 hb]
    exact h
  · rename_i hf
    split at h
    · rename_i hf6
      obtain ⟨b, hb, h⟩ := bind_eq_ok h
      rw [if_neg hf, if_pos hf6, rdBytes_ctx pre post 16 hb]
      exact h
    · rename_i hf6
      rw [if_neg hf, if_neg hf6]
      exact h

theorem parse_route_destination_ctx (pre post : List Nat) {m : List Nat}
    {rtMsg family : Nat} {tb : AttrTable} {d : Destination}
    (h : parse_route_destination m rtMsg family tb = .ok d) :
    parse_route_destination (pre ++ m ++ post) (pre.length + rtMsg) family
      (tb.shift pre.length) = .ok d := by
  unfold parse_route_destination at h ⊢
  rw [AttrTable.at_shift]
  cases ha : tb.at RTA_DST with
  | none => rw [ha] at h; exact h
  | some a =>
    rw [ha] at h
    simp only [Option.map_some', RTA_DATA_add] at h ⊢
    split at h
    · rename_i hf
      obtain ⟨b, hb, h⟩ := bind_eq_ok h
      obtain ⟨l, hl, h⟩ := bind_eq_ok h
      rw [if_pos hf, rdBytes_ctx pre post 4 hb, Nat.add_assoc, rd8_ctx pre post hl]
      exact h
    · rename_i hf
      split at h
      · rename_i hf6
        obtain ⟨b, hb, h⟩ := bind_eq_ok h
        obtain ⟨l, hl, h⟩ := bind_eq_ok h
        rw [if_neg hf, if_pos hf6, rdBytes_ctx pre post 16 hb, Nat.add_assoc,
          rd8_ctx pre post hl]
        exact h
      · rename_i hf6
        rw [if_neg hf, if_neg hf6]
        exact h

theorem addressAttr_ctx (pre post : List Nat) {m : List Nat} {family i : Nat}
    {tb : AttrTable} {v : IpAddress} (h : addressAttr m family tb i = .ok v) :
    addressAttr (pre ++ m ++ post) family (tb.shift pre.length) i = .ok v := by
  unfold addressAttr at h ⊢
  rw [AttrTable.at_shift]
  cases ha : tb.at i with
  | none => rw [ha] at h; exact h
  | some a =>
    rw [ha] at h
    simp only [Option.map_some', RTA_DATA_add] at h ⊢
    exact convertAddress_ctx pre post h

theorem parse_route_oif_ctx (ifx : Nat → Option (List Nat)) (pre post : List Nat)
    {m : List Nat} {tb : AttrTable} {v : List Nat} (h : parse_route_oif ifx m tb = .ok v) :
    parse_route_oif ifx (pre ++ m ++ post) (tb.shift pre.length) = .ok v := by
  unfold parse_route_oif at h ⊢
  rw [AttrTable.at_shift]
  cases ha : tb.at RTA_OIF with
  | none => rw [ha] at h; exact h
  | some a =>
    rw [ha] at h
    simp only [Option.map_some', RTA_DATA_add] at h ⊢
    obtain ⟨x, hx, h⟩ := bind_eq_ok h
    rw [rd32_ctx pre post hx]
    exact h

theorem ifaAttr_ctx (pre post : List Nat) {m : List Nat} {msg i : Nat}
    {tb : AttrTable} {v : IpAddress} (h : ifaAttr m msg tb i = .ok v) :
    ifaAttr (pre ++ m ++ post) (pre.length + msg) (tb.shift pre.length) i = .ok v := by
  unfold ifaAttr at h ⊢
  rw [AttrTable.at_shift]
  cases ha : tb.at i with
  | none => rw [ha] at h; exact h
  | some a =>
    rw [ha] at h
    simp only [Option.map_some', RTA_DATA_add] at h ⊢
    obtain ⟨x, hx, h⟩ := bind_eq_ok h
    rw [rd8_ctx pre post hx]
    exact convertAddress_ctx pre post h

theorem parse_link_name_ctx (pre post : List Nat) {m : List Nat} {tb : AttrTable}
    {v : List Nat} (h : parse_link_name m tb = .ok v) :
    parse_link_name (pre ++ m ++ post) (tb.shift pre.length) = .ok v := by
  unfold parse_link_name at h ⊢
  rw [AttrTable.at_shift]
  cases ha : tb.at IFLA_IFNAME with
  | none => rw [ha] at h; exact h
  | some a =>
    rw [ha] at h
    simp only [Option.map_some', RTA_DATA_add] at h ⊢
    exact rdCStr_ctx pre post h

/-- A route message that decodes on its own decodes to the same route inside a datagram. -/
theorem parse_route_ctx (ifx : Nat → Option (List Nat)) (pre post : List Nat)
    {m : List Nat} {header rtMsg : Nat} {v : Route}
    (h : parse_route ifx m header rtMsg = .ok v) :
    parse_route ifx (pre ++ m ++ post) (pre.length + header) (pre.length + rtMsg) = .ok v := by
  unfold parse_route at h ⊢
  obtain ⟨len, h1, h⟩ := bind_eq_ok h
  obtain ⟨tb, h2, h⟩ := bind_eq_ok h
  obtain ⟨table, h3, h⟩ := bind_eq_ok h
  obtain ⟨family, h4, h⟩ := bind_eq_ok h
  rw [rd32_ctx pre post h1]
  rw [bind_ok]; try simp only []
  rw [Nat.add_assoc, parse_rtattr_ctx pre post RTA_MAX h2]
  rw [bind_ok]; try simp only []
  rw [rtm_get_table_ctx pre post h3]
  rw [bind_ok]; try simp only []
  rw [rd8_ctx pre post h4]
  rw [bind_ok]; try simp only []
  split at h
  · cases h
  · rename_i hf
    rw [if_neg hf]
    obtain ⟨t, h5, h⟩ := bind_eq_ok h
    obtain ⟨d, h6, h⟩ := bind_eq_ok h
    obtain ⟨g, h7, h⟩ := bind_eq_ok h
    obtain ⟨n, h8, h⟩ := bind_eq_ok h
    obtain ⟨s, h9, h⟩ := bind_eq_ok h
    rw [Nat.add_assoc, rd16_ctx pre post h5]
    rw [bind_ok]; try simp only []
    rw [parse_route_destination_ctx pre post h6]
    rw [bind_ok]; try simp only []
    rw [addressAttr_ctx pre post h7]
    rw [bind_ok]; try simp only []
    rw [parse_route_oif_ctx ifx pre post h8]
    rw [bind_ok]; try simp only []
    rw [addressAttr_ctx pre post h9]
    exact h

/-- An address message that decodes on its own decodes to the same address inside a
datagram. -/
theorem parse_address_ctx (pre post : List Nat) {m : List Nat} {header msg : Nat}
    {v : Address} (h : parse_address m header msg = .ok v) :
    parse_address (pre ++ m ++ post) (pre.length + header) (pre.length + msg) = .ok v := by
  unfold parse_address at h ⊢
  obtain ⟨len, h1, h⟩ := bind_eq_ok h
  obtain ⟨tb, h2, h⟩ := bind_eq_ok h
  obtain ⟨t, h3, h⟩ := bind_eq_ok h
  obtain ⟨pl, h4, h⟩ := bind_eq_ok h
  obtain ⟨sc, h5, h⟩ := bind_eq_ok h
  obtain ⟨a, h6, h⟩ := bind_eq_ok h
  obtain ⟨l, h7, h⟩ := bind_eq_ok h
  obtain ⟨b, h8, h⟩ := bind_eq_ok h
  rw [rd32_ctx pre post h1]
  rw [bind_ok]; try simp only []
  rw [Nat.add_assoc, parse_rtattr_ctx pre post IFA_MAX h2]
  rw [bind_ok]; try simp only []
  rw [Nat.add_assoc, rd16_ctx pre post h3]
  rw [bind_ok]; try simp only []
  rw [Nat.add_assoc, rd8_ctx pre post h4]
  rw [bind_ok]; try simp only []
  rw [Nat.add_assoc, rd8_ctx pre post h5]
  rw [bind_ok]; try simp only []
  rw [ifaAttr_ctx pre post h6]
  rw [bind_ok]; try simp only []
  rw [ifaAttr_ctx pre post h7]
  rw [bind_ok]; try simp only []
  rw [ifaAttr_ctx pre post h8]
  exact h

/-- A link message that decodes on its own decodes to the same interface inside a
datagram. -/
theorem parse_link_ctx (pre post : List Nat) {m : List Nat} {header msg : Nat}
    {v : Interface} (h : parse_link m header msg = .ok v) :
    parse_link (pre ++ m ++ post) (pre.length + header) (pre.length + msg) = .ok v := by
  unfold parse_link at h ⊢
  obtain ⟨len, h1, h⟩ := bind_eq_ok h
  obtain ⟨tb, h2, h⟩ := bind_eq_ok h
  obtain ⟨t, h3, h⟩ := bind_eq_ok h
  obtain ⟨n, h4, h⟩ := bind_eq_ok h
  rw [rd32_ctx pre post h1]
  rw [bind_ok]; try simp only []
  rw [Nat.add_assoc, parse_rtattr_ctx pre post IFLA_MAX h2]
  rw [bind_ok]; try simp only []
  rw [Nat.add_assoc, rd16_ctx pre post h3]
  rw [bind_ok]; try simp only []
  rw [parse_link_name_ctx pre post h4]
  exact h

/-! ### Well-formed messages inside a datagram -/

theorem rd8_lt {m : List Nat} {k v : Nat} (h : rd8 m k = .ok v) : v < 256 ∧ k < m.length := by
  unfold rd8 at h
  simp only [List.get?_eq_getElem?] at h
  cases hg : m[k]? with
  | none => rw [hg] at h; cases h
  | some b =>
    rw [hg] at h
    injection h with h
    refine ⟨by omega, ?_⟩
    rcases Nat.lt_or_ge k m.length with hk | hk
    · exact hk
    · rw [List.getElem?_eq_none hk] at hg; cases hg

theorem rd16_lt {m : List Nat} {k v : Nat} (h : rd16 m k = .ok v) :
    v < 65536 ∧ k + 2 ≤ m.length := by
  unfold rd16 at h
  obtain ⟨b0, h0, h⟩ := bind_eq_ok h
  obtain ⟨b1, h1, h⟩ := bind_eq_ok h
  injection h with h
  have := rd8_lt h0
  have := rd8_lt h1
  omega

theorem rd32_lt {m : List Nat} {k v : Nat} (h : rd32 m k = .ok v) :
    v < 2 ^ 32 ∧ k + 4 ≤ m.length := by
  unfold rd32 at h
  obtain ⟨b0, h0, h⟩ := bind_eq_ok h
  obtain ⟨b1, h1, h⟩ := bind_eq_ok h
  injection h with h
  have := rd16_lt h0
  have := rd16_lt h1
  omega

theorem headerOf_fields {m : List Nat} {h : nlmsghdr} (hh : headerOf m = .ok h) :
    rd32 m 0 = .ok h.nlmsg_len ∧ rd16 m 4 = .ok h.nlmsg_type ∧
    rd16 m 6 = .ok h.nlmsg_flags ∧ rd32 m 8 = .ok h.nlmsg_seq ∧
    rd32 m 12 = .ok h.nlmsg_pid := by
  unfold headerOf at hh
  obtain ⟨a, ha, hh⟩ := bind_eq_ok hh
  obtain ⟨b, hb, hh⟩ := bind_eq_ok hh
  obtain ⟨c, hc, hh⟩ := bind_eq_ok hh
  obtain ⟨d, hd, hh⟩ := bind_eq_ok hh
  obtain ⟨e, he, hh⟩ := bind_eq_ok hh
  injection hh with hh
  subst hh
  exact ⟨ha, hb, hc, hd, he⟩

theorem WireMessage.bounds {m : List Nat} {h : nlmsghdr} (w : WireMessage m h) :
    16 ≤ m.length ∧ m.length < 2 ^ 32 ∧ NLMSG_ALIGN h.nlmsg_len = m.length := by
  obtain ⟨h0, _, _, _, h12⟩ := headerOf_fields w.header
  have a := rd32_lt h0
  have b := rd32_lt h12
  have c := w.len
  have d := w.aligned
  unfold NLMSG_ALIGN
  rw [c]
  omega

/-- A well-formed message inside a datagram passes `NLMSG_OK`, shows its header fields,
and `NLMSG_NEXT` moves to the byte after it. -/
theorem WireMessage.at {m : List Nat} {h : nlmsghdr} (w : WireMessage m h)
    (pre post : List Nat) (hsize : m.length + post.length < 2 ^ 64) :
    MessageAt (pre ++ m ++ post) pre.length (m.length + post.length) h ∧
    nextHeader pre.length h.nlmsg_len = (pre ++ m).length ∧
    nextLen (m.length + post.length) h.nlmsg_len = post.length := by
  obtain ⟨h0, h4, h6, h8, h12⟩ := headerOf_fields w.header
  obtain ⟨b1, b2, b3⟩ := w.bounds
  have c := w.len
  refine ⟨⟨by show 16 ≤ _; omega, ?_, by show 16 ≤ _; omega, by omega, rd16_ctx pre post h4, rd16_ctx pre post h6,
    rd32_ctx pre post h8, rd32_ctx pre post h12⟩, ?_, ?_⟩
  · have := rd32_ctx pre post h0
    rw [Nat.add_zero] at this
    exact this
  · unfold nextHeader
    rw [b3, List.length_append]
  · unfold nextLen
    rw [b3]
    omega

/-! ### Walking over the replies of a route dump -/

theorem NLMSG_DATA_add (base : Nat) : NLMSG_DATA base = base + NLMSG_DATA 0 := by
  unfold NLMSG_DATA; omega

theorem datagramOf_cons {α : Type} (x : List Nat × α) (msgs : List (List Nat × α)) :
    datagramOf (x :: msgs) = x.1 ++ datagramOf msgs := rfl

theorem datagramOf_nil {α : Type} : datagramOf ([] : List (List Nat × α)) = [] := rfl

/-- One pass of the walk at a reply of the active route request appends the decoded
route. -/
theorem walk_route_reply (ifx : Nat → Option (List Nat)) (sk : Socket) (r : Request Route)
    (pre m post : List Nat) (v : Route) (fuel : Nat)
    (hm : RouteReply ifx r.GetId.seq sk.m_pid m v) (hpid : r.GetId.pid = sk.m_pid)
    (hsize : m.length + post.length < 2 ^ 64) :
    Socket.walk ifx (pre ++ m ++ post) (fuel + 1) pre.length (m.length + post.length) none
        { sk with m_activeRequest := some { m_request := .RouteRequest r } }
      = Socket.walk ifx (pre ++ m ++ post) fuel (pre ++ m).length post.length none
        { sk with m_activeRequest := some { m_request := .RouteRequest (r.AddItem v) } } := by
  obtain ⟨h, w, ht, _, hs, hp, hv⟩ := hm
  obtain ⟨hat, hn, hl⟩ := w.at pre post hsize
  have hdec := parse_route_ctx ifx pre post hv
  rw [Nat.add_zero, ← NLMSG_DATA_add] at hdec
  have hseq := hat.seq
  have hpid' := hat.pid
  rw [hs] at hseq
  rw [hp] at hpid'
  have hbody := walkBody_route ifx _ _ _ h hat ht none
    { sk with m_activeRequest := some { m_request := .RouteRequest r } }
  unfold Socket.HandleRoute at hbody
  rw [hdec, handleDecoded_accept
    { sk with m_activeRequest := some { m_request := .RouteRequest r } } _ _ r.GetId.seq v _
    { m_request := .RouteRequest r } { m_request := .RouteRequest (r.AddItem v) } hpid' hseq rfl
    (by show r.GetId = _; rw [← hpid])
    rfl] at hbody
  simp only [hn, hl] at hbody
  rw [Socket.walk, hbody]
  rfl

theorem Request.AddItem_GetId {α : Type} (r : Request α) (v : α) :
    (r.AddItem v).GetId = r.GetId := rfl

theorem Request.AddItem_response {α : Type} (r : Request α) (v : α) :
    (r.AddItem v).response = r.response ++ [v] := rfl

/-- The request with the given elements appended to its accumulator. -/
theorem Request.with_append_nil {α : Type} (r : Request α) :
    { r with response := r.response ++ [] } = r := by
  cases r; simp

/-- The walk over a run of replies of the active route request appends the decoded routes
in order. -/
theorem walk_route_replies (ifx : Nat → Option (List Nat)) (sk : Socket) (post : List Nat)
    (msgs : List (List Nat × Route)) :
    ∀ (r : Request Route) (pre : List Nat) (fuel : Nat),
      (∀ x ∈ msgs, RouteReply ifx r.GetId.seq sk.m_pid x.1 x.2) →
      r.GetId.pid = sk.m_pid →
      (datagramOf msgs).length + post.length < 2 ^ 64 →
      Socket.walk ifx (pre ++ datagramOf msgs ++ post) (fuel + msgs.length) pre.length
          ((datagramOf msgs).length + post.length) none
          { sk with m_activeRequest := some { m_request := .RouteRequest r } }
        = Socket.walk ifx (pre ++ datagramOf msgs ++ post) fuel
          (pre ++ datagramOf msgs).length post.length none
          { sk with m_activeRequest := some (Message.mk (.RouteRequest
              { r with response := r.response ++ msgs.map Prod.snd })) } := by
  induction msgs with
  | nil =>
    intro r pre fuel _ _ _
    simp only [datagramOf_nil, List.append_nil, List.length_nil, Nat.add_zero, Nat.zero_add,
      List.map_nil, Request.with_append_nil]
  | cons x msgs ih =>
    intro r pre fuel hall hpid hsize
    have hx := hall x (List.mem_cons_self _ _)
    have hrest : ∀ y ∈ msgs, RouteReply ifx (r.AddItem x.2).GetId.seq sk.m_pid y.1 y.2 :=
      fun y hy => hall y (List.mem_cons_of_mem _ hy)
    rw [datagramOf_cons, List.length_append] at hsize
    have e1 : pre ++ datagramOf (x :: msgs) ++ post
        = pre ++ x.1 ++ (datagramOf msgs ++ post) := by
      rw [datagramOf_cons]; simp only [List.append_assoc]
    have e2 : (datagramOf (x :: msgs)).length + post.length
        = x.1.length + (datagramOf msgs ++ post).length := by
      rw [datagramOf_cons]; simp only [List.length_append]; omega
    have e3 : fuel + (x :: msgs).length = (fuel + msgs.length) + 1 := by
      simp only [List.length_cons]; omega
    rw [e1, e2, e3, walk_route_reply ifx sk r pre x.1 (datagramOf msgs ++ post) x.2 _ hx hpid
      (by rw [List.length_append]; omega)]
    have e4 : pre ++ x.1 ++ (datagramOf msgs ++ post)
        = (pre ++ x.1) ++ datagramOf msgs ++ post := by
      simp only [List.append_assoc]
    have e5 : (datagramOf msgs ++ post).length = (datagramOf msgs).length + post.length :=
      List.length_append _ _
    rw [e4, e5, ih (r.AddItem x.2) (pre ++ x.1) fuel hrest hpid (by omega)]
    simp only [Request.AddItem_response, List.append_assoc, List.map_cons,
      List.singleton_append, datagramOf_cons]
    rfl

theorem RouteReply_length {ifx : Nat → Option (List Nat)} {seq pid : Nat} {m : List Nat}
    {v : Route} (hm : RouteReply ifx seq pid m v) : 16 ≤ m.length := by
  obtain ⟨h, w, _⟩ := hm
  exact w.bounds.1

theorem datagramOf_length (ifx : Nat → Option (List Nat)) (seq pid : Nat)
    (msgs : List (List Nat × Route)) (hall : ∀ x ∈ msgs, RouteReply ifx seq pid x.1 x.2) :
    msgs.length ≤ (datagramOf msgs).length := by
  induction msgs with
  | nil => exact Nat.le_refl _
  | cons x msgs ih =>
    have hx := RouteReply_length (hall x (List.mem_cons_self _ _))
    have := ih (fun y hy => hall y (List.mem_cons_of_mem _ hy))
    rw [datagramOf_cons, List.length_append, List.length_cons]
    omega

theorem walk_end (ifx : Nat → Option (List Nat)) (buf : List Nat) (fuel nlHeader : Nat)
    (response : Option ResponseTypes) (sk : Socket) :
    Socket.walk ifx buf (fuel + 1) nlHeader 0 response sk = .finished response sk := by
  rw [Socket.walk]
  unfold Socket.walkBody
  rw [if_pos (by decide)]

/-- The walk that comes to the terminator of the active request while nothing is held
returns the response of the request and empties the slot. -/
theorem walk_done_reply (ifx : Nat → Option (List Nat)) (sk : Socket) (msg : Message)
    (pre d post : List Nat) (fuel : Nat)
    (hd : DoneReply msg.GetId.seq msg.GetId.pid d) (hm : sk.m_activeRequest = some msg)
    (hsize : d.length + post.length < 2 ^ 64) :
    Socket.walk ifx (pre ++ d ++ post) (fuel + 1) pre.length (d.length + post.length) none sk
      = .returned msg.GetResponse { sk with m_activeRequest := none } := by
  obtain ⟨h, w, ht, _, hs, hp⟩ := hd
  obtain ⟨hat, _, _⟩ := w.at pre post hsize
  have hseq := hat.seq
  have hpid := hat.pid
  rw [hs] at hseq
  rw [hp] at hpid
  rw [Socket.walk, walkBody_done ifx _ _ _ h hat ht none sk,
    HandleDone_match sk _ _ _ _ msg hseq hpid hm rfl]

theorem scan_first (ifx : Nat → Option (List Nat)) (buf : List Nat)
    (response : Option ResponseTypes) (sk : Socket) (nlmsg_flags nlmsg_type : Nat)
    (hflags : rd16 buf 6 = .ok nlmsg_flags) (hintr : nlmsg_flags &&& NLM_F_DUMP_INTR = 0)
    (htype : rd16 buf 4 = .ok nlmsg_type) :
    Socket.scan ifx buf response sk =
      if nlmsg_type = NLMSG_ERROR then .returned (.error (.socket .Error)) sk
      else if nlmsg_type = NLMSG_NOOP then .returned (.error (.socket .Noop)) sk
      else if nlmsg_type = NLMSG_DONE then
        .returned (sk.HandleDone buf 0).1 (sk.HandleDone buf 0).2
      else Socket.walk ifx buf (buf.length + 1) 0 buf.length response sk := by
  unfold Socket.scan
  rw [hflags]
  simp only []
  rw [if_neg (by rw [hintr]; exact fun h => h rfl), htype]

theorem WireMessage.first {m : List Nat} {h : nlmsghdr} (w : WireMessage m h)
    (post : List Nat) :
    rd16 (m ++ post) 6 = .ok h.nlmsg_flags ∧ rd16 (m ++ post) 4 = .ok h.nlmsg_type ∧
    rd32 (m ++ post) 8 = .ok h.nlmsg_seq ∧ rd32 (m ++ post) 12 = .ok h.nlmsg_pid := by
  obtain ⟨_, h4, h6, h8, h12⟩ := headerOf_fields w.header
  have a := rd16_ctx [] post h6
  have b := rd16_ctx [] post h4
  have c := rd32_ctx [] post h8
  have d := rd32_ctx [] post h12
  simp only [List.nil_append, List.length_nil, Nat.zero_add] at a b c d
  exact ⟨a, b, c, d⟩

/-- A datagram of replies of the active route request, without a terminator: the routes
are appended and the loop of the datagram ends with nothing held. -/
theorem scan_route_replies (ifx : Nat → Option (List Nat)) (sk : Socket) (r : Request Route)
    (msgs : List (List Nat × Route)) (hne : msgs ≠ [])
    (hall : ∀ x ∈ msgs, RouteReply ifx r.GetId.seq sk.m_pid x.1 x.2)
    (hpid : r.GetId.pid = sk.m_pid) (hsize : (datagramOf msgs).length < 2 ^ 64) :
    Socket.scan ifx (datagramOf msgs) none
        { sk with m_activeRequest := some { m_request := .RouteRequest r } }
      = .finished none
        { sk with m_activeRequest := some (Message.mk (.RouteRequest
            { r with response := r.response ++ msgs.map Prod.snd })) } := by
  have hlen := datagramOf_length ifx _ _ _ hall
  have hwalk := walk_route_replies ifx sk [] msgs r []
    ((datagramOf msgs).length - msgs.length + 1) hall hpid
    (by simp only [List.length_nil, Nat.add_zero]; exact hsize)
  simp only [List.nil_append, List.append_nil, List.length_nil, Nat.add_zero] at hwalk
  have hfuel : (datagramOf msgs).length - msgs.length + 1 + msgs.length
      = (datagramOf msgs).length + 1 := by omega
  rw [hfuel, walk_end] at hwalk
  obtain ⟨x, rest, rfl⟩ := List.exists_cons_of_ne_nil hne
  obtain ⟨h, w, ht, hf, _, _, _⟩ := hall x (List.mem_cons_self _ _)
  obtain ⟨h6, h4, _, _⟩ := w.first (datagramOf rest)
  have hne1 : h.nlmsg_type ≠ NLMSG_ERROR := by rcases ht with ht | ht <;> rw [ht] <;> decide
  have hne2 : h.nlmsg_type ≠ NLMSG_NOOP := by rcases ht with ht | ht <;> rw [ht] <;> decide
  have hne3 : h.nlmsg_type ≠ NLMSG_DONE := by rcases ht with ht | ht <;> rw [ht] <;> decide
  rw [scan_first ifx (datagramOf (x :: rest)) none _ h.nlmsg_flags h.nlmsg_type h6 hf h4,
    if_neg hne1, if_neg hne2, if_neg hne3, hwalk]

/-- The last datagram of a route dump: replies of the active route request, then its
terminator.  The routes are appended, the response is returned, the slot is emptied. -/
theorem scan_route_final (ifx : Nat → Option (List Nat)) (sk : Socket) (r : Request Route)
    (msgs : List (List Nat × Route)) (d : List Nat)
    (hall : ∀ x ∈ msgs, RouteReply ifx r.GetId.seq sk.m_pid x.1 x.2)
    (hd : DoneReply r.GetId.seq r.GetId.pid d)
    (hpid : r.GetId.pid = sk.m_pid) (hsize : (datagramOf msgs ++ d).length < 2 ^ 64) :
    Socket.scan ifx (datagramOf msgs ++ d) none
        { sk with m_activeRequest := some { m_request := .RouteRequest r } }
      = .returned
        (.ok (.RouteResponse { id := r.GetId, data := r.response ++ msgs.map Prod.snd }))
        { sk with m_activeRequest := none } := by
  rw [List.length_append] at hsize
  have hlen := datagramOf_length ifx _ _ _ hall
  have hwalk := walk_route_replies ifx sk d msgs r []
    ((datagramOf msgs).length + d.length - msgs.length + 1) hall hpid hsize
  simp only [List.nil_append, List.length_nil] at hwalk
  have hfuel : (datagramOf msgs).length + d.length - msgs.length + 1 + msgs.length
      = (datagramOf msgs).length + d.length + 1 := by omega
  have hdone := walk_done_reply ifx
    { sk with m_activeRequest := some (Message.mk (.RouteRequest
        { r with response := r.response ++ msgs.map Prod.snd })) }
    (Message.mk (.RouteRequest { r with response := r.response ++ msgs.map Prod.snd }))
    (datagramOf msgs) d [] ((datagramOf msgs).length + d.length - msgs.length) hd rfl
    (by simp only [List.length_nil, Nat.add_zero]; omega)
  simp only [List.append_nil, List.length_nil, Nat.add_zero] at hdone
  rw [hfuel, hdone] at hwalk
  cases msgs with
  | nil =>
    obtain ⟨h, w, ht, hf, hs, hp⟩ := hd
    obtain ⟨h6, h4, h8, h12⟩ := w.first []
    simp only [List.append_nil] at h6 h4 h8 h12
    rw [hs] at h8
    rw [hp] at h12
    have hne1 : h.nlmsg_type ≠ NLMSG_ERROR := by rw [ht]; decide
    have hne2 : h.nlmsg_type ≠ NLMSG_NOOP := by rw [ht]; decide
    simp only [datagramOf_nil, List.nil_append, List.map_nil, Request.with_append_nil]
    rw [scan_first ifx d none _ h.nlmsg_flags h.nlmsg_type h6 hf h4, if_neg hne1, if_neg hne2,
      if_pos ht, HandleDone_match _ d 0 _ _ (Message.mk (.RouteRequest r)) h8 h12 rfl rfl]
    simp [Message.GetResponse, Request.GetResponse]
  | cons x rest =>
    obtain ⟨h, w, ht, hf, _, _, _⟩ := hall x (List.mem_cons_self _ _)
    obtain ⟨h6, h4, _, _⟩ := w.first (datagramOf rest ++ d)
    rw [← List.append_assoc] at h6 h4
    have hne1 : h.nlmsg_type ≠ NLMSG_ERROR := by rcases ht with ht | ht <;> rw [ht] <;> decide
    have hne2 : h.nlmsg_type ≠ NLMSG_NOOP := by rcases ht with ht | ht <;> rw [ht] <;> decide
    have hne3 : h.nlmsg_type ≠ NLMSG_DONE := by rcases ht with ht | ht <;> rw [ht] <;> decide
    rw [scan_first ifx (datagramOf (x :: rest) ++ d) none _ h.nlmsg_flags h.nlmsg_type h6 hf h4,
      if_neg hne1, if_neg hne2, if_neg hne3, List.length_append, hwalk]
    simp [Message.GetResponse, Request.GetResponse, Request.GetId]

/-! ### Walking over the replies of a link dump -/

/-- One pass of the walk at a reply of the active link request appends the decoded
interface. -/
theorem walk_link_reply (ifx : Nat → Option (List Nat)) (sk : Socket) (r : Request Interface)
    (pre m post : List Nat) (v : Interface) (fuel : Nat)
    (hm : LinkReply r.GetId.seq sk.m_pid m v) (hpid : r.GetId.pid = sk.m_pid)
    (hsize : m.length + post.length < 2 ^ 64) :
    Socket.walk ifx (pre ++ m ++ post) (fuel + 1) pre.length (m.length + post.length) none
        { sk with m_activeRequest := some { m_request := .LinkRequest r } }
      = Socket.walk ifx (pre ++ m ++ post) fuel (pre ++ m).length post.length none
        { sk with m_activeRequest := some { m_request := .LinkRequest (r.AddItem v) } } := by
  obtain ⟨h, w, ht, _, hs, hp, hv⟩ := hm
  obtain ⟨hat, hn, hl⟩ := w.at pre post hsize
  have hdec := parse_link_ctx pre post hv
  rw [Nat.add_zero, ← NLMSG_DATA_add] at hdec
  have hseq := hat.seq
  have hpid' := hat.pid
  rw [hs] at hseq
  rw [hp] at hpid'
  have hbody := walkBody_link ifx _ _ _ h hat ht none
    { sk with m_activeRequest := some { m_request := .LinkRequest r } }
  unfold Socket.HandleLink at hbody
  rw [hdec, handleDecoded_accept
    { sk with m_activeRequest := some { m_request := .LinkRequest r } } _ _ r.GetId.seq v _
    { m_request := .LinkRequest r } { m_request := .LinkRequest (r.AddItem v) } hpid' hseq rfl
    (by show r.GetId = _; rw [← hpid])
    rfl] at hbody
  simp only [hn, hl] at hbody
  rw [Socket.walk, hbody]
  rfl


/-- The walk over a run of replies of the active link request appends the decoded interfaces
in order. -/
theorem walk_link_replies (ifx : Nat → Option (List Nat)) (sk : Socket) (post : List Nat)
    (msgs : List (List Nat × Interface)) :
    ∀ (r : Request Interface) (pre : List Nat) (fuel : Nat),
      (∀ x ∈ msgs, LinkReply r.GetId.seq sk.m_pid x.1 x.2) →
      r.GetId.pid = sk.m_pid →
      (datagramOf msgs).length + post.length < 2 ^ 64 →
      Socket.walk ifx (pre ++ datagramOf msgs ++ post) (fuel + msgs.length) pre.length
          ((datagramOf msgs).length + post.length) none
          { sk with m_activeRequest := some { m_request := .LinkRequest r } }
        = Socket.walk ifx (pre ++ datagramOf msgs ++ post) fuel
          (pre ++ datagramOf msgs).length post.length none
          { sk with m_activeRequest := some (Message.mk (.LinkRequest
              { r with response := r.response ++ msgs.map Prod.snd })) } := by
  induction msgs with
  | nil =>
    intro r pre fuel _ _ _
    simp only [datagramOf_nil, List.append_nil, List.length_nil, Nat.add_zero, Nat.zero_add,
      List.map_nil, Request.with_append_nil]
  | cons x msgs ih =>
    intro r pre fuel hall hpid hsize
    have hx := hall x (List.mem_cons_self _ _)
    have hrest : ∀ y ∈ msgs, LinkReply (r.AddItem x.2).GetId.seq sk.m_pid y.1 y.2 :=
      fun y hy => hall y (List.mem_cons_of_mem _ hy)
    rw [datagramOf_cons, List.length_append] at hsize
    have e1 : pre ++ datagramOf (x :: msgs) ++ post
        = pre ++ x.1 ++ (datagramOf msgs ++ post) := by
      rw [datagramOf_cons]; simp only [List.append_assoc]
    have e2 : (datagramOf (x :: msgs)).length + post.length
        = x.1.length + (datagramOf msgs ++ post).length := by
      rw [datagramOf_cons]; simp only [List.length_append]; omega
    have e3 : fuel + (x :: msgs).length = (fuel + msgs.length) + 1 := by
      simp only [List.length_cons]; omega
    rw [e1, e2, e3, walk_link_reply ifx sk r pre x.1 (datagramOf msgs ++ post) x.2 _ hx hpid
      (by rw [List.length_append]; omega)]
    have e4 : pre ++ x.1 ++ (datagramOf msgs ++ post)
        = (pre ++ x.1) ++ datagramOf msgs ++ post := by
      simp only [List.append_assoc]
    have e5 : (datagramOf msgs ++ post).length = (datagramOf msgs).length + post.length :=
      List.length_append _ _
    rw [e4, e5, ih (r.AddItem x.2) (pre ++ x.1) fuel hrest hpid (by omega)]
    simp only [Request.AddItem_response, List.append_assoc, List.map_cons,
      List.singleton_append, datagramOf_cons]
    rfl

theorem LinkReply_length {seq pid : Nat} {m : List Nat}
    {v : Interface} (hm : LinkReply seq pid m v) : 16 ≤ m.length := by
  obtain ⟨h, w, _⟩ := hm
  exact w.bounds.1

theorem datagramOf_length_link (seq pid : Nat)
    (msgs : List (List Nat × Interface)) (hall : ∀ x ∈ msgs, LinkReply seq pid x.1 x.2) :
    msgs.length ≤ (datagramOf msgs).length := by
  induction msgs with
  | nil => exact Nat.le_refl _
  | cons x msgs ih =>
    have hx := LinkReply_length (hall x (List.mem_cons_self _ _))
    have := ih (fun y hy => hall y (List.mem_cons_of_mem _ hy))
    rw [datagramOf_cons, List.length_append, List.length_cons]
    omega


/-- A datagram of replies of the active link request, without a terminator: the interfaces
are appended and the loop of the datagram ends with nothing held. -/
theorem scan_link_replies (ifx : Nat → Option (List Nat)) (sk : Socket) (r : Request Interface)
    (msgs : List (List Nat × Interface)) (hne : msgs ≠ [])
    (hall : ∀ x ∈ msgs, LinkReply r.GetId.seq sk.m_pid x.1 x.2)
    (hpid : r.GetId.pid = sk.m_pid) (hsize : (datagramOf msgs).length < 2 ^ 64) :
    Socket.scan ifx (datagramOf msgs) none
        { sk with m_activeRequest := some { m_request := .LinkRequest r } }
      = .finished none
        { sk with m_activeRequest := some (Message.mk (.LinkRequest
            { r with response := r.response ++ msgs.map Prod.snd })) } := by
  have hlen := datagramOf_length_link _ _ _ hall
  have hwalk := walk_link_replies ifx sk [] msgs r []
    ((datagramOf msgs).length - msgs.length + 1) hall hpid
    (by simp only [List.length_nil, Nat.add_zero]; exact hsize)
  simp only [List.nil_append, List.append_nil, List.length_nil, Nat.add_zero] at hwalk
  have hfuel : (datagramOf msgs).length - msgs.length + 1 + msgs.length
      = (datagramOf msgs).length + 1 := by omega
  rw [hfuel, walk_end] at hwalk
  obtain ⟨x, rest, rfl⟩ := List.exists_cons_of_ne_nil hne
  obtain ⟨h, w, ht, hf, _, _, _⟩ := hall x (List.mem_cons_self _ _)
  obtain ⟨h6, h4, _, _⟩ := w.first (datagramOf rest)
  have hne1 : h.nlmsg_type ≠ NLMSG_ERROR := by rcases ht with ht | ht <;> rw [ht] <;> decide
  have hne2 : h.nlmsg_type ≠ NLMSG_NOOP := by rcases ht with ht | ht <;> rw [ht] <;> decide
  have hne3 : h.nlmsg_type ≠ NLMSG_DONE := by rcases ht with ht | ht <;> rw [ht] <;> decide
  rw [scan_first ifx (datagramOf (x :: rest)) none _ h.nlmsg_flags h.nlmsg_type h6 hf h4,
    if_neg hne1, if_neg hne2, if_neg hne3, hwalk]

/-- The last datagram of a link dump: replies of the active link request, then its
terminator.  The interfaces are appended, the response is returned, the slot is emptied. -/
theorem scan_link_final (ifx : Nat → Option (List Nat)) (sk : Socket) (r : Request Interface)
    (msgs : List (List Nat × Interface)) (d : List Nat)
    (hall : ∀ x ∈ msgs, LinkReply r.GetId.seq sk.m_pid x.1 x.2)
    (hd : DoneReply r.GetId.seq r.GetId.pid d)
    (hpid : r.GetId.pid = sk.m_pid) (hsize : (datagramOf msgs ++ d).length < 2 ^ 64) :
    Socket.scan ifx (datagramOf msgs ++ d) none
        { sk with m_activeRequest := some { m_request := .LinkRequest r } }
      = .returned
        (.ok (.LinkResponse { id := r.GetId, data := r.response ++ msgs.map Prod.snd }))
        { sk with m_activeRequest := none } := by
  rw [List.length_append] at hsize
  have hlen := datagramOf_length_link _ _ _ hall
  have hwalk := walk_link_replies ifx sk d msgs r []
    ((datagramOf msgs).length + d.length - msgs.length + 1) hall hpid hsize
  simp only [List.nil_append, List.length_nil] at hwalk
  have hfuel : (datagramOf msgs).length + d.length - msgs.length + 1 + msgs.length
      = (datagramOf msgs).length + d.length + 1 := by omega
  have hdone := walk_done_reply ifx
    { sk with m_activeRequest := some (Message.mk (.LinkRequest
        { r with response := r.response ++ msgs.map Prod.snd })) }
    (Message.mk (.LinkRequest { r with response := r.response ++ msgs.map Prod.snd }))
    (datagramOf msgs) d [] ((datagramOf msgs).length + d.length - msgs.length) hd rfl
    (by simp only [List.length_nil, Nat.add_zero]; omega)
  simp only [List.append_nil, List.length_nil, Nat.add_zero] at hdone
  rw [hfuel, hdone] at hwalk
  cases msgs with
  | nil =>
    obtain ⟨h, w, ht, hf, hs, hp⟩ := hd
    obtain ⟨h6, h4, h8, h12⟩ := w.first []
    simp only [List.append_nil] at h6 h4 h8 h12
    rw [hs] at h8
    rw [hp] at h12
    have hne1 : h.nlmsg_type ≠ NLMSG_ERROR := by rw [ht]; decide
    have hne2 : h.nlmsg_type ≠ NLMSG_NOOP := by rw [ht]; decide
    simp only [datagramOf_nil, List.nil_append, List.map_nil, Request.with_append_nil]
    rw [scan_first ifx d none _ h.nlmsg_flags h.nlmsg_type h6 hf h4, if_neg hne1, if_neg hne2,
      if_pos ht, HandleDone_match _ d 0 _ _ (Message.mk (.LinkRequest r)) h8 h12 rfl rfl]
    simp [Message.GetResponse, Request.GetResponse]
  | cons x rest =>
    obtain ⟨h, w, ht, hf, _, _, _⟩ := hall x (List.mem_cons_self _ _)
    obtain ⟨h6, h4, _, _⟩ := w.first (datagramOf rest ++ d)
    rw [← List.append_assoc] at h6 h4
    have hne1 : h.nlmsg_type ≠ NLMSG_ERROR := by rcases ht with ht | ht <;> rw [ht] <;> decide
    have hne2 : h.nlmsg_type ≠ NLMSG_NOOP := by rcases ht with ht | ht <;> rw [ht] <;> decide
    have hne3 : h.nlmsg_type ≠ NLMSG_DONE := by rcases ht with ht | ht <;> rw [ht] <;> decide
    rw [scan_first ifx (datagramOf (x :: rest) ++ d) none _ h.nlmsg_flags h.nlmsg_type h6 hf h4,
      if_neg hne1, if_neg hne2, if_neg hne3, List.length_append, hwalk]
    simp [Message.GetResponse, Request.GetResponse, Request.GetId]

/-- Reassembly of a link dump: the datagrams `init` of replies of the active link request
and a last datagram that ends with its terminator make one call of `receive` return the
decoded interfaces in arrival order and empty the slot. -/
theorem link_reassembly (ifx : Nat → Option (List Nat)) (mode : ReceiveMode)
    (init : List (List (List Nat × Interface))) :
    ∀ (sk : Socket) (r : Request Interface) (last : List (List Nat × Interface)) (done : List Nat)
      (rest : List RecvEvent),
      sk.m_activeRequest = some { m_request := .LinkRequest r } →
      r.GetId.pid = sk.m_pid →
      (∀ dg ∈ init, dg ≠ [] ∧ (datagramOf dg).length < 2 ^ 64 ∧
        ∀ x ∈ dg, LinkReply r.GetId.seq sk.m_pid x.1 x.2) →
      (∀ x ∈ last, LinkReply r.GetId.seq sk.m_pid x.1 x.2) →
      DoneReply r.GetId.seq r.GetId.pid done →
      (datagramOf last ++ done).length < 2 ^ 64 →
      sk.receive ifx mode
          (init.map (fun dg => .datagram (datagramOf dg))
            ++ .datagram (datagramOf last ++ done) :: rest)
        = { result := .ok (.LinkResponse
              { id := r.GetId, data := r.response ++ (init.flatten ++ last).map Prod.snd })
            socket := { sk with m_activeRequest := none }
            pending := rest } := by
  induction init with
  | nil =>
    intro sk r last done rest hactive hpid _ hlast hdone hsize
    have hsk : sk = { sk with m_activeRequest := some { m_request := .LinkRequest r } } := by
      rw [← hactive]
    rw [hsk]
    simp only [List.map_nil, List.nil_append, List.flatten_nil]
    unfold Socket.receive Socket.receive_loop
    rw [scan_link_final ifx sk r last done hlast hdone hpid hsize]
  | cons dg init ih =>
    intro sk r last done rest hactive hpid hinit hlast hdone hsize
    have hsk : sk = { sk with m_activeRequest := some { m_request := .LinkRequest r } } := by
      rw [← hactive]
    obtain ⟨hne, hdgsize, hdg⟩ := hinit dg (List.mem_cons_self _ _)
    have hih := ih
      { sk with m_activeRequest := some (Message.mk (.LinkRequest
          { r with response := r.response ++ dg.map Prod.snd })) }
      { r with response := r.response ++ dg.map Prod.snd } last done rest rfl hpid
      (fun dg' hdg' => hinit dg' (List.mem_cons_of_mem _ hdg')) hlast hdone hsize
    rw [hsk]
    simp only [List.map_cons, List.cons_append]
    unfold Socket.receive Socket.receive_loop
    rw [scan_link_replies ifx sk r dg hne hdg hpid hdgsize]
    simp only [Option.isSome_some, if_true]
    unfold Socket.receive at hih
    rw [hih]
    simp only [List.flatten_cons, List.map_append, List.append_assoc]
    rfl

/-! ### Decoding an encoded link message -/

theorem encodeAttr_eq (t : Nat) (p : List Nat) :
    encodeAttr t p
      = le16 (sizeof_rtattr + p.length)
          ++ (le16 t ++ (p ++ List.replicate ((4 - (4 + p.length) % 4) % 4) 0)) := by
  unfold encodeAttr pad4
  simp only [List.length_append, le16_length, List.append_assoc]
  congr 5
  omega

theorem encodeAttr_length (t : Nat) (p : List Nat) (hp : 4 + p.length < 65536) :
    (encodeAttr t p).length = NLMSG_ALIGN (sizeof_rtattr + p.length) ∧
    sizeof_rtattr + p.length ≤ (encodeAttr t p).length := by
  rw [encodeAttr_eq]
  simp only [List.length_append, le16_length, List.length_replicate, sizeof_rtattr]
  unfold NLMSG_ALIGN
  omega

/-- A region that holds exactly one encoded attribute of a type within the table is
parsed to the table with that one entry. -/
theorem parse_rtattr_one (MAX t : Nat) (pre p : List Nat) (ht : t < 65536)
    (hp : 4 + p.length < 65536) (hmax : t < MAX + 1) :
    parse_rtattr MAX (pre ++ encodeAttr t p) pre.length (encodeAttr t p).length
      = .ok ((List.replicate (MAX + 1) none).set t (some pre.length)) := by
  obtain ⟨hlen, hle⟩ := encodeAttr_length t p hp
  have hr0 : rd16 (pre ++ encodeAttr t p) pre.length = .ok (sizeof_rtattr + p.length) := by
    have := rd16_append_right pre (encodeAttr t p) 0
    rw [Nat.add_zero] at this
    rw [this, encodeAttr_eq, rd16_le16, Nat.mod_eq_of_lt (by show 4 + p.length < 65536; omega)]
  have hr2 : rd16 (pre ++ encodeAttr t p) (pre.length + 2) = .ok t := by
    rw [rd16_append_right, encodeAttr_eq]
    have := rd16_append_right (le16 (sizeof_rtattr + p.length))
      (le16 t ++ (p ++ List.replicate ((4 - (4 + p.length) % 4) % 4) 0)) 0
    rw [le16_length] at this
    rw [this, rd16_le16, Nat.mod_eq_of_lt ht]
  have hfuel : (pre ++ encodeAttr t p).length + 1
      = ((pre ++ encodeAttr t p).length - 1 + 1) + 1 := by
    rw [List.length_append]
    have : 4 ≤ (encodeAttr t p).length := by
      have : sizeof_rtattr = 4 := rfl
      omega
    omega
  have h4 : ¬ (encodeAttr t p).length < sizeof_rtattr := by
    have : sizeof_rtattr = 4 := rfl
    omega
  have hc : ¬ (sizeof_rtattr + p.length < sizeof_rtattr ∨
      (encodeAttr t p).length < sizeof_rtattr + p.length) := by omega
  have hzero : ((encodeAttr t p).length + 2 ^ 64 - NLMSG_ALIGN (sizeof_rtattr + p.length))
      % 2 ^ 64 = 0 := by
    rw [← hlen]; omega
  unfold parse_rtattr
  rw [hfuel, parse_rtattr_loop, parse_rtattr_body, if_neg h4, hr0]
  simp only []
  rw [if_neg hc, hr2]
  simp only []
  rw [if_pos hmax, hzero, parse_rtattr_loop, parse_rtattr_body, if_pos (by decide)]

theorem AttrTable.at_set (n t a : Nat) (ht : t < n) :
    AttrTable.at ((List.replicate n none).set t (some a)) t = some a := by
  unfold AttrTable.at
  rw [List.get?_eq_getElem?, List.getElem?_set_self (by rw [List.length_replicate]; exact ht)]
  rfl

theorem takeWhile_name (name rest : List Nat) (hn : ∀ b ∈ name, 0 < b ∧ b < 256) :
    List.takeWhile (· ≠ 0) (List.map (· % 256) (name ++ 0 :: rest)) = name := by
  induction name with
  | nil => simp
  | cons b name ih =>
    obtain ⟨hb0, hb1⟩ := hn b (List.mem_cons_self _ _)
    have hmod : b % 256 = b := Nat.mod_eq_of_lt hb1
    have := ih (fun c hc => hn c (List.mem_cons_of_mem _ hc))
    simp only [List.cons_append, List.map_cons, hmod]
    rw [List.takeWhile_cons_of_pos (by simp; omega), this]

theorem rdCStr_name (pre name rest : List Nat) (hn : ∀ b ∈ name, 0 < b ∧ b < 256) :
    rdCStr (pre ++ (name ++ 0 :: rest)) pre.length = .ok name := by
  unfold rdCStr
  simp only []
  have hd : List.drop pre.length (pre ++ (name ++ 0 :: rest)) = name ++ 0 :: rest := by
    have := @List.drop_append Nat pre (name ++ 0 :: rest) 0
    rw [Nat.add_zero] at this
    rw [this]; rfl
  rw [hd, takeWhile_name name rest hn, if_pos]
  simp only [List.length_map, List.length_append, List.length_cons]
  omega

theorem encodeMsg_length (t f s p : Nat) (payload : List Nat) :
    (encodeMsg t f s p payload).length = sizeof_nlmsghdr + payload.length := by
  unfold encodeMsg
  simp only [List.length_append, le32_length, le16_length, sizeof_nlmsghdr]

theorem encodeMsg_headerOf (t f s p : Nat) (payload : List Nat) (ht : t < 65536)
    (hf : f < 65536) (hs : s < 2 ^ 32) (hp : p < 2 ^ 32)
    (hl : sizeof_nlmsghdr + payload.length < 2 ^ 32) :
    headerOf (encodeMsg t f s p payload)
      = .ok { nlmsg_len := sizeof_nlmsghdr + payload.length, nlmsg_type := t,
              nlmsg_flags := f, nlmsg_seq := s, nlmsg_pid := p } := by
  obtain ⟨h0, h4, h6, h8, h12⟩ := encodeMsg_header [] [] t f s p payload
  simp only [List.nil_append, List.append_nil, List.length_nil, Nat.zero_add] at h0 h4 h6 h8 h12
  rw [Nat.mod_eq_of_lt hl] at h0
  rw [Nat.mod_eq_of_lt ht] at h4
  rw [Nat.mod_eq_of_lt hf] at h6
  rw [Nat.mod_eq_of_lt hs] at h8
  rw [Nat.mod_eq_of_lt hp] at h12
  unfold headerOf
  rw [h0, bind_ok, h4, bind_ok, h6, bind_ok, h8, bind_ok, h12, bind_ok]
  rfl

/-- The encoded `RTM_NEWLINK` message of an interface name is a reply of the link dump
that decodes to that name with the action `New`. -/
theorem newLinkMsg_reply (seq pid : Nat) (ifinfomsg name : List Nat)
    (hs : seq < 2 ^ 32) (hp : pid < 2 ^ 32) (hb : ifinfomsg.length = sizeof_ifinfomsg)
    (hn : ∀ b ∈ name, 0 < b ∧ b < 256) (hl : name.length < 65000) :
    LinkReply seq pid (newLinkMsg seq pid ifinfomsg name) { action := .New, name := name } := by
  have hb16 : ifinfomsg.length = 16 := hb
  have hpl : 4 + (name ++ [0]).length < 65536 := by
    simp only [List.length_append, List.length_singleton]; omega
  obtain ⟨hA, hAle⟩ := encodeAttr_length IFLA_IFNAME (name ++ [0]) hpl
  have hAlt : (encodeAttr IFLA_IFNAME (name ++ [0])).length < 70000 := by
    rw [hA]; unfold NLMSG_ALIGN
    simp only [List.length_append, List.length_singleton, sizeof_rtattr]; omega
  have hA4 : (encodeAttr IFLA_IFNAME (name ++ [0])).length % 4 = 0 := by
    rw [hA]; unfold NLMSG_ALIGN; omega
  have hP : (ifinfomsg ++ encodeAttr IFLA_IFNAME (name ++ [0])).length
      = 16 + (encodeAttr IFLA_IFNAME (name ++ [0])).length := by
    rw [List.length_append, hb16]
  have hhdr := encodeMsg_headerOf RTM_NEWLINK NLM_F_MULTI seq pid
    (ifinfomsg ++ encodeAttr IFLA_IFNAME (name ++ [0])) (by decide) (by decide) hs hp
    (by rw [hP]; show 16 + _ < _; omega)
  have hmlen := encodeMsg_length RTM_NEWLINK NLM_F_MULTI seq pid
    (ifinfomsg ++ encodeAttr IFLA_IFNAME (name ++ [0]))
  obtain ⟨h0, h4, _, _, _⟩ := headerOf_fields hhdr
  simp only [] at h0 h4
  refine ⟨_, ⟨hhdr, ?_, ?_⟩, Or.inl rfl, (by show (2 &&& 16 : Nat) = 0; decide), rfl, rfl, ?_⟩
  · unfold newLinkMsg; rw [hmlen]
  · unfold newLinkMsg; rw [hmlen, hP]; show (16 + (16 + _)) % 4 = 0; omega
  · -- the decoder
    have hpay : NLMSG_PAYLOAD
        (sizeof_nlmsghdr + (ifinfomsg ++ encodeAttr IFLA_IFNAME (name ++ [0])).length)
        sizeof_ifinfomsg = (encodeAttr IFLA_IFNAME (name ++ [0])).length := by
      rw [hP]
      unfold NLMSG_PAYLOAD NLMSG_SPACE NLMSG_ALIGN
      simp only [sizeof_nlmsghdr, sizeof_ifinfomsg]
      omega
    have hstart : NLMSG_DATA 0 + NLMSG_ALIGN sizeof_ifinfomsg = 32 := by decide
    -- the message as: 32 bytes, then the attribute
    obtain ⟨pre, hpre, hprelen⟩ : ∃ pre : List Nat,
        newLinkMsg seq pid ifinfomsg name = pre ++ encodeAttr IFLA_IFNAME (name ++ [0]) ∧
        pre.length = 32 := by
      refine ⟨le32 (sizeof_nlmsghdr + (ifinfomsg ++ encodeAttr IFLA_IFNAME (name ++ [0])).length)
        ++ le16 RTM_NEWLINK ++ le16 NLM_F_MULTI ++ le32 seq ++ le32 pid ++ ifinfomsg, ?_, ?_⟩
      · unfold newLinkMsg encodeMsg
        simp only [List.append_assoc]
      · simp only [List.length_append, le32_length, le16_length, hb16]
    have htb := parse_rtattr_one IFLA_MAX IFLA_IFNAME pre (name ++ [0]) (by decide) hpl
      (by decide)
    rw [hprelen] at htb
    -- the message as: 36 bytes, then the name, a NUL, the padding
    obtain ⟨pre2, pad, hpre2, hpre2len⟩ : ∃ pre2 pad : List Nat,
        newLinkMsg seq pid ifinfomsg name = pre2 ++ (name ++ 0 :: pad) ∧
        pre2.length = 36 := by
      refine ⟨pre ++ le16 (sizeof_rtattr + (name ++ [0]).length) ++ le16 IFLA_IFNAME,
        List.replicate ((4 - (4 + (name ++ [0]).length) % 4) % 4) 0, ?_, ?_⟩
      · rw [hpre, encodeAttr_eq]
        simp only [List.append_assoc, List.singleton_append]
      · simp only [List.length_append, le16_length, hprelen]
    have hname := rdCStr_name pre2 name pad hn
    rw [hpre2len, ← hpre2] at hname
    unfold parse_link
    unfold newLinkMsg at hpre hname ⊢
    rw [h0, bind_ok]
    simp only []
    rw [hpay, hstart]
    rw [← hpre] at htb
    rw [htb, bind_ok, h4, bind_ok]
    unfold parse_link_name
    rw [AttrTable.at_set _ _ _ (by decide)]
    simp only []
    rw [show RTA_DATA 32 = 36 from rfl, hname]
    rfl

/-! ### A notification followed by a terminator -/

/-- A datagram whose first message is the terminator of the active request completes the
request. -/
theorem receive_done_reply (ifx : Nat → Option (List Nat)) (mode : ReceiveMode) (sk : Socket)
    (msg : Message) (d : List Nat) (rest : List RecvEvent)
    (hm : sk.m_activeRequest = some msg) (hd : DoneReply msg.GetId.seq msg.GetId.pid d) :
    sk.receive ifx mode (.datagram d :: rest)
      = { result := msg.GetResponse, socket := { sk with m_activeRequest := none },
          pending := rest } := by
  obtain ⟨h, w, ht, hf, hs, hp⟩ := hd
  obtain ⟨h6, h4, h8, h12⟩ := w.first []
  simp only [List.append_nil] at h6 h4 h8 h12
  rw [hs] at h8
  rw [hp] at h12
  have hne1 : h.nlmsg_type ≠ NLMSG_ERROR := by rw [ht]; decide
  have hne2 : h.nlmsg_type ≠ NLMSG_NOOP := by rw [ht]; decide
  unfold Socket.receive Socket.receive_loop
  rw [scan_first ifx d none sk h.nlmsg_flags h.nlmsg_type h6 hf h4, if_neg hne1, if_neg hne2,
    if_pos ht, HandleDone_match sk d 0 _ _ msg h8 h12 hm rfl]

/-- The walk over a foreign address notification and a following terminator returns the
notification and leaves the socket as it was. -/
theorem scan_notice_done (ifx : Nat → Option (List Nat)) (sk : Socket) (a d : List Nat)
    (v : Address) (ha : AddressNotice sk.m_pid a v) (hd : DoneMessage d)
    (hsize : (a ++ d).length < 2 ^ 64) :
    Socket.scan ifx (a ++ d) none sk = .returned (.ok (.Address v)) sk := by
  obtain ⟨h, w, ht, hf, hp, hv⟩ := ha
  obtain ⟨hdn, wd, htd⟩ := hd
  rw [List.length_append] at hsize
  obtain ⟨h6, h4, _, _⟩ := w.first d
  obtain ⟨hat, hn, hl⟩ := w.at [] d hsize
  obtain ⟨hatd, _, _⟩ := wd.at a [] (by simp only [List.length_nil, Nat.add_zero]; omega)
  simp only [List.nil_append, List.append_nil, List.length_nil, Nat.add_zero] at hat hn hl hatd
  have hdec := parse_address_ctx [] d hv
  simp only [List.nil_append, List.length_nil, Nat.zero_add] at hdec
  have hne1 : h.nlmsg_type ≠ NLMSG_ERROR := by rcases ht with ht | ht <;> rw [ht] <;> decide
  have hne2 : h.nlmsg_type ≠ NLMSG_NOOP := by rcases ht with ht | ht <;> rw [ht] <;> decide
  have hne3 : h.nlmsg_type ≠ NLMSG_DONE := by rcases ht with ht | ht <;> rw [ht] <;> decide
  have hb1 := walkBody_address ifx (a ++ d) 0 (a.length + d.length) h hat ht none sk
  unfold Socket.HandleAddress at hb1
  rw [hdec, handleDecoded_foreign sk (a ++ d) 0 h.nlmsg_pid v _ (by
    have := hat.pid; rw [Nat.zero_add] at this; exact this) hp] at hb1
  simp only [hn, hl] at hb1
  have hb1 : Socket.walkBody ifx (a ++ d) 0 (a.length + d.length) none sk
      = .next a.length d.length (some (.Address v)) sk := hb1
  have hb2 := walkBody_done ifx (a ++ d) a.length d.length hdn hatd htd
    (some (.Address v)) sk
  have hfuel : (a ++ d).length + 1 = ((a ++ d).length - 1 + 1) + 1 := by
    have := w.bounds.1
    rw [List.length_append]; omega
  rw [scan_first ifx (a ++ d) none sk h.nlmsg_flags h.nlmsg_type h6 hf h4, if_neg hne1,
    if_neg hne2, if_neg hne3, hfuel, List.length_append, Socket.walk, hb1]
  simp only []
  rw [Socket.walk, hb2]

/-! ### When the active slot is emptied -/

theorem activeId_none {sk : Socket} : sk.activeId = none ↔ sk.m_activeRequest = none := by
  unfold Socket.activeId
  cases sk.m_activeRequest <;> simp

theorem AddResponseRoute_GetId (m : Message) (v : Route) :
    (m.AddResponseRoute v).2.GetId = m.GetId := by
  unfold Message.AddResponseRoute
  split
  · rename_i r hr
    simp only [Message.GetId, hr]
    rfl
  · rfl

theorem AddResponseAddress_GetId (m : Message) (v : Address) :
    (m.AddResponseAddress v).2.GetId = m.GetId := by
  unfold Message.AddResponseAddress
  split
  · rename_i r hr
    simp only [Message.GetId, hr]
    rfl
  · rfl

theorem AddResponseInterface_GetId (m : Message) (v : Interface) :
    (m.AddResponseInterface v).2.GetId = m.GetId := by
  unfold Message.AddResponseInterface
  split
  · rename_i r hr
    simp only [Message.GetId, hr]
    rfl
  · rfl

theorem addResponse_activeId (sk : Socket) (add : Message → Except Failure Unit × Message)
    (hadd : ∀ m, (add m).2.GetId = m.GetId) (id : Id) :
    (sk.addResponse add id).2.activeId = sk.activeId := by
  unfold Socket.addResponse
  split
  · rfl
  · split
    · rfl
    · rename_i m hm _
      simp only [Socket.activeId, hm, Option.map_some', hadd]

theorem handleDecoded_activeId {α : Type} (sk : Socket) (buf : List Nat) (header : Nat)
    (parsed : Except Failure α) (add : α → Message → Except Failure Unit × Message)
    (hadd : ∀ v m, (add v m).2.GetId = m.GetId) :
    (sk.handleDecoded buf header parsed add).2.activeId = sk.activeId := by
  unfold Socket.handleDecoded
  split
  · rfl
  · split
    · rfl
    · split
      · rfl
      · split
        · rfl
        · rename_i v _ _ _ _ _ _ _
          split
          · rename_i h
            have h2 := congrArg Prod.snd h
            simp only at h2
            rw [← h2]; exact addResponse_activeId sk (add v) (hadd v) _
          · rename_i h
            have h2 := congrArg Prod.snd h
            simp only at h2
            rw [← h2]; exact addResponse_activeId sk (add v) (hadd v) _

theorem HandleRoute_activeId (ifx : Nat → Option (List Nat)) (sk : Socket) (buf : List Nat)
    (header rtMsg : Nat) : (sk.HandleRoute ifx buf header rtMsg).2.activeId = sk.activeId :=
  handleDecoded_activeId sk buf header _ _ (fun v m => AddResponseRoute_GetId m v)

theorem HandleAddress_activeId (sk : Socket) (buf : List Nat) (header ifMsg : Nat) :
    (sk.HandleAddress buf header ifMsg).2.activeId = sk.activeId :=
  handleDecoded_activeId sk buf header _ _ (fun v m => AddResponseAddress_GetId m v)

theorem HandleLink_activeId (sk : Socket) (buf : List Nat) (header ifMsg : Nat) :
    (sk.HandleLink buf header ifMsg).2.activeId = sk.activeId :=
  handleDecoded_activeId sk buf header _ _ (fun v m => AddResponseInterface_GetId m v)

/-- The header at `header` carries the identity of the active request. -/
theorem doneMatches_iff (sk : Socket) (buf : List Nat) (header : Nat) :
    sk.doneMatches buf header = true ↔
      rd16 buf (header + 4) = .ok NLMSG_DONE ∧
      ∃ m, sk.m_activeRequest = some m ∧ rd32 buf (header + 8) = .ok m.GetId.seq ∧
        rd32 buf (header + 12) = .ok m.GetId.pid := by
  unfold Socket.doneMatches
  cases hm : sk.m_activeRequest with
  | none => simp
  | some m => simp

/-- `HandleDone` empties the slot exactly when the header carries the identity of the
active request; otherwise the socket is unchanged. -/
theorem HandleDone_slot (sk : Socket) (buf : List Nat) (header : Nat) :
    ((∃ m, sk.m_activeRequest = some m ∧ rd32 buf (header + 8) = .ok m.GetId.seq ∧
        rd32 buf (header + 12) = .ok m.GetId.pid) →
      (sk.HandleDone buf header).2.m_activeRequest = none) ∧
    ((¬ ∃ m, sk.m_activeRequest = some m ∧ rd32 buf (header + 8) = .ok m.GetId.seq ∧
        rd32 buf (header + 12) = .ok m.GetId.pid) →
      (sk.HandleDone buf header).2 = sk) := by
  constructor
  · rintro ⟨m, hm, h8, h12⟩
    rw [HandleDone_match sk buf header _ _ m h8 h12 hm rfl]
  · intro hno
    cases h8 : rd32 buf (header + 8) with
    | error e => simp [Socket.HandleDone, h8]
    | ok s =>
      cases h12 : rd32 buf (header + 12) with
      | error e => simp [Socket.HandleDone, h8, h12]
      | ok p =>
        cases hm : sk.m_activeRequest with
        | none => rw [HandleDone_none sk buf header s p h8 h12 hm]
        | some m =>
          have hid : m.GetId ≠ { seq := s, pid := p } := by
            intro hid
            apply hno
            refine ⟨m, hm, ?_, ?_⟩
            · rw [h8, hid]
            · rw [h12, hid]
          rw [HandleDone_mismatch sk buf header s p m h8 h12 hm hid]

/-- One pass of the loop empties the slot exactly when it stands at a well-formed
`NLMSG_DONE` with the identity of the active request while nothing is held; it then
leaves the loop.  In every other case the identity in the slot is as before. -/
theorem walkBody_slot (ifx : Nat → Option (List Nat)) (buf : List Nat)
    (nlHeader nlHeaderLen : Nat) (response : Option ResponseTypes) (sk : Socket) :
    ((messageOk buf nlHeader nlHeaderLen && (sk.doneMatches buf nlHeader
        && (false || response.isNone))) = true →
      ∃ w, Socket.walkBody ifx buf nlHeader nlHeaderLen response sk = .leave w ∧
        w.socket.m_activeRequest = none) ∧
    ((messageOk buf nlHeader nlHeaderLen && (sk.doneMatches buf nlHeader
        && (false || response.isNone))) = false →
      (Socket.walkBody ifx buf nlHeader nlHeaderLen response sk).socket.activeId
        = sk.activeId) := by
  by_cases hl : nlHeaderLen < sizeof_nlmsghdr
  · have hw : Socket.walkBody ifx buf nlHeader nlHeaderLen response sk
        = .leave (.finished response sk) := by
      unfold Socket.walkBody; rw [if_pos hl]
    have hok : messageOk buf nlHeader nlHeaderLen = false := by
      have hneg : ¬ sizeof_nlmsghdr ≤ nlHeaderLen := by omega
      unfold messageOk
      rw [decide_eq_false hneg]; rfl
    rw [hok, hw]
    exact ⟨fun h => (by cases h), fun _ => rfl⟩
  · cases h1 : rd32 buf nlHeader with
    | error e =>
      have hw : Socket.walkBody ifx buf nlHeader nlHeaderLen response sk
          = .leave (.returned (.error e) sk) := by
        unfold Socket.walkBody; rw [if_neg hl, h1]
      have hok : messageOk buf nlHeader nlHeaderLen = false := by
        unfold messageOk
        rw [h1]; simp
      rw [hok, hw]
      exact ⟨fun h => (by cases h), fun _ => rfl⟩
    | ok n =>
      by_cases hc : n < sizeof_nlmsghdr ∨ nlHeaderLen < n
      · have hw : Socket.walkBody ifx buf nlHeader nlHeaderLen response sk
            = .leave (.finished response sk) := by
          unfold Socket.walkBody; rw [if_neg hl, h1]; simp only []; rw [if_pos hc]
        have hok : messageOk buf nlHeader nlHeaderLen = false := by
          have hneg : ¬ (sizeof_nlmsghdr ≤ n ∧ n ≤ nlHeaderLen) := by omega
          unfold messageOk
          rw [h1]; simp only []
          rw [decide_eq_false hneg, Bool.and_false]
        rw [hok, hw]
        exact ⟨fun h => (by cases h), fun _ => rfl⟩
      · have hok : messageOk buf nlHeader nlHeaderLen = true := by
          have hp1 : sizeof_nlmsghdr ≤ nlHeaderLen := by omega
          have hp2 : sizeof_nlmsghdr ≤ n ∧ n ≤ nlHeaderLen := by omega
          unfold messageOk
          rw [h1]; simp only []
          rw [decide_eq_true hp1, decide_eq_true hp2]
          rfl
        rw [hok]
        cases h4 : rd16 buf (nlHeader + 4) with
        | error e =>
          have hw : Socket.walkBody ifx buf nlHeader nlHeaderLen response sk
              = .leave (.returned (.error e) sk) := by
            unfold Socket.walkBody; rw [if_neg hl, h1]; simp only []; rw [if_neg hc, h4]
          have hdm : sk.doneMatches buf nlHeader = false := by
            rw [Bool.eq_false_iff]
            intro h
            rw [doneMatches_iff, h4] at h
            cases h.1
          rw [hdm, hw]
          exact ⟨fun h => (by cases h), fun _ => rfl⟩
        | ok t =>
          by_cases ht : t = NLMSG_DONE
          · cases response with
            | some x =>
              have hw : Socket.walkBody ifx buf nlHeader nlHeaderLen (some x) sk
                  = .leave (.returned (.ok x) sk) := by
                unfold Socket.walkBody; rw [if_neg hl, h1]; simp only []
                rw [if_neg hc, h4]; simp only []; rw [if_pos ht]
              rw [hw]
              refine ⟨fun h => ?_, fun _ => rfl⟩
              simp at h
            | none =>
              have hw : Socket.walkBody ifx buf nlHeader nlHeaderLen none sk
                  = .leave (.returned (sk.HandleDone buf nlHeader).1
                      (sk.HandleDone buf nlHeader).2) := by
                unfold Socket.walkBody; rw [if_neg hl, h1]; simp only []
                rw [if_neg hc, h4]; simp only []; rw [if_pos ht]
              rw [hw]
              obtain ⟨hs1, hs2⟩ := HandleDone_slot sk buf nlHeader
              have hiff := doneMatches_iff sk buf nlHeader
              refine ⟨fun h => ⟨_, rfl, ?_⟩, fun h => ?_⟩
              · simp only [Bool.true_and, Option.isNone_none, Bool.or_true, Bool.and_true] at h
                exact hs1 (hiff.1 h).2
              · simp only [Bool.true_and, Option.isNone_none, Bool.or_true, Bool.and_true] at h
                have hno : ¬ ∃ m, sk.m_activeRequest = some m ∧
                    rd32 buf (nlHeader + 8) = .ok m.GetId.seq ∧
                    rd32 buf (nlHeader + 12) = .ok m.GetId.pid := by
                  intro hex
                  have := hiff.2 ⟨by rw [h4, ht], hex⟩
                  rw [h] at this
                  cases this
                show (sk.HandleDone buf nlHeader).2.activeId = sk.activeId
                rw [hs2 hno]
          · have hdm : sk.doneMatches buf nlHeader = false := by
              rw [Bool.eq_false_iff]
              intro h
              rw [doneMatches_iff, h4] at h
              injection h.1 with h'
              exact ht h'
            rw [hdm]
            refine ⟨fun h => (by cases h), fun _ => ?_⟩
            have hR := HandleRoute_activeId ifx sk buf nlHeader (NLMSG_DATA nlHeader)
            have hA := HandleAddress_activeId sk buf nlHeader (NLMSG_DATA nlHeader)
            have hL := HandleLink_activeId sk buf nlHeader (NLMSG_DATA nlHeader)
            unfold Socket.walkBody
            rw [if_neg hl, h1]; simp only []
            rw [if_neg hc, h4]; simp only []
            rw [if_neg ht]
            repeat' split
            all_goals first
              | rfl
              | (rename_i h; rw [h] at hR; exact hR)
              | (rename_i h; rw [h] at hA; exact hA)
              | (rename_i h; rw [h] at hL; exact hL)

theorem walk_slot (ifx : Nat → Option (List Nat)) (buf : List Nat) (fuel : Nat) :
    ∀ (nlHeader nlHeaderLen : Nat) (response : Option ResponseTypes) (sk : Socket),
      (Socket.walk ifx buf fuel nlHeader nlHeaderLen response sk).socket.m_activeRequest = none
        ↔ sk.m_activeRequest = none ∨
          Socket.walkMeetsDone ifx buf false fuel nlHeader nlHeaderLen response sk = true := by
  induction fuel with
  | zero =>
    intro nlHeader nlHeaderLen response sk
    simp [Socket.walk, Socket.walkMeetsDone, Walk.socket]
  | succ fuel ih =>
    intro nlHeader nlHeaderLen response sk
    obtain ⟨hA, hB⟩ := walkBody_slot ifx buf nlHeader nlHeaderLen response sk
    rw [Socket.walk, Socket.walkMeetsDone]
    cases hP : (messageOk buf nlHeader nlHeaderLen && (sk.doneMatches buf nlHeader
        && (false || response.isNone))) with
    | true =>
      obtain ⟨w, hw, hnone⟩ := hA hP
      rw [hw]
      simp only [Bool.true_or, or_true, iff_true]
      exact hnone
    | false =>
      have hid := hB hP
      rw [Bool.false_or]
      cases hb : Socket.walkBody ifx buf nlHeader nlHeaderLen response sk with
      | leave w =>
        rw [hb] at hid
        simp only [Bool.false_eq_true, or_false]
        rw [← activeId_none, ← @activeId_none sk, ← hid]
        rfl
      | next h1 l1 r1 sk1 =>
        rw [hb] at hid
        simp only []
        rw [ih h1 l1 r1 sk1, ← activeId_none, ← @activeId_none sk, ← hid]
        rfl

theorem scan_slot (ifx : Nat → Option (List Nat)) (buf : List Nat)
    (response : Option ResponseTypes) (sk : Socket) :
    (Socket.scan ifx buf response sk).socket.m_activeRequest = none
      ↔ sk.m_activeRequest = none ∨ Socket.scanMeetsDone ifx buf false response sk = true := by
  unfold Socket.scan Socket.scanMeetsDone
  cases h6 : rd16 buf 6 with
  | error e => simp [Walk.socket]
  | ok flags =>
    simp only []
    by_cases hf : flags &&& NLM_F_DUMP_INTR ≠ 0
    · rw [if_pos hf, if_pos hf]; simp [Walk.socket]
    · rw [if_neg hf, if_neg hf]
      cases h4 : rd16 buf 4 with
      | error e => simp [Walk.socket]
      | ok t =>
        simp only []
        by_cases h1 : t = NLMSG_ERROR
        · rw [if_pos h1, if_pos h1]; simp [Walk.socket]
        · rw [if_neg h1, if_neg h1]
          by_cases h2 : t = NLMSG_NOOP
          · rw [if_pos h2, if_pos h2]; simp [Walk.socket]
          · rw [if_neg h2, if_neg h2]
            by_cases h3 : t = NLMSG_DONE
            · rw [if_pos h3, if_pos h3]
              obtain ⟨hs1, hs2⟩ := HandleDone_slot sk buf 0
              have hiff := doneMatches_iff sk buf 0
              rw [Nat.zero_add, h4, h3] at hiff
              show (sk.HandleDone buf 0).2.m_activeRequest = none ↔ _
              by_cases hD : ∃ m, sk.m_activeRequest = some m ∧
                  rd32 buf (0 + 8) = .ok m.GetId.seq ∧ rd32 buf (0 + 12) = .ok m.GetId.pid
              · have := hiff.2 ⟨rfl, hD⟩
                rw [this, hs1 hD]
                simp
              · have hdm : sk.doneMatches buf 0 = false := by
                  rw [Bool.eq_false_iff]
                  intro h
                  exact hD (hiff.1 h).2
                rw [hdm, hs2 hD]
                simp
            · rw [if_neg h3, if_neg h3]
              exact walk_slot ifx buf _ _ _ _ _

theorem receive_loop_slot (ifx : Nat → Option (List Nat)) (mode : ReceiveMode)
    (events : List RecvEvent) :
    ∀ (response : Option ResponseTypes) (sk : Socket),
      (Socket.receive_loop ifx mode events response sk).socket.m_activeRequest = none
        ↔ sk.m_activeRequest = none ∨
          Socket.receiveMeetsDone ifx false events response sk = true := by
  induction events with
  | nil =>
    intro response sk
    cases mode <;> simp [Socket.receive_loop, Socket.receiveMeetsDone]
  | cons ev rest ih =>
    intro response sk
    cases ev with
    | peekError e => simp [Socket.receive_loop, Socket.receiveMeetsDone]
    | readError e => simp [Socket.receive_loop, Socket.receiveMeetsDone]
    | datagram buf =>
      have hs := scan_slot ifx buf response sk
      rw [Socket.receive_loop, Socket.receiveMeetsDone]
      cases hscan : Socket.scan ifx buf response sk with
      | returned r sk1 =>
        rw [hscan] at hs
        simp only [Bool.or_false]
        exact hs
      | finished r1 sk1 =>
        rw [hscan] at hs
        simp only [Walk.socket] at hs
        simp only []
        cases hsk1 : sk1.m_activeRequest with
        | none =>
          rw [hsk1] at hs
          simp only [Option.isSome_none, Bool.false_eq_true, if_false, Bool.or_false]
          have hfin : sk.m_activeRequest = none ∨
              Socket.scanMeetsDone ifx buf false response sk = true := hs.1 rfl
          cases r1 <;> simp [hsk1, hfin]
        | some m1 =>
          rw [hsk1] at hs
          have hno : ¬ (sk.m_activeRequest = none ∨
              Socket.scanMeetsDone ifx buf false response sk = true) :=
            fun h => by cases hs.2 h
          have hno1 : sk.m_activeRequest ≠ none := fun h => hno (Or.inl h)
          have hno2 : Socket.scanMeetsDone ifx buf false response sk = false := by
            rw [Bool.eq_false_iff]; exact fun h => hno (Or.inr h)
          simp only [Option.isSome_some, if_true, hno2, Bool.false_or]
          rw [ih r1 sk1, hsk1]
          simp [hno1]

/-! ### The attribute table of a well-formed region -/

theorem attrRegion_cons (r : Nat × List Nat) (rs : List (Nat × List Nat)) :
    attrRegion (r :: rs) = encodeAttr r.1 r.2 ++ attrRegion rs := by
  simp only [attrRegion, List.map_cons, List.flatten_cons]

theorem attrRegion_nil : attrRegion [] = [] := rfl

/-- The two header fields of an encoded attribute read back, at any place in a buffer. -/
theorem encodeAttr_header (pre post : List Nat) (t : Nat) (p : List Nat) (ht : t < 65536)
    (hp : 4 + p.length < 65536) :
    rd16 (pre ++ (encodeAttr t p ++ post)) pre.length = .ok (sizeof_rtattr + p.length) ∧
    rd16 (pre ++ (encodeAttr t p ++ post)) (pre.length + 2) = .ok t := by
  refine ⟨?_, ?_⟩
  · have := rd16_append_right pre (encodeAttr t p ++ post) 0
    rw [Nat.add_zero] at this
    rw [this, encodeAttr_eq, List.append_assoc, rd16_le16,
      Nat.mod_eq_of_lt (by show 4 + p.length < 65536; omega)]
  · rw [rd16_append_right, encodeAttr_eq, List.append_assoc]
    have := rd16_append_right (le16 (sizeof_rtattr + p.length))
      (le16 t ++ (p ++ List.replicate ((4 - (4 + p.length) % 4) % 4) 0) ++ post) 0
    rw [le16_length] at this
    rw [this, List.append_assoc, rd16_le16, Nat.mod_eq_of_lt ht]

theorem AttrTable.at_set_eq (tb : AttrTable) (i t a : Nat) (hi : i < tb.length) :
    AttrTable.at (tb.set i (some a)) t = if i = t then some a else tb.at t := by
  unfold AttrTable.at
  rw [List.get?_eq_getElem?, List.get?_eq_getElem?, List.getElem?_set]
  by_cases h : i = t
  · rw [if_pos h, if_pos h, if_pos hi]; rfl
  · rw [if_neg h, if_neg h]

/-- The loop of `parse_rtattr` over a well-formed region: it returns a table, and the
entry of every type within the table is the last record of that type, or the entry the
table had before when the region has no record of that type. -/
theorem parse_rtattr_loop_records (MAX : Nat) :
    ∀ (recs : List (Nat × List Nat)) (pre post : List Nat) (tb0 : AttrTable) (fuel : Nat),
      (∀ r ∈ recs, r.1 < 65536 ∧ 4 + r.2.length < 65536) →
      (attrRegion recs).length < 2 ^ 64 → recs.length < fuel → tb0.length = MAX + 1 →
      ∃ tb, parse_rtattr_loop MAX (pre ++ (attrRegion recs ++ post)) fuel pre.length
          (attrRegion recs).length tb0 = .ok tb ∧ tb.length = MAX + 1 ∧
        ∀ t, t ≤ MAX → tb.at t =
          match lastRecord t pre.length recs with
          | some o => some o
          | none => tb0.at t := by
  intro recs
  induction recs with
  | nil =>
    intro pre post tb0 fuel _ _ hfuel htb
    obtain ⟨f, rfl⟩ : ∃ f, fuel = f + 1 := ⟨fuel - 1, by simp at hfuel; omega⟩
    refine ⟨tb0, ?_, htb, fun t _ => rfl⟩
    rw [parse_rtattr_loop, parse_rtattr_body, attrRegion_nil, List.length_nil,
      if_pos (by decide)]
  | cons r rs ih =>
    intro pre post tb0 fuel hwf hsize hfuel htb
    obtain ⟨f, rfl⟩ : ∃ f, fuel = f + 1 := ⟨fuel - 1, by simp at hfuel; omega⟩
    obtain ⟨ht, hp⟩ := hwf r (List.mem_cons_self _ _)
    obtain ⟨hA, hAle⟩ := encodeAttr_length r.1 r.2 hp
    rw [attrRegion_cons, List.length_append] at hsize
    obtain ⟨hr0, hr2⟩ := encodeAttr_header pre (attrRegion rs ++ post) r.1 r.2 ht hp
    have h4 : sizeof_rtattr = 4 := rfl
    have hbody : parse_rtattr_body MAX (pre ++ (attrRegion (r :: rs) ++ post)) pre.length
        (attrRegion (r :: rs)).length tb0
        = .next (pre ++ encodeAttr r.1 r.2).length (attrRegion rs).length
            (if r.1 < MAX + 1 then tb0.set r.1 (some pre.length) else tb0) := by
      unfold parse_rtattr_body
      rw [attrRegion_cons, List.append_assoc, List.length_append, if_neg (by omega), hr0]
      simp only []
      rw [if_neg (by omega), hr2]
      simp only []
      rw [← hA, List.length_append]
      congr 1
      omega
    have hbuf : pre ++ (attrRegion (r :: rs) ++ post)
        = (pre ++ encodeAttr r.1 r.2) ++ (attrRegion rs ++ post) := by
      rw [attrRegion_cons]; simp only [List.append_assoc]
    have htb1 : (if r.1 < MAX + 1 then tb0.set r.1 (some pre.length) else tb0).length
        = MAX + 1 := by
      split
      · rw [List.length_set]; exact htb
      · exact htb
    obtain ⟨tb, hloop, hlen, hat⟩ := ih (pre ++ encodeAttr r.1 r.2) post
      (if r.1 < MAX + 1 then tb0.set r.1 (some pre.length) else tb0) f
      (fun x hx => hwf x (List.mem_cons_of_mem _ hx)) (by omega)
      (by simp only [List.length_cons] at hfuel; omega) htb1
    refine ⟨tb, ?_, hlen, ?_⟩
    · rw [parse_rtattr_loop, hbody]
      simp only []
      rw [hbuf]
      exact hloop
    · intro t hle
      rw [hat t hle, List.length_append]
      show _ = match (match lastRecord t (pre.length + (encodeAttr r.1 r.2).length) rs with
        | some o => some o
        | none => if r.1 = t then some pre.length else none) with
        | some o => some o
        | none => tb0.at t
      cases lastRecord t (pre.length + (encodeAttr r.1 r.2).length) rs with
      | some o => rfl
      | none =>
        simp only []
        by_cases hrt : r.1 = t
        · rw [if_pos hrt, if_pos (by omega), AttrTable.at_set_eq _ _ _ _ (by omega), if_pos hrt]
        · rw [if_neg hrt]
          by_cases hm : r.1 < MAX + 1
          · rw [if_pos hm, AttrTable.at_set_eq _ _ _ _ (by omega), if_neg hrt]
          · rw [if_neg hm]

theorem AttrTable.at_replicate (n t : Nat) : AttrTable.at (List.replicate n none) t = none := by
  unfold AttrTable.at
  rw [List.get?_eq_getElem?, List.getElem?_replicate]
  split <;> rfl

/-- The table that `parse_rtattr` builds from a well-formed region, at any place in a
buffer: the entry of every type within the table is the last record of that type. -/
theorem parse_rtattr_records (MAX : Nat) (recs : List (Nat × List Nat)) (pre post : List Nat)
    (hwf : ∀ r ∈ recs, r.1 < 65536 ∧ 4 + r.2.length < 65536)
    (hsize : (attrRegion recs).length < 2 ^ 64) :
    ∃ tb, parse_rtattr MAX (pre ++ (attrRegion recs ++ post)) pre.length
        (attrRegion recs).length = .ok tb ∧ tb.length = MAX + 1 ∧
      ∀ t, t ≤ MAX → tb.at t = lastRecord t pre.length recs := by
  have hrecs : ∀ rs : List (Nat × List Nat),
      (∀ r ∈ rs, r.1 < 65536 ∧ 4 + r.2.length < 65536) → rs.length ≤ (attrRegion rs).length := by
    intro rs
    induction rs with
    | nil => intro _; exact Nat.le_refl _
    | cons r rs ih =>
      intro h
      have := ih (fun x hx => h x (List.mem_cons_of_mem _ hx))
      obtain ⟨_, hle⟩ := encodeAttr_length r.1 r.2 (h r (List.mem_cons_self _ _)).2
      have h4 : sizeof_rtattr = 4 := rfl
      rw [attrRegion_cons, List.length_append, List.length_cons]
      omega
  obtain ⟨tb, hloop, hlen, hat⟩ := parse_rtattr_loop_records MAX recs pre post
    (List.replicate (MAX + 1) none) ((pre ++ (attrRegion recs ++ post)).length + 1) hwf hsize
    (by
      have := hrecs recs hwf
      simp only [List.length_append]; omega)
    (List.length_replicate _ _)
  refine ⟨tb, hloop, hlen, fun t hle => ?_⟩
  rw [hat t hle, AttrTable.at_replicate]
  cases lastRecord t pre.length recs <;> rfl

theorem lastRecord_absent (t : Nat) :
    ∀ (recs : List (Nat × List Nat)) (base : Nat), (∀ r ∈ recs, r.1 ≠ t) →
      lastRecord t base recs = none := by
  intro recs
  induction recs with
  | nil => intro _ _; rfl
  | cons r rs ih =>
    intro base h
    rw [lastRecord, ih _ (fun x hx => h x (List.mem_cons_of_mem _ hx))]
    simp only []
    rw [if_neg (h r (List.mem_cons_self _ _))]

/-- The last record of type `t`: a record of type `t` that no record of type `t` follows,
whatever precedes it. -/
theorem lastRecord_append (t : Nat) (p : List Nat) (back : List (Nat × List Nat))
    (hback : ∀ r ∈ back, r.1 ≠ t) :
    ∀ (front : List (Nat × List Nat)) (base : Nat),
      lastRecord t base (front ++ (t, p) :: back) = some (base + (attrRegion front).length) := by
  intro front
  induction front with
  | nil =>
    intro base
    rw [List.nil_append, lastRecord, lastRecord_absent t back _ hback]
    simp only []
    rw [if_pos trivial, attrRegion_nil, List.length_nil, Nat.add_zero]
  | cons r rs ih =>
    intro base
    rw [List.cons_append, lastRecord, ih, attrRegion_cons, List.length_append, Nat.add_assoc]

/-! ### What the route decoder returns -/

theorem bind_not_socket {α β : Type} {x : Except Failure α} {f : α → Except Failure β}
    (hx : ∀ s, x ≠ .error (.socket s)) (hf : ∀ a s, f a ≠ .error (.socket s)) :
    ∀ s, (x >>= f) ≠ .error (.socket s) := by
  intro s
  cases x with
  | error e =>
    intro h
    rw [bind_error] at h
    injection h with h
    exact hx s (by rw [h])
  | ok a => exact hf a s

theorem rd8_not_socket (buf : List Nat) (off : Nat) :
    ∀ s, rd8 buf off ≠ .error (.socket s) := by
  intro s
  unfold rd8
  cases buf.get? off <;> exact fun h => by cases h

theorem rd16_not_socket (buf : List Nat) (off : Nat) :
    ∀ s, rd16 buf off ≠ .error (.socket s) := by
  unfold rd16
  exact bind_not_socket (rd8_not_socket _ _) (fun _ =>
    bind_not_socket (rd8_not_socket _ _) (fun _ _ h => by cases h))

theorem rd32_not_socket (buf : List Nat) (off : Nat) :
    ∀ s, rd32 buf off ≠ .error (.socket s) := by
  unfold rd32
  exact bind_not_socket (rd16_not_socket _ _) (fun _ =>
    bind_not_socket (rd16_not_socket _ _) (fun _ _ h => by cases h))

theorem rdBytes_not_socket (buf : List Nat) :
    ∀ (n off : Nat) (s : SocketError), rdBytes buf off n ≠ .error (.socket s) := by
  intro n
  induction n with
  | zero => intro off s h; cases h
  | succ n ih =>
    intro off
    unfold rdBytes
    exact bind_not_socket (rd8_not_socket _ _) (fun _ =>
      bind_not_socket (ih _) (fun _ _ h => by cases h))

theorem convertAddress_not_socket (family : Nat) (buf : List Nat) (data : Nat) :
    ∀ s, Address.convertAddress family buf data ≠ .error (.socket s) := by
  unfold Address.convertAddress
  split
  · exact bind_not_socket (rdBytes_not_socket _ _ _) (fun _ _ h => by cases h)
  · split
    · exact bind_not_socket (rdBytes_not_socket _ _ _) (fun _ _ h => by cases h)
    · exact fun _ h => by cases h

theorem addressAttr_not_socket (buf : List Nat) (family : Nat) (tb : AttrTable) (i : Nat) :
    ∀ s, addressAttr buf family tb i ≠ .error (.socket s) := by
  unfold addressAttr
  cases tb.at i with
  | none => exact fun _ h => by cases h
  | some a => exact convertAddress_not_socket _ _ _

theorem parse_route_destination_not_socket (buf : List Nat) (rtMsg family : Nat)
    (tb : AttrTable) : ∀ s, parse_route_destination buf rtMsg family tb ≠ .error (.socket s) := by
  unfold parse_route_destination
  cases tb.at RTA_DST with
  | none => exact fun _ h => by cases h
  | some a =>
    show ∀ s, (if family = AF_INET then _ else _) ≠ _
    split
    · refine bind_not_socket (rdBytes_not_socket _ _ _) (fun _ =>
        bind_not_socket (rd8_not_socket _ _) (fun _ _ => ?_))
      split <;> exact fun h => by cases h
    · split
      · refine bind_not_socket (rdBytes_not_socket _ _ _) (fun _ =>
          bind_not_socket (rd8_not_socket _ _) (fun _ _ => ?_))
        split <;> exact fun h => by cases h
      · exact fun _ h => by cases h

theorem parse_route_oif_not_socket (ifx : Nat → Option (List Nat)) (buf : List Nat)
    (tb : AttrTable) : ∀ s, parse_route_oif ifx buf tb ≠ .error (.socket s) := by
  unfold parse_route_oif
  cases tb.at RTA_OIF with
  | none => exact fun _ h => by cases h
  | some a =>
    refine bind_not_socket (rd32_not_socket _ _) (fun ifidx _ => ?_)
    cases ifx ifidx <;> exact fun h => by cases h

/-- The route decoder after its first four steps have read inside the buffer: the family
check, then the construction of the entry. -/
theorem parse_route_eq (ifx : Nat → Option (List Nat)) (buf : List Nat) (header rtMsg : Nat)
    (nlmsg_len : Nat) (tb : AttrTable) (table fam : Nat)
    (h0 : rd32 buf header = .ok nlmsg_len)
    (htb : parse_rtattr RTA_MAX buf (rtMsg + NLMSG_ALIGN sizeof_rtmsg)
      (NLMSG_PAYLOAD nlmsg_len sizeof_rtmsg) = .ok tb)
    (htable : rtm_get_table buf rtMsg tb = .ok table) (hfam : rd8 buf rtMsg = .ok fam) :
    parse_route ifx buf header rtMsg =
      if fam ≠ AF_INET ∧ fam ≠ AF_INET6 then .error (.socket .InvalidFamily)
      else
        rd16 buf (header + 4) >>= fun nlmsg_type =>
        parse_route_destination buf rtMsg fam tb >>= fun destination =>
        addressAttr buf fam tb RTA_GATEWAY >>= fun gateway =>
        parse_route_oif ifx buf tb >>= fun interfaceName =>
        addressAttr buf fam tb RTA_SRC >>= fun source =>
        pure { action := actionOf RTM_NEWROUTE RTM_DELROUTE nlmsg_type
               table := tableOf table
               destination := destination
               gateway := gateway
               interfaceName := interfaceName
               source := source } := by
  unfold parse_route
  rw [h0, bind_ok]
  simp only []
  rw [htb, bind_ok, htable, bind_ok, hfam, bind_ok]

/-- What a successful run of the route decoder went through. -/
theorem parse_route_inv {ifx : Nat → Option (List Nat)} {buf : List Nat} {header rtMsg : Nat}
    {v : Route} (h : parse_route ifx buf header rtMsg = .ok v) :
    ∃ (nlmsg_len : Nat) (tb : AttrTable) (table fam nlmsg_type : Nat)
      (destination : Destination) (gateway : IpAddress) (interfaceName : List Nat)
      (source : IpAddress),
      rd32 buf header = .ok nlmsg_len ∧
      parse_rtattr RTA_MAX buf (rtMsg + NLMSG_ALIGN sizeof_rtmsg)
        (NLMSG_PAYLOAD nlmsg_len sizeof_rtmsg) = .ok tb ∧
      rtm_get_table buf rtMsg tb = .ok table ∧
      rd8 buf rtMsg = .ok fam ∧ (fam = AF_INET ∨ fam = AF_INET6) ∧
      rd16 buf (header + 4) = .ok nlmsg_type ∧
      parse_route_destination buf rtMsg fam tb = .ok destination ∧
      addressAttr buf fam tb RTA_GATEWAY = .ok gateway ∧
      parse_route_oif ifx buf tb = .ok interfaceName ∧
      addressAttr buf fam tb RTA_SRC = .ok source ∧
      v = { action := actionOf RTM_NEWROUTE RTM_DELROUTE nlmsg_type
            table := tableOf table
            destination := destination
            gateway := gateway
            interfaceName := interfaceName
            source := source } := by
  unfold parse_route at h
  obtain ⟨len, h1, h⟩ := bind_eq_ok h
  obtain ⟨tb, h2, h⟩ := bind_eq_ok h
  obtain ⟨table, h3, h⟩ := bind_eq_ok h
  obtain ⟨fam, h4, h⟩ := bind_eq_ok h
  split at h
  · cases h
  · rename_i hf
    obtain ⟨t, h5, h⟩ := bind_eq_ok h
    obtain ⟨d, h6, h⟩ := bind_eq_ok h
    obtain ⟨g, h7, h⟩ := bind_eq_ok h
    obtain ⟨n, h8, h⟩ := bind_eq_ok h
    obtain ⟨s, h9, h⟩ := bind_eq_ok h
    injection h with h
    refine ⟨len, tb, table, fam, t, d, g, n, s, h1, h2, h3, h4, ?_, h5, h6, h7, h8, h9, h.symm⟩
    by_cases h2 : fam = AF_INET
    · exact Or.inl h2
    · by_cases h10 : fam = AF_INET6
      · exact Or.inr h10
      · exact absurd ⟨h2, h10⟩ hf

/-- What a successful run of the table lookup went through. -/
theorem rtm_get_table_inv {buf : List Nat} {r : Nat} {tb : AttrTable} {table : Nat}
    (h : rtm_get_table buf r tb = .ok table) :
    (∃ a, tb.at RTA_TABLE = some a ∧ rd32 buf (RTA_DATA a) = .ok table) ∨
    (tb.at RTA_TABLE = none ∧ rd8 buf (r + 4) = .ok table) := by
  unfold rtm_get_table at h
  obtain ⟨b, h1, h⟩ := bind_eq_ok h
  cases hat : tb.at RTA_TABLE with
  | none =>
    rw [hat] at h
    injection h with h
    exact Or.inr ⟨rfl, by rw [h1, h]⟩
  | some a =>
    rw [hat] at h
    exact Or.inl ⟨a, rfl, h⟩

/-- What a successful run of the destination block went through, for a supported family. -/
theorem parse_route_destination_inv {buf : List Nat} {rtMsg fam : Nat} {tb : AttrTable}
    {d : Destination} (h : parse_route_destination buf rtMsg fam tb = .ok d)
    (hfam : fam = AF_INET ∨ fam = AF_INET6) :
    (tb.at RTA_DST = none ∧ d = .Default_t) ∨
    (∃ a addr len, tb.at RTA_DST = some a ∧ fam = AF_INET ∧
      rdBytes buf (RTA_DATA a) 4 = .ok addr ∧ rd8 buf (rtMsg + 1) = .ok len ∧ len ≤ 32 ∧
      d = .network_v4 addr len) ∨
    (∃ a addr len, tb.at RTA_DST = some a ∧ fam = AF_INET6 ∧
      rdBytes buf (RTA_DATA a) 16 = .ok addr ∧ rd8 buf (rtMsg + 1) = .ok len ∧ len ≤ 128 ∧
      d = .network_v6 addr len) := by
  unfold parse_route_destination at h
  cases hat : tb.at RTA_DST with
  | none =>
    rw [hat] at h
    injection h with h
    exact Or.inl ⟨rfl, h.symm⟩
  | some a =>
    rw [hat] at h
    simp only [] at h
    rcases hfam with hf | hf
    · rw [if_pos hf] at h
      obtain ⟨addr, h1, h⟩ := bind_eq_ok h
      obtain ⟨len, h2, h⟩ := bind_eq_ok h
      split at h
      · cases h
      · injection h with h
        exact Or.inr (Or.inl ⟨a, addr, len, rfl, hf, h1, h2, by omega, h.symm⟩)
    · rw [if_neg (by rw [hf]; decide), if_pos hf] at h
      obtain ⟨addr, h1, h⟩ := bind_eq_ok h
      obtain ⟨len, h2, h⟩ := bind_eq_ok h
      split at h
      · cases h
      · injection h with h
        exact Or.inr (Or.inr ⟨a, addr, len, rfl, hf, h1, h2, by omega, h.symm⟩)

/-! ### What the address and link decoders return -/

/-- What a successful run of the address decoder went through. -/
theorem parse_address_inv {buf : List Nat} {header msg : Nat} {v : Address}
    (h : parse_address buf header msg = .ok v) :
    ∃ (nlmsg_len : Nat) (tb : AttrTable) (nlmsg_type ifa_prefixlen ifa_scope : Nat)
      (address local_ broadcast : IpAddress),
      rd32 buf header = .ok nlmsg_len ∧
      parse_rtattr IFA_MAX buf (msg + NLMSG_ALIGN sizeof_ifaddrmsg)
        (NLMSG_PAYLOAD nlmsg_len sizeof_ifaddrmsg) = .ok tb ∧
      rd16 buf (header + 4) = .ok nlmsg_type ∧
      rd8 buf (msg + 1) = .ok ifa_prefixlen ∧ rd8 buf (msg + 3) = .ok ifa_scope ∧
      ifaAttr buf msg tb IFA_ADDRESS = .ok address ∧
      ifaAttr buf msg tb IFA_LOCAL = .ok local_ ∧
      ifaAttr buf msg tb IFA_BROADCAST = .ok broadcast ∧
      v = { action := actionOf RTM_NEWADDR RTM_DELADDR nlmsg_type
            address := address
            netmask := ifa_prefixlen
            broadcast := broadcast
            local_ := local_
            scope := scopeOf ifa_scope } := by
  unfold parse_address at h
  obtain ⟨len, h1, h⟩ := bind_eq_ok h
  obtain ⟨tb, h2, h⟩ := bind_eq_ok h
  obtain ⟨t, h3, h⟩ := bind_eq_ok h
  obtain ⟨pl, h4, h⟩ := bind_eq_ok h
  obtain ⟨sc, h5, h⟩ := bind_eq_ok h
  obtain ⟨a, h6, h⟩ := bind_eq_ok h
  obtain ⟨l, h7, h⟩ := bind_eq_ok h
  obtain ⟨b, h8, h⟩ := bind_eq_ok h
  injection h with h
  exact ⟨len, tb, t, pl, sc, a, l, b, h1, h2, h3, h4, h5, h6, h7, h8, h.symm⟩

theorem newAddrV4Msg_bytes (p s a0 a1 a2 a3 : Nat) :
    newAddrV4Msg p s [a0, a1, a2, a3]
      = [32, 0, 0, 0, 20, 0, 0, 0, 0, 0, 0, 0, 0, 0, 0, 0, 2, p, 0, s, 2, 0, 0, 0,
          8, 0, 1, 0, a0, a1, a2, a3] := by
  simp [newAddrV4Msg, encodeMsg, encodeAttr, pad4, le32, le16]

/-- An encoded IPv4 address notification decodes, whatever its prefix length, scope byte
and address bytes are. -/
theorem newAddrV4Msg_decodes (p s a0 a1 a2 a3 : Nat) :
    parse_address (newAddrV4Msg p s [a0, a1, a2, a3]) 0 (NLMSG_DATA 0)
      = .ok { action := .New, address := .v4 [a0 % 256, a1 % 256, a2 % 256, a3 % 256],
              netmask := p % 256, scope := scopeOf (s % 256) } := by
  rw [newAddrV4Msg_bytes]
  rfl

/-- What a successful run of the link decoder went through. -/
theorem parse_link_inv {buf : List Nat} {header msg : Nat} {v : Interface}
    (h : parse_link buf header msg = .ok v) :
    ∃ (nlmsg_len : Nat) (tb : AttrTable) (nlmsg_type : Nat) (name : List Nat),
      rd32 buf header = .ok nlmsg_len ∧
      parse_rtattr IFLA_MAX buf (msg + NLMSG_ALIGN sizeof_ifinfomsg)
        (NLMSG_PAYLOAD nlmsg_len sizeof_ifinfomsg) = .ok tb ∧
      rd16 buf (header + 4) = .ok nlmsg_type ∧
      parse_link_name buf tb = .ok name ∧
      v = { action := actionOf RTM_NEWLINK RTM_DELLINK nlmsg_type, name := name } := by
  unfold parse_link at h
  obtain ⟨len, h1, h⟩ := bind_eq_ok h
  obtain ⟨tb, h2, h⟩ := bind_eq_ok h
  obtain ⟨t, h3, h⟩ := bind_eq_ok h
  obtain ⟨n, h4, h⟩ := bind_eq_ok h
  injection h with h
  exact ⟨len, tb, t, n, h1, h2, h3, h4, h.symm⟩

/-- A C string that was read: the bytes from the start up to the first NUL, and a NUL is
found inside the buffer. -/
theorem rdCStr_inv {buf : List Nat} {off : Nat} {s : List Nat} (h : rdCStr buf off = .ok s) :
    s = ((buf.drop off).map (· % 256)).takeWhile (· ≠ 0) ∧
    s.length < ((buf.drop off).map (· % 256)).length := by
  unfold rdCStr at h
  simp only [] at h
  split at h
  · rename_i hlt
    injection h with h
    subst h
    exact ⟨rfl, hlt⟩
  · cases h

/-- The scope mapping, value by value. -/
theorem scopeOf_cases (b : Nat) :
    (b = RT_SCOPE_UNIVERSE ∧ scopeOf b = .Universe) ∨ (b = RT_SCOPE_SITE ∧ scopeOf b = .Site) ∨
    (b = RT_SCOPE_LINK ∧ scopeOf b = .Link) ∨ (b = RT_SCOPE_HOST ∧ scopeOf b = .Host) ∨
    (b = RT_SCOPE_NOWHERE ∧ scopeOf b = .Nowhere) ∨ scopeOf b = .Unknown := by
  by_cases h0 : b = RT_SCOPE_UNIVERSE
  · exact Or.inl ⟨h0, by rw [h0]; rfl⟩
  by_cases h1 : b = RT_SCOPE_SITE
  · exact Or.inr (Or.inl ⟨h1, by rw [h1]; rfl⟩)
  by_cases h2 : b = RT_SCOPE_LINK
  · exact Or.inr (Or.inr (Or.inl ⟨h2, by rw [h2]; rfl⟩))
  by_cases h3 : b = RT_SCOPE_HOST
  · exact Or.inr (Or.inr (Or.inr (Or.inl ⟨h3, by rw [h3]; rfl⟩)))
  by_cases h4 : b = RT_SCOPE_NOWHERE
  · exact Or.inr (Or.inr (Or.inr (Or.inr (Or.inl ⟨h4, by rw [h4]; rfl⟩))))
  · refine Or.inr (Or.inr (Or.inr (Or.inr (Or.inr ?_))))
    unfold scopeOf
    rw [if_neg h0, if_neg h1, if_neg h2, if_neg h3, if_neg h4]

/-! ### The typed request model -/

theorem Request.foldl_AddItem {α : Type} (vs : List α) :
    ∀ r : Request α, vs.foldl Request.AddItem r = { r with response := r.response ++ vs } := by
  induction vs with
  | nil => intro r; simp only [List.foldl_nil, List.append_nil]
  | cons v vs ih =>
    intro r
    rw [List.foldl_cons, ih]
    simp only [Request.AddItem, List.append_assoc, List.singleton_append]

/-! ### Netmasks -/

theorem countl_one_le (b : Nat) : countl_one b ≤ 8 := by
  unfold countl_one
  have h := (List.takeWhile_prefix (fun x => decide (x = 1))
    (l := (List.range 8).map (fun i => b % 256 / 2 ^ (7 - i) % 2))).length_le
  rw [List.length_map, List.length_range] at h
  exact h

/-- The running sum of `countNetmaskBits` from a start value, while it stays below 2^32. -/
theorem countNetmaskBits_foldl (bytes : List Nat) :
    ∀ n0 : Nat, n0 + 8 * bytes.length < 2 ^ 32 →
      bytes.foldl (fun n b => (n + countl_one b) % 2 ^ 32) n0
        = n0 + (bytes.map countl_one).sum := by
  induction bytes with
  | nil => intro n0 _; rfl
  | cons b bs ih =>
    intro n0 h
    have hb := countl_one_le b
    rw [List.length_cons] at h
    rw [List.foldl_cons, Nat.mod_eq_of_lt (by omega), ih _ (by omega), List.map_cons,
      List.sum_cons, Nat.add_assoc]

theorem sum_countl_one_le (bytes : List Nat) : (bytes.map countl_one).sum ≤ 8 * bytes.length := by
  induction bytes with
  | nil => exact Nat.le_refl _
  | cons b bs ih =>
    have hb := countl_one_le b
    rw [List.map_cons, List.sum_cons, List.length_cons]
    omega

theorem countNetmaskBits_prefix4 : ∀ n, n ≤ 32 → countNetmaskBits (prefixMask 4 n) = n := by
  decide

set_option maxRecDepth 100000 in
theorem countNetmaskBits_prefix16 :
    ∀ n, n ≤ 128 → countNetmaskBits (prefixMask 16 n) = n := by
  decide

/-! ### Walking over messages of other types and over notifications -/

/-- One pass of the loop at a message of a type it does not act on: nothing changes and
`NLMSG_NEXT` moves on. -/
theorem walkBody_other (ifx : Nat → Option (List Nat)) (buf : List Nat)
    (nlHeader nlHeaderLen : Nat) (h : nlmsghdr) (hat : MessageAt buf nlHeader nlHeaderLen h)
    (ht : ¬ handledType h.nlmsg_type) (response : Option ResponseTypes) (sk : Socket) :
    Socket.walkBody ifx buf nlHeader nlHeaderLen response sk
      = .next (nextHeader nlHeader h.nlmsg_len) (nextLen nlHeaderLen h.nlmsg_len)
          response sk := by
  obtain ⟨h1, h2, h3, h4, h5, _, _, _⟩ := hat
  unfold handledType at ht
  have hd : h.nlmsg_type ≠ NLMSG_DONE := fun e => ht (Or.inl e)
  have hr : ¬ (h.nlmsg_type = RTM_NEWROUTE ∨ h.nlmsg_type = RTM_DELROUTE) := by
    rintro (e | e)
    · exact ht (Or.inr (Or.inl e))
    · exact ht (Or.inr (Or.inr (Or.inl e)))
  have ha : ¬ (h.nlmsg_type = RTM_NEWADDR ∨ h.nlmsg_type = RTM_DELADDR) := by
    rintro (e | e)
    · exact ht (Or.inr (Or.inr (Or.inr (Or.inl e))))
    · exact ht (Or.inr (Or.inr (Or.inr (Or.inr (Or.inl e)))))
  have hl : ¬ (h.nlmsg_type = RTM_NEWLINK ∨ h.nlmsg_type = RTM_DELLINK) := by
    rintro (e | e)
    · exact ht (Or.inr (Or.inr (Or.inr (Or.inr (Or.inr (Or.inl e))))))
    · exact ht (Or.inr (Or.inr (Or.inr (Or.inr (Or.inr (Or.inr e))))))
  unfold Socket.walkBody
  rw [if_neg (by omega), h2]
  simp only []
  rw [if_neg (by omega), h5]
  simp only []
  rw [if_neg hd, if_neg hr, if_neg ha, if_neg hl]
  rfl

/-- The walk over a run of messages of other types changes nothing. -/
theorem walk_others (ifx : Nat → Option (List Nat)) (post : List Nat)
    (response : Option ResponseTypes) (sk : Socket) (msgs : List (List Nat)) :
    ∀ (pre : List Nat) (fuel : Nat),
      (∀ m ∈ msgs, OtherMessage m) → msgs.flatten.length + post.length < 2 ^ 64 →
      Socket.walk ifx (pre ++ msgs.flatten ++ post) (fuel + msgs.length) pre.length
          (msgs.flatten.length + post.length) response sk
        = Socket.walk ifx (pre ++ msgs.flatten ++ post) fuel (pre ++ msgs.flatten).length
          post.length response sk := by
  induction msgs with
  | nil =>
    intro pre fuel _ _
    simp only [List.flatten_nil, List.append_nil, List.length_nil, Nat.add_zero, Nat.zero_add]
  | cons x msgs ih =>
    intro pre fuel hall hsize
    obtain ⟨h, w, ht⟩ := hall x (List.mem_cons_self _ _)
    rw [List.flatten_cons, List.length_append] at hsize
    have e1 : pre ++ (x :: msgs).flatten ++ post = pre ++ x ++ (msgs.flatten ++ post) := by
      rw [List.flatten_cons]; simp only [List.append_assoc]
    have e2 : (x :: msgs).flatten.length + post.length
        = x.length + (msgs.flatten ++ post).length := by
      rw [List.flatten_cons]; simp only [List.length_append]; omega
    have e3 : fuel + (x :: msgs).length = (fuel + msgs.length) + 1 := by
      simp only [List.length_cons]; omega
    obtain ⟨hat, hn, hl⟩ := w.at pre (msgs.flatten ++ post)
      (by rw [List.length_append]; omega)
    rw [e1, e2, e3, Socket.walk, walkBody_other ifx _ _ _ h hat ht response sk]
    simp only []
    rw [hn, hl]
    have e4 : pre ++ x ++ (msgs.flatten ++ post) = (pre ++ x) ++ msgs.flatten ++ post := by
      simp only [List.append_assoc]
    have e5 : (msgs.flatten ++ post).length = msgs.flatten.length + post.length :=
      List.length_append _ _
    rw [e4, e5, ih (pre ++ x) fuel (fun y hy => hall y (List.mem_cons_of_mem _ hy))
      (by omega)]
    simp only [List.flatten_cons, List.append_assoc]

theorem flatten_length_ge (msgs : List (List Nat)) (hall : ∀ m ∈ msgs, 16 ≤ m.length) :
    msgs.length ≤ msgs.flatten.length := by
  induction msgs with
  | nil => exact Nat.le_refl _
  | cons x msgs ih =>
    have hx := hall x (List.mem_cons_self _ _)
    have := ih (fun y hy => hall y (List.mem_cons_of_mem _ hy))
    rw [List.flatten_cons, List.length_append, List.length_cons]
    omega

theorem emplaceFirst_some (response : Option ResponseTypes) (a : ResponseTypes)
    (y : Option ResponseTypes) :
    emplaceFirst (emplaceFirst response (some a)) y = emplaceFirst response (some a) := by
  cases response <;> rfl

/-- One pass of the loop at a notification: the entity is held unless something is held
already, the socket is as before, and `NLMSG_NEXT` moves on. -/
theorem walkBody_notice (ifx : Nat → Option (List Nat)) (sk : Socket) (pre m post : List Nat)
    (e : ResponseTypes) (response : Option ResponseTypes)
    (hm : Notice ifx sk.m_pid m e) (hsize : m.length + post.length < 2 ^ 64) :
    Socket.walkBody ifx (pre ++ m ++ post) pre.length (m.length + post.length) response sk
      = .next (pre ++ m).length post.length (emplaceFirst response (some e)) sk := by
  obtain ⟨h, w, hp, hcase⟩ := hm
  obtain ⟨hat, hn, hl⟩ := w.at pre post hsize
  have hpid := hat.pid
  rcases hcase with ⟨ht, v, hv, rfl⟩ | ⟨ht, v, hv, rfl⟩ | ⟨ht, v, hv, rfl⟩
  · have hdec := parse_route_ctx ifx pre post hv
    rw [Nat.add_zero, ← NLMSG_DATA_add] at hdec
    have hb := walkBody_route ifx _ _ _ h hat ht response sk
    unfold Socket.HandleRoute at hb
    rw [hdec, handleDecoded_foreign sk _ _ h.nlmsg_pid v _ hpid hp] at hb
    simp only [hn, hl] at hb
    exact hb
  · have hdec := parse_address_ctx pre post hv
    rw [Nat.add_zero, ← NLMSG_DATA_add] at hdec
    have hb := walkBody_address ifx _ _ _ h hat ht response sk
    unfold Socket.HandleAddress at hb
    rw [hdec, handleDecoded_foreign sk _ _ h.nlmsg_pid v _ hpid hp] at hb
    simp only [hn, hl] at hb
    exact hb
  · have hdec := parse_link_ctx pre post hv
    rw [Nat.add_zero, ← NLMSG_DATA_add] at hdec
    have hb := walkBody_link ifx _ _ _ h hat ht response sk
    unfold Socket.HandleLink at hb
    rw [hdec, handleDecoded_foreign sk _ _ h.nlmsg_pid v _ hpid hp] at hb
    simp only [hn, hl] at hb
    exact hb

/-- The walk over a run of notifications holds the first of them, unless something is
held already, and leaves the socket as it was. -/
theorem walk_notices (ifx : Nat → Option (List Nat)) (sk : Socket) (post : List Nat)
    (msgs : List (List Nat × ResponseTypes)) :
    ∀ (pre : List Nat) (fuel : Nat) (response : Option ResponseTypes),
      (∀ x ∈ msgs, Notice ifx sk.m_pid x.1 x.2) →
      (datagramOf msgs).length + post.length < 2 ^ 64 →
      Socket.walk ifx (pre ++ datagramOf msgs ++ post) (fuel + msgs.length) pre.length
          ((datagramOf msgs).length + post.length) response sk
        = Socket.walk ifx (pre ++ datagramOf msgs ++ post) fuel
          (pre ++ datagramOf msgs).length post.length
          (emplaceFirst response (msgs.head?.map Prod.snd)) sk := by
  induction msgs with
  | nil =>
    intro pre fuel response _ _
    simp only [datagramOf_nil, List.append_nil, List.length_nil, Nat.add_zero, Nat.zero_add,
      List.head?_nil, Option.map_none']
    cases response <;> rfl
  | cons x msgs ih =>
    intro pre fuel response hall hsize
    have hx := hall x (List.mem_cons_self _ _)
    rw [datagramOf_cons, List.length_append] at hsize
    have e1 : pre ++ datagramOf (x :: msgs) ++ post
        = pre ++ x.1 ++ (datagramOf msgs ++ post) := by
      rw [datagramOf_cons]; simp only [List.append_assoc]
    have e2 : (datagramOf (x :: msgs)).length + post.length
        = x.1.length + (datagramOf msgs ++ post).length := by
      rw [datagramOf_cons]; simp only [List.length_append]; omega
    have e3 : fuel + (x :: msgs).length = (fuel + msgs.length) + 1 := by
      simp only [List.length_cons]; omega
    rw [e1, e2, e3, Socket.walk, walkBody_notice ifx sk pre x.1 (datagramOf msgs ++ post) x.2
      response hx (by rw [List.length_append]; omega)]
    simp only []
    have e4 : pre ++ x.1 ++ (datagramOf msgs ++ post)
        = (pre ++ x.1) ++ datagramOf msgs ++ post := by
      simp only [List.append_assoc]
    have e5 : (datagramOf msgs ++ post).length = (datagramOf msgs).length + post.length :=
      List.length_append _ _
    rw [e4, e5, ih (pre ++ x.1) fuel _ (fun y hy => hall y (List.mem_cons_of_mem _ hy))
      (by omega), emplaceFirst_some]
    simp only [List.head?_cons, Option.map_some', datagramOf_cons, List.append_assoc]

theorem Notice.wire {ifx : Nat → Option (List Nat)} {ownPid : Nat} {m : List Nat}
    {e : ResponseTypes} (hm : Notice ifx ownPid m e) :
    ∃ h : nlmsghdr, WireMessage m h ∧ h.nlmsg_type ≠ NLMSG_ERROR ∧
      h.nlmsg_type ≠ NLMSG_NOOP ∧ h.nlmsg_type ≠ NLMSG_DONE := by
  obtain ⟨h, w, _, hcase⟩ := hm
  refine ⟨h, w, ?_⟩
  rcases hcase with ⟨ht, _⟩ | ⟨ht, _⟩ | ⟨ht, _⟩ <;> rcases ht with ht | ht <;> rw [ht] <;>
    decide

theorem notices_length (ifx : Nat → Option (List Nat)) (ownPid : Nat)
    (msgs : List (List Nat × ResponseTypes)) (hall : ∀ x ∈ msgs, Notice ifx ownPid x.1 x.2) :
    msgs.length ≤ (datagramOf msgs).length := by
  induction msgs with
  | nil => exact Nat.le_refl _
  | cons x msgs ih =>
    obtain ⟨h, w, _⟩ := Notice.wire (hall x (List.mem_cons_self _ _))
    have hx := w.bounds.1
    have := ih (fun y hy => hall y (List.mem_cons_of_mem _ hy))
    rw [datagramOf_cons, List.length_append, List.length_cons]
    omega

theorem WireMessage.unique {m : List Nat} {h1 h2 : nlmsghdr} (w1 : WireMessage m h1)
    (w2 : WireMessage m h2) : h1 = h2 := by
  have a := w1.header
  rw [w2.header] at a
  exact (Except.ok.inj a).symm

/-- A datagram that starts with notifications, the first of which passes the checks of
the first message: the walk starts, holds the first notification and comes to the byte
after the notifications with the socket as it was. -/
theorem scan_notices (ifx : Nat → Option (List Nat)) (sk : Socket) (post : List Nat)
    (first : List Nat × ResponseTypes) (others : List (List Nat × ResponseTypes))
    (hall : ∀ x ∈ first :: others, Notice ifx sk.m_pid x.1 x.2)
    (hfirst : PassesFirstChecks first.1)
    (hsize : (datagramOf (first :: others) ++ post).length < 2 ^ 64) :
    Socket.scan ifx (datagramOf (first :: others) ++ post) none sk
      = Socket.walk ifx (datagramOf (first :: others) ++ post)
          ((datagramOf (first :: others) ++ post).length + 1 - (first :: others).length)
          (datagramOf (first :: others)).length post.length (some first.2) sk := by
  rw [List.length_append] at hsize
  have hlen := notices_length ifx _ _ hall
  obtain ⟨h, w, hf, hne1, hne2⟩ := hfirst
  obtain ⟨h2, w2, _, _, hne3⟩ := Notice.wire (hall first (List.mem_cons_self _ _))
  have hu := w.unique w2
  subst hu
  obtain ⟨h6, h4, _, _⟩ := w.first (datagramOf others ++ post)
  have hdg : datagramOf (first :: others) ++ post = first.1 ++ (datagramOf others ++ post) := by
    rw [datagramOf_cons, List.append_assoc]
  rw [← hdg] at h6 h4
  have hwalk := walk_notices ifx sk post (first :: others) []
    ((datagramOf (first :: others) ++ post).length + 1 - (first :: others).length) none hall
    hsize
  simp only [List.nil_append, List.length_nil] at hwalk
  have hfuel : (datagramOf (first :: others) ++ post).length + 1 - (first :: others).length
      + (first :: others).length = (datagramOf (first :: others) ++ post).length + 1 := by
    rw [List.length_append]; omega
  rw [hfuel] at hwalk
  rw [scan_first ifx _ none sk h.nlmsg_flags h.nlmsg_type h6 hf h4, if_neg hne1, if_neg hne2,
    if_neg hne3]
  rw [List.length_append] at hwalk ⊢
  rw [hwalk]
  rfl

/-! ### A route message of an unsupported family inside a datagram -/

theorem bind_socket_error {α β : Type} {x : Except Failure α} {f : α → Except Failure β}
    {s : SocketError} (h : (x >>= f) = .error (.socket s))
    (hx : ∀ s, x ≠ .error (.socket s)) : ∃ a, x = .ok a ∧ f a = .error (.socket s) := by
  cases x with
  | error e =>
    rw [bind_error] at h
    injection h with h
    exact absurd (by rw [h]) (hx s)
  | ok a => exact ⟨a, rfl, h⟩

theorem parse_rtattr_body_not_socket (MAX : Nat) (buf : List Nat) (rta len : Nat)
    (tb : AttrTable) (r : Except Failure AttrTable)
    (h : parse_rtattr_body MAX buf rta len tb = .leave r) :
    ∀ s, r ≠ .error (.socket s) := by
  intro s hr
  subst hr
  unfold parse_rtattr_body at h
  split at h
  · cases h
  · split at h
    · rename_i e he
      injection h with h
      injection h with h
      subst h
      exact rd16_not_socket _ _ _ he
    · split at h
      · cases h
      · split at h
        · rename_i e he
          injection h with h
          injection h with h
          subst h
          exact rd16_not_socket _ _ _ he
        · cases h

theorem parse_rtattr_loop_not_socket (MAX : Nat) (buf : List Nat) :
    ∀ (fuel rta len : Nat) (tb : AttrTable) (s : SocketError),
      parse_rtattr_loop MAX buf fuel rta len tb ≠ .error (.socket s) := by
  intro fuel
  induction fuel with
  | zero => intro _ _ _ s h; cases h
  | succ fuel ih =>
    intro rta len tb s
    rw [parse_rtattr_loop]
    cases hb : parse_rtattr_body MAX buf rta len tb with
    | leave r => exact parse_rtattr_body_not_socket MAX buf rta len tb r hb s
    | next rta1 len1 tb1 => exact ih _ _ _ s

theorem parse_rtattr_not_socket (MAX : Nat) (buf : List Nat) (rta len : Nat) :
    ∀ s, parse_rtattr MAX buf rta len ≠ .error (.socket s) :=
  parse_rtattr_loop_not_socket MAX buf _ _ _ _

theorem rtm_get_table_not_socket (buf : List Nat) (r : Nat) (tb : AttrTable) :
    ∀ s, rtm_get_table buf r tb ≠ .error (.socket s) := by
  unfold rtm_get_table
  refine bind_not_socket (rd8_not_socket _ _) (fun table => ?_)
  cases tb.at RTA_TABLE with
  | none => exact fun _ h => by cases h
  | some a => exact rd32_not_socket _ _

/-- What a run of the route decoder that ends with `InvalidFamily` went through. -/
theorem parse_route_invalid_inv {ifx : Nat → Option (List Nat)} {buf : List Nat}
    {header rtMsg : Nat}
    (h : parse_route ifx buf header rtMsg = .error (.socket .InvalidFamily)) :
    ∃ (nlmsg_len : Nat) (tb : AttrTable) (table fam : Nat),
      rd32 buf header = .ok nlmsg_len ∧
      parse_rtattr RTA_MAX buf (rtMsg + NLMSG_ALIGN sizeof_rtmsg)
        (NLMSG_PAYLOAD nlmsg_len sizeof_rtmsg) = .ok tb ∧
      rtm_get_table buf rtMsg tb = .ok table ∧ rd8 buf rtMsg = .ok fam ∧
      fam ≠ AF_INET ∧ fam ≠ AF_INET6 := by
  unfold parse_route at h
  obtain ⟨len, h1, h⟩ := bind_socket_error h (rd32_not_socket _ _)
  obtain ⟨tb, h2, h⟩ := bind_socket_error h (parse_rtattr_not_socket _ _ _ _)
  obtain ⟨table, h3, h⟩ := bind_socket_error h (rtm_get_table_not_socket _ _ _)
  obtain ⟨fam, h4, h⟩ := bind_socket_error h (rd8_not_socket _ _)
  split at h
  · rename_i hf
    exact ⟨len, tb, table, fam, h1, h2, h3, h4, hf.1, hf.2⟩
  · exact absurd h (bind_not_socket (rd16_not_socket _ _) (fun _ =>
      bind_not_socket (parse_route_destination_not_socket _ _ _ _) (fun _ =>
      bind_not_socket (addressAttr_not_socket _ _ _ _) (fun _ =>
      bind_not_socket (parse_route_oif_not_socket _ _ _) (fun _ =>
      bind_not_socket (addressAttr_not_socket _ _ _ _) (fun _ _ h => by cases h)))))
      .InvalidFamily)

/-- A route message that is rejected with `InvalidFamily` on its own is rejected in the
same way inside a datagram. -/
theorem parse_route_invalid_ctx (ifx : Nat → Option (List Nat)) (pre post : List Nat)
    {m : List Nat} {header rtMsg : Nat}
    (h : parse_route ifx m header rtMsg = .error (.socket .InvalidFamily)) :
    parse_route ifx (pre ++ m ++ post) (pre.length + header) (pre.length + rtMsg)
      = .error (.socket .InvalidFamily) := by
  obtain ⟨len, tb, table, fam, h1, h2, h3, h4, hf1, hf2⟩ := parse_route_invalid_inv h
  have e2 := parse_rtattr_ctx pre post RTA_MAX h2
  rw [← Nat.add_assoc] at e2
  rw [parse_route_eq ifx _ _ _ len _ table fam (rd32_ctx pre post h1) e2
    (rtm_get_table_ctx pre post h3) (rd8_ctx pre post h4), if_pos ⟨hf1, hf2⟩]

/-- One pass of the loop at a route message of an unsupported family: `receive` returns
`InvalidFamily` and the socket is as before. -/
theorem walkBody_bad_family (ifx : Nat → Option (List Nat)) (sk : Socket)
    (pre m post : List Nat) (response : Option ResponseTypes)
    (hm : BadFamilyRoute ifx m) (hsize : m.length + post.length < 2 ^ 64) :
    Socket.walkBody ifx (pre ++ m ++ post) pre.length (m.length + post.length) response sk
      = .leave (.returned (.error (.socket .InvalidFamily)) sk) := by
  obtain ⟨h, w, ht, hv⟩ := hm
  obtain ⟨hat, _, _⟩ := w.at pre post hsize
  have hdec := parse_route_invalid_ctx ifx pre post hv
  rw [Nat.add_zero, ← NLMSG_DATA_add] at hdec
  have hb := walkBody_route ifx _ _ _ h hat ht response sk
  unfold Socket.HandleRoute at hb
  rw [hdec] at hb
  exact hb

/-- Every way one pass through the loop of `receive` can go. -/
theorem walkBody_shape (ifx : Nat → Option (List Nat)) (buf : List Nat)
    (nlHeader nlHeaderLen : Nat) (response : Option ResponseTypes) (sk : Socket) :
    Socket.walkBody ifx buf nlHeader nlHeaderLen response sk = .leave (.finished response sk) ∨
    (∃ e, Socket.walkBody ifx buf nlHeader nlHeaderLen response sk
      = .leave (.returned (.error e) sk)) ∨
    (∃ x, response = some x ∧ Socket.walkBody ifx buf nlHeader nlHeaderLen response sk
      = .leave (.returned (.ok x) sk)) ∨
    (response = none ∧ Socket.walkBody ifx buf nlHeader nlHeaderLen response sk
      = .leave (.returned (sk.HandleDone buf nlHeader).1 (sk.HandleDone buf nlHeader).2)) ∨
    (∃ t, rd16 buf (nlHeader + 4) = .ok t ∧ (t = RTM_NEWROUTE ∨ t = RTM_DELROUTE) ∧
      ((∃ e, (sk.HandleRoute ifx buf nlHeader (NLMSG_DATA nlHeader)).1 = .error e ∧
          Socket.walkBody ifx buf nlHeader nlHeaderLen response sk
            = .leave (.returned (.error e)
                (sk.HandleRoute ifx buf nlHeader (NLMSG_DATA nlHeader)).2)) ∨
        (∃ r n l, (sk.HandleRoute ifx buf nlHeader (NLMSG_DATA nlHeader)).1 = .ok r ∧
          Socket.walkBody ifx buf nlHeader nlHeaderLen response sk
            = .next n l (emplaceFirst response (r.map ResponseTypes.Route))
                (sk.HandleRoute ifx buf nlHeader (NLMSG_DATA nlHeader)).2))) ∨
    (∃ t, rd16 buf (nlHeader + 4) = .ok t ∧ (t = RTM_NEWADDR ∨ t = RTM_DELADDR) ∧
      ((∃ e, (sk.HandleAddress buf nlHeader (NLMSG_DATA nlHeader)).1 = .error e ∧
          Socket.walkBody ifx buf nlHeader nlHeaderLen response sk
            = .leave (.returned (.error e)
                (sk.HandleAddress buf nlHeader (NLMSG_DATA nlHeader)).2)) ∨
        (∃ r n l, (sk.HandleAddress buf nlHeader (NLMSG_DATA nlHeader)).1 = .ok r ∧
          Socket.walkBody ifx buf nlHeader nlHeaderLen response sk
            = .next n l (emplaceFirst response (r.map ResponseTypes.Address))
                (sk.HandleAddress buf nlHeader (NLMSG_DATA nlHeader)).2))) ∨
    (∃ t, rd16 buf (nlHeader + 4) = .ok t ∧ (t = RTM_NEWLINK ∨ t = RTM_DELLINK) ∧
      ((∃ e, (sk.HandleLink buf nlHeader (NLMSG_DATA nlHeader)).1 = .error e ∧
          Socket.walkBody ifx buf nlHeader nlHeaderLen response sk
            = .leave (.returned (.error e)
                (sk.HandleLink buf nlHeader (NLMSG_DATA nlHeader)).2)) ∨
        (∃ r n l, (sk.HandleLink buf nlHeader (NLMSG_DATA nlHeader)).1 = .ok r ∧
          Socket.walkBody ifx buf nlHeader nlHeaderLen response sk
            = .next n l (emplaceFirst response (r.map ResponseTypes.Interface))
                (sk.HandleLink buf nlHeader (NLMSG_DATA nlHeader)).2))) ∨
    (∃ n l, Socket.walkBody ifx buf nlHeader nlHeaderLen response sk = .next n l response sk) := by
  by_cases hl : nlHeaderLen < sizeof_nlmsghdr
  · left
    unfold Socket.walkBody; rw [if_pos hl]
  · cases h1 : rd32 buf nlHeader with
    | error e =>
      right; left
      exact ⟨e, by unfold Socket.walkBody; rw [if_neg hl, h1]⟩
    | ok n =>
      by_cases hc : n < sizeof_nlmsghdr ∨ nlHeaderLen < n
      · left
        unfold Socket.walkBody; rw [if_neg hl, h1]; simp only []; rw [if_pos hc]
      · cases h4 : rd16 buf (nlHeader + 4) with
        | error e =>
          right; left
          exact ⟨e, by
            unfold Socket.walkBody; rw [if_neg hl, h1]; simp only []; rw [if_neg hc, h4]⟩
        | ok t =>
          have hw : Socket.walkBody ifx buf nlHeader nlHeaderLen response sk
              = (if t = NLMSG_DONE then
                  match response with
                  | some r => .leave (.returned (.ok r) sk)
                  | none => .leave (.returned (sk.HandleDone buf nlHeader).1
                      (sk.HandleDone buf nlHeader).2)
                else if t = RTM_NEWROUTE ∨ t = RTM_DELROUTE then
                  match sk.HandleRoute ifx buf nlHeader (NLMSG_DATA nlHeader) with
                  | (.error e, sk1) => .leave (.returned (.error e) sk1)
                  | (.ok r, sk1) =>
                    .next (nlHeader + NLMSG_ALIGN n)
                      ((nlHeaderLen + 2 ^ 64 - NLMSG_ALIGN n) % 2 ^ 64)
                      (emplaceFirst response (r.map ResponseTypes.Route)) sk1
                else if t = RTM_NEWADDR ∨ t = RTM_DELADDR then
                  match sk.HandleAddress buf nlHeader (NLMSG_DATA nlHeader) with
                  | (.error e, sk1) => .leave (.returned (.error e) sk1)
                  | (.ok a, sk1) =>
                    .next (nlHeader + NLMSG_ALIGN n)
                      ((nlHeaderLen + 2 ^ 64 - NLMSG_ALIGN n) % 2 ^ 64)
                      (emplaceFirst response (a.map ResponseTypes.Address)) sk1
                else if t = RTM_NEWLINK ∨ t = RTM_DELLINK then
                  match sk.HandleLink buf nlHeader (NLMSG_DATA nlHeader) with
                  | (.error e, sk1) => .leave (.returned (.error e) sk1)
                  | (.ok l, sk1) =>
                    .next (nlHeader + NLMSG_ALIGN n)
                      ((nlHeaderLen + 2 ^ 64 - NLMSG_ALIGN n) % 2 ^ 64)
                      (emplaceFirst response (l.map ResponseTypes.Interface)) sk1
                else .next (nlHeader + NLMSG_ALIGN n)
                  ((nlHeaderLen + 2 ^ 64 - NLMSG_ALIGN n) % 2 ^ 64) response sk) := by
            unfold Socket.walkBody; rw [if_neg hl, h1]; simp only []; rw [if_neg hc, h4]
          rw [hw]
          by_cases ht : t = NLMSG_DONE
          · rw [if_pos ht]
            cases response with
            | some x => right; right; left; exact ⟨x, rfl, rfl⟩
            | none => right; right; right; left; exact ⟨rfl, rfl⟩
          · rw [if_neg ht]
            by_cases hr : t = RTM_NEWROUTE ∨ t = RTM_DELROUTE
            · rw [if_pos hr]
              right; right; right; right; left
              refine ⟨t, rfl, hr, ?_⟩
              rcases hh : sk.HandleRoute ifx buf nlHeader (NLMSG_DATA nlHeader) with ⟨res, sk1⟩
              cases res with
              | error e => exact Or.inl ⟨e, rfl, rfl⟩
              | ok r => exact Or.inr ⟨r, _, _, rfl, rfl⟩
            · rw [if_neg hr]
              by_cases ha : t = RTM_NEWADDR ∨ t = RTM_DELADDR
              · rw [if_pos ha]
                right; right; right; right; right; left
                refine ⟨t, rfl, ha, ?_⟩
                rcases hh : sk.HandleAddress buf nlHeader (NLMSG_DATA nlHeader) with ⟨res, sk1⟩
                cases res with
                | error e => exact Or.inl ⟨e, rfl, rfl⟩
                | ok r => exact Or.inr ⟨r, _, _, rfl, rfl⟩
              · rw [if_neg ha]
                by_cases hk : t = RTM_NEWLINK ∨ t = RTM_DELLINK
                · rw [if_pos hk]
                  right; right; right; right; right; right; left
                  refine ⟨t, rfl, hk, ?_⟩
                  rcases hh : sk.HandleLink buf nlHeader (NLMSG_DATA nlHeader) with ⟨res, sk1⟩
                  cases res with
                  | error e => exact Or.inl ⟨e, rfl, rfl⟩
                  | ok r => exact Or.inr ⟨r, _, _, rfl, rfl⟩
                · rw [if_neg hk]
                  right; right; right; right; right; right; right
                  exact ⟨_, _, rfl⟩

/-- Every way `HandleDone` can go: an error with the socket as it was, or the active
request is popped and its response returned. -/
theorem HandleDone_shape (sk : Socket) (buf : List Nat) (header : Nat) :
    (∃ e, sk.HandleDone buf header = (.error e, sk)) ∨
    (∃ m, sk.m_activeRequest = some m ∧
      sk.HandleDone buf header = (m.GetResponse, { sk with m_activeRequest := none })) := by
  cases h8 : rd32 buf (header + 8) with
  | error e => exact Or.inl ⟨e, by simp [Socket.HandleDone, h8]⟩
  | ok s =>
    cases h12 : rd32 buf (header + 12) with
    | error e => exact Or.inl ⟨e, by simp [Socket.HandleDone, h8, h12]⟩
    | ok p =>
      cases hm : sk.m_activeRequest with
      | none => exact Or.inl ⟨_, HandleDone_none sk buf header s p h8 h12 hm⟩
      | some m =>
        by_cases hid : m.GetId = { seq := s, pid := p }
        · exact Or.inr ⟨m, rfl, HandleDone_match sk buf header s p m h8 h12 hm hid⟩
        · exact Or.inl ⟨_, HandleDone_mismatch sk buf header s p m h8 h12 hm hid⟩

/-- Every way the common body of the three handlers can go. -/
theorem handleDecoded_shape {α : Type} (sk : Socket) (buf : List Nat) (header : Nat)
    (parsed : Except Failure α) (add : α → Message → Except Failure Unit × Message) :
    (∃ e, sk.handleDecoded buf header parsed add = (.error e, sk)) ∨
    (∃ v, parsed = .ok v ∧ sk.handleDecoded buf header parsed add = (.ok (some v), sk)) ∨
    (∃ v m, parsed = .ok v ∧ sk.m_activeRequest = some m ∧
      ((∃ e, sk.handleDecoded buf header parsed add
          = (.error e, { sk with m_activeRequest := some (add v m).2 })) ∨
        sk.handleDecoded buf header parsed add
          = (.ok none, { sk with m_activeRequest := some (add v m).2 }))) := by
  cases parsed with
  | error e => exact Or.inl ⟨e, rfl⟩
  | ok v =>
    cases h12 : rd32 buf (header + 12) with
    | error e => exact Or.inl ⟨e, by simp [Socket.handleDecoded, h12]⟩
    | ok p =>
      by_cases hp : p ≠ sk.m_pid
      · exact Or.inr (Or.inl ⟨v, rfl, handleDecoded_foreign sk buf header p v add h12 hp⟩)
      · cases h8 : rd32 buf (header + 8) with
        | error e => exact Or.inl ⟨e, by simp [Socket.handleDecoded, h12, hp, h8]⟩
        | ok s =>
          have hw : sk.handleDecoded buf header (.ok v) add
              = match sk.addResponse (add v) { seq := s, pid := p } with
                | (.error e, sk1) => (.error e, sk1)
                | (.ok _, sk1) => (.ok none, sk1) := by
            unfold Socket.handleDecoded
            simp only []
            rw [h12]
            simp only []
            rw [if_neg hp, h8]
          rw [hw]
          cases hm : sk.m_activeRequest with
          | none =>
            exact Or.inl ⟨.socket .NoActiveRequest, by simp [Socket.addResponse, hm]⟩
          | some m =>
            by_cases hid : m.GetId ≠ { seq := s, pid := p }
            · exact Or.inl ⟨.socket .MessageIdMismatch, by simp [Socket.addResponse, hm, hid]⟩
            · refine Or.inr (Or.inr ⟨v, m, rfl, rfl, ?_⟩)
              have ha : sk.addResponse (add v) { seq := s, pid := p }
                  = ((add v m).1, { sk with m_activeRequest := some (add v m).2 }) := by
                simp [Socket.addResponse, hm, hid]
              rw [ha]
              cases (add v m).1 with
              | error e => exact Or.inl ⟨e, rfl⟩
              | ok u => exact Or.inr rfl

/-- Every way the checks of the first message can go. -/
theorem scan_shape (ifx : Nat → Option (List Nat)) (buf : List Nat)
    (response : Option ResponseTypes) (sk : Socket) :
    (∃ e, Socket.scan ifx buf response sk = .returned (.error e) sk) ∨
    Socket.scan ifx buf response sk
      = .returned (sk.HandleDone buf 0).1 (sk.HandleDone buf 0).2 ∨
    Socket.scan ifx buf response sk
      = Socket.walk ifx buf (buf.length + 1) 0 buf.length response sk := by
  unfold Socket.scan
  cases h6 : rd16 buf 6 with
  | error e => exact Or.inl ⟨e, rfl⟩
  | ok flags =>
    simp only []
    by_cases hf : flags &&& NLM_F_DUMP_INTR ≠ 0
    · rw [if_pos hf]; exact Or.inl ⟨_, rfl⟩
    · rw [if_neg hf]
      cases h4 : rd16 buf 4 with
      | error e => exact Or.inl ⟨e, rfl⟩
      | ok t =>
        simp only []
        by_cases h1 : t = NLMSG_ERROR
        · rw [if_pos h1]; exact Or.inl ⟨_, rfl⟩
        · rw [if_neg h1]
          by_cases h2 : t = NLMSG_NOOP
          · rw [if_pos h2]; exact Or.inl ⟨_, rfl⟩
          · rw [if_neg h2]
            by_cases h3 : t = NLMSG_DONE
            · rw [if_pos h3]; exact Or.inr (Or.inl rfl)
            · rw [if_neg h3]; exact Or.inr (Or.inr rfl)

/-! ### The identity and the kind of the active request inside `receive` -/

theorem AddResponseRoute_kind (m : Message) (v : Route) :
    (m.AddResponseRoute v).2.kind = m.kind := by
  unfold Message.AddResponseRoute
  split
  · rename_i r hr
    simp only [Message.kind, hr]
  · rfl

theorem AddResponseAddress_kind (m : Message) (v : Address) :
    (m.AddResponseAddress v).2.kind = m.kind := by
  unfold Message.AddResponseAddress
  split
  · rename_i r hr
    simp only [Message.kind, hr]
  · rfl

theorem AddResponseInterface_kind (m : Message) (v : Interface) :
    (m.AddResponseInterface v).2.kind = m.kind := by
  unfold Message.AddResponseInterface
  split
  · rename_i r hr
    simp only [Message.kind, hr]
  · rfl

theorem handleDecoded_activeKey {α : Type} (sk : Socket) (buf : List Nat) (header : Nat)
    (parsed : Except Failure α) (add : α → Message → Except Failure Unit × Message)
    (hadd : ∀ v m, (add v m).2.GetId = m.GetId ∧ (add v m).2.kind = m.kind) :
    (sk.handleDecoded buf header parsed add).2.activeKey = sk.activeKey := by
  rcases handleDecoded_shape sk buf header parsed add with ⟨e, h⟩ | ⟨v, _, h⟩
    | ⟨v, m, _, hm, ⟨e, h⟩ | h⟩
  · rw [h]
  · rw [h]
  · rw [h]
    simp only [Socket.activeKey, hm, Option.map_some', (hadd v m).1, (hadd v m).2]
  · rw [h]
    simp only [Socket.activeKey, hm, Option.map_some', (hadd v m).1, (hadd v m).2]

theorem HandleRoute_activeKey (ifx : Nat → Option (List Nat)) (sk : Socket) (buf : List Nat)
    (header rtMsg : Nat) : (sk.HandleRoute ifx buf header rtMsg).2.activeKey = sk.activeKey :=
  handleDecoded_activeKey sk buf header _ _
    (fun v m => ⟨AddResponseRoute_GetId m v, AddResponseRoute_kind m v⟩)

theorem HandleAddress_activeKey (sk : Socket) (buf : List Nat) (header ifMsg : Nat) :
    (sk.HandleAddress buf header ifMsg).2.activeKey = sk.activeKey :=
  handleDecoded_activeKey sk buf header _ _
    (fun v m => ⟨AddResponseAddress_GetId m v, AddResponseAddress_kind m v⟩)

theorem HandleLink_activeKey (sk : Socket) (buf : List Nat) (header ifMsg : Nat) :
    (sk.HandleLink buf header ifMsg).2.activeKey = sk.activeKey :=
  handleDecoded_activeKey sk buf header _ _
    (fun v m => ⟨AddResponseInterface_GetId m v, AddResponseInterface_kind m v⟩)

theorem GetResponse_of_kind (m : Message) (hk : m.kind ≠ none) :
    ∃ r, m.GetResponse = .ok r := by
  unfold Message.kind at hk
  unfold Message.GetResponse
  cases hr : m.m_request with
  | monostate => rw [hr] at hk; exact absurd rfl hk
  | LinkRequest r => exact ⟨_, rfl⟩
  | RouteRequest r => exact ⟨_, rfl⟩
  | AddressRequest r => exact ⟨_, rfl⟩

theorem HandleDone_keeps (sk : Socket) (buf : List Nat) (header : Nat) (ht : sk.typed) :
    (Walk.returned (sk.HandleDone buf header).1 (sk.HandleDone buf header).2).keeps sk := by
  rcases HandleDone_shape sk buf header with ⟨e, h⟩ | ⟨m, hm, h⟩
  · rw [h]; exact rfl
  · obtain ⟨r, hr⟩ := GetResponse_of_kind m (ht m hm)
    rw [h, hr]
    exact trivial

theorem typed_of_key {sk sk1 : Socket} (h : sk1.activeKey = sk.activeKey) (ht : sk.typed) :
    sk1.typed := by
  intro m1 hm1 hk
  unfold Socket.activeKey at h
  rw [hm1] at h
  cases hm : sk.m_activeRequest with
  | none => rw [hm] at h; cases h
  | some m =>
    rw [hm] at h
    simp only [Option.map_some', Option.some.injEq, Prod.mk.injEq] at h
    exact ht m hm (by rw [← h.2, hk])

theorem Walk.keeps_of_key {sk sk1 : Socket} (h : sk1.activeKey = sk.activeKey) (w : Walk)
    (hw : w.keeps sk1) : w.keeps sk := by
  cases w with
  | returned res sk2 =>
    cases res with
    | error e => exact Eq.trans hw h
    | ok r => exact trivial
  | finished resp sk2 => exact Eq.trans hw h

theorem walkBody_keeps (ifx : Nat → Option (List Nat)) (buf : List Nat)
    (nlHeader nlHeaderLen : Nat) (response : Option ResponseTypes) (sk : Socket)
    (ht : sk.typed) :
    (Socket.walkBody ifx buf nlHeader nlHeaderLen response sk).keeps sk := by
  have hR := HandleRoute_activeKey ifx sk buf nlHeader (NLMSG_DATA nlHeader)
  have hA := HandleAddress_activeKey sk buf nlHeader (NLMSG_DATA nlHeader)
  have hL := HandleLink_activeKey sk buf nlHeader (NLMSG_DATA nlHeader)
  rcases walkBody_shape ifx buf nlHeader nlHeaderLen response sk with h | ⟨e, h⟩ | ⟨x, _, h⟩
    | ⟨_, h⟩ | ⟨t, _, _, ⟨e, _, h⟩ | ⟨r, n, l, _, h⟩⟩ | ⟨t, _, _, ⟨e, _, h⟩ | ⟨r, n, l, _, h⟩⟩
    | ⟨t, _, _, ⟨e, _, h⟩ | ⟨r, n, l, _, h⟩⟩ | ⟨n, l, h⟩
  · rw [h]; exact rfl
  · rw [h]; exact rfl
  · rw [h]; exact trivial
  · rw [h]; exact HandleDone_keeps sk buf nlHeader ht
  · rw [h]; exact hR
  · rw [h]; exact hR
  · rw [h]; exact hA
  · rw [h]; exact hA
  · rw [h]; exact hL
  · rw [h]; exact hL
  · rw [h]; exact rfl

theorem walk_keeps (ifx : Nat → Option (List Nat)) (buf : List Nat) (fuel : Nat) :
    ∀ (nlHeader nlHeaderLen : Nat) (response : Option ResponseTypes) (sk : Socket),
      sk.typed → (Socket.walk ifx buf fuel nlHeader nlHeaderLen response sk).keeps sk := by
  induction fuel with
  | zero => intro _ _ _ sk _; exact rfl
  | succ fuel ih =>
    intro nlHeader nlHeaderLen response sk ht
    have hb := walkBody_keeps ifx buf nlHeader nlHeaderLen response sk ht
    rw [Socket.walk]
    cases hw : Socket.walkBody ifx buf nlHeader nlHeaderLen response sk with
    | leave w => rw [hw] at hb; exact hb
    | next n l r sk1 =>
      rw [hw] at hb
      exact Walk.keeps_of_key hb _ (ih n l r sk1 (typed_of_key hb ht))

theorem scan_keeps (ifx : Nat → Option (List Nat)) (buf : List Nat)
    (response : Option ResponseTypes) (sk : Socket) (ht : sk.typed) :
    (Socket.scan ifx buf response sk).keeps sk := by
  rcases scan_shape ifx buf response sk with ⟨e, h⟩ | h | h
  · rw [h]; exact rfl
  · rw [h]; exact HandleDone_keeps sk buf 0 ht
  · rw [h]; exact walk_keeps ifx buf _ _ _ _ sk ht

/-- A call of `receive` that ends with an error leaves the identity and the kind in the
active slot as they were. -/
theorem receive_loop_keeps (ifx : Nat → Option (List Nat)) (mode : ReceiveMode)
    (events : List RecvEvent) :
    ∀ (response : Option ResponseTypes) (sk : Socket), sk.typed →
      ∀ e, (Socket.receive_loop ifx mode events response sk).result = .error e →
        (Socket.receive_loop ifx mode events response sk).socket.activeKey = sk.activeKey := by
  induction events with
  | nil =>
    intro response sk _ e _
    cases mode <;> rfl
  | cons ev rest ih =>
    intro response sk ht e he
    cases ev with
    | peekError errno => rfl
    | readError errno => rfl
    | datagram buf =>
      have hs := scan_keeps ifx buf response sk ht
      rw [Socket.receive_loop] at he ⊢
      cases hscan : Socket.scan ifx buf response sk with
      | returned res sk1 =>
        rw [hscan] at hs he
        simp only [] at he ⊢
        rw [he] at hs
        exact hs
      | finished r1 sk1 =>
        rw [hscan] at hs he
        simp only [] at he ⊢
        have hs1 : sk1.activeKey = sk.activeKey := hs
        by_cases hsome : sk1.m_activeRequest.isSome = true
        · rw [if_pos hsome] at he ⊢
          exact (ih r1 sk1 (typed_of_key hs1 ht) e he).trans hs1
        · rw [if_neg hsome] at he ⊢
          cases r1 with
          | none => exact hs1
          | some r => exact hs1

/-! ### The accumulator of the active request only grows -/

theorem Message.grownFrom_refl (m : Message) : m.grownFrom m := by
  unfold Message.grownFrom
  cases hr : m.m_request with
  | monostate => trivial
  | LinkRequest r => exact ⟨[], by simp⟩
  | RouteRequest r => exact ⟨[], by simp⟩
  | AddressRequest r => exact ⟨[], by simp⟩

theorem Message.grownFrom_key {m1 m0 : Message} (h : m1.grownFrom m0) :
    m1.GetId = m0.GetId ∧ m1.kind = m0.kind := by
  unfold Message.grownFrom at h
  unfold Message.GetId Message.kind
  cases h0 : m0.m_request <;> cases h1 : m1.m_request <;> rw [h0, h1] at h <;>
    first
      | exact absurd h id
      | exact ⟨rfl, rfl⟩
      | (obtain ⟨vs, hv⟩ := h; rw [hv]; exact ⟨rfl, rfl⟩)

theorem Step1_grown {a b : Socket} (h : Socket.Step1 a b) :
    ∀ m1, b.m_activeRequest = some m1 →
      ∃ m0, a.m_activeRequest = some m0 ∧ m1.grownFrom m0 := by
  intro m1 hm1
  cases h with
  | pop m hm => cases hm1
  | addRoute r v hm =>
    refine ⟨_, hm, ?_⟩
    simp only [Option.some.injEq] at hm1
    rw [← hm1]
    exact ⟨[v], rfl⟩
  | addAddress r v hm =>
    refine ⟨_, hm, ?_⟩
    simp only [Option.some.injEq] at hm1
    rw [← hm1]
    exact ⟨[v], rfl⟩
  | addLink r v hm =>
    refine ⟨_, hm, ?_⟩
    simp only [Option.some.injEq] at hm1
    rw [← hm1]
    exact ⟨[v], rfl⟩

theorem Message.grownFrom_trans {m2 m1 m0 : Message} (h21 : m2.grownFrom m1)
    (h10 : m1.grownFrom m0) : m2.grownFrom m0 := by
  unfold Message.grownFrom at h21 h10 ⊢
  cases h0 : m0.m_request <;> cases h1 : m1.m_request <;> cases h2 : m2.m_request <;>
    rw [h0, h1] at h10 <;> rw [h1, h2] at h21 <;>
    first
      | exact absurd h10 id
      | exact absurd h21 id
      | trivial
      | (obtain ⟨vs, hv⟩ := h10
         obtain ⟨ws, hw⟩ := h21
         exact ⟨vs ++ ws, by rw [hw, hv]; simp⟩)

/-- After elementary changes, a request in the slot is the request that was there before,
with elements appended. -/
theorem Steps_grown {a b : Socket} (h : a.Steps b) :
    ∀ m1, b.m_activeRequest = some m1 →
      ∃ m0, a.m_activeRequest = some m0 ∧ m1.grownFrom m0 := by
  induction h with
  | refl => intro m1 hm1; exact ⟨m1, hm1, m1.grownFrom_refl⟩
  | tail _ hbc ih =>
    intro m2 hm2
    obtain ⟨m1, hm1, h21⟩ := Step1_grown hbc m2 hm2
    obtain ⟨m0, hm0, h10⟩ := ih m1 hm1
    exact ⟨m0, hm0, Message.grownFrom_trans h21 h10⟩

/-! ### Every socket of the program holds a request of one of the three kinds -/

theorem Message.new_kind (kind : Kind) (family : Int) (flags seq pid : Nat) :
    (Message.new kind family flags seq pid).kind = some kind := by
  cases kind <;> rfl

theorem Socket.new_typed (t_socket : Int) (t_pid : Nat) : (Socket.new t_socket t_pid).typed := by
  intro m hm
  cases hm

theorem send_request_typed (kind : Kind) (family : Int) (sendErr : Option Nat) (sk : Socket)
    (ht : sk.typed) : (sk.send_request kind family sendErr).1.2.typed := by
  cases h : sk.m_activeRequest with
  | some m =>
    rw [send_request_active kind family sendErr sk (by simp [h])]
    exact ht
  | none =>
    rw [send_request_idle kind family sendErr sk h]
    intro m hm
    simp only [Option.some.injEq] at hm
    rw [← hm, Message.new_kind]
    exact fun hk => by cases hk

theorem send_request_busy_iff (kind : Kind) (family : Int) (sendErr : Option Nat)
    (sk : Socket) :
    (sk.send_request kind family sendErr).1.1 = .error (.socket .Busy)
      ↔ sk.m_activeRequest.isSome = true := by
  cases h : sk.m_activeRequest with
  | some m =>
    rw [send_request_active kind family sendErr sk (by simp [h])]
    simp
  | none =>
    rw [send_request_idle kind family sendErr sk h]
    cases sendErr <;> simp

theorem isSome_of_key {a b : Socket} (h : a.activeKey = b.activeKey) :
    a.m_activeRequest.isSome = b.m_activeRequest.isSome := by
  unfold Socket.activeKey at h
  cases ha : a.m_activeRequest <;> cases hb : b.m_activeRequest <;> rw [ha, hb] at h <;>
    first
      | rfl
      | cases h

/-! ### The actions of the entities that `receive` appends and returns -/

theorem actionOf_known (newType delType t : Nat) (h : t = newType ∨ t = delType) :
    actionOf newType delType t = .New ∨ actionOf newType delType t = .Del := by
  unfold actionOf
  by_cases h1 : t = newType
  · rw [if_pos h1]; exact Or.inl rfl
  · rw [if_neg h1]
    rcases h with h | h
    · exact absurd h h1
    · rw [if_pos h]; exact Or.inr rfl

theorem parse_route_action {ifx : Nat → Option (List Nat)} {buf : List Nat}
    {header rtMsg : Nat} {v : Route} (h : parse_route ifx buf header rtMsg = .ok v) :
    ∃ t, rd16 buf (header + 4) = .ok t ∧ v.action = actionOf RTM_NEWROUTE RTM_DELROUTE t := by
  obtain ⟨_, _, _, _, t, _, _, _, _, _, _, _, _, _, ht, _, _, _, _, hv⟩ := parse_route_inv h
  exact ⟨t, ht, by rw [hv]⟩

theorem parse_address_action {buf : List Nat} {header msg : Nat} {v : Address}
    (h : parse_address buf header msg = .ok v) :
    ∃ t, rd16 buf (header + 4) = .ok t ∧ v.action = actionOf RTM_NEWADDR RTM_DELADDR t := by
  obtain ⟨_, _, t, _, _, _, _, _, _, _, ht, _, _, _, _, _, hv⟩ := parse_address_inv h
  exact ⟨t, ht, by rw [hv]⟩

theorem parse_link_action {buf : List Nat} {header msg : Nat} {v : Interface}
    (h : parse_link buf header msg = .ok v) :
    ∃ t, rd16 buf (header + 4) = .ok t ∧ v.action = actionOf RTM_NEWLINK RTM_DELLINK t := by
  obtain ⟨_, _, t, _, _, _, ht, _, hv⟩ := parse_link_inv h
  exact ⟨t, ht, by rw [hv]⟩

theorem ActionsKnown.nil : ActionsKnown [] := by
  intro a ha
  cases ha

theorem ActionsKnown.append {l1 l2 : List Action} (h1 : ActionsKnown l1)
    (h2 : ActionsKnown l2) : ActionsKnown (l1 ++ l2) := by
  intro a ha
  rcases List.mem_append.mp ha with h | h
  · exact h1 a h
  · exact h2 a h

theorem ActionsKnown.single {a : Action} (h : a = .New ∨ a = .Del) : ActionsKnown [a] := by
  intro b hb
  rw [List.mem_singleton.mp hb]
  exact h

theorem Socket.appendsKnown_refl (sk : Socket) : sk.appendsKnown sk := by
  cases h : sk.m_activeRequest with
  | none => exact Or.inl h
  | some m => exact Or.inr ⟨[], ActionsKnown.nil, by rw [h]; rfl, by simp⟩

theorem Socket.actions_of_none {sk : Socket} (h : sk.m_activeRequest = none) :
    sk.actions = [] := by
  unfold Socket.actions
  rw [h]

theorem Socket.appendsKnown_trans {a b c : Socket} (hab : a.appendsKnown b)
    (hbc : b.appendsKnown c) : a.appendsKnown c := by
  rcases hbc with hc | ⟨n2, hn2, hb, hc⟩
  · exact Or.inl hc
  · rcases hab with hb0 | ⟨n1, hn1, ha, hb1⟩
    · rw [hb0] at hb; cases hb
    · exact Or.inr ⟨n1 ++ n2, hn1.append hn2, ha, by rw [hc, hb1, List.append_assoc]⟩

theorem ResultKnown.of_appends {a b : Socket} {r : ResponseTypes} (hab : a.appendsKnown b)
    (h : ResultKnown b r) : ResultKnown a r := by
  obtain ⟨new, hn, h | h⟩ := h
  · exact ⟨new, hn, Or.inl h⟩
  · rcases hab with hb | ⟨n1, hn1, _, hb⟩
    · rw [Socket.actions_of_none hb, List.nil_append] at h
      exact ⟨new, hn, Or.inl h⟩
    · exact ⟨n1 ++ new, hn1.append hn, Or.inr (by rw [h, hb, List.append_assoc])⟩

theorem ResultKnown.of_known {sk : Socket} {r : ResponseTypes} (h : ActionsKnown r.actions) :
    ResultKnown sk r :=
  ⟨r.actions, h, Or.inl rfl⟩

theorem Walk.known_of_appends {a b : Socket} (hab : a.appendsKnown b) (w : Walk)
    (h : w.known b) : w.known a := by
  cases w with
  | returned res sk1 =>
    exact ⟨Socket.appendsKnown_trans hab h.1, fun r hr => (h.2 r hr).of_appends hab⟩
  | finished resp sk1 =>
    exact ⟨Socket.appendsKnown_trans hab h.1, h.2⟩

theorem AddResponseRoute_actions (m : Message) (v : Route) :
    (m.AddResponseRoute v).2.actions = m.actions ∨
      (m.AddResponseRoute v).2.actions = m.actions ++ [v.action] := by
  unfold Message.AddResponseRoute
  split
  · rename_i r hr
    right
    simp [Message.actions, hr, Request.AddItem]
  · exact Or.inl rfl

theorem AddResponseAddress_actions (m : Message) (v : Address) :
    (m.AddResponseAddress v).2.actions = m.actions ∨
      (m.AddResponseAddress v).2.actions = m.actions ++ [v.action] := by
  unfold Message.AddResponseAddress
  split
  · rename_i r hr
    right
    simp [Message.actions, hr, Request.AddItem]
  · exact Or.inl rfl

theorem AddResponseInterface_actions (m : Message) (v : Interface) :
    (m.AddResponseInterface v).2.actions = m.actions ∨
      (m.AddResponseInterface v).2.actions = m.actions ++ [v.action] := by
  unfold Message.AddResponseInterface
  split
  · rename_i r hr
    right
    simp [Message.actions, hr, Request.AddItem]
  · exact Or.inl rfl

theorem handleDecoded_known {α : Type} (act : α → Action) (sk : Socket) (buf : List Nat)
    (header : Nat) (parsed : Except Failure α)
    (add : α → Message → Except Failure Unit × Message)
    (hp : ∀ v, parsed = .ok v → act v = .New ∨ act v = .Del)
    (hadd : ∀ v m, (add v m).2.actions = m.actions ∨
      (add v m).2.actions = m.actions ++ [act v]) :
    sk.appendsKnown (sk.handleDecoded buf header parsed add).2 ∧
    ∀ r, (sk.handleDecoded buf header parsed add).1 = .ok (some r) →
      act r = .New ∨ act r = .Del := by
  have hgrow : ∀ v m, parsed = .ok v → sk.m_activeRequest = some m →
      sk.appendsKnown { sk with m_activeRequest := some (add v m).2 } := by
    intro v m hv hm
    right
    have hsk : sk.actions = m.actions := by unfold Socket.actions; rw [hm]
    rcases hadd v m with h | h
    · exact ⟨[], ActionsKnown.nil, by rw [hm]; rfl, by
        rw [hsk, List.append_nil]; exact h⟩
    · exact ⟨[act v], ActionsKnown.single (hp v hv), by rw [hm]; rfl, by
        rw [hsk]; exact h⟩
  rcases handleDecoded_shape sk buf header parsed add with ⟨e, h⟩ | ⟨v, hv, h⟩
    | ⟨v, m, hv, hm, ⟨e, h⟩ | h⟩
  · rw [h]
    exact ⟨sk.appendsKnown_refl, fun r hr => by cases hr⟩
  · rw [h]
    refine ⟨sk.appendsKnown_refl, fun r hr => ?_⟩
    have hrv : v = r := Option.some.inj (Except.ok.inj hr)
    rw [← hrv]
    exact hp v hv
  · rw [h]
    exact ⟨hgrow v m hv hm, fun r hr => by cases hr⟩
  · rw [h]
    exact ⟨hgrow v m hv hm, fun r hr => by cases Except.ok.inj hr⟩

theorem HandleRoute_known (ifx : Nat → Option (List Nat)) (sk : Socket) (buf : List Nat)
    (header rtMsg t : Nat) (ht : rd16 buf (header + 4) = .ok t)
    (htype : t = RTM_NEWROUTE ∨ t = RTM_DELROUTE) :
    sk.appendsKnown (sk.HandleRoute ifx buf header rtMsg).2 ∧
    ∀ r, (sk.HandleRoute ifx buf header rtMsg).1 = .ok (some r) →
      r.action = .New ∨ r.action = .Del := by
  refine handleDecoded_known (fun v : Route => v.action) sk buf header _ _ ?_
    (fun v m => AddResponseRoute_actions m v)
  intro v hv
  obtain ⟨t1, ht1, ha⟩ := parse_route_action hv
  rw [ht] at ht1
  rw [← Except.ok.inj ht1] at ha
  show v.action = .New ∨ v.action = .Del
  rw [ha]
  exact actionOf_known _ _ t htype

theorem HandleAddress_known (sk : Socket) (buf : List Nat)
    (header ifMsg t : Nat) (ht : rd16 buf (header + 4) = .ok t)
    (htype : t = RTM_NEWADDR ∨ t = RTM_DELADDR) :
    sk.appendsKnown (sk.HandleAddress buf header ifMsg).2 ∧
    ∀ r, (sk.HandleAddress buf header ifMsg).1 = .ok (some r) →
      r.action = .New ∨ r.action = .Del := by
  refine handleDecoded_known (fun v : Address => v.action) sk buf header _ _ ?_
    (fun v m => AddResponseAddress_actions m v)
  intro v hv
  obtain ⟨t1, ht1, ha⟩ := parse_address_action hv
  rw [ht] at ht1
  rw [← Except.ok.inj ht1] at ha
  show v.action = .New ∨ v.action = .Del
  rw [ha]
  exact actionOf_known _ _ t htype

theorem HandleLink_known (sk : Socket) (buf : List Nat)
    (header ifMsg t : Nat) (ht : rd16 buf (header + 4) = .ok t)
    (htype : t = RTM_NEWLINK ∨ t = RTM_DELLINK) :
    sk.appendsKnown (sk.HandleLink buf header ifMsg).2 ∧
    ∀ r, (sk.HandleLink buf header ifMsg).1 = .ok (some r) →
      r.action = .New ∨ r.action = .Del := by
  refine handleDecoded_known (fun v : Interface => v.action) sk buf header _ _ ?_
    (fun v m => AddResponseInterface_actions m v)
  intro v hv
  obtain ⟨t1, ht1, ha⟩ := parse_link_action hv
  rw [ht] at ht1
  rw [← Except.ok.inj ht1] at ha
  show v.action = .New ∨ v.action = .Del
  rw [ha]
  exact actionOf_known _ _ t htype

theorem GetResponse_actions {m : Message} {r : ResponseTypes} (h : m.GetResponse = .ok r) :
    r.actions = m.actions := by
  unfold Message.GetResponse at h
  unfold Message.actions
  cases hr : m.m_request <;> rw [hr] at h <;>
    first
      | (rw [← Except.ok.inj h]; rfl)
      | cases h

theorem HandleDone_known (sk : Socket) (buf : List Nat) (header : Nat) :
    (Walk.returned (sk.HandleDone buf header).1 (sk.HandleDone buf header).2).known sk := by
  rcases HandleDone_shape sk buf header with ⟨e, h⟩ | ⟨m, hm, h⟩
  · rw [h]
    exact ⟨sk.appendsKnown_refl, fun r hr => by cases hr⟩
  · rw [h]
    refine ⟨Or.inl rfl, fun r hr => ⟨[], ActionsKnown.nil, Or.inr ?_⟩⟩
    have hsk : sk.actions = m.actions := by unfold Socket.actions; rw [hm]
    rw [GetResponse_actions hr, hsk, List.append_nil]

theorem emplaceFirst_known {α : Type} (toR : α → ResponseTypes) (response : Option ResponseTypes)
    (x : Option α) (hr : ∀ r, response = some r → ActionsKnown r.actions)
    (hx : ∀ v, x = some v → ActionsKnown (toR v).actions) :
    ∀ r, emplaceFirst response (x.map toR) = some r → ActionsKnown r.actions := by
  intro r h
  unfold emplaceFirst at h
  cases response with
  | some r0 => exact hr r h
  | none =>
    cases x with
    | none => cases h
    | some v =>
      simp only [Option.map_some', Option.some.injEq] at h
      rw [← h]
      exact hx v rfl

theorem walkBody_known (ifx : Nat → Option (List Nat)) (buf : List Nat)
    (nlHeader nlHeaderLen : Nat) (response : Option ResponseTypes) (sk : Socket)
    (hr : ∀ r, response = some r → ActionsKnown r.actions) :
    (Socket.walkBody ifx buf nlHeader nlHeaderLen response sk).known sk := by
  rcases walkBody_shape ifx buf nlHeader nlHeaderLen response sk with h | ⟨e, h⟩ | ⟨x, hx, h⟩
    | ⟨_, h⟩ | ⟨t, ht, htype, ⟨e, _, h⟩ | ⟨r, n, l, hres, h⟩⟩
    | ⟨t, ht, htype, ⟨e, _, h⟩ | ⟨r, n, l, hres, h⟩⟩
    | ⟨t, ht, htype, ⟨e, _, h⟩ | ⟨r, n, l, hres, h⟩⟩ | ⟨n, l, h⟩
  · rw [h]; exact ⟨sk.appendsKnown_refl, hr⟩
  · rw [h]; exact ⟨sk.appendsKnown_refl, fun r hr => by cases hr⟩
  · rw [h]
    refine ⟨sk.appendsKnown_refl, fun r h1 => ?_⟩
    rw [← Except.ok.inj h1]
    exact ResultKnown.of_known (hr x hx)
  · rw [h]; exact HandleDone_known sk buf nlHeader
  · rw [h]
    exact ⟨(HandleRoute_known ifx sk buf nlHeader _ t ht htype).1, fun r hr => by cases hr⟩
  · rw [h]
    refine ⟨(HandleRoute_known ifx sk buf nlHeader _ t ht htype).1,
      emplaceFirst_known ResponseTypes.Route response r hr (fun v hv => ?_)⟩
    rw [hv] at hres
    exact ActionsKnown.single ((HandleRoute_known ifx sk buf nlHeader _ t ht htype).2 v hres)
  · rw [h]
    exact ⟨(HandleAddress_known sk buf nlHeader _ t ht htype).1, fun r hr => by cases hr⟩
  · rw [h]
    refine ⟨(HandleAddress_known sk buf nlHeader _ t ht htype).1,
      emplaceFirst_known ResponseTypes.Address response r hr (fun v hv => ?_)⟩
    rw [hv] at hres
    exact ActionsKnown.single ((HandleAddress_known sk buf nlHeader _ t ht htype).2 v hres)
  · rw [h]
    exact ⟨(HandleLink_known sk buf nlHeader _ t ht htype).1, fun r hr => by cases hr⟩
  · rw [h]
    refine ⟨(HandleLink_known sk buf nlHeader _ t ht htype).1,
      emplaceFirst_known ResponseTypes.Interface response r hr (fun v hv => ?_)⟩
    rw [hv] at hres
    exact ActionsKnown.single ((HandleLink_known sk buf nlHeader _ t ht htype).2 v hres)
  · rw [h]; exact ⟨sk.appendsKnown_refl, hr⟩

theorem walk_known (ifx : Nat → Option (List Nat)) (buf : List Nat) (fuel : Nat) :
    ∀ (nlHeader nlHeaderLen : Nat) (response : Option ResponseTypes) (sk : Socket),
      (∀ r, response = some r → ActionsKnown r.actions) →
      (Socket.walk ifx buf fuel nlHeader nlHeaderLen response sk).known sk := by
  induction fuel with
  | zero =>
    intro _ _ _ sk _
    exact ⟨sk.appendsKnown_refl, fun r hr => by cases hr⟩
  | succ fuel ih =>
    intro nlHeader nlHeaderLen response sk hr
    have hb := walkBody_known ifx buf nlHeader nlHeaderLen response sk hr
    rw [Socket.walk]
    cases hw : Socket.walkBody ifx buf nlHeader nlHeaderLen response sk with
    | leave w => rw [hw] at hb; exact hb
    | next n l r sk1 =>
      rw [hw] at hb
      exact Walk.known_of_appends hb.1 _ (ih n l r sk1 hb.2)

theorem scan_known (ifx : Nat → Option (List Nat)) (buf : List Nat)
    (response : Option ResponseTypes) (sk : Socket)
    (hr : ∀ r, response = some r → ActionsKnown r.actions) :
    (Socket.scan ifx buf response sk).known sk := by
  rcases scan_shape ifx buf response sk with ⟨e, h⟩ | h | h
  · rw [h]; exact ⟨sk.appendsKnown_refl, fun r hr => by cases hr⟩
  · rw [h]; exact HandleDone_known sk buf 0
  · rw [h]; exact walk_known ifx buf _ _ _ _ sk hr

/-- A call of `receive` appends only entities with the action `New` or `Del`, and what it
returns consists of such entities and of those the accumulator held before. -/
theorem receive_loop_known (ifx : Nat → Option (List Nat)) (mode : ReceiveMode)
    (events : List RecvEvent) :
    ∀ (response : Option ResponseTypes) (sk : Socket),
      (∀ r, response = some r → ActionsKnown r.actions) →
      sk.appendsKnown (Socket.receive_loop ifx mode events response sk).socket ∧
      ∀ r, (Socket.receive_loop ifx mode events response sk).result = .ok r →
        ResultKnown sk r := by
  induction events with
  | nil =>
    intro response sk _
    cases mode <;> exact ⟨sk.appendsKnown_refl, fun r hr => by cases hr⟩
  | cons ev rest ih =>
    intro response sk hr
    cases ev with
    | peekError errno => exact ⟨sk.appendsKnown_refl, fun r hr => by cases hr⟩
    | readError errno => exact ⟨sk.appendsKnown_refl, fun r hr => by cases hr⟩
    | datagram buf =>
      have hs := scan_known ifx buf response sk hr
      rw [Socket.receive_loop]
      cases hscan : Socket.scan ifx buf response sk with
      | returned res sk1 =>
        rw [hscan] at hs
        exact hs
      | finished r1 sk1 =>
        rw [hscan] at hs
        simp only []
        by_cases hsome : sk1.m_activeRequest.isSome = true
        · rw [if_pos hsome]
          have h1 := ih r1 sk1 hs.2
          exact ⟨Socket.appendsKnown_trans hs.1 h1.1,
            fun r hres => (h1.2 r hres).of_appends hs.1⟩
        · rw [if_neg hsome]
          cases r1 with
          | none => exact ⟨hs.1, fun r hres => by cases hres⟩
          | some r0 =>
            refine ⟨hs.1, fun r hres => ?_⟩
            rw [← Except.ok.inj hres]
            exact ResultKnown.of_known (hs.2 r0 rfl)

theorem send_request_known (kind : Kind) (family : Int) (sendErr : Option Nat) (sk : Socket)
    (hk : ActionsKnown sk.actions) :
    ActionsKnown (sk.send_request kind family sendErr).1.2.actions := by
  cases h : sk.m_activeRequest with
  | some m =>
    rw [send_request_active kind family sendErr sk (by simp [h])]
    exact hk
  | none =>
    rw [send_request_idle kind family sendErr sk h]
    cases kind <;> exact ActionsKnown.nil

/-! ### One call of `receive` over a route dump whose messages decode -/

/-- The datagrams `init`, each a non-empty run of route replies of the active request, and
a last datagram of such replies that ends with the terminator: one call of `receive`
returns the accumulated routes followed by the decoded routes in arrival order. -/
theorem receive_route_dump (ifx : Nat → Option (List Nat)) (mode : ReceiveMode)
    (init : List (List (List Nat × Route))) :
    ∀ (sk : Socket) (r : Request Route) (last : List (List Nat × Route)) (done : List Nat)
      (rest : List RecvEvent),
      sk.m_activeRequest = some { m_request := .RouteRequest r } →
      r.GetId.pid = sk.m_pid →
      (∀ dg ∈ init, dg ≠ [] ∧ (datagramOf dg).length < 2 ^ 64 ∧
        ∀ x ∈ dg, RouteReply ifx r.GetId.seq sk.m_pid x.1 x.2) →
      (∀ x ∈ last, RouteReply ifx r.GetId.seq sk.m_pid x.1 x.2) →
      DoneReply r.GetId.seq r.GetId.pid done →
      (datagramOf last ++ done).length < 2 ^ 64 →
      sk.receive ifx mode
          (init.map (fun dg => .datagram (datagramOf dg))
            ++ .datagram (datagramOf last ++ done) :: rest)
        = { result := .ok (.RouteResponse
              { id := r.GetId, data := r.response ++ (init.flatten ++ last).map Prod.snd })
            socket := { sk with m_activeRequest := none }
            pending := rest } := by
  induction init with
  | nil =>
    intro sk r last done rest hactive hpid _ hlast hdone hsize
    have hsk : sk = { sk with m_activeRequest := some { m_request := .RouteRequest r } } := by
      rw [← hactive]
    rw [hsk]
    simp only [List.map_nil, List.nil_append, List.flatten_nil]
    unfold Socket.receive Socket.receive_loop
    rw [scan_route_final ifx sk r last done hlast hdone hpid hsize]
  | cons dg init ih =>
    intro sk r last done rest hactive hpid hinit hlast hdone hsize
    have hsk : sk = { sk with m_activeRequest := some { m_request := .RouteRequest r } } := by
      rw [← hactive]
    obtain ⟨hne, hdgsize, hdg⟩ := hinit dg (List.mem_cons_self _ _)
    have hih := ih
      { sk with m_activeRequest := some (Message.mk (.RouteRequest
          { r with response := r.response ++ dg.map Prod.snd })) }
      { r with response := r.response ++ dg.map Prod.snd } last done rest rfl hpid
      (fun dg' hdg' => hinit dg' (List.mem_cons_of_mem _ hdg')) hlast hdone hsize
    rw [hsk]
    simp only [List.map_cons, List.cons_append]
    unfold Socket.receive Socket.receive_loop
    rw [scan_route_replies ifx sk r dg hne hdg hpid hdgsize]
    simp only [Option.isSome_some, if_true]
    unfold Socket.receive at hih
    rw [hih]
    simp only [List.flatten_cons, List.map_append, List.append_assoc]
    rfl

/-! ## Claims -/

/-- C1: while a request is active, `send_request` of any kind and family returns `Busy`,
the socket (active request, sequence counter, channel descriptor, pid) is exactly as
before and no datagram is handed to `sendmsg`; in particular, after one successful send
on a fresh socket a second `send_request<RouteRequest>` returns `Busy` and the sequence
counter is still 1. -/
theorem send_request_busy :
    (∀ (kind : Kind) (family : Int) (sendErr : Option Nat) (sk : Socket),
      sk.m_activeRequest.isSome = true →
      sk.send_request kind family sendErr = ((.error (.socket .Busy), sk), [])) ∧
    (∀ (fd : Int) (pid : Nat) (kind : Kind) (family family2 : Int) (sendErr2 : Option Nat),
      ((Socket.new fd pid).send_request kind family none).1.1 = .ok { seq := 1, pid := pid } ∧
      (((Socket.new fd pid).send_request kind family none).1.2.send_request
          .RouteRequest family2 sendErr2).1.1 = .error (.socket .Busy) ∧
      (((Socket.new fd pid).send_request kind family none).1.2.send_request
          .RouteRequest family2 sendErr2).1.2.m_seqNum = 1 ∧
      (((Socket.new fd pid).send_request kind family none).1.2.send_request
          .RouteRequest family2 sendErr2).2 = []) := by
  refine ⟨?_, ?_⟩
  · intro kind family sendErr sk h
    simp [Socket.send_request, h]
  · intro fd pid kind family family2 sendErr2
    cases kind <;>
      simp [Socket.send_request, Socket.send, Socket.new, Message.new, Message.GetId,
        Request.new, Request.GetId]

/-- C1, at a concrete socket: a socket with an active link request rejects a second
request and stays as it was. -/
theorem send_request_busy_witness :
    (({ m_pid := 4242, m_socket := 3, m_seqNum := 1,
        m_activeRequest := some (Message.new .LinkRequest 0 769 1 4242) } : Socket).send_request
        .RouteRequest 2 none)
      = ((.error (.socket .Busy),
          { m_pid := 4242, m_socket := 3, m_seqNum := 1,
            m_activeRequest := some (Message.new .LinkRequest 0 769 1 4242) }), []) :=
  send_request_busy.1 .RouteRequest 2 none _ rfl

/-- C2 (the code at the failing input): on a fresh socket, when `sendmsg` fails with
errno 105 (`ENOBUFS`), `send_request<LinkRequest>` returns that errno, yet the request is
installed in the active slot, the counter has advanced, and a following `send_request`
is rejected with `Busy`. -/
theorem send_request_failure_installs :
    ((Socket.new 3 4242).send_request .LinkRequest 0 (some 105)).1.1 = .error (.os 105) ∧
    ((Socket.new 3 4242).send_request .LinkRequest 0 (some 105)).1.2.m_activeRequest
      = some (Message.new .LinkRequest 0 769 1 4242) ∧
    ((Socket.new 3 4242).send_request .LinkRequest 0 (some 105)).1.2.m_seqNum = 1 ∧
    (((Socket.new 3 4242).send_request .LinkRequest 0 (some 105)).1.2.send_request
        .LinkRequest 0 none).1.1 = .error (.socket .Busy) := by
  decide

/-- C3 (as stated, refuted): on the fresh socket `Socket(3, 4242)` the call sequence that
completes 2^32 + 1 link dumps one after the other returns identities whose sequence
numbers do not increase strictly (2^32 - 1 is followed by 0) and among which the
identity `{1, 4242}` occurs twice. -/
theorem run_wraps :
    ¬ (Socket.run (fun _ => none) (Socket.new 3 4242)
        (dumpCycles 4242 0 (2 ^ 32 + 1))).Pairwise (fun a b => a.seq < b.seq) ∧
    ¬ (Socket.run (fun _ => none) (Socket.new 3 4242)
        (dumpCycles 4242 0 (2 ^ 32 + 1))).Nodup := by
  have hrun := run_dumpCycles (fun _ => none) 4242 (by norm_num) (2 ^ 32 + 1)
    (Socket.new 3 4242) rfl rfl
  have h0 : (Socket.new 3 4242).m_seqNum = 0 := rfl
  rw [h0] at hrun
  rw [hrun]
  constructor
  · have e : (2 : Nat) ^ 32 + 1 = (2 ^ 32 - 2) + 3 := by norm_num
    rw [e, idsFrom_add, idsFrom_three]
    intro hp
    have h2 := (List.pairwise_append.1 hp).2.1
    revert h2
    decide
  · have e : (2 : Nat) ^ 32 + 1 = 1 + ((2 ^ 32 - 1) + 1) := by norm_num
    rw [e, idsFrom_add, idsFrom_add, idsFrom_one, idsFrom_one]
    intro hn
    have h2 := (List.nodup_append.1 hn).2.2
    have h3 := @h2 { seq := 1, pid := 4242 } (by decide) (by
      refine List.mem_append_right _ ?_
      decide)
    exact h3

/-- C3 (amended): in every sequence of `send_request` and `receive` calls on a socket
during which the 32-bit counter does not wrap (the counter at the start plus the number
of `send_request` calls stays below 2^32), the sequence numbers of the identities
returned by the successful `send_request` calls increase strictly, and so no two of
these identities are equal. -/
theorem run_seq_increasing (ifx : Nat → Option (List Nat)) (sk : Socket) (calls : List Call)
    (h : sk.m_seqNum + sendCount calls < 2 ^ 32) :
    (Socket.run ifx sk calls).Pairwise (fun a b => a.seq < b.seq) ∧
    (Socket.run ifx sk calls).Nodup := by
  have hp := (run_bounds ifx calls sk h).2
  refine ⟨hp, ?_⟩
  unfold List.Nodup
  refine hp.imp ?_
  intro a b hab heq
  rw [heq] at hab
  exact Nat.lt_irrefl _ hab

/-- C3 (amended), at a concrete run: two dumps completed on the socket `Socket(3, 4242)`. -/
theorem run_seq_increasing_witness :
    (Socket.new 3 4242).m_seqNum + sendCount (dumpCycles 4242 0 2) < 2 ^ 32 ∧
    (Socket.run (fun _ => none) (Socket.new 3 4242) (dumpCycles 4242 0 2)).Pairwise
      (fun a b => a.seq < b.seq) ∧
    (Socket.run (fun _ => none) (Socket.new 3 4242) (dumpCycles 4242 0 2)).Nodup :=
  ⟨by decide, run_seq_increasing (fun _ => none) (Socket.new 3 4242) (dumpCycles 4242 0 2)
    (by decide)⟩

/-- C8: `HandleDone` on a header that carries `(seq, pid)`: when the active request has
that identity, the slot becomes empty and the result is the response of that request, its
identity with the elements accumulated so far, in order; with no active request, or with
one of another identity, the result is `MessageIdMismatch` and the socket is unchanged. -/
theorem HandleDone_cases (sk : Socket) (buf : List Nat) (header seq pid : Nat)
    (hseq : rd32 buf (header + 8) = .ok seq) (hpid : rd32 buf (header + 12) = .ok pid) :
    (∀ r : Request Interface,
      sk.m_activeRequest = some { m_request := .LinkRequest r } →
      r.GetId = { seq := seq, pid := pid } →
      sk.HandleDone buf header =
        (.ok (.LinkResponse { id := { seq := seq, pid := pid }, data := r.response }),
         { sk with m_activeRequest := none })) ∧
    (∀ r : Request Route,
      sk.m_activeRequest = some { m_request := .RouteRequest r } →
      r.GetId = { seq := seq, pid := pid } →
      sk.HandleDone buf header =
        (.ok (.RouteResponse { id := { seq := seq, pid := pid }, data := r.response }),
         { sk with m_activeRequest := none })) ∧
    (∀ r : Request Address,
      sk.m_activeRequest = some { m_request := .AddressRequest r } →
      r.GetId = { seq := seq, pid := pid } →
      sk.HandleDone buf header =
        (.ok (.AddressResponse { id := { seq := seq, pid := pid }, data := r.response }),
         { sk with m_activeRequest := none })) ∧
    (sk.m_activeRequest = none →
      sk.HandleDone buf header = (.error (.socket .MessageIdMismatch), sk)) ∧
    (∀ m : Message, sk.m_activeRequest = some m → m.GetId ≠ { seq := seq, pid := pid } →
      sk.HandleDone buf header = (.error (.socket .MessageIdMismatch), sk)) := by
  refine ⟨?_, ?_, ?_, ?_, ?_⟩
  · intro r hm hid
    rw [HandleDone_match sk buf header seq pid _ hseq hpid hm hid]
    simp [Message.GetResponse, Request.GetResponse, hid]
  · intro r hm hid
    rw [HandleDone_match sk buf header seq pid _ hseq hpid hm hid]
    simp [Message.GetResponse, Request.GetResponse, hid]
  · intro r hm hid
    rw [HandleDone_match sk buf header seq pid _ hseq hpid hm hid]
    simp [Message.GetResponse, Request.GetResponse, hid]
  · exact HandleDone_none sk buf header seq pid hseq hpid
  · intro m hm hid
    exact HandleDone_mismatch sk buf header seq pid m hseq hpid hm hid

/-- C8, at a concrete socket: the terminator `{1, 4242}` completes the active link request
that has accumulated the interface `lo`. -/
theorem HandleDone_cases_witness :
    (Socket.mk 4242 3 1 (some (Message.mk (.LinkRequest
        ((Request.new sizeof_ifinfomsg RTM_GETLINK 0 769 1 4242).AddItem
          { action := .New, name := [108, 111] }))))).HandleDone (doneMsg 1 4242) 0
      = (.ok (.LinkResponse { id := { seq := 1, pid := 4242 },
                              data := [{ action := .New, name := [108, 111] }] }),
         { m_pid := 4242, m_socket := 3, m_seqNum := 1, m_activeRequest := none }) :=
  (HandleDone_cases (Socket.mk 4242 3 1 (some (Message.mk (.LinkRequest
        ((Request.new sizeof_ifinfomsg RTM_GETLINK 0 769 1 4242).AddItem
          { action := .New, name := [108, 111] })))))
    (doneMsg 1 4242) 0 1 4242 (by decide) (by decide)).1
    ((Request.new sizeof_ifinfomsg RTM_GETLINK 0 769 1 4242).AddItem
      { action := .New, name := [108, 111] }) rfl rfl

/-- C10: when the first message of a datagram has `NLM_F_DUMP_INTR` set, whatever its type
and whatever follows it, `receive` fails with `Interrupted` and the socket is exactly as it
was when the datagram was read: nothing is appended to an accumulator and the active
request stays installed.  The statement covers every iteration of the loop of `receive`
(any held `response`) and the first one in particular. -/
theorem receive_interrupted (ifx : Nat → Option (List Nat)) (mode : ReceiveMode)
    (sk : Socket) (buf : List Nat) (rest : List RecvEvent) (nlmsg_flags : Nat)
    (hflags : rd16 buf 6 = .ok nlmsg_flags) (hintr : nlmsg_flags &&& NLM_F_DUMP_INTR ≠ 0) :
    (∀ response : Option ResponseTypes,
      Socket.receive_loop ifx mode (.datagram buf :: rest) response sk
        = { result := .error (.socket .Interrupted), socket := sk, pending := rest }) ∧
    sk.receive ifx mode (.datagram buf :: rest)
      = { result := .error (.socket .Interrupted), socket := sk, pending := rest } := by
  have h : ∀ response : Option ResponseTypes,
      Socket.receive_loop ifx mode (.datagram buf :: rest) response sk
        = { result := .error (.socket .Interrupted), socket := sk, pending := rest } := by
    intro response
    unfold Socket.receive_loop Socket.scan
    simp only [hflags]
    rw [if_pos hintr]
  exact ⟨h, h none⟩

/-- C10, at a concrete datagram: a route message flagged `NLM_F_MULTI | NLM_F_DUMP_INTR`
arrives while a route request is active. -/
theorem receive_interrupted_witness :
    ({ m_pid := 4242, m_socket := 3, m_seqNum := 1,
       m_activeRequest := some (Message.new .RouteRequest 2 769 1 4242) } : Socket).receive
        (fun _ => none) .Wait
        [.datagram (encodeMsg RTM_NEWROUTE 18 1 4242 (List.replicate 12 0))]
      = { result := .error (.socket .Interrupted),
          socket := { m_pid := 4242, m_socket := 3, m_seqNum := 1,
                      m_activeRequest := some (Message.new .RouteRequest 2 769 1 4242) },
          pending := [] } :=
  (receive_interrupted (fun _ => none) .Wait _
    (encodeMsg RTM_NEWROUTE 18 1 4242 (List.replicate 12 0)) [] 18 (by decide) (by decide)).2

/-- C9: one pass of the loop of `receive` at a Route, Address or Interface message that
decodes to `v`.  When `nlmsg_pid` is the pid of the socket: with no active request the
call fails with `NoActiveRequest`; with an active request of another identity it fails
with `MessageIdMismatch`; with an active request of that identity but of another kind it
fails with `MessageTypeMismatch`; in these three cases the socket is unchanged; with an
active request of that identity and of the kind of the element, `v` is appended to its
accumulator (`AddItem`) and the walk goes on.  When `nlmsg_pid` is another pid the socket
is unchanged and the walk goes on. -/
theorem accumulate_cases (ifx : Nat → Option (List Nat)) (buf : List Nat)
    (nlHeader nlHeaderLen : Nat) (h : nlmsghdr) (hat : MessageAt buf nlHeader nlHeaderLen h)
    (response : Option ResponseTypes) (sk : Socket) :
    (∀ v : Route, (h.nlmsg_type = RTM_NEWROUTE ∨ h.nlmsg_type = RTM_DELROUTE) →
      parse_route ifx buf nlHeader (NLMSG_DATA nlHeader) = .ok v →
      (h.nlmsg_pid = sk.m_pid →
        (sk.m_activeRequest = none →
          Socket.walkBody ifx buf nlHeader nlHeaderLen response sk
            = .leave (.returned (.error (.socket .NoActiveRequest)) sk)) ∧
        (∀ m, sk.m_activeRequest = some m →
          m.GetId ≠ { seq := h.nlmsg_seq, pid := h.nlmsg_pid } →
          Socket.walkBody ifx buf nlHeader nlHeaderLen response sk
            = .leave (.returned (.error (.socket .MessageIdMismatch)) sk)) ∧
        (∀ m, sk.m_activeRequest = some m →
          m.GetId = { seq := h.nlmsg_seq, pid := h.nlmsg_pid } →
          (∀ r, m.m_request ≠ .RouteRequest r) →
          Socket.walkBody ifx buf nlHeader nlHeaderLen response sk
            = .leave (.returned (.error (.socket .MessageTypeMismatch)) sk)) ∧
        (∀ r, sk.m_activeRequest = some { m_request := .RouteRequest r } →
          r.GetId = { seq := h.nlmsg_seq, pid := h.nlmsg_pid } →
          Socket.walkBody ifx buf nlHeader nlHeaderLen response sk
            = .next (nextHeader nlHeader h.nlmsg_len) (nextLen nlHeaderLen h.nlmsg_len) response
                { sk with m_activeRequest := some { m_request := .RouteRequest (r.AddItem v) } })) ∧
      (h.nlmsg_pid ≠ sk.m_pid →
        Socket.walkBody ifx buf nlHeader nlHeaderLen response sk
          = .next (nextHeader nlHeader h.nlmsg_len) (nextLen nlHeaderLen h.nlmsg_len)
              (emplaceFirst response (some (.Route v))) sk)) ∧
    (∀ v : Address, (h.nlmsg_type = RTM_NEWADDR ∨ h.nlmsg_type = RTM_DELADDR) →
      parse_address buf nlHeader (NLMSG_DATA nlHeader) = .ok v →
      (h.nlmsg_pid = sk.m_pid →
        (sk.m_activeRequest = none →
          Socket.walkBody ifx buf nlHeader nlHeaderLen response sk
            = .leave (.returned (.error (.socket .NoActiveRequest)) sk)) ∧
        (∀ m, sk.m_activeRequest = some m →
          m.GetId ≠ { seq := h.nlmsg_seq, pid := h.nlmsg_pid } →
          Socket.walkBody ifx buf nlHeader nlHeaderLen response sk
            = .leave (.returned (.error (.socket .MessageIdMismatch)) sk)) ∧
        (∀ m, sk.m_activeRequest = some m →
          m.GetId = { seq := h.nlmsg_seq, pid := h.nlmsg_pid } →
          (∀ r, m.m_request ≠ .AddressRequest r) →
          Socket.walkBody ifx buf nlHeader nlHeaderLen response sk
            = .leave (.returned (.error (.socket .MessageTypeMismatch)) sk)) ∧
        (∀ r, sk.m_activeRequest = some { m_request := .AddressRequest r } →
          r.GetId = { seq := h.nlmsg_seq, pid := h.nlmsg_pid } →
          Socket.walkBody ifx buf nlHeader nlHeaderLen response sk
            = .next (nextHeader nlHeader h.nlmsg_len) (nextLen nlHeaderLen h.nlmsg_len) response
                { sk with
                  m_activeRequest := some { m_request := .AddressRequest (r.AddItem v) } })) ∧
      (h.nlmsg_pid ≠ sk.m_pid →
        Socket.walkBody ifx buf nlHeader nlHeaderLen response sk
          = .next (nextHeader nlHeader h.nlmsg_len) (nextLen nlHeaderLen h.nlmsg_len)
              (emplaceFirst response (some (.Address v))) sk)) ∧
    (∀ v : Interface, (h.nlmsg_type = RTM_NEWLINK ∨ h.nlmsg_type = RTM_DELLINK) →
      parse_link buf nlHeader (NLMSG_DATA nlHeader) = .ok v →
      (h.nlmsg_pid = sk.m_pid →
        (sk.m_activeRequest = none →
          Socket.walkBody ifx buf nlHeader nlHeaderLen response sk
            = .leave (.returned (.error (.socket .NoActiveRequest)) sk)) ∧
        (∀ m, sk.m_activeRequest = some m →
          m.GetId ≠ { seq := h.nlmsg_seq, pid := h.nlmsg_pid } →
          Socket.walkBody ifx buf nlHeader nlHeaderLen response sk
            = .leave (.returned (.error (.socket .MessageIdMismatch)) sk)) ∧
        (∀ m, sk.m_activeRequest = some m →
          m.GetId = { seq := h.nlmsg_seq, pid := h.nlmsg_pid } →
          (∀ r, m.m_request ≠ .LinkRequest r) →
          Socket.walkBody ifx buf nlHeader nlHeaderLen response sk
            = .leave (.returned (.error (.socket .MessageTypeMismatch)) sk)) ∧
        (∀ r, sk.m_activeRequest = some { m_request := .LinkRequest r } →
          r.GetId = { seq := h.nlmsg_seq, pid := h.nlmsg_pid } →
          Socket.walkBody ifx buf nlHeader nlHeaderLen response sk
            = .next (nextHeader nlHeader h.nlmsg_len) (nextLen nlHeaderLen h.nlmsg_len) response
                { sk with m_activeRequest := some { m_request := .LinkRequest (r.AddItem v) } })) ∧
      (h.nlmsg_pid ≠ sk.m_pid →
        Socket.walkBody ifx buf nlHeader nlHeaderLen response sk
          = .next (nextHeader nlHeader h.nlmsg_len) (nextLen nlHeaderLen h.nlmsg_len)
              (emplaceFirst response (some (.Interface v))) sk)) := by
  have hseq := hat.seq
  have hpid := hat.pid
  refine ⟨?_, ?_, ?_⟩
  · intro v ht hv
    rw [walkBody_route ifx buf nlHeader nlHeaderLen h hat ht]
    unfold Socket.HandleRoute
    rw [hv]
    refine ⟨fun hown => ?_, fun hne => ?_⟩
    · rw [hown] at hpid ⊢
      refine ⟨fun hm => ?_, fun m hm hid => ?_, fun m hm hid hk => ?_, fun r hm hid => ?_⟩
      · rw [handleDecoded_none sk buf nlHeader _ v _ hpid hseq hm]
      · rw [handleDecoded_mismatch sk buf nlHeader _ v _ m hpid hseq hm hid]
      · rw [handleDecoded_reject sk buf nlHeader _ v _ m _ hpid hseq hm hid
          (AddResponseRoute_other m v hk)]
      · rw [handleDecoded_accept sk buf nlHeader _ v _ _ _ hpid hseq hm hid rfl]
        cases response <;> rfl
    · rw [handleDecoded_foreign sk buf nlHeader _ v _ hpid hne]; rfl
  · intro v ht hv
    rw [walkBody_address ifx buf nlHeader nlHeaderLen h hat ht]
    unfold Socket.HandleAddress
    rw [hv]
    refine ⟨fun hown => ?_, fun hne => ?_⟩
    · rw [hown] at hpid ⊢
      refine ⟨fun hm => ?_, fun m hm hid => ?_, fun m hm hid hk => ?_, fun r hm hid => ?_⟩
      · rw [handleDecoded_none sk buf nlHeader _ v _ hpid hseq hm]
      · rw [handleDecoded_mismatch sk buf nlHeader _ v _ m hpid hseq hm hid]
      · rw [handleDecoded_reject sk buf nlHeader _ v _ m _ hpid hseq hm hid
          (AddResponseAddress_other m v hk)]
      · rw [handleDecoded_accept sk buf nlHeader _ v _ _ _ hpid hseq hm hid rfl]
        cases response <;> rfl
    · rw [handleDecoded_foreign sk buf nlHeader _ v _ hpid hne]; rfl
  · intro v ht hv
    rw [walkBody_link ifx buf nlHeader nlHeaderLen h hat ht]
    unfold Socket.HandleLink
    rw [hv]
    refine ⟨fun hown => ?_, fun hne => ?_⟩
    · rw [hown] at hpid ⊢
      refine ⟨fun hm => ?_, fun m hm hid => ?_, fun m hm hid hk => ?_, fun r hm hid => ?_⟩
      · rw [handleDecoded_none sk buf nlHeader _ v _ hpid hseq hm]
      · rw [handleDecoded_mismatch sk buf nlHeader _ v _ m hpid hseq hm hid]
      · rw [handleDecoded_reject sk buf nlHeader _ v _ m _ hpid hseq hm hid
          (AddResponseInterface_other m v hk)]
      · rw [handleDecoded_accept sk buf nlHeader _ v _ _ _ hpid hseq hm hid rfl]
        cases response <;> rfl
    · rw [handleDecoded_foreign sk buf nlHeader _ v _ hpid hne]; rfl

/-- C9, at a concrete message: the `RTM_NEWLINK` message of the interface `lo` with the
identity `{1, 4242}` is appended to the active link request `{1, 4242}` of the socket with
pid 4242. -/
theorem accumulate_cases_witness :
    Socket.walkBody (fun _ => none) (newLinkMsg 1 4242 (List.replicate 16 0) [108, 111]) 0 40
        none (Socket.mk 4242 3 1 (some (Message.new .LinkRequest 0 769 1 4242)))
      = .next 40 0 none (Socket.mk 4242 3 1 (some (Message.mk (.LinkRequest
          ((Request.new sizeof_ifinfomsg RTM_GETLINK 0 769 1 4242).AddItem
            { action := .New, name := [108, 111] }))))) :=
  ((accumulate_cases (fun _ => none) (newLinkMsg 1 4242 (List.replicate 16 0) [108, 111]) 0 40
      { nlmsg_len := 40, nlmsg_type := 16, nlmsg_flags := 2, nlmsg_seq := 1, nlmsg_pid := 4242 }
      ⟨by decide, by decide, by decide, by decide, by decide, by decide, by decide, by decide⟩
      none (Socket.mk 4242 3 1 (some (Message.new .LinkRequest 0 769 1 4242)))).2.2
    { action := .New, name := [108, 111] } (Or.inl rfl) (by decide)).1 rfl |>.2.2.2
      (Request.new sizeof_ifinfomsg RTM_GETLINK 0 769 1 4242) rfl rfl


/-- C4 (dump reassembly).  What holds: the socket has an active route request `r` with
the identity `(s, pid)`, `pid` the pid of the socket; the operating system delivers the
datagrams `init`, each a non-empty run of well-formed, 4-byte-aligned
`RTM_NEWROUTE`/`RTM_DELROUTE` messages that carry `(s, pid)` and that the route decoder
decodes, and then a datagram of such messages (`last`, possibly none) that ends with the
`NLMSG_DONE` message for `(s, pid)`; then one call of `receive` returns the route response
with the identity of `r` and, after what `r` had accumulated (nothing, for a fresh
request), the decoded routes of all datagrams in arrival order, the active slot is empty
afterwards and exactly these datagrams are consumed.  Where the code fails:
`vanishedLinkRouteMsg` meets every condition on a message of the dump (well-formed,
aligned, `RTM_NEWROUTE`, family `AF_INET`, identity `{1, 4242}`, no dump-interrupted
flag), but its `RTA_OIF` names an interface index that `if_indextoname` does not know; the
decoder assigns the null result to `entry.interfaceName`, and the call on the datagram
that holds this message and the terminator returns no response and leaves the request in
the slot.  With an `if_indextoname` that knows the index the same datagram is reassembled.
A message whose `rtm_dst_len` is above the width of the family, `overlongRouteMsg`, makes
the constructor of the network throw. -/
theorem dump_reassembly :
    (∀ (ifx : Nat → Option (List Nat)) (mode : ReceiveMode)
      (init : List (List (List Nat × Route))) (sk : Socket) (r : Request Route)
      (last : List (List Nat × Route)) (done : List Nat) (rest : List RecvEvent),
      sk.m_activeRequest = some { m_request := .RouteRequest r } →
      r.GetId.pid = sk.m_pid →
      (∀ dg ∈ init, dg ≠ [] ∧ (datagramOf dg).length < 2 ^ 64 ∧
        ∀ x ∈ dg, RouteReply ifx r.GetId.seq sk.m_pid x.1 x.2) →
      (∀ x ∈ last, RouteReply ifx r.GetId.seq sk.m_pid x.1 x.2) →
      DoneReply r.GetId.seq r.GetId.pid done →
      (datagramOf last ++ done).length < 2 ^ 64 →
      sk.receive ifx mode
          (init.map (fun dg => .datagram (datagramOf dg))
            ++ .datagram (datagramOf last ++ done) :: rest)
        = { result := .ok (.RouteResponse
              { id := r.GetId, data := r.response ++ (init.flatten ++ last).map Prod.snd })
            socket := { sk with m_activeRequest := none }
            pending := rest }) ∧
    RouteDumpMessage 1 4242 vanishedLinkRouteMsg ∧
    DoneReply 1 4242 (doneMsg 1 4242) ∧
    freshRouteSocket.receive sampleIfNames .Wait
        [.datagram (vanishedLinkRouteMsg ++ doneMsg 1 4242)]
      = { result := .error .undefined, socket := freshRouteSocket, pending := [] } ∧
    freshRouteSocket.receive sevenIfNames .Wait
        [.datagram (vanishedLinkRouteMsg ++ doneMsg 1 4242)]
      = { result := .ok (.RouteResponse
            { id := { seq := 1, pid := 4242 },
              data := [{ action := .New, table := .Main,
                         destination := .network_v4 [10, 0, 0, 0] 24,
                         gateway := IpAddress.default, interfaceName := [101, 116, 104, 49],
                         source := IpAddress.default }] }),
          socket := Socket.mk 4242 3 1 none, pending := [] } ∧
    RouteDumpMessage 1 4242 overlongRouteMsg ∧
    freshRouteSocket.receive sampleIfNames .Wait
        [.datagram (overlongRouteMsg ++ doneMsg 1 4242)]
      = { result := .error .thrown, socket := freshRouteSocket, pending := [] } := by
  refine ⟨fun ifx mode init sk r last done rest h1 h2 h3 h4 h5 h6 =>
      receive_route_dump ifx mode init sk r last done rest h1 h2 h3 h4 h5 h6,
    ⟨vanishedLinkRouteHeader, ⟨by decide, by decide, by decide⟩, by decide, by decide,
      by decide, by decide, AF_INET, by decide, Or.inl rfl⟩,
    ⟨{ nlmsg_len := 20, nlmsg_type := NLMSG_DONE, nlmsg_flags := NLM_F_MULTI, nlmsg_seq := 1,
       nlmsg_pid := 4242 }, ⟨by decide, by decide, by decide⟩, rfl, by decide, rfl, rfl⟩,
    by decide, by decide,
    ⟨{ nlmsg_len := 36, nlmsg_type := RTM_NEWROUTE, nlmsg_flags := NLM_F_MULTI,
       nlmsg_seq := 1, nlmsg_pid := 4242 }, ⟨by decide, by decide, by decide⟩, by decide,
      by decide, by decide, by decide, AF_INET, by decide, Or.inl rfl⟩,
    by decide⟩

/-- C4, at a concrete dump: the route request `{1, 4242}` is answered by one datagram
with the default route via 192.168.1.1 and a second datagram with the terminator. -/
theorem dump_reassembly_witness :
    (Socket.mk 4242 3 1 (some (Message.new .RouteRequest 2 769 1 4242))).receive
        sampleIfNames .Wait
        [.datagram sampleRouteMsg, .datagram (doneMsg 1 4242)]
      = { result := .ok (.RouteResponse { id := { seq := 1, pid := 4242 },
                                          data := [sampleRoute] })
          socket := Socket.mk 4242 3 1 none
          pending := [] } :=
  dump_reassembly.1 sampleIfNames .Wait [[(sampleRouteMsg, sampleRoute)]]
    (Socket.mk 4242 3 1 (some (Message.new .RouteRequest 2 769 1 4242)))
    (Request.new sizeof_rtmsg RTM_GETROUTE 2 769 1 4242) [] (doneMsg 1 4242) [] rfl rfl
    (by
      intro dg hdg
      rw [List.mem_singleton] at hdg
      subst hdg
      refine ⟨by decide, by decide, ?_⟩
      intro x hx
      rw [List.mem_singleton] at hx
      subst hx
      exact ⟨{ nlmsg_len := 52, nlmsg_type := 24, nlmsg_flags := 2, nlmsg_seq := 1,
               nlmsg_pid := 4242 },
        ⟨by decide, by decide, by decide⟩, by decide, by decide, by decide, by decide,
        by decide⟩)
    (by intro x hx; cases hx)
    ⟨{ nlmsg_len := 20, nlmsg_type := 3, nlmsg_flags := 2, nlmsg_seq := 1,
       nlmsg_pid := 4242 },
      ⟨by decide, by decide, by decide⟩, by decide, by decide, by decide, by decide⟩
    (by decide)

/-- C5 (link-dump scenario), for every pid and every channel descriptor: `open([])`
yields the socket `Socket(fd, pid)`; on it `send_request<LinkRequest>(AF_UNSPEC)` returns
the identity `{1, pid}`; when
the kernel then delivers `RTM_NEWLINK` messages that carry the names `n_1 .. n_m` in their
`IFLA_IFNAME` attributes, split over any number of datagrams, and the terminator
`NLMSG_DONE` at the end of the last datagram, all with the identity `{1, pid}`, then
`receive<LinkRequest>(Wait)` returns `{id {1, pid}, data [Interface{New, n_1}, ...,
Interface{New, n_m}]}` in message order, and the slot is empty again. -/
theorem link_dump_scenario (ifx : Nat → Option (List Nat)) (fd : Int) (pid : Nat)
    (hfd : 0 ≤ fd) (hpid : pid < 2 ^ 32)
    (init : List (List (List Nat × List Nat))) (last : List (List Nat × List Nat))
    (rest : List RecvEvent)
    (hinit : ∀ dg ∈ init, dg ≠ [] ∧ (linkDatagram 1 pid dg).length < 2 ^ 64 ∧
      ∀ x ∈ dg, LinkSpec x)
    (hlast : ∀ x ∈ last, LinkSpec x)
    (hsize : (linkDatagram 1 pid last ++ doneMsg 1 pid).length < 2 ^ 64) :
    (Socket.open_ [] fd 0 pid none).1 = .ok (Socket.new fd pid) ∧
    ((Socket.new fd pid).send_request .LinkRequest AF_UNSPEC none).1.1
      = .ok { seq := 1, pid := pid } ∧
    ((Socket.new fd pid).send_request .LinkRequest AF_UNSPEC none).1.2.receiveAs ifx
        .LinkRequest .Wait
        (init.map (fun dg => .datagram (linkDatagram 1 pid dg))
          ++ .datagram (linkDatagram 1 pid last ++ doneMsg 1 pid) :: rest)
      = (.ok { id := { seq := 1, pid := pid },
               data := (init.flatten ++ last).map
                 (fun x => { action := .New, name := x.2 }) },
         { m_pid := pid, m_socket := fd, m_seqNum := 1, m_activeRequest := none },
         rest) := by
  have hsend := send_request_idle .LinkRequest AF_UNSPEC none (Socket.new fd pid) rfl
  rw [hsend]
  refine ⟨?_, rfl, ?_⟩
  · unfold Socket.open_
    rw [if_neg (by omega)]
    have : ((pid : Int) % 2 ^ 32).toNat = pid := by omega
    simp only [this]
  have hreply : ∀ x : List Nat × List Nat, LinkSpec x →
      LinkReply 1 pid (newLinkMsg 1 pid x.1 x.2) { action := .New, name := x.2 } :=
    fun x hx => newLinkMsg_reply 1 pid x.1 x.2 (by norm_num) hpid hx.1 hx.2.1
      (by have := hx.2.2; omega)
  have hdg : ∀ dg : List (List Nat × List Nat), linkDatagram 1 pid dg
      = datagramOf (dg.map (fun x =>
          (newLinkMsg 1 pid x.1 x.2, ({ action := .New, name := x.2 } : Interface)))) := by
    intro dg
    unfold linkDatagram datagramOf
    rw [List.map_map]
    rfl
  have hdone : DoneReply 1 pid (doneMsg 1 pid) := by
    refine ⟨_, ⟨encodeMsg_headerOf NLMSG_DONE NLM_F_MULTI 1 pid [0, 0, 0, 0] (by decide)
      (by decide) (by norm_num) hpid (by decide), ?_, ?_⟩, rfl,
      (by show (2 &&& 16 : Nat) = 0; decide), rfl, rfl⟩
    · unfold doneMsg; rw [encodeMsg_length]
    · unfold doneMsg; rw [encodeMsg_length]; rfl
  have hre := link_reassembly ifx .Wait
    (init.map (fun dg => dg.map (fun x =>
      (newLinkMsg 1 pid x.1 x.2, ({ action := .New, name := x.2 } : Interface)))))
    { m_pid := pid, m_socket := fd, m_seqNum := 1,
      m_activeRequest := some (Message.new .LinkRequest AF_UNSPEC
        (NLM_F_DUMP ||| NLM_F_REQUEST) 1 pid) }
    (Request.new sizeof_ifinfomsg RTM_GETLINK AF_UNSPEC (NLM_F_DUMP ||| NLM_F_REQUEST) 1 pid)
    (last.map (fun x =>
      (newLinkMsg 1 pid x.1 x.2, ({ action := .New, name := x.2 } : Interface))))
    (doneMsg 1 pid) rest rfl rfl
    (by
      intro dg' hdg'
      obtain ⟨dg, hmem, rfl⟩ := List.mem_map.1 hdg'
      obtain ⟨hne, hsz, hall⟩ := hinit dg hmem
      refine ⟨by simpa using hne, by rw [← hdg]; exact hsz, ?_⟩
      intro y hy
      obtain ⟨x, hx, rfl⟩ := List.mem_map.1 hy
      exact hreply x (hall x hx))
    (by
      intro y hy
      obtain ⟨x, hx, rfl⟩ := List.mem_map.1 hy
      exact hreply x (hlast x hx))
    hdone
    (by rw [← hdg]; exact hsize)
  have hev : init.map (fun dg => RecvEvent.datagram (linkDatagram 1 pid dg))
      = (init.map (fun dg => dg.map (fun x =>
          (newLinkMsg 1 pid x.1 x.2, ({ action := .New, name := x.2 } : Interface))))).map
        (fun dg => RecvEvent.datagram (datagramOf dg)) := by
    rw [List.map_map]
    exact List.map_congr_left (fun dg _ => by simp only [Function.comp, hdg])
  have hdata : (Request.new sizeof_ifinfomsg RTM_GETLINK AF_UNSPEC
        (NLM_F_DUMP ||| NLM_F_REQUEST) 1 pid : Request Interface).response
      ++ ((init.map (fun dg => dg.map (fun x =>
          (newLinkMsg 1 pid x.1 x.2, ({ action := .New, name := x.2 } : Interface))))).flatten
        ++ last.map (fun x =>
          (newLinkMsg 1 pid x.1 x.2, ({ action := .New, name := x.2 } : Interface)))).map
        Prod.snd
      = (init.flatten ++ last).map (fun x => ({ action := .New, name := x.2 } : Interface)) := by
    show [] ++ _ = _
    simp [List.map_flatten, Function.comp_def]
  rw [hdata] at hre
  have hone : (0 + 1) % 2 ^ 32 = 1 := by norm_num
  unfold Socket.receiveAs
  simp only [Socket.new, hone]
  rw [hev, hdg last, hre]
  rfl

/-- C5, at the scenario of the specification: pid 4242, the kernel answers with one
datagram that holds the links `lo` and `eth0` and a second datagram with the
terminator. -/
theorem link_dump_scenario_witness :
    (Socket.open_ [] 3 0 4242 none).1 = .ok (Socket.new 3 4242) ∧
    ((Socket.new 3 4242).send_request .LinkRequest AF_UNSPEC none).1.1
      = .ok { seq := 1, pid := 4242 } ∧
    ((Socket.new 3 4242).send_request .LinkRequest AF_UNSPEC none).1.2.receiveAs
        (fun _ => none) .LinkRequest .Wait
        [.datagram (newLinkMsg 1 4242 (List.replicate 16 0) [108, 111]
            ++ newLinkMsg 1 4242 (List.replicate 16 0) [101, 116, 104, 48]),
         .datagram (doneMsg 1 4242)]
      = (.ok { id := { seq := 1, pid := 4242 },
               data := [{ action := .New, name := [108, 111] },
                        { action := .New, name := [101, 116, 104, 48] }] },
         { m_pid := 4242, m_socket := 3, m_seqNum := 1, m_activeRequest := none },
         []) :=
  link_dump_scenario (fun _ => none) 3 4242 (by decide) (by decide)
    [[(List.replicate 16 0, [108, 111]), (List.replicate 16 0, [101, 116, 104, 48])]] [] []
    (by
      intro dg hdg
      rw [List.mem_singleton] at hdg
      subst hdg
      refine ⟨by decide, by decide, ?_⟩
      intro x hx
      rcases List.mem_cons.1 hx with hx | hx
      · subst hx; exact ⟨rfl, by decide, by decide⟩
      · rw [List.mem_singleton] at hx
        subst hx; exact ⟨rfl, by decide, by decide⟩)
    (by intro x hx; cases hx)
    (by decide)

/-- C6 (notification short-circuit): the socket has the active request `msg`; the next
datagram consists of one well-formed `RTM_NEWADDR`/`RTM_DELADDR` message with a foreign
`nlmsg_pid` that decodes to `v`, followed by an `NLMSG_DONE` message (of whatever
identity).  Then this call of `receive` returns `v` as a standalone `Address`, the socket
is exactly as before (the request is still in the slot, its identity and its accumulator
unchanged), and the datagram is consumed; the completion of the request is returned by a
later call of `receive` to which a new datagram brings the terminator. -/
theorem notification_short_circuit (ifx : Nat → Option (List Nat)) (mode : ReceiveMode)
    (sk : Socket) (msg : Message) (a d : List Nat) (v : Address) (rest : List RecvEvent)
    (hactive : sk.m_activeRequest = some msg)
    (ha : AddressNotice sk.m_pid a v) (hd : DoneMessage d)
    (hsize : (a ++ d).length < 2 ^ 64) :
    sk.receive ifx mode (.datagram (a ++ d) :: rest)
      = { result := .ok (.Address v), socket := sk, pending := rest } ∧
    (sk.receive ifx mode (.datagram (a ++ d) :: rest)).socket.m_activeRequest = some msg ∧
    ∀ (d2 : List Nat) (rest2 : List RecvEvent), DoneReply msg.GetId.seq msg.GetId.pid d2 →
      (sk.receive ifx mode (.datagram (a ++ d) :: rest)).socket.receive ifx mode
          (.datagram d2 :: rest2)
        = { result := msg.GetResponse, socket := { sk with m_activeRequest := none },
            pending := rest2 } := by
  have h1 : sk.receive ifx mode (.datagram (a ++ d) :: rest)
      = { result := .ok (.Address v), socket := sk, pending := rest } := by
    unfold Socket.receive Socket.receive_loop
    rw [scan_notice_done ifx sk a d v ha hd hsize]
  rw [h1]
  exact ⟨rfl, hactive, fun d2 rest2 hd2 => receive_done_reply ifx mode sk msg d2 rest2 hactive hd2⟩

/-- C6, at a concrete datagram: while the link request `{1, 4242}` is active, a datagram
brings the notification that 192.168.1.10/24 was added and the terminator of the
request. -/
theorem notification_short_circuit_witness :
    (Socket.mk 4242 3 1 (some (Message.new .LinkRequest 0 769 1 4242))).receive
        (fun _ => none) .Wait [.datagram (sampleAddrMsg ++ doneMsg 1 4242)]
      = { result := .ok (.Address sampleAddr),
          socket := Socket.mk 4242 3 1 (some (Message.new .LinkRequest 0 769 1 4242)),
          pending := [] } :=
  (notification_short_circuit (fun _ => none) .Wait
    (Socket.mk 4242 3 1 (some (Message.new .LinkRequest 0 769 1 4242)))
    (Message.new .LinkRequest 0 769 1 4242) sampleAddrMsg (doneMsg 1 4242) sampleAddr [] rfl
    ⟨{ nlmsg_len := 32, nlmsg_type := 20, nlmsg_flags := 0, nlmsg_seq := 0, nlmsg_pid := 0 },
      ⟨by decide, by decide, by decide⟩, by decide, by decide, by decide, by decide⟩
    ⟨{ nlmsg_len := 20, nlmsg_type := 3, nlmsg_flags := 2, nlmsg_seq := 1, nlmsg_pid := 4242 },
      ⟨by decide, by decide, by decide⟩, by decide⟩
    (by decide)).1

/-- C7 (as stated, refuted): the link request `{1, 4242}` is active and one datagram
brings a foreign address notification followed by the `NLMSG_DONE` of `{1, 4242}`.  The
call comes to that terminator in its walk, yet the slot is occupied after the call: the
terminator is met while the notification is held, and the held notification is returned
instead of running `HandleDone`. -/
theorem slot_kept_when_held :
    ¬ (((Socket.mk 4242 3 1 (some (Message.new .LinkRequest 0 769 1 4242))).receive
          (fun _ => none) .Wait
          [.datagram (sampleAddrMsg ++ doneMsg 1 4242)]).socket.m_activeRequest = none
        ↔ (Socket.mk 4242 3 1 (some (Message.new .LinkRequest 0 769 1 4242))).m_activeRequest
            = none ∨
          Socket.receiveMeetsDone (fun _ => none) true
            [.datagram (sampleAddrMsg ++ doneMsg 1 4242)] none
            (Socket.mk 4242 3 1 (some (Message.new .LinkRequest 0 769 1 4242))) = true) := by
  decide

/-- C7 (amended): for every socket state and every sequence of datagrams and errors that
the operating system delivers, after a call of `receive` the active slot is empty if and
only if it was empty before the call or, during the call, an `NLMSG_DONE` message with
the identity of the active request was encountered as the first message of a datagram,
or in the walk at a pass at which the call held no notification. -/
theorem slot_cleared_iff (ifx : Nat → Option (List Nat)) (mode : ReceiveMode) (sk : Socket)
    (events : List RecvEvent) :
    (sk.receive ifx mode events).socket.m_activeRequest = none
      ↔ sk.m_activeRequest = none ∨
        Socket.receiveMeetsDone ifx false events none sk = true :=
  receive_loop_slot ifx mode events none sk

/-- C11: when the first message of a datagram does not have `NLM_F_DUMP_INTR` set and its
type is `NLMSG_ERROR`, `receive` fails with `Error`; when its type is `NLMSG_NOOP`,
`receive` fails with `Noop`.  In both cases the result does not depend on anything that
follows the first header, and the socket (active request with its accumulator, counter)
is exactly as it was when the datagram was read.  The statement covers every iteration
of the loop of `receive` (any held `response`) and the first one in particular. -/
theorem receive_error_noop (ifx : Nat → Option (List Nat)) (mode : ReceiveMode)
    (sk : Socket) (buf : List Nat) (rest : List RecvEvent) (nlmsg_flags nlmsg_type : Nat)
    (hflags : rd16 buf 6 = .ok nlmsg_flags) (hintr : nlmsg_flags &&& NLM_F_DUMP_INTR = 0)
    (htype : rd16 buf 4 = .ok nlmsg_type) :
    (nlmsg_type = NLMSG_ERROR →
      (∀ response : Option ResponseTypes,
        Socket.receive_loop ifx mode (.datagram buf :: rest) response sk
          = { result := .error (.socket .Error), socket := sk, pending := rest }) ∧
      sk.receive ifx mode (.datagram buf :: rest)
        = { result := .error (.socket .Error), socket := sk, pending := rest }) ∧
    (nlmsg_type = NLMSG_NOOP →
      (∀ response : Option ResponseTypes,
        Socket.receive_loop ifx mode (.datagram buf :: rest) response sk
          = { result := .error (.socket .Noop), socket := sk, pending := rest }) ∧
      sk.receive ifx mode (.datagram buf :: rest)
        = { result := .error (.socket .Noop), socket := sk, pending := rest }) := by
  refine ⟨?_, ?_⟩
  · intro ht
    have h : ∀ response : Option ResponseTypes,
        Socket.receive_loop ifx mode (.datagram buf :: rest) response sk
          = { result := .error (.socket .Error), socket := sk, pending := rest } := by
      intro response
      unfold Socket.receive_loop
      rw [scan_first ifx buf response sk nlmsg_flags nlmsg_type hflags hintr htype, if_pos ht]
    exact ⟨h, h none⟩
  · intro ht
    have hne : nlmsg_type ≠ NLMSG_ERROR := by rw [ht]; decide
    have h : ∀ response : Option ResponseTypes,
        Socket.receive_loop ifx mode (.datagram buf :: rest) response sk
          = { result := .error (.socket .Noop), socket := sk, pending := rest } := by
      intro response
      unfold Socket.receive_loop
      rw [scan_first ifx buf response sk nlmsg_flags nlmsg_type hflags hintr htype,
        if_neg hne, if_pos ht]
    exact ⟨h, h none⟩

/-- C11, at a concrete datagram: an `NLMSG_ERROR` message followed by the terminator of the
active link request; the request stays active and the terminator is not looked at. -/
theorem receive_error_noop_witness :
    ({ m_pid := 4242, m_socket := 3, m_seqNum := 1,
       m_activeRequest := some (Message.new .LinkRequest 0 769 1 4242) } : Socket).receive
        (fun _ => none) .Wait
        [.datagram (encodeMsg NLMSG_ERROR 0 1 4242 (List.replicate 20 0) ++ doneMsg 1 4242)]
      = { result := .error (.socket .Error),
          socket := { m_pid := 4242, m_socket := 3, m_seqNum := 1,
                      m_activeRequest := some (Message.new .LinkRequest 0 769 1 4242) },
          pending := [] } :=
  ((receive_error_noop (fun _ => none) .Wait _
    (encodeMsg NLMSG_ERROR 0 1 4242 (List.replicate 20 0) ++ doneMsg 1 4242) [] 0 2
    (by decide) (by decide) (by decide)).1 rfl).2

/-- C12: the typed `receive<K>` in terms of the outcome of the generic `receive`, for every
request kind `K`: a response of kind `K` is returned unchanged; every other successful
result (a response of another kind, a standalone `Address`, `Interface` or `Route`) is
turned into `MessageTypeMismatch`; an error is returned as it is.  In all cases the
socket and the undelivered events are those of the generic call. -/
theorem receiveAs_cases (ifx : Nat → Option (List Nat)) (kind : Kind) (mode : ReceiveMode)
    (sk : Socket) (events : List RecvEvent) :
    (∀ p : Response kind.Data,
      (sk.receive ifx mode events).result = .ok (ResponseTypes.ofResponse kind p) →
      sk.receiveAs ifx kind mode events
        = (.ok p, (sk.receive ifx mode events).socket, (sk.receive ifx mode events).pending)) ∧
    (∀ r : ResponseTypes, (sk.receive ifx mode events).result = .ok r →
      (∀ p : Response kind.Data, r ≠ ResponseTypes.ofResponse kind p) →
      sk.receiveAs ifx kind mode events
        = (.error (.socket .MessageTypeMismatch), (sk.receive ifx mode events).socket,
            (sk.receive ifx mode events).pending)) ∧
    (∀ e : Failure, (sk.receive ifx mode events).result = .error e →
      sk.receiveAs ifx kind mode events
        = (.error e, (sk.receive ifx mode events).socket,
            (sk.receive ifx mode events).pending)) ∧
    (∀ (a : Address) (p : Response kind.Data),
      ResponseTypes.Address a ≠ ResponseTypes.ofResponse kind p) ∧
    (∀ (i : Interface) (p : Response kind.Data),
      ResponseTypes.Interface i ≠ ResponseTypes.ofResponse kind p) ∧
    (∀ (r : Route) (p : Response kind.Data),
      ResponseTypes.Route r ≠ ResponseTypes.ofResponse kind p) ∧
    (∀ (other : Kind) (q : Response other.Data) (p : Response kind.Data), other ≠ kind →
      ResponseTypes.ofResponse other q ≠ ResponseTypes.ofResponse kind p) := by
  refine ⟨?_, ?_, ?_, ?_, ?_, ?_, ?_⟩
  · intro p h
    unfold Socket.receiveAs
    simp only [h]
    cases kind <;> rfl
  · intro r h hne
    unfold Socket.receiveAs
    simp only [h]
    have hnone : r.get_if kind = none := by
      cases kind <;> cases r <;> first
        | rfl
        | exact absurd rfl (hne _)
    rw [hnone]
  · intro e h
    unfold Socket.receiveAs
    simp only [h]
  · intro a p; cases kind <;> exact fun h => by cases h
  · intro i p; cases kind <;> exact fun h => by cases h
  · intro r p; cases kind <;> exact fun h => by cases h
  · intro other q p hk
    cases kind <;> cases other <;> first
      | exact absurd rfl hk
      | exact fun h => by cases h

/-- C12, at a concrete call: the terminator of the active link request arrives; the typed
`receive<LinkRequest>` returns the link response of the generic `receive`. -/
theorem receiveAs_cases_witness :
    ({ m_pid := 4242, m_socket := 3, m_seqNum := 1,
       m_activeRequest := some (Message.new .LinkRequest 0 769 1 4242) } : Socket).receiveAs
        (fun _ => none) .LinkRequest .Wait [.datagram (doneMsg 1 4242)]
      = (.ok { id := { seq := 1, pid := 4242 }, data := [] },
          { m_pid := 4242, m_socket := 3, m_seqNum := 1, m_activeRequest := none }, []) :=
  (receiveAs_cases (fun _ => none) .LinkRequest .Wait _ [.datagram (doneMsg 1 4242)]).1
    { id := { seq := 1, pid := 4242 }, data := [] } (by decide)

/-- C13 (the code at the failing input): a region of five bytes that holds one record with
`rta_len = 5`, parsed with the declared length 5.  The record passes `RTA_OK` and
`RTA_NEXT` subtracts the aligned length 8 from the unsigned count 5, which wraps to
`2^64 - 3`; the loop goes on at offset 8, outside the region.  When the buffer ends with
the region, the header at offset 8 is read outside the buffer; when other bytes follow in
the buffer, the record found at offset 8 is entered in the table (here type 2), although
it lies outside the declared region. -/
theorem parse_rtattr_overrun :
    (∀ MAX : Nat, parse_rtattr_body MAX [5, 0, 1, 0, 9] 0 5 (List.replicate (MAX + 1) none)
      = .next 8 (2 ^ 64 - 3) ((List.replicate (MAX + 1) none).set 1 (some 0))) ∧
    (∀ MAX : Nat, parse_rtattr MAX [5, 0, 1, 0, 9] 0 5 = .error .undefined) ∧
    parse_rtattr RTA_MAX [5, 0, 1, 0, 9, 0, 0, 0, 4, 0, 2, 0, 0, 0, 0, 0] 0 5
      = .ok (((List.replicate (RTA_MAX + 1) none).set 1 (some 0)).set 2 (some 8)) := by
  have hbody : ∀ MAX : Nat,
      parse_rtattr_body MAX [5, 0, 1, 0, 9] 0 5 (List.replicate (MAX + 1) none)
        = .next 8 (2 ^ 64 - 3) ((List.replicate (MAX + 1) none).set 1 (some 0)) := by
    intro MAX
    have h0 : rd16 [5, 0, 1, 0, 9] 0 = .ok 5 := rfl
    have h2 : rd16 [5, 0, 1, 0, 9] (0 + 2) = .ok 1 := rfl
    have ha : 0 + NLMSG_ALIGN 5 = 8 := by decide
    have hl : (5 + 2 ^ 64 - NLMSG_ALIGN 5) % 2 ^ 64 = 2 ^ 64 - 3 := by decide
    unfold parse_rtattr_body
    rw [if_neg (by decide), h0]
    simp only []
    rw [if_neg (by decide), h2]
    simp only []
    rw [ha, hl]
    by_cases hm : 1 < MAX + 1
    · rw [if_pos hm]
    · have : MAX = 0 := by omega
      subst this
      rfl
  refine ⟨hbody, ?_, ?_⟩
  · intro MAX
    have h8 : rd16 [5, 0, 1, 0, 9] 8 = .error .undefined := rfl
    unfold parse_rtattr
    rw [show [5, 0, 1, 0, 9].length + 1 = 4 + 1 + 1 from rfl, parse_rtattr_loop, hbody]
    simp only []
    rw [parse_rtattr_loop, parse_rtattr_body, if_neg (by decide), h8]
  · decide

/-- C14 (counterexample): a well-formed region with two `RTA_DST` records.  The first
record of the type is at offset 0, the table entry is the record at offset 8; and the
route decoder builds the destination from that second record (192.168.0.0, not
10.0.0.0). -/
theorem first_record_overwritten :
    attrRegion twoDstRecords = [8, 0, 1, 0, 10, 0, 0, 0, 8, 0, 1, 0, 192, 168, 0, 0] ∧
    firstRecord RTA_DST 0 twoDstRecords = some 0 ∧
    (parse_rtattr RTA_MAX (attrRegion twoDstRecords) 0 (attrRegion twoDstRecords).length).map
      (fun tb => tb.at RTA_DST) = .ok (some 8) ∧
    (parse_route sampleIfNames (newRouteV4Msg 1 4242 24 (attrRegion twoDstRecords)) 0
      (NLMSG_DATA 0)).map (fun v => v.destination)
        = .ok (.network_v4 [192, 168, 0, 0] 24) := by
  decide

/-- C14 (amended): for every well-formed attribute region (records with a 16-bit type and
length, each padded to four bytes), at any place in a buffer, `parse_rtattr` returns a
table with `MAX + 1` entries; for a type `t <= MAX` the entry refers to the last record of
type `t`, that is the record of type `t` that no record of type `t` follows, however many
records of type `t` precede it; and the entry is null when the region has no record of
type `t`. -/
theorem parse_rtattr_last_record (MAX t : Nat) (pre post : List Nat) (ht : t ≤ MAX) :
    (∀ (front back : List (Nat × List Nat)) (p : List Nat),
      (∀ r ∈ front ++ (t, p) :: back, r.1 < 65536 ∧ 4 + r.2.length < 65536) →
      (attrRegion (front ++ (t, p) :: back)).length < 2 ^ 64 →
      (∀ r ∈ back, r.1 ≠ t) →
      ∃ tb, parse_rtattr MAX (pre ++ (attrRegion (front ++ (t, p) :: back) ++ post)) pre.length
          (attrRegion (front ++ (t, p) :: back)).length = .ok tb ∧ tb.length = MAX + 1 ∧
        tb.at t = some (pre.length + (attrRegion front).length)) ∧
    (∀ recs : List (Nat × List Nat),
      (∀ r ∈ recs, r.1 < 65536 ∧ 4 + r.2.length < 65536) →
      (attrRegion recs).length < 2 ^ 64 → (∀ r ∈ recs, r.1 ≠ t) →
      ∃ tb, parse_rtattr MAX (pre ++ (attrRegion recs ++ post)) pre.length
          (attrRegion recs).length = .ok tb ∧ tb.length = MAX + 1 ∧ tb.at t = none) := by
  refine ⟨?_, ?_⟩
  · intro front back p hwf hsize hback
    obtain ⟨tb, h, hlen, hat⟩ := parse_rtattr_records MAX _ pre post hwf hsize
    exact ⟨tb, h, hlen, by rw [hat t ht, lastRecord_append t p back hback]⟩
  · intro recs hwf hsize hnone
    obtain ⟨tb, h, hlen, hat⟩ := parse_rtattr_records MAX _ pre post hwf hsize
    exact ⟨tb, h, hlen, by rw [hat t ht, lastRecord_absent t recs _ hnone]⟩

/-- C14 (amended), at a concrete region: two `RTA_DST` records followed by an `RTA_OIF`
record; the entry of `RTA_DST` is the second record, at offset 8. -/
theorem parse_rtattr_last_record_witness :
    ∃ tb, parse_rtattr RTA_MAX
        ([] ++ (attrRegion ([(RTA_DST, [10, 0, 0, 0])] ++ (RTA_DST, [192, 168, 0, 0])
          :: [(RTA_OIF, le32 2)]) ++ [])) ([] : List Nat).length
        (attrRegion ([(RTA_DST, [10, 0, 0, 0])] ++ (RTA_DST, [192, 168, 0, 0])
          :: [(RTA_OIF, le32 2)])).length = .ok tb ∧ tb.length = RTA_MAX + 1 ∧
      tb.at RTA_DST = some (([] : List Nat).length + (attrRegion [(RTA_DST, [10, 0, 0, 0])]).length) :=
  (parse_rtattr_last_record RTA_MAX RTA_DST [] [] (by decide)).1 [(RTA_DST, [10, 0, 0, 0])]
    [(RTA_OIF, le32 2)] [192, 168, 0, 0] (by decide) (by decide) (by decide)

/-- C15 (counterexample): a record whose type equals `MAX` is entered in the table, which
has the `MAX + 1` slots `0..MAX`: for `RTA_MAX = 30`, `IFA_MAX = 11` and `IFLA_MAX = 64`
the one-record region of that type yields the entry at index `MAX`. -/
theorem type_MAX_is_stored :
    (parse_rtattr RTA_MAX [4, 0, 30, 0] 0 4).map (fun tb => tb.at RTA_MAX) = .ok (some 0) ∧
    (parse_rtattr IFA_MAX [4, 0, 11, 0] 0 4).map (fun tb => tb.at IFA_MAX) = .ok (some 0) ∧
    (parse_rtattr IFLA_MAX [4, 0, 64, 0] 0 4).map (fun tb => tb.at IFLA_MAX) = .ok (some 0) := by
  decide

/-- C15 (amended): a record that passes `RTA_OK` and whose type is above `MAX` is skipped:
the pass leaves the table exactly as it was, raises no error, and the scan continues at
the next record (`RTA_NEXT`), so the whole scan yields what the scan from the next record
yields with the same table. -/
theorem parse_rtattr_skips_above_MAX (MAX : Nat) (buf : List Nat) (fuel rta len : Nat)
    (tb : AttrTable) (rta_len rta_type : Nat)
    (hroom : sizeof_rtattr ≤ len) (hlen : rd16 buf rta = .ok rta_len)
    (hge : sizeof_rtattr ≤ rta_len) (hle : rta_len ≤ len)
    (htype : rd16 buf (rta + 2) = .ok rta_type) (habove : MAX < rta_type) :
    parse_rtattr_body MAX buf rta len tb
      = .next (rta + NLMSG_ALIGN rta_len) ((len + 2 ^ 64 - NLMSG_ALIGN rta_len) % 2 ^ 64) tb ∧
    parse_rtattr_loop MAX buf (fuel + 1) rta len tb
      = parse_rtattr_loop MAX buf fuel (rta + NLMSG_ALIGN rta_len)
          ((len + 2 ^ 64 - NLMSG_ALIGN rta_len) % 2 ^ 64) tb := by
  have hb : parse_rtattr_body MAX buf rta len tb
      = .next (rta + NLMSG_ALIGN rta_len) ((len + 2 ^ 64 - NLMSG_ALIGN rta_len) % 2 ^ 64)
          tb := by
    unfold parse_rtattr_body
    rw [if_neg (by omega), hlen]
    simp only []
    rw [if_neg (by omega), htype]
    simp only []
    rw [if_neg (by omega)]
  refine ⟨hb, ?_⟩
  rw [parse_rtattr_loop, hb]

/-- C15 (amended), at a concrete region: a record of type 31, one above `RTA_MAX`, in front
of an `RTA_OIF` record. -/
theorem parse_rtattr_skips_above_MAX_witness :
    parse_rtattr_body RTA_MAX [4, 0, 31, 0, 8, 0, 4, 0, 2, 0, 0, 0] 0 12
        (List.replicate (RTA_MAX + 1) none)
      = .next (0 + NLMSG_ALIGN 4) ((12 + 2 ^ 64 - NLMSG_ALIGN 4) % 2 ^ 64)
          (List.replicate (RTA_MAX + 1) none) ∧
    parse_rtattr_loop RTA_MAX [4, 0, 31, 0, 8, 0, 4, 0, 2, 0, 0, 0] (12 + 1) 0 12
        (List.replicate (RTA_MAX + 1) none)
      = parse_rtattr_loop RTA_MAX [4, 0, 31, 0, 8, 0, 4, 0, 2, 0, 0, 0] 12 (0 + NLMSG_ALIGN 4)
          ((12 + 2 ^ 64 - NLMSG_ALIGN 4) % 2 ^ 64) (List.replicate (RTA_MAX + 1) none) :=
  parse_rtattr_skips_above_MAX RTA_MAX [4, 0, 31, 0, 8, 0, 4, 0, 2, 0, 0, 0] 12 0 12
    (List.replicate (RTA_MAX + 1) none) 4 31 (by decide) (by decide) (by decide) (by decide)
    (by decide) (by decide)

/-- C16: for a route message whose header, attribute region and body are read inside the
buffer, `parse_route` returns `InvalidFamily` if and only if `rtm_family` is neither
`AF_INET` nor `AF_INET6`, whatever the attribute table holds.  The second half of the claim
fails at `removedLinkRouteMsg`, a well-formed `AF_INET` message with prefix length 24
whose `RTA_OIF` names an interface index that `if_indextoname` does not know: the decoder
assigns the null result to `entry.interfaceName` and returns no `Route`; with an
`if_indextoname` that knows the index the same message decodes. -/
theorem parse_route_family :
    (∀ (ifx : Nat → Option (List Nat)) (buf : List Nat) (header rtMsg nlmsg_len : Nat)
      (tb : AttrTable) (table fam : Nat),
      rd32 buf header = .ok nlmsg_len →
      parse_rtattr RTA_MAX buf (rtMsg + NLMSG_ALIGN sizeof_rtmsg)
        (NLMSG_PAYLOAD nlmsg_len sizeof_rtmsg) = .ok tb →
      rtm_get_table buf rtMsg tb = .ok table → rd8 buf rtMsg = .ok fam →
      (parse_route ifx buf header rtMsg = .error (.socket .InvalidFamily)
        ↔ fam ≠ AF_INET ∧ fam ≠ AF_INET6)) ∧
    parse_route sampleIfNames removedLinkRouteMsg 0 (NLMSG_DATA 0) = .error .undefined ∧
    parse_route (fun i => if i = 7 then some [101, 116, 104, 49] else none)
        removedLinkRouteMsg 0 (NLMSG_DATA 0)
      = .ok { action := .Del, table := .Main, destination := .network_v4 [10, 0, 0, 0] 24,
              gateway := IpAddress.default, interfaceName := [101, 116, 104, 49],
              source := IpAddress.default } := by
  refine ⟨?_, by decide, by decide⟩
  intro ifx buf header rtMsg nlmsg_len tb table fam h0 htb htable hfam
  rw [parse_route_eq ifx buf header rtMsg nlmsg_len tb table fam h0 htb htable hfam]
  constructor
  · intro h
    by_cases hf : fam ≠ AF_INET ∧ fam ≠ AF_INET6
    · exact hf
    · rw [if_neg hf] at h
      exact absurd h (bind_not_socket (rd16_not_socket _ _) (fun _ =>
        bind_not_socket (parse_route_destination_not_socket _ _ _ _) (fun _ =>
        bind_not_socket (addressAttr_not_socket _ _ _ _) (fun _ =>
        bind_not_socket (parse_route_oif_not_socket _ _ _) (fun _ =>
        bind_not_socket (addressAttr_not_socket _ _ _ _) (fun _ _ h => by cases h)))))
        .InvalidFamily)
  · intro hf
    rw [if_pos hf]

/-- C16, at a concrete message: a route message of family `AF_PACKET` (17) with an
`RTA_GATEWAY` attribute is rejected with `InvalidFamily`. -/
theorem parse_route_family_witness :
    parse_route sampleIfNames
        (encodeMsg RTM_NEWROUTE 2 1 4242
          ([17, 0, 0, 0, 254, 3, 0, 1, 0, 0, 0, 0] ++ encodeAttr RTA_GATEWAY [192, 168, 1, 1]))
        0 (NLMSG_DATA 0) = .error (.socket .InvalidFamily) :=
  (parse_route_family.1 sampleIfNames
    (encodeMsg RTM_NEWROUTE 2 1 4242
      ([17, 0, 0, 0, 254, 3, 0, 1, 0, 0, 0, 0] ++ encodeAttr RTA_GATEWAY [192, 168, 1, 1]))
    0 (NLMSG_DATA 0) 36 ((List.replicate (RTA_MAX + 1) none).set RTA_GATEWAY (some 28)) 254 17
    (by decide) (by decide) (by decide) (by decide)).2 (by decide)

/-- C17: for every route message that decodes to a route `v`, let `t` be the 32-bit value
in the payload of the `RTA_TABLE` attribute when the attribute table has an entry for it,
and the byte `rtm_table` of the body otherwise; then `v.table` is `Main` if `t` is
`RT_TABLE_MAIN` (254), `Local` if `t` is `RT_TABLE_LOCAL` (255), and `Default` for every
other `t`. -/
theorem route_table_mapping (ifx : Nat → Option (List Nat)) (buf : List Nat)
    (header rtMsg : Nat) (v : Route) (h : parse_route ifx buf header rtMsg = .ok v) :
    ∃ (nlmsg_len : Nat) (tb : AttrTable) (t : Nat),
      rd32 buf header = .ok nlmsg_len ∧
      parse_rtattr RTA_MAX buf (rtMsg + NLMSG_ALIGN sizeof_rtmsg)
        (NLMSG_PAYLOAD nlmsg_len sizeof_rtmsg) = .ok tb ∧
      ((∃ a, tb.at RTA_TABLE = some a ∧ rd32 buf (RTA_DATA a) = .ok t) ∨
        (tb.at RTA_TABLE = none ∧ rd8 buf (rtMsg + 4) = .ok t)) ∧
      (t = RT_TABLE_MAIN → v.table = .Main) ∧
      (t = RT_TABLE_LOCAL → v.table = .Local) ∧
      (t ≠ RT_TABLE_MAIN → t ≠ RT_TABLE_LOCAL → v.table = .Default) := by
  obtain ⟨len, tb, table, fam, ty, d, g, n, s, h1, h2, h3, _, _, _, _, _, _, _, hv⟩ :=
    parse_route_inv h
  refine ⟨len, tb, table, h1, h2, rtm_get_table_inv h3, ?_, ?_, ?_⟩
  · intro ht
    rw [hv]
    show tableOf table = .Main
    unfold tableOf
    rw [if_pos ht]
  · intro ht
    rw [hv]
    show tableOf table = .Local
    unfold tableOf
    rw [if_neg (by rw [ht]; decide), if_pos ht]
  · intro h254 h255
    rw [hv]
    show tableOf table = .Default
    unfold tableOf
    rw [if_neg h254, if_neg h255]

/-- C17, at a concrete message: `sampleRouteMsg` carries `RTA_TABLE` = 254 and decodes to
a route of table `Main`. -/
theorem route_table_mapping_witness :
    ∃ (nlmsg_len : Nat) (tb : AttrTable) (t : Nat),
      rd32 sampleRouteMsg 0 = .ok nlmsg_len ∧
      parse_rtattr RTA_MAX sampleRouteMsg (NLMSG_DATA 0 + NLMSG_ALIGN sizeof_rtmsg)
        (NLMSG_PAYLOAD nlmsg_len sizeof_rtmsg) = .ok tb ∧
      ((∃ a, tb.at RTA_TABLE = some a ∧ rd32 sampleRouteMsg (RTA_DATA a) = .ok t) ∨
        (tb.at RTA_TABLE = none ∧ rd8 sampleRouteMsg (NLMSG_DATA 0 + 4) = .ok t)) ∧
      (t = RT_TABLE_MAIN → sampleRoute.table = .Main) ∧
      (t = RT_TABLE_LOCAL → sampleRoute.table = .Local) ∧
      (t ≠ RT_TABLE_MAIN → t ≠ RT_TABLE_LOCAL → sampleRoute.table = .Default) :=
  route_table_mapping sampleIfNames sampleRouteMsg 0 (NLMSG_DATA 0) sampleRoute (by decide)

/-- C18: for every route message that decodes to a route `v`: the destination of `v` is
the `Default_t` alternative (`IsDefaultRoute` is true) if and only if the attribute table
has no entry for `RTA_DST`; when it has one, the destination is `network_v4` of the first
4 bytes of the payload with prefix length `rtm_dst_len` if the family is `AF_INET`, and
`network_v6` of the first 16 bytes with prefix length `rtm_dst_len` if the family is
`AF_INET6`; and exactly one of the three alternatives holds. -/
theorem route_destination (ifx : Nat → Option (List Nat)) (buf : List Nat)
    (header rtMsg : Nat) (v : Route) (h : parse_route ifx buf header rtMsg = .ok v) :
    ∃ (nlmsg_len : Nat) (tb : AttrTable) (fam : Nat),
      rd32 buf header = .ok nlmsg_len ∧
      parse_rtattr RTA_MAX buf (rtMsg + NLMSG_ALIGN sizeof_rtmsg)
        (NLMSG_PAYLOAD nlmsg_len sizeof_rtmsg) = .ok tb ∧
      rd8 buf rtMsg = .ok fam ∧
      (v.destination.IsDefaultRoute = true ↔ tb.at RTA_DST = none) ∧
      (∀ a, tb.at RTA_DST = some a →
        (fam = AF_INET ∧ ∃ addr rtm_dst_len, rdBytes buf (RTA_DATA a) 4 = .ok addr ∧
          rd8 buf (rtMsg + 1) = .ok rtm_dst_len ∧
          v.destination = .network_v4 addr rtm_dst_len) ∨
        (fam = AF_INET6 ∧ ∃ addr rtm_dst_len, rdBytes buf (RTA_DATA a) 16 = .ok addr ∧
          rd8 buf (rtMsg + 1) = .ok rtm_dst_len ∧
          v.destination = .network_v6 addr rtm_dst_len)) ∧
      ((v.destination = .Default_t ∧ (∀ addr len, v.destination ≠ .network_v4 addr len) ∧
          (∀ addr len, v.destination ≠ .network_v6 addr len)) ∨
        ((∃ addr len, v.destination = .network_v4 addr len) ∧ v.destination ≠ .Default_t ∧
          (∀ addr len, v.destination ≠ .network_v6 addr len)) ∨
        ((∃ addr len, v.destination = .network_v6 addr len) ∧ v.destination ≠ .Default_t ∧
          (∀ addr len, v.destination ≠ .network_v4 addr len))) := by
  obtain ⟨len, tb, table, fam, ty, d, g, n, s, h1, h2, _, h4, hfam, _, h6, _, _, _, hv⟩ :=
    parse_route_inv h
  have hd : v.destination = d := by rw [hv]
  refine ⟨len, tb, fam, h1, h2, h4, ?_, ?_, ?_⟩
  · rw [hd]
    rcases parse_route_destination_inv h6 hfam with ⟨hn, he⟩ | ⟨a, addr, l, ha, _, _, _, _, he⟩
      | ⟨a, addr, l, ha, _, _, _, _, he⟩
    · rw [he, hn]; exact ⟨fun _ => rfl, fun _ => rfl⟩
    · rw [he, ha]; exact ⟨(fun h => (by cases h)), (fun h => (by cases h))⟩
    · rw [he, ha]; exact ⟨(fun h => (by cases h)), (fun h => (by cases h))⟩
  · intro a hat
    rw [hd]
    rcases parse_route_destination_inv h6 hfam with ⟨hn, _⟩
      | ⟨a1, addr, l, ha, hf, hb, hl, _, he⟩ | ⟨a1, addr, l, ha, hf, hb, hl, _, he⟩
    · rw [hn] at hat; cases hat
    · rw [ha] at hat
      injection hat with hat
      subst hat
      exact Or.inl ⟨hf, addr, l, hb, hl, he⟩
    · rw [ha] at hat
      injection hat with hat
      subst hat
      exact Or.inr ⟨hf, addr, l, hb, hl, he⟩
  · cases v.destination with
    | Default_t =>
      exact Or.inl ⟨rfl, (fun _ _ h => (by cases h)), (fun _ _ h => (by cases h))⟩
    | network_v4 addr l =>
      exact Or.inr (Or.inl ⟨⟨addr, l, rfl⟩, (fun h => (by cases h)), (fun _ _ h => (by cases h))⟩)
    | network_v6 addr l =>
      exact Or.inr (Or.inr ⟨⟨addr, l, rfl⟩, (fun h => (by cases h)), (fun _ _ h => (by cases h))⟩)

/-- C18, at a concrete message: `sampleNetRouteMsg` carries `RTA_DST` = 10.0.0.0 with
`rtm_dst_len` = 24 and decodes to a route with the destination 10.0.0.0/24. -/
theorem route_destination_witness :
    ∃ (nlmsg_len : Nat) (tb : AttrTable) (fam : Nat),
      rd32 sampleNetRouteMsg 0 = .ok nlmsg_len ∧
      parse_rtattr RTA_MAX sampleNetRouteMsg (NLMSG_DATA 0 + NLMSG_ALIGN sizeof_rtmsg)
        (NLMSG_PAYLOAD nlmsg_len sizeof_rtmsg) = .ok tb ∧
      rd8 sampleNetRouteMsg (NLMSG_DATA 0) = .ok fam ∧
      ((Destination.network_v4 [10, 0, 0, 0] 24).IsDefaultRoute = true
        ↔ tb.at RTA_DST = none) ∧
      (∀ a, tb.at RTA_DST = some a →
        (fam = AF_INET ∧ ∃ addr rtm_dst_len,
          rdBytes sampleNetRouteMsg (RTA_DATA a) 4 = .ok addr ∧
          rd8 sampleNetRouteMsg (NLMSG_DATA 0 + 1) = .ok rtm_dst_len ∧
          Destination.network_v4 [10, 0, 0, 0] 24 = .network_v4 addr rtm_dst_len) ∨
        (fam = AF_INET6 ∧ ∃ addr rtm_dst_len,
          rdBytes sampleNetRouteMsg (RTA_DATA a) 16 = .ok addr ∧
          rd8 sampleNetRouteMsg (NLMSG_DATA 0 + 1) = .ok rtm_dst_len ∧
          Destination.network_v4 [10, 0, 0, 0] 24 = .network_v6 addr rtm_dst_len)) ∧
      ((Destination.network_v4 [10, 0, 0, 0] 24 = .Default_t ∧
          (∀ addr len, Destination.network_v4 [10, 0, 0, 0] 24 ≠ .network_v4 addr len) ∧
          (∀ addr len, Destination.network_v4 [10, 0, 0, 0] 24 ≠ .network_v6 addr len)) ∨
        ((∃ addr len, Destination.network_v4 [10, 0, 0, 0] 24 = .network_v4 addr len) ∧
          Destination.network_v4 [10, 0, 0, 0] 24 ≠ .Default_t ∧
          (∀ addr len, Destination.network_v4 [10, 0, 0, 0] 24 ≠ .network_v6 addr len)) ∨
        ((∃ addr len, Destination.network_v4 [10, 0, 0, 0] 24 = .network_v6 addr len) ∧
          Destination.network_v4 [10, 0, 0, 0] 24 ≠ .Default_t ∧
          (∀ addr len, Destination.network_v4 [10, 0, 0, 0] 24 ≠ .network_v4 addr len))) :=
  route_destination sampleIfNames sampleNetRouteMsg 0 (NLMSG_DATA 0)
    { action := .New, table := .Main, destination := .network_v4 [10, 0, 0, 0] 24,
      gateway := IpAddress.default, interfaceName := [101, 116, 104, 48],
      source := IpAddress.default } (by decide)

/-- C19: the scope of a decoded address is the fixed mapping `scopeOf` of the wire byte
`ifa_scope`: `Universe` for 0, `Site` for 200, `Link` for 253, `Host` for 254, `Nowhere`
for 255 and `Unknown` for every other value.  The mapping is a total function, and an
encoded address notification decodes for every byte `b` as its scope, so no value of the
byte is an error.  The mapping is injective on the five defined values, and a defined
value mapped to its tag, back to its wire value and to a tag again is the same tag. -/
theorem scope_mapping :
    (∀ (buf : List Nat) (header msg : Nat) (v : Address),
      parse_address buf header msg = .ok v →
      ∃ b, rd8 buf (msg + 3) = .ok b ∧ b < 256 ∧ v.scope = scopeOf b) ∧
    (∀ p b a0 a1 a2 a3 : Nat, b < 256 →
      ∃ v, parse_address (newAddrV4Msg p b [a0, a1, a2, a3]) 0 (NLMSG_DATA 0) = .ok v ∧
        v.scope = scopeOf b) ∧
    (scopeOf RT_SCOPE_UNIVERSE = .Universe ∧ scopeOf RT_SCOPE_SITE = .Site ∧
      scopeOf RT_SCOPE_LINK = .Link ∧ scopeOf RT_SCOPE_HOST = .Host ∧
      scopeOf RT_SCOPE_NOWHERE = .Nowhere) ∧
    (∀ b : Nat, b ≠ RT_SCOPE_UNIVERSE → b ≠ RT_SCOPE_SITE → b ≠ RT_SCOPE_LINK →
      b ≠ RT_SCOPE_HOST → b ≠ RT_SCOPE_NOWHERE → scopeOf b = .Unknown) ∧
    (∀ a b : Nat, scopeOf a ≠ .Unknown → scopeOf a = scopeOf b → a = b) ∧
    (∀ b : Nat, scopeOf b ≠ .Unknown → (scopeOf b).wire = some b) ∧
    (∀ (s : Scope) (w : Nat), s.wire = some w → scopeOf w = s) := by
  refine ⟨?_, ?_, by decide, ?_, ?_, ?_, ?_⟩
  · intro buf header msg v h
    obtain ⟨_, _, _, _, sc, _, _, _, _, _, _, _, h5, _, _, _, hv⟩ := parse_address_inv h
    exact ⟨sc, h5, (rd8_lt h5).1, by rw [hv]⟩
  · intro p b a0 a1 a2 a3 hb
    refine ⟨_, newAddrV4Msg_decodes p b a0 a1 a2 a3, ?_⟩
    show scopeOf (b % 256) = scopeOf b
    rw [Nat.mod_eq_of_lt hb]
  · intro b h0 h1 h2 h3 h4
    unfold scopeOf
    rw [if_neg h0, if_neg h1, if_neg h2, if_neg h3, if_neg h4]
  · intro a b ha hab
    rcases scopeOf_cases a with ⟨ha1, ea⟩ | ⟨ha1, ea⟩ | ⟨ha1, ea⟩ | ⟨ha1, ea⟩ | ⟨ha1, ea⟩ | ea <;>
      rcases scopeOf_cases b with ⟨hb1, eb⟩ | ⟨hb1, eb⟩ | ⟨hb1, eb⟩ | ⟨hb1, eb⟩ | ⟨hb1, eb⟩
        | eb <;>
      first
        | exact absurd ea ha
        | (rw [ea, eb] at hab; cases hab; done)
        | (rw [ha1, hb1])
  · intro b hb
    rcases scopeOf_cases b with ⟨h, e⟩ | ⟨h, e⟩ | ⟨h, e⟩ | ⟨h, e⟩ | ⟨h, e⟩ | e
    · rw [e, h]; rfl
    · rw [e, h]; rfl
    · rw [e, h]; rfl
    · rw [e, h]; rfl
    · rw [e, h]; rfl
    · exact absurd e hb
  · intro s w h
    cases s <;> first
      | (injection h with h; rw [← h]; rfl)
      | cases h

/-- C19, at a concrete message: `sampleAddrMsg` carries the scope byte 0 and decodes to an
address of scope `Universe`. -/
theorem scope_mapping_witness :
    ∃ b, rd8 sampleAddrMsg (NLMSG_DATA 0 + 3) = .ok b ∧ b < 256 ∧ sampleAddr.scope = scopeOf b :=
  scope_mapping.1 sampleAddrMsg 0 (NLMSG_DATA 0) sampleAddr (by decide)

/-- C20: for every link message that decodes to an interface `v`: when the attribute table
has an entry for `IFLA_IFNAME`, `v.name` is the NUL-terminated string at the start of the
payload of that attribute (the bytes up to the first NUL, which is found inside the
buffer); when the table has no entry, `v.name` is the empty string.  Absence is not an
error: whenever the header and the attribute region are read inside the buffer and the
table has no entry for `IFLA_IFNAME`, the decoder returns an interface with the empty
name. -/
theorem link_name :
    (∀ (buf : List Nat) (header msg : Nat) (v : Interface),
      parse_link buf header msg = .ok v →
      ∃ (nlmsg_len : Nat) (tb : AttrTable),
        rd32 buf header = .ok nlmsg_len ∧
        parse_rtattr IFLA_MAX buf (msg + NLMSG_ALIGN sizeof_ifinfomsg)
          (NLMSG_PAYLOAD nlmsg_len sizeof_ifinfomsg) = .ok tb ∧
        (tb.at IFLA_IFNAME = none → v.name = []) ∧
        (∀ a, tb.at IFLA_IFNAME = some a →
          rdCStr buf (RTA_DATA a) = .ok v.name ∧
          v.name = ((buf.drop (a + sizeof_rtattr)).map (· % 256)).takeWhile (· ≠ 0) ∧
          v.name.length < (buf.drop (a + sizeof_rtattr)).length)) ∧
    (∀ (buf : List Nat) (header msg nlmsg_len : Nat) (tb : AttrTable) (nlmsg_type : Nat),
      rd32 buf header = .ok nlmsg_len →
      parse_rtattr IFLA_MAX buf (msg + NLMSG_ALIGN sizeof_ifinfomsg)
        (NLMSG_PAYLOAD nlmsg_len sizeof_ifinfomsg) = .ok tb →
      rd16 buf (header + 4) = .ok nlmsg_type → tb.at IFLA_IFNAME = none →
      parse_link buf header msg
        = .ok { action := actionOf RTM_NEWLINK RTM_DELLINK nlmsg_type, name := [] }) := by
  refine ⟨?_, ?_⟩
  · intro buf header msg v h
    obtain ⟨len, tb, t, n, h1, h2, _, h4, hv⟩ := parse_link_inv h
    have hn : v.name = n := by rw [hv]
    refine ⟨len, tb, h1, h2, ?_, ?_⟩
    · intro hnone
      unfold parse_link_name at h4
      rw [hnone] at h4
      have h5 : (Except.ok [] : Except Failure (List Nat)) = .ok n := h4
      rw [hn, ← Except.ok.inj h5]
    · intro a hsome
      unfold parse_link_name at h4
      rw [hsome] at h4
      have h5 : rdCStr buf (RTA_DATA a) = .ok n := h4
      obtain ⟨he, hl⟩ := rdCStr_inv h5
      rw [List.length_map] at hl
      rw [hn]
      exact ⟨h5, he, hl⟩
  · intro buf header msg nlmsg_len tb nlmsg_type h0 htb hty hnone
    unfold parse_link
    rw [h0, bind_ok]
    simp only []
    rw [htb, bind_ok, hty, bind_ok]
    unfold parse_link_name
    rw [hnone]
    rfl

/-- C20, at two concrete messages: the `RTM_NEWLINK` message of the interface `lo` decodes
to the name in its `IFLA_IFNAME` attribute, and an `RTM_DELLINK` message without
attributes decodes to an interface with the empty name. -/
theorem link_name_witness :
    (∃ (nlmsg_len : Nat) (tb : AttrTable),
      rd32 (newLinkMsg 1 4242 (List.replicate 16 0) [108, 111]) 0 = .ok nlmsg_len ∧
      parse_rtattr IFLA_MAX (newLinkMsg 1 4242 (List.replicate 16 0) [108, 111])
        (NLMSG_DATA 0 + NLMSG_ALIGN sizeof_ifinfomsg)
        (NLMSG_PAYLOAD nlmsg_len sizeof_ifinfomsg) = .ok tb ∧
      (tb.at IFLA_IFNAME = none → ([108, 111] : List Nat) = []) ∧
      (∀ a, tb.at IFLA_IFNAME = some a →
        rdCStr (newLinkMsg 1 4242 (List.replicate 16 0) [108, 111]) (RTA_DATA a)
          = .ok [108, 111] ∧
        [108, 111] = (((newLinkMsg 1 4242 (List.replicate 16 0) [108, 111]).drop
          (a + sizeof_rtattr)).map (· % 256)).takeWhile (· ≠ 0) ∧
        ([108, 111] : List Nat).length
          < ((newLinkMsg 1 4242 (List.replicate 16 0) [108, 111]).drop
              (a + sizeof_rtattr)).length)) ∧
    parse_link (encodeMsg RTM_DELLINK 0 0 0 (List.replicate 16 0)) 0 (NLMSG_DATA 0)
      = .ok { action := actionOf RTM_NEWLINK RTM_DELLINK RTM_DELLINK, name := [] } :=
  ⟨link_name.1 (newLinkMsg 1 4242 (List.replicate 16 0) [108, 111]) 0 (NLMSG_DATA 0)
      { action := .New, name := [108, 111] } (by decide),
    link_name.2 (encodeMsg RTM_DELLINK 0 0 0 (List.replicate 16 0)) 0 (NLMSG_DATA 0) 32
      (List.replicate (IFLA_MAX + 1) none) RTM_DELLINK (by decide) (by decide) (by decide)
      (by decide)⟩

/-- C21: the action depends only on the message subtype.  For each of the three decoders,
the action of the decoded entity is a function of the field `nlmsg_type` of the header
alone: `New` when it is the `RTM_NEW*` constant of the family, `Del` when it is the
`RTM_DEL*` constant, `Unknown` otherwise, whatever the body and the attributes are.
Consequently, for every socket and every sequence of datagrams and errors, every entity
that `receive` appends to the accumulator has the action `New` or `Del`, and what it
returns consists of such entities and of those the accumulator held before the call; the
accumulator is empty on a new socket and right after a `send_request` that installs a
request, so in every state that the program reaches all accumulated and all returned
entities have the action `New` or `Del`. -/
theorem action_from_subtype :
    (∀ (ifx : Nat → Option (List Nat)) (buf : List Nat) (header rtMsg : Nat) (v : Route),
      parse_route ifx buf header rtMsg = .ok v →
      ∃ t, rd16 buf (header + 4) = .ok t ∧
        v.action = actionOf RTM_NEWROUTE RTM_DELROUTE t) ∧
    (∀ (buf : List Nat) (header msg : Nat) (v : Address),
      parse_address buf header msg = .ok v →
      ∃ t, rd16 buf (header + 4) = .ok t ∧
        v.action = actionOf RTM_NEWADDR RTM_DELADDR t) ∧
    (∀ (buf : List Nat) (header msg : Nat) (v : Interface),
      parse_link buf header msg = .ok v →
      ∃ t, rd16 buf (header + 4) = .ok t ∧
        v.action = actionOf RTM_NEWLINK RTM_DELLINK t) ∧
    (∀ newType delType t : Nat,
      (t = newType → actionOf newType delType t = .New) ∧
      (t ≠ newType → t = delType → actionOf newType delType t = .Del) ∧
      (t ≠ newType → t ≠ delType → actionOf newType delType t = .Unknown)) ∧
    (∀ (ifx : Nat → Option (List Nat)) (mode : ReceiveMode) (sk : Socket)
      (events : List RecvEvent),
      sk.appendsKnown (sk.receive ifx mode events).socket ∧
      (∀ r, (sk.receive ifx mode events).result = .ok r → ResultKnown sk r) ∧
      (ActionsKnown sk.actions →
        ActionsKnown (sk.receive ifx mode events).socket.actions ∧
        ∀ r, (sk.receive ifx mode events).result = .ok r → ActionsKnown r.actions)) ∧
    (∀ (t_socket : Int) (t_pid : Nat), (Socket.new t_socket t_pid).actions = []) ∧
    (∀ (kind : Kind) (family : Int) (sendErr : Option Nat) (sk : Socket),
      ActionsKnown sk.actions →
      ActionsKnown (sk.send_request kind family sendErr).1.2.actions) := by
  refine ⟨fun _ _ _ _ _ h => parse_route_action h, fun _ _ _ _ h => parse_address_action h,
    fun _ _ _ _ h => parse_link_action h, ?_, ?_, fun _ _ => rfl,
    fun kind family sendErr sk h => send_request_known kind family sendErr sk h⟩
  · intro newType delType t
    unfold actionOf
    refine ⟨fun h => by rw [if_pos h], fun h1 h2 => by rw [if_neg h1, if_pos h2],
      fun h1 h2 => by rw [if_neg h1, if_neg h2]⟩
  · intro ifx mode sk events
    have h := receive_loop_known ifx mode events none sk (fun r hr => by cases hr)
    refine ⟨h.1, h.2, fun hk => ⟨?_, fun r hr => ?_⟩⟩
    · rcases h.1 with hn | ⟨new, hnew, _, ha⟩
      · have h0 : (sk.receive ifx mode events).socket.actions = [] :=
          Socket.actions_of_none hn
        rw [h0]
        exact ActionsKnown.nil
      · have h1 : (sk.receive ifx mode events).socket.actions = sk.actions ++ new := ha
        rw [h1]
        exact hk.append hnew
    · obtain ⟨new, hnew, hr1 | hr1⟩ := h.2 r hr
      · rw [hr1]; exact hnew
      · rw [hr1]; exact hk.append hnew

/-- C21, at a concrete call: a route request is active with one route accumulated and the
reply `sampleRouteMsg` arrives; the accumulator then holds two routes, both with the
action `New`. -/
theorem action_from_subtype_witness :
    ActionsKnown activeRouteSocket.actions ∧
    ActionsKnown (activeRouteSocket.receive sampleIfNames .Nonblock
      [.datagram sampleRouteMsg]).socket.actions ∧
    (activeRouteSocket.receive sampleIfNames .Nonblock
      [.datagram sampleRouteMsg]).socket.actions = [.New, .New] :=
  ⟨by unfold ActionsKnown; decide,
    ((action_from_subtype.2.2.2.2.1 sampleIfNames .Nonblock activeRouteSocket
      [.datagram sampleRouteMsg]).2.2 (by unfold ActionsKnown; decide)).1,
    by decide⟩

/-- C22: a request constructed with `(family, flags, seq, pid)` has the identity
`{seq, pid}`, immediately and after any number of `AddItem` calls; `AddItem` is a total
operation; after `AddItem(v_1)`, ..., `AddItem(v_n)` the response is
`{id {seq, pid}, data [v_1, ..., v_n]}`, with empty data for a fresh request.  The same
holds for a `Message` of each of the three request kinds: `GetId` is `{seq, pid}`,
`AddResponse` of the request's own kind succeeds and keeps the identity, and
`GetResponse` yields the elements in append order. -/
theorem request_model :
    (∀ (α : Type) (sizeofData rtType : Nat) (family : Int) (flags seq pid : Nat) (vs : List α),
      (Request.new sizeofData rtType family flags seq pid : Request α).GetId
        = { seq := seq, pid := pid } ∧
      (vs.foldl Request.AddItem
          (Request.new sizeofData rtType family flags seq pid : Request α)).GetId
        = { seq := seq, pid := pid } ∧
      (vs.foldl Request.AddItem
          (Request.new sizeofData rtType family flags seq pid : Request α)).GetResponse
        = { id := { seq := seq, pid := pid }, data := vs } ∧
      (Request.new sizeofData rtType family flags seq pid : Request α).GetResponse
        = { id := { seq := seq, pid := pid }, data := [] }) ∧
    (∀ (kind : Kind) (family : Int) (flags seq pid : Nat),
      (Message.new kind family flags seq pid).GetId = { seq := seq, pid := pid } ∧
      (Message.new kind family flags seq pid).GetResponse
        = .ok (ResponseTypes.ofResponse kind
            { id := { seq := seq, pid := pid }, data := [] })) ∧
    (∀ (family : Int) (flags seq pid : Nat) (vs : List Route),
      (∀ (m : Message) (v : Route), (∃ r, m.m_request = .RouteRequest r) →
        (m.AddResponseRoute v).1 = .ok ()) ∧
      (vs.foldl (fun m v => (m.AddResponseRoute v).2)
          (Message.new .RouteRequest family flags seq pid)).GetId
        = { seq := seq, pid := pid } ∧
      (vs.foldl (fun m v => (m.AddResponseRoute v).2)
          (Message.new .RouteRequest family flags seq pid)).GetResponse
        = .ok (.RouteResponse { id := { seq := seq, pid := pid }, data := vs })) ∧
    (∀ (family : Int) (flags seq pid : Nat) (vs : List Address),
      (∀ (m : Message) (v : Address), (∃ r, m.m_request = .AddressRequest r) →
        (m.AddResponseAddress v).1 = .ok ()) ∧
      (vs.foldl (fun m v => (m.AddResponseAddress v).2)
          (Message.new .AddressRequest family flags seq pid)).GetId
        = { seq := seq, pid := pid } ∧
      (vs.foldl (fun m v => (m.AddResponseAddress v).2)
          (Message.new .AddressRequest family flags seq pid)).GetResponse
        = .ok (.AddressResponse { id := { seq := seq, pid := pid }, data := vs })) ∧
    (∀ (family : Int) (flags seq pid : Nat) (vs : List Interface),
      (∀ (m : Message) (v : Interface), (∃ r, m.m_request = .LinkRequest r) →
        (m.AddResponseInterface v).1 = .ok ()) ∧
      (vs.foldl (fun m v => (m.AddResponseInterface v).2)
          (Message.new .LinkRequest family flags seq pid)).GetId
        = { seq := seq, pid := pid } ∧
      (vs.foldl (fun m v => (m.AddResponseInterface v).2)
          (Message.new .LinkRequest family flags seq pid)).GetResponse
        = .ok (.LinkResponse { id := { seq := seq, pid := pid }, data := vs })) := by
  refine ⟨?_, ?_, ?_, ?_, ?_⟩
  · intro α sizeofData rtType family flags seq pid vs
    rw [Request.foldl_AddItem]
    exact ⟨rfl, rfl, rfl, rfl⟩
  · intro kind family flags seq pid
    cases kind <;> exact ⟨rfl, rfl⟩
  · intro family flags seq pid vs
    have hfold : ∀ (vs : List Route) (r : Request Route),
        vs.foldl (fun m v => (m.AddResponseRoute v).2) (Message.mk (.RouteRequest r))
          = Message.mk (.RouteRequest (vs.foldl Request.AddItem r)) := by
      intro vs
      induction vs with
      | nil => intro r; rfl
      | cons v vs ih => intro r; rw [List.foldl_cons, List.foldl_cons, ← ih]; rfl
    refine ⟨?_, ?_, ?_⟩
    · rintro m v ⟨r, hr⟩
      unfold Message.AddResponseRoute
      rw [hr]
    · show (vs.foldl _ (Message.mk (.RouteRequest _))).GetId = _
      rw [hfold, Request.foldl_AddItem]; rfl
    · show (vs.foldl _ (Message.mk (.RouteRequest _))).GetResponse = _
      rw [hfold, Request.foldl_AddItem]; rfl
  · intro family flags seq pid vs
    have hfold : ∀ (vs : List Address) (r : Request Address),
        vs.foldl (fun m v => (m.AddResponseAddress v).2) (Message.mk (.AddressRequest r))
          = Message.mk (.AddressRequest (vs.foldl Request.AddItem r)) := by
      intro vs
      induction vs with
      | nil => intro r; rfl
      | cons v vs ih => intro r; rw [List.foldl_cons, List.foldl_cons, ← ih]; rfl
    refine ⟨?_, ?_, ?_⟩
    · rintro m v ⟨r, hr⟩
      unfold Message.AddResponseAddress
      rw [hr]
    · show (vs.foldl _ (Message.mk (.AddressRequest _))).GetId = _
      rw [hfold, Request.foldl_AddItem]; rfl
    · show (vs.foldl _ (Message.mk (.AddressRequest _))).GetResponse = _
      rw [hfold, Request.foldl_AddItem]; rfl
  · intro family flags seq pid vs
    have hfold : ∀ (vs : List Interface) (r : Request Interface),
        vs.foldl (fun m v => (m.AddResponseInterface v).2) (Message.mk (.LinkRequest r))
          = Message.mk (.LinkRequest (vs.foldl Request.AddItem r)) := by
      intro vs
      induction vs with
      | nil => intro r; rfl
      | cons v vs ih => intro r; rw [List.foldl_cons, List.foldl_cons, ← ih]; rfl
    refine ⟨?_, ?_, ?_⟩
    · rintro m v ⟨r, hr⟩
      unfold Message.AddResponseInterface
      rw [hr]
    · show (vs.foldl _ (Message.mk (.LinkRequest _))).GetId = _
      rw [hfold, Request.foldl_AddItem]; rfl
    · show (vs.foldl _ (Message.mk (.LinkRequest _))).GetResponse = _
      rw [hfold, Request.foldl_AddItem]; rfl

/-- C22, at a concrete message: in a route request message, `AddResponse<RouteRequest>`
of a route succeeds. -/
theorem request_model_witness :
    ((Message.new .RouteRequest 2 769 1 4242).AddResponseRoute sampleRoute).1 = .ok () :=
  (request_model.2.2.1 2 769 1 4242 []).1 _ sampleRoute ⟨_, rfl⟩

/-- C23 (counterexample): move assignment of a socket with descriptor 4 to a socket with
descriptor 3.  The target holds 4 afterwards, but the source holds 3, the former
descriptor of the target, and not the invalid value -1; its destructor closes 3. -/
theorem moveAssign_source_keeps_a_channel :
    ((Socket.new 3 4242).moveAssign (Socket.new 4 4242)).1.m_socket = 4 ∧
    ((Socket.new 3 4242).moveAssign (Socket.new 4 4242)).2.m_socket = 3 ∧
    ((Socket.new 3 4242).moveAssign (Socket.new 4 4242)).2.m_socket ≠ -1 ∧
    ((Socket.new 3 4242).moveAssign (Socket.new 4 4242)).2.dtor = [3] := by
  decide

/-- C23 (amended): move construction gives the new socket the descriptor of the source and
leaves the source with -1, so of the two destructors only that of the new socket closes
the channel.  Move assignment swaps the descriptors: the target holds the former
descriptor of the source, the source holds the former descriptor of the target, which is
-1 exactly when the target held -1; the two destructors close the same descriptors as the
destructors of the two sockets would have closed before the assignment, each once. -/
theorem socket_move :
    (∀ S : Socket,
      S.moveCtor.1.m_socket = S.m_socket ∧ S.moveCtor.2.m_socket = -1 ∧
      S.moveCtor.2.dtor = [] ∧ S.moveCtor.1.dtor ++ S.moveCtor.2.dtor = S.dtor) ∧
    (∀ T S : Socket,
      (T.moveAssign S).1.m_socket = S.m_socket ∧ (T.moveAssign S).2.m_socket = T.m_socket ∧
      ((T.moveAssign S).2.m_socket = -1 ↔ T.m_socket = -1) ∧
      (T.moveAssign S).1.dtor ++ (T.moveAssign S).2.dtor = S.dtor ++ T.dtor) := by
  refine ⟨?_, ?_⟩
  · intro S
    have h : Socket.dtor { S with m_socket := -1 } = [] := by
      unfold Socket.dtor
      rw [if_neg (by show ¬ ((-1 : Int) ≥ 0); decide)]
    refine ⟨rfl, rfl, h, ?_⟩
    show _ ++ Socket.dtor { S with m_socket := -1 } = _
    rw [h, List.append_nil]
    rfl
  · intro T S
    exact ⟨rfl, rfl, Iff.rfl, rfl⟩

/-- C24: on a socket with no active request, a datagram of well-formed, 4-byte-aligned
messages of types on which the loop does not act, whose first message passes the checks
of the first message (no dump-interrupted flag, not `NLMSG_ERROR`, not `NLMSG_NOOP`),
makes `receive` fail with the generic `Error`; the datagram is consumed and the socket is
as before.  More generally, one pass of the loop at a message of such a type leaves the
held result and the socket (the active slot with its accumulator) exactly as they were
and moves to the next message, so that the walk over a datagram gives what it gives
without that message. -/
theorem unclassified_datagram :
    (∀ (ifx : Nat → Option (List Nat)) (mode : ReceiveMode) (sk : Socket) (first : List Nat)
      (others : List (List Nat)) (rest : List RecvEvent),
      sk.m_activeRequest = none → OtherMessage first → PassesFirstChecks first →
      (∀ m ∈ others, OtherMessage m) → (first :: others).flatten.length < 2 ^ 64 →
      sk.receive ifx mode (.datagram (first :: others).flatten :: rest)
        = { result := .error (.socket .Error), socket := sk, pending := rest }) ∧
    (∀ (ifx : Nat → Option (List Nat)) (buf : List Nat) (nlHeader nlHeaderLen : Nat)
      (h : nlmsghdr) (response : Option ResponseTypes) (sk : Socket),
      MessageAt buf nlHeader nlHeaderLen h → ¬ handledType h.nlmsg_type →
      Socket.walkBody ifx buf nlHeader nlHeaderLen response sk
        = .next (nextHeader nlHeader h.nlmsg_len) (nextLen nlHeaderLen h.nlmsg_len)
            response sk) ∧
    (∀ (ifx : Nat → Option (List Nat)) (pre m post : List Nat) (fuel : Nat)
      (response : Option ResponseTypes) (sk : Socket),
      OtherMessage m → m.length + post.length < 2 ^ 64 →
      Socket.walk ifx (pre ++ m ++ post) (fuel + 1) pre.length (m.length + post.length)
          response sk
        = Socket.walk ifx (pre ++ m ++ post) fuel (pre ++ m).length post.length
            response sk) := by
  refine ⟨?_, ?_, ?_⟩
  · intro ifx mode sk first others rest hnone hfo hfirst hall hsize
    have hall2 : ∀ m ∈ first :: others, OtherMessage m := by
      intro m hm
      rcases List.mem_cons.mp hm with e | e
      · rw [e]; exact hfo
      · exact hall m e
    have hlen := flatten_length_ge (first :: others) (fun m hm => by
      obtain ⟨h, w, _⟩ := hall2 m hm
      exact w.bounds.1)
    obtain ⟨h, w, hf, hne1, hne2⟩ := hfirst
    obtain ⟨h2, w2, hne3⟩ := hfo
    have hu := w.unique w2
    subst hu
    have hd : h.nlmsg_type ≠ NLMSG_DONE := fun e => hne3 (Or.inl e)
    obtain ⟨h6, h4, _, _⟩ := w.first others.flatten
    rw [← List.flatten_cons] at h6 h4
    have hwalk := walk_others ifx [] none sk (first :: others) []
      ((first :: others).flatten.length - (first :: others).length + 1) hall2
      (by simp only [List.length_nil, Nat.add_zero]; exact hsize)
    simp only [List.nil_append, List.append_nil, List.length_nil, Nat.add_zero] at hwalk
    have hfuel : (first :: others).flatten.length - (first :: others).length + 1
        + (first :: others).length = (first :: others).flatten.length + 1 := by omega
    rw [hfuel, walk_end] at hwalk
    unfold Socket.receive Socket.receive_loop
    rw [scan_first ifx _ none sk h.nlmsg_flags h.nlmsg_type h6 hf h4, if_neg hne1, if_neg hne2,
      if_neg hd, hwalk]
    simp only [hnone, Option.isSome_none, Bool.false_eq_true, if_false]
  · intro ifx buf nlHeader nlHeaderLen h response sk hat ht
    exact walkBody_other ifx buf nlHeader nlHeaderLen h hat ht response sk
  · intro ifx pre m post fuel response sk hm hsize
    obtain ⟨h, w, ht⟩ := hm
    obtain ⟨hat, hn, hl⟩ := w.at pre post hsize
    rw [Socket.walk, walkBody_other ifx _ _ _ h hat ht response sk]
    simp only []
    rw [hn, hl]

/-- C24, at a concrete datagram: two messages of the unrecognised type 100 arrive on a
socket with no active request. -/
theorem unclassified_datagram_witness :
    (Socket.new 3 4242).receive (fun _ => none) .Wait
        [.datagram ([strayMsg, strayMsg].flatten)]
      = { result := .error (.socket .Error), socket := Socket.new 3 4242, pending := [] } :=
  unclassified_datagram.1 (fun _ => none) .Wait (Socket.new 3 4242) strayMsg [strayMsg] [] rfl
    ⟨strayHeader, ⟨by decide, by decide, by decide⟩, by unfold handledType; decide⟩
    ⟨strayHeader, ⟨by decide, by decide, by decide⟩, by decide, by decide, by decide⟩
    (fun m hm => by
      rw [List.mem_singleton.mp hm]
      exact ⟨strayHeader, ⟨by decide, by decide, by decide⟩, by unfold handledType; decide⟩)
    (by decide)

/-- C25: on a socket with no active request, a single datagram of `m >= 1` notifications
(well-formed route, address or link messages, `NEW` or `DEL`, that decode and whose
`nlmsg_pid` is not the pid of the socket; the first passes the checks of the first
message) makes `receive` return the entity of the first message as a standalone result,
with the socket as before.  The later messages are decoded all the same: when a route
message of an unsupported family follows the notifications, on any socket, `receive`
fails with `InvalidFamily` whatever follows, and the held notification is not returned. -/
theorem first_notification_wins :
    (∀ (ifx : Nat → Option (List Nat)) (mode : ReceiveMode) (sk : Socket)
      (first : List Nat × ResponseTypes) (others : List (List Nat × ResponseTypes))
      (rest : List RecvEvent),
      sk.m_activeRequest = none → (∀ x ∈ first :: others, Notice ifx sk.m_pid x.1 x.2) →
      PassesFirstChecks first.1 → (datagramOf (first :: others)).length < 2 ^ 64 →
      sk.receive ifx mode (.datagram (datagramOf (first :: others)) :: rest)
        = { result := .ok first.2, socket := sk, pending := rest }) ∧
    (∀ (ifx : Nat → Option (List Nat)) (mode : ReceiveMode) (sk : Socket)
      (first : List Nat × ResponseTypes) (others : List (List Nat × ResponseTypes))
      (bad post : List Nat) (rest : List RecvEvent),
      (∀ x ∈ first :: others, Notice ifx sk.m_pid x.1 x.2) → PassesFirstChecks first.1 →
      BadFamilyRoute ifx bad →
      (datagramOf (first :: others) ++ (bad ++ post)).length < 2 ^ 64 →
      sk.receive ifx mode (.datagram (datagramOf (first :: others) ++ (bad ++ post)) :: rest)
        = { result := .error (.socket .InvalidFamily), socket := sk, pending := rest }) := by
  refine ⟨?_, ?_⟩
  · intro ifx mode sk first others rest hnone hall hfirst hsize
    have hlen := notices_length ifx _ _ hall
    have hs := scan_notices ifx sk [] first others hall hfirst
      (by rw [List.append_nil]; exact hsize)
    rw [List.append_nil] at hs
    have hfuel : (datagramOf (first :: others)).length + 1 - (first :: others).length
        = ((datagramOf (first :: others)).length - (first :: others).length) + 1 := by omega
    rw [hfuel, List.length_nil, walk_end] at hs
    unfold Socket.receive Socket.receive_loop
    rw [hs]
    simp only [hnone, Option.isSome_none, Bool.false_eq_true, if_false]
  · intro ifx mode sk first others bad post rest hall hfirst hbad hsize
    have hlen := notices_length ifx _ _ hall
    have hs := scan_notices ifx sk (bad ++ post) first others hall hfirst hsize
    have hfuel : (datagramOf (first :: others) ++ (bad ++ post)).length + 1
          - (first :: others).length
        = ((datagramOf (first :: others) ++ (bad ++ post)).length
            - (first :: others).length) + 1 := by
      rw [List.length_append]; omega
    have hb := walkBody_bad_family ifx sk (datagramOf (first :: others)) bad post
      (some first.2) hbad (by
        rw [List.length_append, List.length_append] at hsize; omega)
    rw [List.append_assoc] at hb
    rw [hfuel, List.length_append bad post, Socket.walk, hb] at hs
    unfold Socket.receive Socket.receive_loop
    rw [hs]

/-- C25, at a concrete datagram: the notification `sampleAddrMsg` followed by a second
address notification; `receive` returns the address of the first. -/
theorem first_notification_wins_witness :
    (Socket.new 3 4242).receive (fun _ => none) .Wait
        [.datagram (datagramOf [(sampleAddrMsg, ResponseTypes.Address sampleAddr),
          (newAddrV4Msg 8 RT_SCOPE_HOST [127, 0, 0, 1],
            ResponseTypes.Address { action := .New, address := .v4 [127, 0, 0, 1],
                                    netmask := 8, scope := .Host })])]
      = { result := .ok (.Address sampleAddr), socket := Socket.new 3 4242, pending := [] } :=
  first_notification_wins.1 (fun _ => none) .Wait (Socket.new 3 4242)
    (sampleAddrMsg, .Address sampleAddr)
    [(newAddrV4Msg 8 RT_SCOPE_HOST [127, 0, 0, 1],
      .Address { action := .New, address := .v4 [127, 0, 0, 1], netmask := 8, scope := .Host })]
    [] rfl
    (fun x hx => by
      rcases List.mem_cons.mp hx with e | e
      · rw [e]
        exact ⟨sampleAddrHeader, ⟨by decide, by decide, by decide⟩, by decide,
          Or.inr (Or.inl ⟨Or.inl rfl, sampleAddr, by decide, rfl⟩)⟩
      · rw [List.mem_singleton.mp e]
        exact ⟨sampleAddrHeader, ⟨by decide, by decide, by decide⟩, by decide,
          Or.inr (Or.inl ⟨Or.inl rfl, _, by decide, rfl⟩)⟩)
    ⟨sampleAddrHeader, ⟨by decide, by decide, by decide⟩, by decide, by decide, by decide⟩
    (by decide)

/-- C26 (the code at the failing inputs).  A datagram of four bytes: the checks of the
first message read `nlmsg_flags` at offset 6, outside the buffer, before any test of the
length.  A datagram of 17 bytes that holds one message with `nlmsg_len = 17` of an
unrecognised type: the message passes `NLMSG_OK`, `NLMSG_NEXT` subtracts the aligned
length 20 from the unsigned count 17, which wraps to `2^64 - 3`, and the next test of
`NLMSG_OK` reads a header at offset 20, outside the buffer. -/
theorem walk_overrun :
    (∀ (ifx : Nat → Option (List Nat)) (response : Option ResponseTypes) (sk : Socket),
      Socket.scan ifx [20, 0, 0, 0] response sk = .returned (.error .undefined) sk) ∧
    (encodeMsg 100 0 0 0 [0]).length = 17 ∧
    rd32 (encodeMsg 100 0 0 0 [0]) 0 = .ok 17 ∧
    Socket.walkBody (fun _ => none) (encodeMsg 100 0 0 0 [0]) 0 17 none (Socket.new 3 4242)
      = .next 20 (2 ^ 64 - 3) none (Socket.new 3 4242) ∧
    Socket.walkBody (fun _ => none) (encodeMsg 100 0 0 0 [0]) 20 (2 ^ 64 - 3) none
        (Socket.new 3 4242)
      = .leave (.returned (.error .undefined) (Socket.new 3 4242)) ∧
    (Socket.new 3 4242).receive (fun _ => none) .Wait [.datagram (encodeMsg 100 0 0 0 [0])]
      = { result := .error .undefined, socket := Socket.new 3 4242, pending := [] } := by
  refine ⟨?_, by decide, by decide, by decide, by decide, by decide⟩
  intro ifx response sk
  rfl

/-- C27 (the code at the failing input).  For `nlmsg_len = 16` the three payload macros
wrap around: `RTM_PAYLOAD`, `IFA_PAYLOAD` and `IFLA_PAYLOAD` subtract 28, 24 and 32 from
16 in `std::size_t`.  `bareLinkMsg` is accepted by `NLMSG_OK`; `parse_link` hands
`parse_rtattr` a region that starts at offset 32, outside the message, with the length
`2^64 - 16`.  When the buffer ends with the message the attribute header is read outside
the buffer; when `strayNameMsg` follows in the datagram, the attribute table is not empty:
it gets an `IFLA_IFNAME` entry from the payload of that following message, and `receive`
returns an interface with the name `xy`. -/
theorem attr_region_wraps :
    NLMSG_PAYLOAD 16 sizeof_rtmsg = 2 ^ 64 - 12 ∧
    NLMSG_PAYLOAD 16 sizeof_ifaddrmsg = 2 ^ 64 - 8 ∧
    NLMSG_PAYLOAD 16 sizeof_ifinfomsg = 2 ^ 64 - 16 ∧
    rd32 bareLinkMsg 0 = .ok 16 ∧ bareLinkMsg.length = 16 ∧
    messageOk (bareLinkMsg ++ strayNameMsg) 0 (bareLinkMsg ++ strayNameMsg).length = true ∧
    parse_link bareLinkMsg 0 (NLMSG_DATA 0) = .error .undefined ∧
    parse_rtattr IFLA_MAX (bareLinkMsg ++ strayNameMsg)
        (NLMSG_DATA 0 + NLMSG_ALIGN sizeof_ifinfomsg) (NLMSG_PAYLOAD 16 sizeof_ifinfomsg)
      = .ok ((List.replicate (IFLA_MAX + 1) none).set IFLA_IFNAME (some 32)) ∧
    parse_link (bareLinkMsg ++ strayNameMsg) 0 (NLMSG_DATA 0)
      = .ok { action := .New, name := [120, 121] } ∧
    (Socket.new 3 4242).receive (fun _ => none) .Wait
        [.datagram (bareLinkMsg ++ strayNameMsg)]
      = { result := .ok (.Interface { action := .New, name := [120, 121] }),
          socket := Socket.new 3 4242, pending := [] } := by
  decide

/-- C29: frame of `receive` and error atomicity of the slot.  For every socket whose
active request, if any, is of one of the three request kinds (the `std::monostate`
alternative is held by no `Message` that the program constructs: the socket of
`Socket::open` and every socket after `send_request` or `receive` satisfy this) and for
every sequence of datagrams and errors: `receive` changes neither the pid nor the
sequence counter; a request that is active afterwards is the request that was active
before, with the same identity and kind and with elements appended to its accumulator;
and when `receive` returns an error, the slot is occupied afterwards if and only if it
was occupied before, it holds the request it held before with possibly more elements,
and a following `send_request` returns `Busy` exactly when a request was active before
the call of `receive`. -/
theorem receive_frame (ifx : Nat → Option (List Nat)) (mode : ReceiveMode) (sk : Socket)
    (events : List RecvEvent) (ht : sk.typed) :
    (sk.receive ifx mode events).socket.m_pid = sk.m_pid ∧
    (sk.receive ifx mode events).socket.m_seqNum = sk.m_seqNum ∧
    (∀ m1, (sk.receive ifx mode events).socket.m_activeRequest = some m1 →
      ∃ m0, sk.m_activeRequest = some m0 ∧ m1.GetId = m0.GetId ∧ m1.kind = m0.kind ∧
        m1.grownFrom m0) ∧
    (∀ e, (sk.receive ifx mode events).result = .error e →
      ((sk.receive ifx mode events).socket.m_activeRequest.isSome
        = sk.m_activeRequest.isSome) ∧
      (∀ m0, sk.m_activeRequest = some m0 →
        ∃ m1, (sk.receive ifx mode events).socket.m_activeRequest = some m1 ∧
          m1.GetId = m0.GetId ∧ m1.kind = m0.kind ∧ m1.grownFrom m0) ∧
      ∀ (kind : Kind) (family : Int) (sendErr : Option Nat),
        ((sk.receive ifx mode events).socket.send_request kind family sendErr).1.1
            = .error (.socket .Busy)
          ↔ sk.m_activeRequest.isSome = true) ∧
    (sk.receive ifx mode events).socket.typed ∧
    (∀ (t_socket : Int) (t_pid : Nat), (Socket.new t_socket t_pid).typed) ∧
    (∀ (kind : Kind) (family : Int) (sendErr : Option Nat),
      (sk.send_request kind family sendErr).1.2.typed) := by
  have hcore := receive_core ifx mode sk events
  have hgrow := Steps_grown (receive_steps ifx mode sk events)
  have hsame : ∀ m1, (sk.receive ifx mode events).socket.m_activeRequest = some m1 →
      ∃ m0, sk.m_activeRequest = some m0 ∧ m1.GetId = m0.GetId ∧ m1.kind = m0.kind ∧
        m1.grownFrom m0 := by
    intro m1 hm1
    obtain ⟨m0, hm0, hg⟩ := hgrow m1 hm1
    exact ⟨m0, hm0, (Message.grownFrom_key hg).1, (Message.grownFrom_key hg).2, hg⟩
  refine ⟨hcore.1, hcore.2.2, hsame, ?_, ?_, Socket.new_typed,
    fun kind family sendErr => send_request_typed kind family sendErr sk ht⟩
  · intro e he
    have hkey := receive_loop_keeps ifx mode events none sk ht e he
    have hsome : (sk.receive ifx mode events).socket.m_activeRequest.isSome
        = sk.m_activeRequest.isSome := isSome_of_key hkey
    refine ⟨hsome, ?_, ?_⟩
    · intro m0 hm0
      rw [hm0] at hsome
      cases hr : (sk.receive ifx mode events).socket.m_activeRequest with
      | none => rw [hr] at hsome; cases hsome
      | some m1 =>
        obtain ⟨m0', hm0', hrest⟩ := hsame m1 hr
        rw [hm0] at hm0'
        cases hm0'
        exact ⟨m1, rfl, hrest⟩
    · intro kind family sendErr
      rw [send_request_busy_iff, hsome]
  · intro m1 hm1 hk
    obtain ⟨m0, hm0, _, hkind, _⟩ := hsame m1 hm1
    exact ht m0 hm0 (by rw [← hkind, hk])

/-- C29, at a concrete call: a route request is active with one route accumulated and a
route notification of an unsupported family arrives; `receive` fails with
`InvalidFamily`, and the following `send_request` is refused with `Busy`. -/
theorem receive_frame_witness :
    activeRouteSocket.typed ∧
    (activeRouteSocket.receive (fun _ => none) .Wait [.datagram badFamilyRouteMsg]).result
      = .error (.socket .InvalidFamily) ∧
    (((activeRouteSocket.receive (fun _ => none) .Wait
        [.datagram badFamilyRouteMsg]).socket.send_request .LinkRequest 0 none).1.1
      = .error (.socket .Busy)) :=
  ⟨fun m hm => (by cases hm; decide), by decide,
    (((receive_frame (fun _ => none) .Wait activeRouteSocket [.datagram badFamilyRouteMsg]
      (fun m hm => (by cases hm; decide))).2.2.2.1 (.socket .InvalidFamily) (by decide)).2.2 .LinkRequest 0 none).mpr
      (by decide)⟩

/-- C30: an `Address` constructed from a netmask stores as `netmask` the sum, over the
bytes of the mask, of the number of leading one bits of each byte.  For the IPv4 mask
whose first `n <= 32` bits are one and whose other bits are zero this is `n`, and for the
IPv6 mask with `n <= 128` it is `n`; for four bytes the value is at most 32 and for
sixteen bytes at most 128.  The constructor that takes a general address counts the bytes
of the family of the mask and gives 0 for a mask of neither family; every address is of
one of the two families, so that branch is never taken. -/
theorem netmask_prefix_length :
    (∀ (a : IpAddress) (n : Nat), n ≤ 32 → (Address.ofNetmaskV4 a (prefixMask 4 n)).netmask = n) ∧
    (∀ (a : IpAddress) (n : Nat), n ≤ 128 →
      (Address.ofNetmaskV6 a (prefixMask 16 n)).netmask = n) ∧
    (∀ (a : IpAddress) (bytes : List Nat), bytes.length = 4 →
      (Address.ofNetmaskV4 a bytes).netmask = (bytes.map countl_one).sum ∧
      (Address.ofNetmaskV4 a bytes).netmask ≤ 32) ∧
    (∀ (a : IpAddress) (bytes : List Nat), bytes.length = 16 →
      (Address.ofNetmaskV6 a bytes).netmask = (bytes.map countl_one).sum ∧
      (Address.ofNetmaskV6 a bytes).netmask ≤ 128) ∧
    (∀ (a : IpAddress) (bytes : List Nat),
      (Address.ofNetmask a (.v4 bytes)).netmask = (Address.ofNetmaskV4 a bytes).netmask ∧
      (Address.ofNetmask a (.v6 bytes)).netmask = (Address.ofNetmaskV6 a bytes).netmask) ∧
    (∀ (a netmask : IpAddress), netmask.is_v4 = false → netmask.is_v6 = false →
      (Address.ofNetmask a netmask).netmask = 0) ∧
    (∀ netmask : IpAddress, netmask.is_v4 = true ∨ netmask.is_v6 = true) ∧
    (∀ (a : IpAddress) (n : Nat),
      (Address.new a n).address = a ∧ (Address.new a n).netmask = n ∧
      (Address.new a n).action = .New ∧ (Address.new a n).scope = .Nowhere) ∧
    (countl_one 255 = 8 ∧ countl_one 254 = 7 ∧ countl_one 192 = 2 ∧ countl_one 128 = 1 ∧
      countl_one 127 = 0 ∧ countl_one 0 = 0) ∧
    (Address.ofNetmaskV4 (.v4 [10, 0, 0, 1]) [255, 0, 255, 0]).netmask = 16 := by
  refine ⟨?_, ?_, ?_, ?_, ?_, ?_, ?_, ?_, by decide, by decide⟩
  · intro a n hn
    exact countNetmaskBits_prefix4 n hn
  · intro a n hn
    exact countNetmaskBits_prefix16 n hn
  · intro a bytes hl
    have h := countNetmaskBits_foldl bytes 0 (by rw [hl]; decide)
    rw [Nat.zero_add] at h
    have hs := sum_countl_one_le bytes
    rw [hl] at hs
    refine ⟨h, ?_⟩
    show countNetmaskBits bytes ≤ 32
    unfold countNetmaskBits
    rw [h]
    exact hs
  · intro a bytes hl
    have h := countNetmaskBits_foldl bytes 0 (by rw [hl]; decide)
    rw [Nat.zero_add] at h
    have hs := sum_countl_one_le bytes
    rw [hl] at hs
    refine ⟨h, ?_⟩
    show countNetmaskBits bytes ≤ 128
    unfold countNetmaskBits
    rw [h]
    exact hs
  · intro a bytes
    exact ⟨rfl, rfl⟩
  · intro a netmask h4 h6
    show countNetmaskBitsOf netmask = 0
    unfold countNetmaskBitsOf
    rw [h4, h6]
    rfl
  · intro netmask
    cases netmask
    · exact Or.inl rfl
    · exact Or.inr rfl
  · intro a n
    exact ⟨rfl, rfl, rfl, rfl⟩

/-- C30, at a concrete mask: 255.255.255.0 is the IPv4 mask with 24 leading one bits, and
an address constructed with it stores the netmask 24. -/
theorem netmask_prefix_length_witness :
    prefixMask 4 24 = [255, 255, 255, 0] ∧
    (Address.ofNetmaskV4 (.v4 [192, 168, 1, 10]) (prefixMask 4 24)).netmask = 24 :=
  ⟨by decide, netmask_prefix_length.1 (.v4 [192, 168, 1, 10]) 24 (by decide)⟩

end Netlink
